import Mathlib

/-!
The old Swift demangler of KSCrash (`OldDemangler.cpp`)

A shallow embedding of `Sources/KSCrashDemangleFilter/swift/Basic/OldDemangler.cpp`.

* A character of the mangled name is a `Char`; it stands for the byte with the same
  code (`signed char c < 0` is `128 ≤ c.toNat`).
* The demangler object is the state `St`: the cursor `Mangled` (the text of the
  `NameSource`) and the vector `Substitutions`.
* A production is a state function `M α`.  Its outcome keeps the state also when the
  production returns `nullptr` / `false` / `None`, because the C++ code leaves the cursor
  where the failing production stopped.
* Nodes are never changed after they are shared, so a node is a finite tree.
* `Node::IndexType` is an unsigned 64 bit integer and `unsigned` has 32 bits; every
  arithmetic step on them is reduced modulo `2^64` or `2^32`.
* The productions call one another recursively.  The recursion is cut by a table `Rec`
  of the productions that are entered again from below; `OldDemangler.tie n` unfolds the
  table `n` times and `Res.fuel` is the outcome of an exhausted unfolding.
-/

namespace OldDemangler

/-! ## Nodes -/

/-- The node kinds that `OldDemangler.cpp` creates (`Node::Kind`). -/
inductive Kind where
  | Allocator | ArgumentTuple | AssociatedTypeMetadataAccessor | AssociatedTypeRef
  | AssociatedTypeWitnessTableAccessor | AutoClosureType | BoundGenericClass
  | BoundGenericEnum | BoundGenericStructure | BuiltinTypeName | CFunctionPointer | Class
  | Constructor | Deallocator | DefaultArgumentInitializer | DependentAssociatedTypeRef
  | DependentGenericConformanceRequirement | DependentGenericLayoutRequirement
  | DependentGenericParamCount | DependentGenericParamType
  | DependentGenericSameTypeRequirement | DependentGenericSignature | DependentGenericType
  | DependentMemberType | DependentPseudogenericSignature | Destructor | DidSet
  | Directness | DirectMethodReferenceAttribute | DynamicAttribute | DynamicSelf | Enum
  | ErrorType | ExistentialMetatype | ExplicitClosure | Extension | FieldOffset
  | FullTypeMetadata | Function | FunctionSignatureSpecialization
  | FunctionSignatureSpecializationParam | FunctionSignatureSpecializationParamKind
  | FunctionSignatureSpecializationParamPayload | FunctionType
  | GenericProtocolWitnessTable | GenericProtocolWitnessTableInstantiationFunction
  | GenericSpecialization | GenericSpecializationNotReAbstracted
  | GenericSpecializationParam | GenericTypeMetadataPattern | Getter | Global
  | GlobalGetter | Identifier | ImplConvention | ImplErrorResult | ImplFunctionAttribute
  | ImplFunctionType | ImplParameter | ImplResult | ImplicitClosure | Index | InfixOperator
  | Initializer | InOut | IsSerialized | IVarDestroyer | IVarInitializer
  | LazyProtocolWitnessTableAccessor | LazyProtocolWitnessTableCacheVariable
  | LocalDeclName | MaterializeForSet | Metaclass | Metatype | MetatypeRepresentation
  | ModifyAccessor | Module | NativeOwningAddressor | NativeOwningMutableAddressor
  | NativePinningAddressor | NativePinningMutableAddressor | NominalTypeDescriptor
  | NonObjCAttribute | Number | ObjCAttribute | ObjCBlock | Owned | OwningAddressor
  | OwningMutableAddressor | PartialApplyForwarder | PartialApplyObjCForwarder
  | PostfixOperator | PrefixOperator | PrivateDeclName | Protocol | ProtocolConformance
  | ProtocolDescriptor | ProtocolList | ProtocolWitness | ProtocolWitnessTable
  | ProtocolWitnessTableAccessor | ReabstractionThunk | ReabstractionThunkHelper
  | ReadAccessor | ReturnType | Setter | SILBoxImmutableField | SILBoxLayout
  | SILBoxMutableField | SILBoxType | SILBoxTypeWithLayout | SpecializationPassID | Static
  | Structure | Subscript | Suffix | ThinFunctionType | ThrowsAnnotation | Tuple
  | TupleElement | TupleElementName | Type_ | TypeAlias | TypeList | TypeMangling
  | TypeMetadata | TypeMetadataAccessFunction | TypeMetadataLazyCache
  | UncurriedFunctionType | UnsafeAddressor | UnsafeMutableAddressor | ValueWitness
  | ValueWitnessTable | Variable | VariadicMarker | VTableAttribute | WillSet
  deriving DecidableEq, Repr

/-- The payload of a node: nothing, a text, or an index; never two of them. -/
inductive Payload where
  | none
  | text (s : List Char)
  | index (i : Nat)
  deriving DecidableEq, Repr

/-- A node of the symbol tree: kind, payload and the children in order. -/
inductive Node where
  | mk (kind : Kind) (payload : Payload) (children : List Node)
  deriving Repr

namespace Node

/-- `Node::getKind`. -/
def getKind : Node → Kind
  | mk k _ _ => k

/-- The payload of the node. -/
def getPayload : Node → Payload
  | mk _ p _ => p

/-- The children of the node, first child first. -/
def getChildren : Node → List Node
  | mk _ _ cs => cs

/-- `Node::getNumChildren`. -/
def getNumChildren (n : Node) : Nat := n.getChildren.length

/-- `Node::getText`; a node without text has the empty text. -/
def getText (n : Node) : List Char :=
  match n.getPayload with
  | .text s => s
  | _ => []

/-- `Node::addChild`: the child is appended after the present children. -/
def addChild : Node → Node → Node
  | mk k p cs, c => mk k p (cs ++ [c])

/-- `Node::reverseChildren`. -/
def reverseChildren : Node → Node
  | mk k p cs => mk k p cs.reverse

end Node

/-- `NodeFactory::createNode(Kind)`. -/
def createNode (k : Kind) : Node := .mk k .none []

/-- `NodeFactory::createNode(Kind, StringRef)`. -/
def createNodeText (k : Kind) (s : List Char) : Node := .mk k (.text s) []

/-- `NodeFactory::createNode(Kind, IndexType)`. -/
def createNodeIndex (k : Kind) (i : Nat) : Node := .mk k (.index i) []

/-! ## What the file takes from headers that are not part of the sources -/

/-- The constants and helpers that `OldDemangler.cpp` takes from `Punycode.h`,
`ManglingUtils.h`, `ManglingMacros.h`, `SwiftStrings.h` and `Demangle.h`. -/
structure Env where
  /-- `Punycode::decodePunycodeUTF8`; `none` when it returns `false`. -/
  decodePunycodeUTF8 : List Char → Option (List Char)
  /-- `archetypeName(index, depth)`. -/
  archetypeName : Nat → Nat → List Char
  /-- `STDLIB_NAME`. -/
  STDLIB_NAME : List Char
  /-- `MANGLING_MODULE_OBJC`. -/
  MANGLING_MODULE_OBJC : List Char
  /-- `MANGLING_MODULE_CLANG_IMPORTER`. -/
  MANGLING_MODULE_CLANG_IMPORTER : List Char
  /-- `Directness::Direct`. -/
  Direct : Nat
  /-- `Directness::Indirect`. -/
  Indirect : Nat
  /-- `FunctionSigSpecializationParamKind::ConstantPropFunction`. -/
  ConstantPropFunction : Nat
  /-- `FunctionSigSpecializationParamKind::ConstantPropGlobal`. -/
  ConstantPropGlobal : Nat
  /-- `FunctionSigSpecializationParamKind::ConstantPropInteger`. -/
  ConstantPropInteger : Nat
  /-- `FunctionSigSpecializationParamKind::ConstantPropFloat`. -/
  ConstantPropFloat : Nat
  /-- `FunctionSigSpecializationParamKind::ConstantPropString`. -/
  ConstantPropString : Nat
  /-- `FunctionSigSpecializationParamKind::ClosureProp`. -/
  ClosureProp : Nat
  /-- `FunctionSigSpecializationParamKind::BoxToValue`. -/
  BoxToValue : Nat
  /-- `FunctionSigSpecializationParamKind::BoxToStack`. -/
  BoxToStack : Nat
  /-- `FunctionSigSpecializationParamKind::Dead`. -/
  Dead : Nat
  /-- `FunctionSigSpecializationParamKind::OwnedToGuaranteed`. -/
  OwnedToGuaranteed : Nat
  /-- `FunctionSigSpecializationParamKind::GuaranteedToOwned`. -/
  GuaranteedToOwned : Nat
  /-- `FunctionSigSpecializationParamKind::SROA`. -/
  SROA : Nat

/-- The environment of the Swift runtime: its module names and enumeration values.  No
punycode decoder is linked in (every punycode payload is rejected) and archetype names
are left empty; it serves to evaluate inputs that use neither. -/
def swiftEnv : Env where
  decodePunycodeUTF8 := fun _ => Option.none
  archetypeName := fun _ _ => []
  STDLIB_NAME := "Swift".toList
  MANGLING_MODULE_OBJC := "__C".toList
  MANGLING_MODULE_CLANG_IMPORTER := "__C_Synthesized".toList
  Direct := 0
  Indirect := 1
  ConstantPropFunction := 0
  ConstantPropGlobal := 1
  ConstantPropInteger := 2
  ConstantPropFloat := 3
  ConstantPropString := 4
  ClosureProp := 5
  BoxToValue := 6
  BoxToStack := 7
  Dead := 64
  OwnedToGuaranteed := 128
  GuaranteedToOwned := 512
  SROA := 256

/-- The number of values of `Node::IndexType` (an unsigned 64 bit integer). -/
def indexMod : Nat := 2 ^ 64

/-- The number of values of `unsigned`. -/
def unsignedMod : Nat := 2 ^ 32

/-- `Mangle::isDigit`. -/
def isDigit (c : Char) : Bool := decide ('0'.toNat ≤ c.toNat) && decide (c.toNat ≤ '9'.toNat)

/-! ## The state of the demangler and the outcome of a production -/

/-- The mutable members of `OldDemangler`. -/
structure St where
  /-- The text of the `NameSource` `Mangled`: the input that is not consumed yet. -/
  Mangled : List Char
  /-- The vector `Substitutions`. -/
  Substitutions : List Node

/-- The outcome of running a production. -/
inductive Res (α : Type) where
  /-- The production returned a value (a node, `true`, a number). -/
  | ok (a : α) (s : St)
  /-- The production returned `nullptr`, `false` or `None`. -/
  | null (s : St)
  /-- The production called `getChild(i)` on a node that has no child `i`. -/
  | fault
  /-- The unfolding of the recursion is exhausted. -/
  | fuel

/-- A production: a function of the demangler state. -/
def M (α : Type) : Type := St → Res α

/-- Sequencing: a `nullptr` return, a fault and an exhausted unfolding end the caller. -/
def M.bind {α β : Type} (m : M α) (f : α → M β) : M β := fun s =>
  match m s with
  | .ok a s1 => f a s1
  | .null s1 => .null s1
  | .fault => .fault
  | .fuel => .fuel

instance : Monad M where
  pure a := fun s => .ok a s
  bind := M.bind

/-- The statement `return nullptr;` (or `return false;`, `return None;`). -/
def fail {α : Type} : M α := fun s => .null s

/-- The statement `if (!b) return nullptr;`. -/
def require (b : Bool) : M Unit := if b then pure () else fail

/-- Run a production and hand its `nullptr` to the caller as a value. -/
def attempt {α : Type} (m : M α) : M (Option α) := fun s =>
  match m s with
  | .ok a s1 => .ok (some a) s1
  | .null s1 => .ok Option.none s1
  | .fault => .fault
  | .fuel => .fuel

/-- `Node::getChild(i)`; a fault when the node has no child `i`. -/
def getChild (n : Node) (i : Nat) : M Node := fun s =>
  match n.getChildren.get? i with
  | some c => .ok c s
  | Option.none => .fault

/-- `Substitutions.push_back(n)`. -/
def pushSubstitution (n : Node) : M Unit := fun s =>
  .ok () { s with Substitutions := s.Substitutions ++ [n] }

/-- `Substitutions.clear()`. -/
def clearSubstitutions : M Unit := fun s => .ok () { s with Substitutions := [] }

/-- Read the vector `Substitutions`. -/
def getSubstitutions : M (List Node) := fun s => .ok s.Substitutions s

/-! ## `NameSource` -/

namespace NameSource

/-- `NameSource::hasAtLeast`. -/
def hasAtLeast (len : Nat) : M Bool := fun s => .ok (decide (len ≤ s.Mangled.length)) s

/-- `NameSource::isEmpty`. -/
def isEmpty : M Bool := fun s => .ok s.Mangled.isEmpty s

/-- `NameSource::operator bool`. -/
def nonEmpty : M Bool := do
  let e ← isEmpty
  pure (!e)

/-- `NameSource::peek`: the next character, `'.'` on empty input. -/
def peek : M Char := fun s =>
  match s.Mangled with
  | [] => .ok '.' s
  | c :: _ => .ok c s

/-- `NameSource::advanceOffset`: `Text = Text.substr(len)`. -/
def advanceOffset (len : Nat) : M Unit := fun s =>
  .ok () { s with Mangled := s.Mangled.drop len }

/-- `NameSource::next`. -/
def next : M Char := do
  let c ← peek
  if !(← isEmpty) then
    advanceOffset 1
    pure c
  else
    pure c

/-- `NameSource::nextIf(char)`. -/
def nextIf (c : Char) : M Bool := do
  if (← isEmpty) then
    pure false
  else if (← peek) ≠ c then
    pure false
  else
    advanceOffset 1
    pure true

/-- `NameSource::nextIf(StringRef)`. -/
def nextIfStr (str : List Char) : M Bool := fun s =>
  if str.isPrefixOf s.Mangled then
    .ok true { s with Mangled := s.Mangled.drop str.length }
  else
    .ok false s

/-- `NameSource::slice`. -/
def slice (len : Nat) : M (List Char) := fun s => .ok (s.Mangled.take len) s

/-- `NameSource::getString`: claim all the rest. -/
def getString : M (List Char) := fun s => .ok s.Mangled { s with Mangled := [] }

/-- The loop of `NameSource::readUntil` on the text: the characters before the first
`c`, whether `c` was seen, and the text left. -/
def readUntilText (c : Char) : List Char → List Char → List Char × Bool × List Char
  | [], result => (result, false, [])
  | c2 :: t, result =>
      if c2 ≠ c then readUntilText c t (result ++ [c2]) else (result, true, c2 :: t)

/-- `NameSource::readUntil(c, result)`, with the string `result` returned. -/
def readUntil (c : Char) (result : List Char) : M (Bool × List Char) := fun s =>
  match readUntilText c s.Mangled result with
  | (r, found, t) => .ok (found, r) { s with Mangled := t }

end NameSource

open NameSource

/-! ## The productions that call no production recursively -/

/-- `demangleDirectness`. -/
def demangleDirectness (E : Env) : M Nat := do
  if (← nextIf 'd') then
    pure E.Direct
  else if (← nextIf 'i') then
    pure E.Indirect
  else
    fail

/-- The `while (true)` loop of `demangleNatural` on the text: the number and the text
left. -/
def demangleNaturalLoop : List Char → Nat → Nat × List Char
  | [], num => (num, [])
  | c :: t, num =>
      if c.toNat < '0'.toNat ∨ c.toNat > '9'.toNat then
        (num, c :: t)
      else
        demangleNaturalLoop t (((10 * num) % indexMod + (c.toNat - '0'.toNat)) % indexMod)

/-- `demangleNatural`, with the number `num` returned. -/
def demangleNatural : M Nat := do
  if !(← nonEmpty) then
    fail
  else
    let c ← next
    if c.toNat < '0'.toNat ∨ c.toNat > '9'.toNat then
      fail
    else
      fun s =>
        match demangleNaturalLoop s.Mangled (c.toNat - '0'.toNat) with
        | (num, t) => .ok num { s with Mangled := t }

/-- `demangleBuiltinSize`. -/
def demangleBuiltinSize : M Nat := do
  let num ← demangleNatural
  if (← nextIf '_') then
    pure num
  else
    fail

/-- `demangleValueWitnessKind`: it reads a two character code and knows no kind. -/
def demangleValueWitnessKind : M Nat := do
  if !(← nonEmpty) then
    fail
  else
    let _ ← next
    if !(← nonEmpty) then
      fail
    else
      let _ ← next
      fail

/-- The table `op_char_table` of `demangleIdentifier`, indexed by `c - 'a'`. -/
def op_char_table : List Char := "& @/= >    <*!|+?%-~   ^ .".toList

/-- The loop `for (signed char c : identifier)` of `demangleIdentifier`: the decoded
operator name, or `none` where the loop returns `nullptr`. -/
def decodeOperator : List Char → List Char → Option (List Char)
  | [], opDecodeBuffer => some opDecodeBuffer
  | c :: t, opDecodeBuffer =>
      if 128 ≤ c.toNat then
        decodeOperator t (opDecodeBuffer ++ [c])
      else if c.toNat < 'a'.toNat ∨ c.toNat > 'z'.toNat then
        Option.none
      else
        let o := op_char_table.getD (c.toNat - 'a'.toNat) ' '
        if o = ' ' then
          Option.none
        else
          decodeOperator t (opDecodeBuffer ++ [o])

/-- The `switch (op_mode)` of `demangleIdentifier`; `none` is its `default:`. -/
def operatorKind (op_mode : Char) : Option Kind :=
  if op_mode = 'p' then some Kind.PrefixOperator
  else if op_mode = 'P' then some Kind.PostfixOperator
  else if op_mode = 'i' then some Kind.InfixOperator
  else Option.none

/-- The lambda `decode` of `demangleIdentifier`. -/
def decode (E : Env) (isPunycoded : Bool) (s : List Char) : List Char :=
  if !isPunycoded then s
  else
    match E.decodePunycodeUTF8 s with
    | Option.none => []
    | some decodeBuffer => decodeBuffer

/-- The second part of `demangleIdentifier`, from `Node::IndexType length;` on. -/
def demangleIdentifierPayload (E : Env) (isPunycoded isOperator : Bool) (kind : Kind) :
    M Node := do
  let length ← demangleNatural
  if !(← hasAtLeast length) then
    fail
  else
    let identifier ← slice length
    advanceOffset length
    let identifier ← pure (decode E isPunycoded identifier)
    if identifier.isEmpty then
      fail
    else if isOperator then
      match decodeOperator identifier [] with
      | Option.none => fail
      | some opDecodeBuffer => pure (createNodeText kind opDecodeBuffer)
    else
      pure (createNodeText kind identifier)

/-- `demangleIdentifier(kind)`. -/
def demangleIdentifier (E : Env) (kind : Option Kind := Option.none) : M Node := do
  if !(← nonEmpty) then
    fail
  else
    let isPunycoded ← nextIf 'X'
    let isOperator ← nextIf 'o'
    let kind ←
      if isOperator then
        if kind.isSome then
          fail
        else
          match operatorKind (← next) with
          | some k => pure (some k)
          | Option.none => fail
      else
        pure kind
    demangleIdentifierPayload E isPunycoded isOperator (kind.getD Kind.Identifier)

/-- `demangleIndex`, with the number `natural` returned. -/
def demangleIndex : M Nat := do
  if (← nextIf '_') then
    pure 0
  else
    match (← attempt demangleNatural) with
    | some natural =>
        if !(← nextIf '_') then
          fail
        else
          pure ((natural + 1) % indexMod)
    | Option.none => fail

/-- `demangleIndexAsNode(kind)`. -/
def demangleIndexAsNode (kind : Kind := Kind.Number) : M Node := do
  let index ← demangleIndex
  pure (createNodeIndex kind index)

/-- `createSwiftType`. -/
def createSwiftType (E : Env) (typeKind : Kind) (name : List Char) : Node :=
  let type := createNode typeKind
  let type := type.addChild (createNodeText Kind.Module E.STDLIB_NAME)
  let type := type.addChild (createNodeText Kind.Identifier name)
  type

/-- `demangleSubstitutionIndex`. -/
def demangleSubstitutionIndex (E : Env) : M Node := do
  if !(← nonEmpty) then fail
  else if (← nextIf 'o') then pure (createNodeText Kind.Module E.MANGLING_MODULE_OBJC)
  else if (← nextIf 'C') then
    pure (createNodeText Kind.Module E.MANGLING_MODULE_CLANG_IMPORTER)
  else if (← nextIf 'a') then pure (createSwiftType E Kind.Structure "Array".toList)
  else if (← nextIf 'b') then pure (createSwiftType E Kind.Structure "Bool".toList)
  else if (← nextIf 'c') then
    pure (createSwiftType E Kind.Structure "UnicodeScalar".toList)
  else if (← nextIf 'd') then pure (createSwiftType E Kind.Structure "Double".toList)
  else if (← nextIf 'f') then pure (createSwiftType E Kind.Structure "Float".toList)
  else if (← nextIf 'i') then pure (createSwiftType E Kind.Structure "Int".toList)
  else if (← nextIf 'V') then
    pure (createSwiftType E Kind.Structure "UnsafeRawPointer".toList)
  else if (← nextIf 'v') then
    pure (createSwiftType E Kind.Structure "UnsafeMutableRawPointer".toList)
  else if (← nextIf 'P') then
    pure (createSwiftType E Kind.Structure "UnsafePointer".toList)
  else if (← nextIf 'p') then
    pure (createSwiftType E Kind.Structure "UnsafeMutablePointer".toList)
  else if (← nextIf 'q') then pure (createSwiftType E Kind.Enum "Optional".toList)
  else if (← nextIf 'Q') then
    pure (createSwiftType E Kind.Enum "ImplicitlyUnwrappedOptional".toList)
  else if (← nextIf 'R') then
    pure (createSwiftType E Kind.Structure "UnsafeBufferPointer".toList)
  else if (← nextIf 'r') then
    pure (createSwiftType E Kind.Structure "UnsafeMutableBufferPointer".toList)
  else if (← nextIf 'S') then pure (createSwiftType E Kind.Structure "String".toList)
  else if (← nextIf 'u') then pure (createSwiftType E Kind.Structure "UInt".toList)
  else
    let index_sub ← demangleIndex
    let subs ← getSubstitutions
    if index_sub ≥ subs.length then
      fail
    else
      match subs.get? index_sub with
      | some n => pure n
      | Option.none => fail


/-- `demangleDeclName`. -/
def demangleDeclName (E : Env) : M Node := do
  if (← nextIf 'L') then
    let discriminator ← demangleIndexAsNode
    let name ← demangleIdentifier E
    let localName := createNode Kind.LocalDeclName
    let localName := localName.addChild discriminator
    let localName := localName.addChild name
    pure localName
  else if (← nextIf 'P') then
    let discriminator ← demangleIdentifier E
    let name ← demangleIdentifier E
    let privateName := createNode Kind.PrivateDeclName
    let privateName := privateName.addChild discriminator
    let privateName := privateName.addChild name
    pure privateName
  else
    demangleIdentifier E

/-- `demangleModule`. -/
def demangleModule (E : Env) : M Node := do
  if (← nextIf 's') then
    pure (createNodeText Kind.Module E.STDLIB_NAME)
  else if (← nextIf 'S') then
    let module ← demangleSubstitutionIndex E
    if module.getKind ≠ Kind.Module then
      fail
    else
      pure module
  else
    let module ← demangleIdentifier E (some Kind.Module)
    pushSubstitution module
    pure module

/-- `demangleProtocolNameGivenContext`. -/
def demangleProtocolNameGivenContext (E : Env) (context : Node) : M Node := do
  let name ← demangleDeclName E
  let proto := createNode Kind.Protocol
  let proto := proto.addChild context
  let proto := proto.addChild name
  pushSubstitution proto
  pure proto

/-- `getDependentGenericParamType(unsigned depth, unsigned index)`. -/
def getDependentGenericParamType (E : Env) (depth index : Nat) : Node :=
  let paramTy := createNodeText Kind.DependentGenericParamType (E.archetypeName index depth)
  let paramTy := paramTy.addChild (createNodeIndex Kind.Index depth)
  let paramTy := paramTy.addChild (createNodeIndex Kind.Index index)
  paramTy

/-- `demangleGenericParamIndex`; the call of `getDependentGenericParamType` converts the
two numbers to `unsigned`. -/
def demangleGenericParamIndex (E : Env) : M Node := do
  if (← nextIf 'd') then
    let depth ← demangleIndex
    let depth := (depth + 1) % indexMod
    let index ← demangleIndex
    pure (getDependentGenericParamType E (depth % unsignedMod) (index % unsignedMod))
  else if (← nextIf 'x') then
    pure (getDependentGenericParamType E 0 0)
  else
    let index ← demangleIndex
    let index := (index + 1) % indexMod
    pure (getDependentGenericParamType E 0 (index % unsignedMod))

/-- `demangleMetatypeRepresentation`. -/
def demangleMetatypeRepresentation : M Node := do
  if (← nextIf 't') then
    pure (createNodeText Kind.MetatypeRepresentation "@thin".toList)
  else if (← nextIf 'T') then
    pure (createNodeText Kind.MetatypeRepresentation "@thick".toList)
  else if (← nextIf 'o') then
    pure (createNodeText Kind.MetatypeRepresentation "@objc_metatype".toList)
  else
    fail

/-- `ImplConventionContext`. -/
inductive ImplConventionContext where
  | Callee | Parameter | Result
  deriving DecidableEq, Repr

/-- The `switch (ctxt)` of the macro `CASE` in `demangleImplConvention`. -/
def implConventionCase (ctxt : ImplConventionContext)
    (FOR_CALLEE FOR_PARAMETER FOR_RESULT : String) : List Char :=
  match ctxt with
  | .Callee => FOR_CALLEE.toList
  | .Parameter => FOR_PARAMETER.toList
  | .Result => FOR_RESULT.toList

/-- `demangleImplConvention`; the empty text is `Nothing`. -/
def demangleImplConvention (ctxt : ImplConventionContext) : M (List Char) := do
  if (← nextIf 'a') then pure (implConventionCase ctxt "" "" "@autoreleased")
  else if (← nextIf 'd') then
    pure (implConventionCase ctxt "@callee_unowned" "@unowned" "@unowned")
  else if (← nextIf 'D') then pure (implConventionCase ctxt "" "" "@unowned_inner_pointer")
  else if (← nextIf 'g') then
    pure (implConventionCase ctxt "@callee_guaranteed" "@guaranteed" "")
  else if (← nextIf 'e') then pure (implConventionCase ctxt "" "@deallocating" "")
  else if (← nextIf 'i') then pure (implConventionCase ctxt "" "@in" "@out")
  else if (← nextIf 'l') then pure (implConventionCase ctxt "" "@inout" "")
  else if (← nextIf 'o') then
    pure (implConventionCase ctxt "@callee_owned" "@owned" "@owned")
  else pure []

/-- `demangleImplCalleeConvention(type)`; the node `type` with the new child is returned
for `true`. -/
def demangleImplCalleeConvention (type : Node) : M Node := do
  let attr ←
    if (← nextIf 't') then
      pure "@convention(thin)".toList
    else
      demangleImplConvention ImplConventionContext.Callee
  if attr.isEmpty then
    fail
  else
    pure (type.addChild (createNodeText Kind.ImplConvention attr))

/-- `addImplFunctionAttribute`. -/
def addImplFunctionAttribute (parent : Node) (attr : List Char)
    (kind : Kind := Kind.ImplFunctionAttribute) : Node :=
  parent.addChild (createNodeText kind attr)

/-- The macro `FUNCSIGSPEC_CREATE_PARAM_KIND`. -/
def FUNCSIGSPEC_CREATE_PARAM_KIND (kind : Nat) : Node :=
  createNodeIndex Kind.FunctionSignatureSpecializationParamKind kind

/-- The macro `FUNCSIGSPEC_CREATE_PARAM_PAYLOAD`. -/
def FUNCSIGSPEC_CREATE_PARAM_PAYLOAD (payload : List Char) : Node :=
  createNodeText Kind.FunctionSignatureSpecializationParamPayload payload

/-- `demangleFuncSigSpecializationConstantProp(parent)`; the node `parent` with the new
children is returned for `true`. -/
def demangleFuncSigSpecializationConstantProp (E : Env) (parent : Node) : M Node := do
  if (← nextIfStr "fr".toList) then
    let name ← demangleIdentifier E
    if !(← nextIf '_') then
      fail
    else
      let parent := parent.addChild (FUNCSIGSPEC_CREATE_PARAM_KIND E.ConstantPropFunction)
      let parent := parent.addChild (FUNCSIGSPEC_CREATE_PARAM_PAYLOAD name.getText)
      pure parent
  else if (← nextIf 'g') then
    let name ← demangleIdentifier E
    if !(← nextIf '_') then
      fail
    else
      let parent := parent.addChild (FUNCSIGSPEC_CREATE_PARAM_KIND E.ConstantPropGlobal)
      let parent := parent.addChild (FUNCSIGSPEC_CREATE_PARAM_PAYLOAD name.getText)
      pure parent
  else if (← nextIf 'i') then
    let (found, Str) ← readUntil '_' []
    if !found then
      fail
    else if !(← nextIf '_') then
      fail
    else
      let parent := parent.addChild (FUNCSIGSPEC_CREATE_PARAM_KIND E.ConstantPropInteger)
      let parent := parent.addChild (FUNCSIGSPEC_CREATE_PARAM_PAYLOAD Str)
      pure parent
  else if (← nextIfStr "fl".toList) then
    let (found, Str) ← readUntil '_' []
    if !found then
      fail
    else if !(← nextIf '_') then
      fail
    else
      let parent := parent.addChild (FUNCSIGSPEC_CREATE_PARAM_KIND E.ConstantPropFloat)
      let parent := parent.addChild (FUNCSIGSPEC_CREATE_PARAM_PAYLOAD Str)
      pure parent
  else if (← nextIfStr "s".toList) then
    if !(← nextIf 'e') then
      fail
    else
      let encoding ← peek
      if encoding ≠ '0' ∧ encoding ≠ '1' then
        fail
      else
        let encodingStr := if encoding = '0' then "u8".toList else "u16".toList
        advanceOffset 1
        if !(← nextIf 'v') then
          fail
        else
          let str ← demangleIdentifier E
          if !(← nextIf '_') then
            fail
          else
            let parent :=
              parent.addChild (FUNCSIGSPEC_CREATE_PARAM_KIND E.ConstantPropString)
            let parent := parent.addChild (FUNCSIGSPEC_CREATE_PARAM_PAYLOAD encodingStr)
            let parent := parent.addChild (FUNCSIGSPEC_CREATE_PARAM_PAYLOAD str.getText)
            pure parent
  else
    fail


/-! ## The recursion between the productions -/

/-- What one round of a loop says: go round again, or leave the loop. -/
inductive Iter (σ : Type) where
  | again (acc : σ)
  | done (acc : σ)

/-- The productions that are entered again from below, and the loops.  A production that
is written before `demangleContext`, `demangleArchetypeType`, `demangleTypeImpl` and
`demangleGlobal` calls them through this table. -/
structure Rec where
  /-- `demangleTypeImpl`. -/
  demangleTypeImpl : M Node
  /-- `demangleContext`. -/
  demangleContext : M Node
  /-- `demangleGlobal`. -/
  demangleGlobal : M Node
  /-- `demangleArchetypeType`. -/
  demangleArchetypeType : M Node
  /-- A `while` loop: `round` is run on the loop variables until it says `Iter.done`. -/
  loop : {σ : Type} → (σ → M (Iter σ)) → σ → M σ

/-- `demangleType`. -/
def demangleType (r : Rec) : M Node := do
  let type ← r.demangleTypeImpl
  let nodeType := createNode Kind.Type_
  pure (nodeType.addChild type)

/-- `demangleDeclarationName(kind)`. -/
def demangleDeclarationName (E : Env) (r : Rec) (kind : Kind) : M Node := do
  let context ← r.demangleContext
  let name ← demangleDeclName E
  let decl := createNode kind
  let decl := decl.addChild context
  let decl := decl.addChild name
  pushSubstitution decl
  pure decl

/-- `demangleProtocolNameImpl`. -/
def demangleProtocolNameImpl (E : Env) (r : Rec) : M Node := do
  if (← nextIf 'S') then
    let sub ← demangleSubstitutionIndex E
    if sub.getKind = Kind.Protocol then
      pure sub
    else if sub.getKind ≠ Kind.Module then
      fail
    else
      demangleProtocolNameGivenContext E sub
  else if (← nextIf 's') then
    let stdlib := createNodeText Kind.Module E.STDLIB_NAME
    demangleProtocolNameGivenContext E stdlib
  else
    demangleDeclarationName E r Kind.Protocol

/-- `demangleProtocolName`. -/
def demangleProtocolName (E : Env) (r : Rec) : M Node := do
  let proto ← demangleProtocolNameImpl E r
  let type := createNode Kind.Type_
  pure (type.addChild proto)

/-- `demangleNominalType`. -/
def demangleNominalType (E : Env) (r : Rec) : M Node := do
  if (← nextIf 'S') then demangleSubstitutionIndex E
  else if (← nextIf 'V') then demangleDeclarationName E r Kind.Structure
  else if (← nextIf 'O') then demangleDeclarationName E r Kind.Enum
  else if (← nextIf 'C') then demangleDeclarationName E r Kind.Class
  else if (← nextIf 'P') then demangleDeclarationName E r Kind.Protocol
  else fail

/-- One round of the loop `while (!Mangled.nextIf('_'))` of `demangleBoundGenericArgs`. -/
def demangleBoundGenericArgsRound (r : Rec) (args : Node) : M (Iter Node) := do
  if (← nextIf '_') then
    pure (Iter.done args)
  else
    let type ← demangleType r
    let args := args.addChild type
    if (← isEmpty) then
      fail
    else
      pure (Iter.again args)

/-- The `switch (nominalType->getKind())` of `demangleBoundGenericArgs`; `none` is its
`default:`. -/
def boundGenericKind (k : Kind) : Option Kind :=
  match k with
  | Kind.Class => some Kind.BoundGenericClass
  | Kind.Structure => some Kind.BoundGenericStructure
  | Kind.Enum => some Kind.BoundGenericEnum
  | _ => Option.none

/-- The part of `demangleBoundGenericArgs` from `NodePointer args = ...` on. -/
def demangleBoundGenericArgsList (r : Rec) (nominalType : Node) : M Node := do
  let args := createNode Kind.TypeList
  let args ← r.loop (demangleBoundGenericArgsRound r) args
  if args.getNumChildren = 0 then
    pure nominalType
  else
    let unboundType := createNode Kind.Type_
    let unboundType := unboundType.addChild nominalType
    match boundGenericKind nominalType.getKind with
    | Option.none => fail
    | some kind =>
        let result := createNode kind
        let result := result.addChild unboundType
        let result := result.addChild args
        pure result

/-- `demangleBoundGenericArgs(nominalType)`.  The first pattern is the test
`nominalType->getNumChildren() == 0`; in the second one `parentOrModule` is
`nominalType->getChild(0)`.  The call of itself is on that child. -/
def demangleBoundGenericArgs (r : Rec) : Node → M Node
  | .mk _ _ [] => fail
  | .mk kind payload (parentOrModule :: rest) => do
      let nominalType := Node.mk kind payload (parentOrModule :: rest)
      let nominalType ←
        if parentOrModule.getKind ≠ Kind.Module ∧
            parentOrModule.getKind ≠ Kind.Function ∧
            parentOrModule.getKind ≠ Kind.Extension then do
          let parentOrModule ← demangleBoundGenericArgs r parentOrModule
          let result := createNode nominalType.getKind
          let result := result.addChild parentOrModule
          let result := result.addChild (← getChild nominalType 1)
          pure result
        else
          pure nominalType
      demangleBoundGenericArgsList r nominalType

/-- `demangleBoundGenericType`. -/
def demangleBoundGenericType (E : Env) (r : Rec) : M Node := do
  let nominalType ← demangleNominalType E r
  demangleBoundGenericArgs r nominalType

/-- One round of the loop of `demangleProtocolList`. -/
def demangleProtocolListRound (E : Env) (r : Rec) (type_list : Node) : M (Iter Node) := do
  if (← nextIf '_') then
    pure (Iter.done type_list)
  else
    let proto ← demangleProtocolName E r
    pure (Iter.again (type_list.addChild proto))

/-- `demangleProtocolList`.  The C++ code makes `type_list` a child of `proto_list` and
fills it afterwards; the tree is the same. -/
def demangleProtocolList (E : Env) (r : Rec) : M Node := do
  let proto_list := createNode Kind.ProtocolList
  let type_list := createNode Kind.TypeList
  let type_list ← r.loop (demangleProtocolListRound E r) type_list
  pure (proto_list.addChild type_list)

/-- `demangleProtocolConformance`. -/
def demangleProtocolConformance (E : Env) (r : Rec) : M Node := do
  let type ← demangleType r
  let protocol ← demangleProtocolName E r
  let context ← r.demangleContext
  let proto_conformance := createNode Kind.ProtocolConformance
  let proto_conformance := proto_conformance.addChild type
  let proto_conformance := proto_conformance.addChild protocol
  let proto_conformance := proto_conformance.addChild context
  pure proto_conformance


/-- What the entity-name part of `demangleEntity` leaves in the local variables
`entityKind`, `hasType`, `wrapEntity` and `name`. -/
structure EntityName where
  /-- The variable `entityKind`. -/
  entityKind : Kind
  /-- The variable `hasType`. -/
  hasType : Bool
  /-- The variable `wrapEntity`. -/
  wrapEntity : Bool
  /-- The variable `name`; `none` is `nullptr`. -/
  name : Option Node

/-- An accessor of `demangleEntity`: `wrapEntity = true`, the kind, and the name read
by `demangleDeclName`. -/
def demangleAccessorName (E : Env) (entityKind : Kind) : M EntityName := do
  let name ← demangleDeclName E
  pure ⟨entityKind, true, true, some name⟩

/-- The part `// entity-name` of `demangleEntity`. -/
def demangleEntityName (E : Env) (entityBasicKind : Kind) : M EntityName := do
  if (← nextIf 'D') then pure ⟨Kind.Deallocator, false, false, Option.none⟩
  else if (← nextIf 'd') then pure ⟨Kind.Destructor, false, false, Option.none⟩
  else if (← nextIf 'e') then pure ⟨Kind.IVarInitializer, false, false, Option.none⟩
  else if (← nextIf 'E') then pure ⟨Kind.IVarDestroyer, false, false, Option.none⟩
  else if (← nextIf 'C') then pure ⟨Kind.Allocator, true, false, Option.none⟩
  else if (← nextIf 'c') then pure ⟨Kind.Constructor, true, false, Option.none⟩
  else if (← nextIf 'a') then
    if (← nextIf 'O') then demangleAccessorName E Kind.OwningMutableAddressor
    else if (← nextIf 'o') then demangleAccessorName E Kind.NativeOwningMutableAddressor
    else if (← nextIf 'p') then demangleAccessorName E Kind.NativePinningMutableAddressor
    else if (← nextIf 'u') then demangleAccessorName E Kind.UnsafeMutableAddressor
    else fail
  else if (← nextIf 'l') then
    if (← nextIf 'O') then demangleAccessorName E Kind.OwningAddressor
    else if (← nextIf 'o') then demangleAccessorName E Kind.NativeOwningAddressor
    else if (← nextIf 'p') then demangleAccessorName E Kind.NativePinningAddressor
    else if (← nextIf 'u') then demangleAccessorName E Kind.UnsafeAddressor
    else fail
  else if (← nextIf 'g') then demangleAccessorName E Kind.Getter
  else if (← nextIf 'G') then demangleAccessorName E Kind.GlobalGetter
  else if (← nextIf 's') then demangleAccessorName E Kind.Setter
  else if (← nextIf 'm') then demangleAccessorName E Kind.MaterializeForSet
  else if (← nextIf 'w') then demangleAccessorName E Kind.WillSet
  else if (← nextIf 'W') then demangleAccessorName E Kind.DidSet
  else if (← nextIf 'r') then demangleAccessorName E Kind.ReadAccessor
  else if (← nextIf 'M') then demangleAccessorName E Kind.ModifyAccessor
  else if (← nextIf 'U') then
    let name ← demangleIndexAsNode
    pure ⟨Kind.ExplicitClosure, true, false, some name⟩
  else if (← nextIf 'u') then
    let name ← demangleIndexAsNode
    pure ⟨Kind.ImplicitClosure, true, false, some name⟩
  else if entityBasicKind = Kind.Initializer then
    if (← nextIf 'A') then
      let name ← demangleIndexAsNode
      pure ⟨Kind.DefaultArgumentInitializer, false, false, some name⟩
    else if (← nextIf 'i') then
      pure ⟨Kind.Initializer, false, false, Option.none⟩
    else
      fail
  else
    let name ← demangleDeclName E
    pure ⟨entityBasicKind, true, false, some name⟩

/-- The `switch (name->getKind())` of `demangleEntity`: the new values of `isSubscript`
and `name`. -/
def rewriteSubscriptName (name : Node) : M (Bool × Option Node) := do
  if name.getKind = Kind.Identifier then
    if name.getText = "subscript".toList then
      pure (true, Option.none)
    else
      pure (false, some name)
  else if name.getKind = Kind.PrivateDeclName then
    if name.getNumChildren > 1 then
      if (← getChild name 1).getText = "subscript".toList then
        let discriminator ← getChild name 0
        let name := createNode Kind.PrivateDeclName
        let name := name.addChild discriminator
        pure (true, some name)
      else
        pure (false, some name)
    else
      pure (false, some name)
  else
    pure (false, some name)

/-- `parent->addChild(child)` under `if (child)`. -/
def addChildIf (parent : Node) (child : Option Node) : Node :=
  match child with
  | some c => parent.addChild c
  | Option.none => parent

/-- The part of `demangleEntity` from `NodePointer entity = ...` on, without the last
`if (isStatic)`. -/
def demangleEntityNode (r : Rec) (context : Node) (n : EntityName) : M Node := do
  let entity := createNode n.entityKind
  if n.wrapEntity then
    match n.name with
    | Option.none => fail
    | some name =>
        let (isSubscript, name) ← rewriteSubscriptName name
        let wrappedEntity :=
          if isSubscript then createNode Kind.Subscript else createNode Kind.Variable
        let wrappedEntity := wrappedEntity.addChild context
        let wrappedEntity :=
          if !isSubscript then addChildIf wrappedEntity name else wrappedEntity
        let wrappedEntity ←
          if n.hasType then do
            let type ← demangleType r
            pure (wrappedEntity.addChild type)
          else
            pure wrappedEntity
        let wrappedEntity :=
          if isSubscript then addChildIf wrappedEntity name else wrappedEntity
        pure (entity.addChild wrappedEntity)
  else
    let entity := entity.addChild context
    let entity := addChildIf entity n.name
    if n.hasType then
      let type ← demangleType r
      pure (entity.addChild type)
    else
      pure entity

/-- The part of `demangleEntity` after the entity kind is known. -/
def demangleEntityOfKind (E : Env) (r : Rec) (isStatic : Bool) (entityBasicKind : Kind) :
    M Node := do
  let context ← r.demangleContext
  let n ← demangleEntityName E entityBasicKind
  let entity ← demangleEntityNode r context n
  if isStatic then
    let staticNode := createNode Kind.Static
    pure (staticNode.addChild entity)
  else
    pure entity

/-- `demangleEntity`. -/
def demangleEntity (E : Env) (r : Rec) : M Node := do
  let isStatic ← nextIf 'Z'
  if (← nextIf 'F') then demangleEntityOfKind E r isStatic Kind.Function
  else if (← nextIf 'v') then demangleEntityOfKind E r isStatic Kind.Variable
  else if (← nextIf 'I') then demangleEntityOfKind E r isStatic Kind.Initializer
  else if (← nextIf 'i') then demangleEntityOfKind E r isStatic Kind.Subscript
  else demangleNominalType E r


/-- `demangleDependentMemberTypeName(base)`. -/
def demangleDependentMemberTypeName (E : Env) (r : Rec) (base : Node) : M Node := do
  let assocTy ←
    if (← nextIf 'S') then do
      let assocTy ← demangleSubstitutionIndex E
      if assocTy.getKind ≠ Kind.DependentAssociatedTypeRef then
        fail
      else
        pure assocTy
    else do
      let protocol ←
        if (← nextIf 'P') then do
          let protocol ← demangleProtocolName E r
          pure (some protocol)
        else
          pure Option.none
      let assocTy ← demangleIdentifier E (some Kind.DependentAssociatedTypeRef)
      let assocTy := addChildIf assocTy protocol
      pushSubstitution assocTy
      pure assocTy
  let depTy := createNode Kind.DependentMemberType
  let depTy := depTy.addChild base
  let depTy := depTy.addChild assocTy
  pure depTy

/-- `demangleAssociatedTypeSimple`. -/
def demangleAssociatedTypeSimple (E : Env) (r : Rec) : M Node := do
  let base ← demangleGenericParamIndex E
  let nodeType := createNode Kind.Type_
  let nodeType := nodeType.addChild base
  demangleDependentMemberTypeName E r nodeType

/-- One round of the loop of `demangleAssociatedTypeCompound`. -/
def demangleAssociatedTypeCompoundRound (E : Env) (r : Rec) (base : Node) :
    M (Iter Node) := do
  if (← nextIf '_') then
    pure (Iter.done base)
  else
    let nodeType := createNode Kind.Type_
    let nodeType := nodeType.addChild base
    let base ← demangleDependentMemberTypeName E r nodeType
    pure (Iter.again base)

/-- `demangleAssociatedTypeCompound`. -/
def demangleAssociatedTypeCompound (E : Env) (r : Rec) : M Node := do
  let base ← demangleGenericParamIndex E
  r.loop (demangleAssociatedTypeCompoundRound E r) base

/-- `demangleDependentType`. -/
def demangleDependentType (E : Env) (r : Rec) : M Node := do
  if !(← nonEmpty) then
    fail
  else
    let c ← peek
    if c ≠ 'd' ∧ c ≠ '_' ∧ !isDigit c then
      let baseType ← demangleType r
      demangleDependentMemberTypeName E r baseType
    else
      demangleGenericParamIndex E

/-- `demangleConstrainedTypeImpl`. -/
def demangleConstrainedTypeImpl (E : Env) (r : Rec) : M Node := do
  if (← nextIf 'w') then demangleAssociatedTypeSimple E r
  else if (← nextIf 'W') then demangleAssociatedTypeCompound E r
  else demangleGenericParamIndex E

/-- `demangleConstrainedType`. -/
def demangleConstrainedType (E : Env) (r : Rec) : M Node := do
  let type ← demangleConstrainedTypeImpl E r
  let nodeType := createNode Kind.Type_
  pure (nodeType.addChild type)

/-- `SIZE_MAX`. -/
def SIZE_MAX : Nat := 2 ^ 64 - 1

/-- The layout codes of `demangleGenericRequirement`: the values of `name`, `size` and
`alignment` after the chain of `Mangled.nextIf`. -/
def demangleLayoutCode : M (List Char × Nat × Nat) := do
  if (← nextIf 'U') then pure ("U".toList, SIZE_MAX, SIZE_MAX)
  else if (← nextIf 'R') then pure ("R".toList, SIZE_MAX, SIZE_MAX)
  else if (← nextIf 'N') then pure ("N".toList, SIZE_MAX, SIZE_MAX)
  else if (← nextIf 'T') then pure ("T".toList, SIZE_MAX, SIZE_MAX)
  else if (← nextIf 'E') then
    let size ← demangleNatural
    if !(← nextIf '_') then
      fail
    else
      let alignment ← demangleNatural
      pure ("E".toList, size, alignment)
  else if (← nextIf 'e') then
    let size ← demangleNatural
    pure ("e".toList, size, SIZE_MAX)
  else if (← nextIf 'M') then
    let size ← demangleNatural
    if !(← nextIf '_') then
      fail
    else
      let alignment ← demangleNatural
      pure ("M".toList, size, alignment)
  else if (← nextIf 'm') then
    let size ← demangleNatural
    pure ("m".toList, size, SIZE_MAX)
  else
    fail

/-- `demangleGenericRequirement`. -/
def demangleGenericRequirement (E : Env) (r : Rec) : M Node := do
  let constrainedType ← demangleConstrainedType E r
  if (← nextIf 'z') then
    let second ← demangleType r
    let reqt := createNode Kind.DependentGenericSameTypeRequirement
    let reqt := reqt.addChild constrainedType
    let reqt := reqt.addChild second
    pure reqt
  else if (← nextIf 'l') then
    let (name, size, alignment) ← demangleLayoutCode
    let second := createNodeText Kind.Identifier name
    let reqt := createNode Kind.DependentGenericLayoutRequirement
    let reqt := reqt.addChild constrainedType
    let reqt := reqt.addChild second
    if size ≠ SIZE_MAX then
      let reqt := reqt.addChild (createNodeIndex Kind.Number size)
      if alignment ≠ SIZE_MAX then
        pure (reqt.addChild (createNodeIndex Kind.Number alignment))
      else
        pure reqt
    else
      pure reqt
  else if !(← nonEmpty) then
    fail
  else
    let next ← peek
    let constraint ←
      if next = 'C' then
        demangleType r
      else if next = 'S' then do
        let _ ← NameSource.next
        let sub ← demangleSubstitutionIndex E
        let typeName ←
          if sub.getKind = Kind.Protocol ∨ sub.getKind = Kind.Class then
            pure sub
          else if sub.getKind = Kind.Module then
            demangleProtocolNameGivenContext E sub
          else
            fail
        let constraint := createNode Kind.Type_
        pure (constraint.addChild typeName)
      else
        demangleProtocolName E r
    let reqt := createNode Kind.DependentGenericConformanceRequirement
    let reqt := reqt.addChild constrainedType
    let reqt := reqt.addChild constraint
    pure reqt

/-- The lambda `addCount` of `demangleGenericSignature`. -/
def addCount (sig : Node) (count : Nat) : Node :=
  let countNode := createNodeIndex Kind.DependentGenericParamCount count
  sig.addChild countNode

/-- One round of the first loop of `demangleGenericSignature`, on `sig` and `count`. -/
def demangleGenericSignatureCountRound (p : Node × Nat) : M (Iter (Node × Nat)) := do
  if (← peek) ≠ 'R' ∧ (← peek) ≠ 'r' then
    if (← nextIf 'z') then
      let count := 0
      pure (Iter.again (addCount p.1 count, count))
    else
      let count ← demangleIndex
      let count := (count + 1) % indexMod
      pure (Iter.again (addCount p.1 count, count))
  else
    pure (Iter.done p)

/-- One round of the second loop of `demangleGenericSignature`. -/
def demangleGenericSignatureRequirementRound (E : Env) (r : Rec) (sig : Node) :
    M (Iter Node) := do
  if (← nextIf 'r') then
    pure (Iter.done sig)
  else
    let reqt ← demangleGenericRequirement E r
    pure (Iter.again (sig.addChild reqt))

/-- `demangleGenericSignature(isPseudogeneric)`. -/
def demangleGenericSignature (E : Env) (r : Rec) (isPseudogeneric : Bool := false) :
    M Node := do
  let sig := createNode (if isPseudogeneric then Kind.DependentPseudogenericSignature
    else Kind.DependentGenericSignature)
  let count := indexMod - 1
  let (sig, count) ← r.loop demangleGenericSignatureCountRound (sig, count)
  let sig := if count = indexMod - 1 then addCount sig 1 else sig
  if (← nextIf 'r') then
    pure sig
  else if !(← nextIf 'R') then
    fail
  else
    r.loop (demangleGenericSignatureRequirementRound E r) sig


/-- `isStartOfIdentifier`. -/
def isStartOfIdentifier (c : Char) : Bool :=
  if '0'.toNat ≤ c.toNat ∧ c.toNat ≤ '9'.toNat then true else c = 'o'

/-- `isStartOfNominalType`. -/
def isStartOfNominalType (c : Char) : Bool :=
  c = 'C' || c = 'V' || c = 'O'

/-- `isStartOfEntity`. -/
def isStartOfEntity (c : Char) : Bool :=
  if c = 'F' ∨ c = 'I' ∨ c = 'v' ∨ c = 'P' ∨ c = 's' ∨ c = 'Z' then true
  else isStartOfNominalType c

/-- `nominalTypeMarkerToNodeKind`. -/
def nominalTypeMarkerToNodeKind (c : Char) : Kind :=
  if c = 'C' then Kind.Class
  else if c = 'V' then Kind.Structure
  else if c = 'O' then Kind.Enum
  else Kind.Identifier

/-- `demangleContext`. -/
def demangleContext (E : Env) (r : Rec) : M Node := do
  if !(← nonEmpty) then
    fail
  else if (← nextIf 'E') then
    let ext := createNode Kind.Extension
    let def_module ← demangleModule E
    let type ← r.demangleContext
    let ext := ext.addChild def_module
    let ext := ext.addChild type
    pure ext
  else if (← nextIf 'e') then
    let ext := createNode Kind.Extension
    let def_module ← demangleModule E
    let sig ← demangleGenericSignature E r
    let type ← r.demangleContext
    let ext := ext.addChild def_module
    let ext := ext.addChild type
    let ext := ext.addChild sig
    pure ext
  else if (← nextIf 'S') then demangleSubstitutionIndex E
  else if (← nextIf 's') then pure (createNodeText Kind.Module E.STDLIB_NAME)
  else if (← nextIf 'G') then demangleBoundGenericType E r
  else if isStartOfEntity (← peek) then demangleEntity E r
  else demangleModule E

/-- The lambda `makeAssociatedType` of `demangleArchetypeType`. -/
def makeAssociatedType (E : Env) (root : Node) : M Node := do
  let name ← demangleIdentifier E
  let assocType := createNode Kind.AssociatedTypeRef
  let assocType := assocType.addChild root
  let assocType := assocType.addChild name
  pushSubstitution assocType
  pure assocType

/-- `demangleArchetypeType`. -/
def demangleArchetypeType (E : Env) (r : Rec) : M Node := do
  if (← nextIf 'Q') then
    let root ← r.demangleArchetypeType
    makeAssociatedType E root
  else if (← nextIf 'S') then
    let sub ← demangleSubstitutionIndex E
    makeAssociatedType E sub
  else if (← nextIf 's') then
    let stdlib := createNodeText Kind.Module E.STDLIB_NAME
    makeAssociatedType E stdlib
  else
    fail

/-- One round of the loop of `demangleTuple`, on `tuple` and `elt`.  The element `elt`
is the last child of `tuple` as soon as it is not `nullptr`. -/
def demangleTupleRound (E : Env) (r : Rec) (p : Node × Option Node) :
    M (Iter (Node × Option Node)) := do
  if (← nextIf '_') then
    pure (Iter.done p)
  else if !(← nonEmpty) then
    fail
  else
    let elt := createNode Kind.TupleElement
    let elt ←
      if isStartOfIdentifier (← peek) then do
        let label ← demangleIdentifier E (some Kind.TupleElementName)
        pure (elt.addChild label)
      else
        pure elt
    let type ← demangleType r
    let elt := elt.addChild type
    pure (Iter.again (p.1.addChild elt, some elt))

/-- Put `elt` in the place of the last child of `tuple`. -/
def replaceLastChild : Node → Node → Node
  | .mk k p cs, elt => .mk k p (cs.dropLast ++ [elt])

/-- `demangleTuple(isV)`.  The C++ code changes the children of `elt` when `elt` is
already the last child of `tuple`; here the changed element is put in its place. -/
def demangleTuple (E : Env) (r : Rec) (isV : Bool) : M Node := do
  let tuple := createNode Kind.Tuple
  let (tuple, elt) ← r.loop (demangleTupleRound E r) (tuple, Option.none)
  match elt with
  | some elt =>
      if isV then
        let elt := elt.reverseChildren
        let marker := createNode Kind.VariadicMarker
        let elt := elt.addChild marker
        let elt := elt.reverseChildren
        pure (replaceLastChild tuple elt)
      else
        pure tuple
  | Option.none => pure tuple

/-- `postProcessReturnTypeNode`. -/
def postProcessReturnTypeNode (out_args : Node) : Node :=
  let out_node := createNode Kind.ReturnType
  out_node.addChild out_args

/-- `demangleFunctionType(kind)`. -/
def demangleFunctionType (r : Rec) (kind : Kind) : M Node := do
  let throws ←
    if (← nonEmpty) then nextIf 'z' else pure false
  let in_args ← demangleType r
  let out_args ← demangleType r
  let block := createNode kind
  let block :=
    if throws then block.addChild (createNode Kind.ThrowsAnnotation) else block
  let in_node := createNode Kind.ArgumentTuple
  let in_node := in_node.addChild in_args
  let block := block.addChild in_node
  let block := block.addChild (postProcessReturnTypeNode out_args)
  pure block

/-- `demangleImplParameterOrResult(kind)`. -/
def demangleImplParameterOrResult (r : Rec) (kind : Kind) : M Node := do
  let kind ←
    if (← nextIf 'z') then
      if kind ≠ Kind.ImplResult then
        fail
      else
        pure Kind.ImplErrorResult
    else
      pure kind
  let ConvCtx ←
    if kind = Kind.ImplParameter then
      pure ImplConventionContext.Parameter
    else if kind = Kind.ImplResult ∨ kind = Kind.ImplErrorResult then
      pure ImplConventionContext.Result
    else
      fail
  let convention ← demangleImplConvention ConvCtx
  if convention.isEmpty then
    fail
  else
    let type ← demangleType r
    let node := createNode kind
    let node := node.addChild (createNodeText Kind.ImplConvention convention)
    let node := node.addChild type
    pure node

/-- One round of the loop of `demangleImplParameters`. -/
def demangleImplParametersRound (r : Rec) (parent : Node) : M (Iter Node) := do
  if (← nextIf '_') then
    pure (Iter.done parent)
  else
    let input ← demangleImplParameterOrResult r Kind.ImplParameter
    pure (Iter.again (parent.addChild input))

/-- `demangleImplParameters(parent)`; the node `parent` with the new children is
returned for `true`. -/
def demangleImplParameters (r : Rec) (parent : Node) : M Node :=
  r.loop (demangleImplParametersRound r) parent

/-- One round of the loop of `demangleImplResults`. -/
def demangleImplResultsRound (r : Rec) (parent : Node) : M (Iter Node) := do
  if (← nextIf '_') then
    pure (Iter.done parent)
  else
    let res ← demangleImplParameterOrResult r Kind.ImplResult
    pure (Iter.again (parent.addChild res))

/-- `demangleImplResults(parent)`; the node `parent` with the new children is returned
for `true`. -/
def demangleImplResults (r : Rec) (parent : Node) : M Node :=
  r.loop (demangleImplResultsRound r) parent

/-- `demangleImplFunctionType`. -/
def demangleImplFunctionType (E : Env) (r : Rec) : M Node := do
  let type := createNode Kind.ImplFunctionType
  let type ← demangleImplCalleeConvention type
  let type ←
    if (← nextIf 'C') then
      if (← nextIf 'b') then
        pure (addImplFunctionAttribute type "@convention(block)".toList)
      else if (← nextIf 'c') then
        pure (addImplFunctionAttribute type "@convention(c)".toList)
      else if (← nextIf 'm') then
        pure (addImplFunctionAttribute type "@convention(method)".toList)
      else if (← nextIf 'O') then
        pure (addImplFunctionAttribute type "@convention(objc_method)".toList)
      else if (← nextIf 'w') then
        pure (addImplFunctionAttribute type "@convention(witness_method)".toList)
      else
        fail
    else
      pure type
  let type ← do
    if (← nextIf 'G') then do
      let generics ← demangleGenericSignature E r false
      pure (type.addChild generics)
    else if (← nextIf 'g') then do
      let generics ← demangleGenericSignature E r true
      pure (type.addChild generics)
    else
      pure type
  if !(← nextIf '_') then
    fail
  else
    let type ← demangleImplParameters r type
    let type ← demangleImplResults r type
    pure type


/-- The text that `DemanglerPrinter` writes for an unsigned number. -/
def printNumber (n : Nat) : List Char := Nat.toDigits 10 n

/-- The block `if (c == 'B')` of `demangleTypeImpl`. -/
def demangleBuiltinType : M Node := do
  if !(← nonEmpty) then
    fail
  else
    let c ← next
    if c = 'b' then
      pure (createNodeText Kind.BuiltinTypeName "Builtin.BridgeObject".toList)
    else if c = 'B' then
      pure (createNodeText Kind.BuiltinTypeName "Builtin.UnsafeValueBuffer".toList)
    else if c = 'f' then
      let size ← demangleBuiltinSize
      pure (createNodeText Kind.BuiltinTypeName
        ("Builtin.FPIEEE".toList ++ printNumber size))
    else if c = 'i' then
      let size ← demangleBuiltinSize
      pure (createNodeText Kind.BuiltinTypeName ("Builtin.Int".toList ++ printNumber size))
    else if c = 'v' then
      let elts ← demangleNatural
      if !(← nextIf 'B') then
        fail
      else if (← nextIf 'i') then
        let size ← demangleBuiltinSize
        pure (createNodeText Kind.BuiltinTypeName
          ("Builtin.Vec".toList ++ printNumber elts ++ "xInt".toList ++ printNumber size))
      else if (← nextIf 'f') then
        let size ← demangleBuiltinSize
        pure (createNodeText Kind.BuiltinTypeName
          ("Builtin.Vec".toList ++ printNumber elts ++ "xFloat".toList ++ printNumber size))
      else if (← nextIf 'p') then
        pure (createNodeText Kind.BuiltinTypeName
          ("Builtin.Vec".toList ++ printNumber elts ++ "xRawPointer".toList))
      else
        fail
    else if c = 'O' then
      pure (createNodeText Kind.BuiltinTypeName "Builtin.UnknownObject".toList)
    else if c = 'o' then
      pure (createNodeText Kind.BuiltinTypeName "Builtin.NativeObject".toList)
    else if c = 'p' then
      pure (createNodeText Kind.BuiltinTypeName "Builtin.RawPointer".toList)
    else if c = 't' then
      pure (createNodeText Kind.BuiltinTypeName "Builtin.SILToken".toList)
    else if c = 'w' then
      pure (createNodeText Kind.BuiltinTypeName "Builtin.Word".toList)
    else
      fail

/-- One round of the loop over the fields of a box layout in `demangleTypeImpl`. -/
def demangleSILBoxFieldRound (r : Rec) (layout : Node) : M (Iter Node) := do
  if (← nextIf '_') then
    pure (Iter.done layout)
  else
    let kind ← do
      if (← nextIf 'm') then pure Kind.SILBoxMutableField
      else if (← nextIf 'i') then pure Kind.SILBoxImmutableField
      else fail
    let type ← demangleType r
    let field := createNode kind
    let field := field.addChild type
    pure (Iter.again (layout.addChild field))

/-- One round of the loop over the generic arguments of a box in `demangleTypeImpl`. -/
def demangleSILBoxArgRound (r : Rec) (genericArgs : Node) : M (Iter Node) := do
  if (← nextIf '_') then
    pure (Iter.done genericArgs)
  else
    let type ← demangleType r
    pure (Iter.again (genericArgs.addChild type))

/-- The block `if (Mangled.nextIf('B'))` under `c == 'X'` in `demangleTypeImpl`. -/
def demangleSILBoxTypeWithLayout (E : Env) (r : Rec) : M Node := do
  let signature ←
    if (← nextIf 'G') then do
      let signature ← demangleGenericSignature E r false
      pure (some signature)
    else
      pure Option.none
  let layout := createNode Kind.SILBoxLayout
  let layout ← r.loop (demangleSILBoxFieldRound r) layout
  let genericArgs ←
    match signature with
    | some _ => do
        let genericArgs := createNode Kind.TypeList
        let genericArgs ← r.loop (demangleSILBoxArgRound r) genericArgs
        pure (some genericArgs)
    | Option.none => pure Option.none
  let boxType := createNode Kind.SILBoxTypeWithLayout
  let boxType := boxType.addChild layout
  match signature with
  | some signature =>
      let boxType := boxType.addChild signature
      let boxType := addChildIf boxType genericArgs
      pure boxType
  | Option.none => pure boxType

/-- A node of kind `kind` with a type as its only child (the blocks of `demangleTypeImpl`
for `D`, `Xb`, `M`, `PM`, `Xo`, `Xu`, `Xw`). -/
def demangleTypeInto (r : Rec) (kind : Kind) : M Node := do
  let type ← demangleType r
  let node := createNode kind
  pure (node.addChild type)

/-- A metatype with a representation (the blocks of `demangleTypeImpl` for `XM` and
`XPM`). -/
def demangleMetatypeWithRepresentation (r : Rec) (kind : Kind) : M Node := do
  let metatypeRepr ← demangleMetatypeRepresentation
  let type ← demangleType r
  let metatype := createNode kind
  let metatype := metatype.addChild metatypeRepr
  let metatype := metatype.addChild type
  pure metatype

/-- The blocks `if (c == 'X')` of `demangleTypeImpl`, in the order of the source. -/
def demangleTypeImplX (E : Env) (r : Rec) : M Node := do
  if (← nextIf 'b') then demangleTypeInto r Kind.SILBoxType
  else if (← nextIf 'B') then demangleSILBoxTypeWithLayout E r
  else if (← nextIf 'M') then demangleMetatypeWithRepresentation r Kind.Metatype
  else if (← nextIf 'P') then
    if (← nextIf 'M') then demangleMetatypeWithRepresentation r Kind.ExistentialMetatype
    else demangleProtocolList E r
  else if (← nextIf 'f') then demangleFunctionType r Kind.ThinFunctionType
  else if (← nextIf 'o') then demangleTypeInto r Kind.Owned
  else if (← nextIf 'u') then demangleTypeInto r Kind.Owned
  else if (← nextIf 'w') then demangleTypeInto r Kind.Owned
  else if (← nextIf 'F') then demangleImplFunctionType E r
  else fail

/-- `demangleTypeImpl`. -/
def demangleTypeImpl (E : Env) (r : Rec) : M Node := do
  if !(← nonEmpty) then
    fail
  else
    let c ← next
    if c = 'B' then demangleBuiltinType
    else if c = 'a' then demangleDeclarationName E r Kind.TypeAlias
    else if c = 'b' then demangleFunctionType r Kind.ObjCBlock
    else if c = 'c' then demangleFunctionType r Kind.CFunctionPointer
    else if c = 'D' then demangleTypeInto r Kind.DynamicSelf
    else if c = 'E' then
      if !(← nextIf 'R') then fail
      else if !(← nextIf 'R') then fail
      else pure (createNodeText Kind.ErrorType [])
    else if c = 'F' then demangleFunctionType r Kind.FunctionType
    else if c = 'f' then demangleFunctionType r Kind.UncurriedFunctionType
    else if c = 'G' then demangleBoundGenericType E r
    else if c = 'X' then demangleTypeImplX E r
    else if c = 'K' then demangleFunctionType r Kind.AutoClosureType
    else if c = 'M' then demangleTypeInto r Kind.Metatype
    else if c = 'P' then
      if (← nextIf 'M') then demangleTypeInto r Kind.ExistentialMetatype
      else demangleProtocolList E r
    else if c = 'Q' then r.demangleArchetypeType
    else if c = 'q' then demangleDependentType E r
    else if c = 'x' then pure (getDependentGenericParamType E 0 0)
    else if c = 'w' then demangleAssociatedTypeSimple E r
    else if c = 'W' then demangleAssociatedTypeCompound E r
    else if c = 'R' then
      let inout := createNode Kind.InOut
      let type ← r.demangleTypeImpl
      pure (inout.addChild type)
    else if c = 'S' then demangleSubstitutionIndex E
    else if c = 'T' then demangleTuple E r false
    else if c = 't' then demangleTuple E r true
    else if c = 'u' then
      let sig ← demangleGenericSignature E r
      let sub ← demangleType r
      let dependentGenericType := createNode Kind.DependentGenericType
      let dependentGenericType := dependentGenericType.addChild sig
      let dependentGenericType := dependentGenericType.addChild sub
      pure dependentGenericType
    else if isStartOfNominalType c then
      demangleDeclarationName E r (nominalTypeMarkerToNodeKind c)
    else
      fail


/-- `demangleReabstractSignature(signature)`; the node `signature` with the new children
is returned for `true`. -/
def demangleReabstractSignature (E : Env) (r : Rec) (signature : Node) : M Node := do
  let signature ←
    if (← nextIf 'G') then do
      let generics ← demangleGenericSignature E r
      pure (signature.addChild generics)
    else
      pure signature
  let srcType ← demangleType r
  let signature := signature.addChild srcType
  let destType ← demangleType r
  let signature := signature.addChild destType
  pure signature

/-- The macro `DEMANGLE_CHILD_OR_RETURN(parent, Type)`. -/
def childType (r : Rec) (parent : Node) : M Node := do
  let _node ← demangleType r
  pure (parent.addChild _node)

/-- The macro `DEMANGLE_CHILD_OR_RETURN(parent, ProtocolConformance)`. -/
def childProtocolConformance (E : Env) (r : Rec) (parent : Node) : M Node := do
  let _node ← demangleProtocolConformance E r
  pure (parent.addChild _node)

/-- The macro `DEMANGLE_CHILD_OR_RETURN(parent, ProtocolName)`. -/
def childProtocolName (E : Env) (r : Rec) (parent : Node) : M Node := do
  let _node ← demangleProtocolName E r
  pure (parent.addChild _node)

/-- The macro `DEMANGLE_CHILD_OR_RETURN(parent, DeclName)`. -/
def childDeclName (E : Env) (parent : Node) : M Node := do
  let _node ← demangleDeclName E
  pure (parent.addChild _node)

/-- The macro `DEMANGLE_CHILD_OR_RETURN(parent, Entity)`. -/
def childEntity (E : Env) (r : Rec) (parent : Node) : M Node := do
  let _node ← demangleEntity E r
  pure (parent.addChild _node)

/-- The macro `DEMANGLE_CHILD_AS_NODE_OR_RETURN(parent, Directness)`. -/
def childDirectness (E : Env) (parent : Node) : M Node := do
  let _kind ← demangleDirectness E
  pure (parent.addChild (createNodeIndex Kind.Directness (_kind % unsignedMod)))

/-- The block `if (Mangled.nextIf('M'))` of `demangleGlobal`. -/
def demangleGlobalMetadata (E : Env) (r : Rec) : M Node := do
  if (← nextIf 'P') then childType r (createNode Kind.GenericTypeMetadataPattern)
  else if (← nextIf 'a') then childType r (createNode Kind.TypeMetadataAccessFunction)
  else if (← nextIf 'L') then childType r (createNode Kind.TypeMetadataLazyCache)
  else if (← nextIf 'm') then childType r (createNode Kind.Metaclass)
  else if (← nextIf 'n') then childType r (createNode Kind.NominalTypeDescriptor)
  else if (← nextIf 'f') then childType r (createNode Kind.FullTypeMetadata)
  else if (← nextIf 'p') then childProtocolName E r (createNode Kind.ProtocolDescriptor)
  else childType r (createNode Kind.TypeMetadata)

/-- The block `if (Mangled.nextIf('W'))` of `demangleGlobal`. -/
def demangleGlobalWitness (E : Env) (r : Rec) : M Node := do
  if (← nextIf 'V') then childType r (createNode Kind.ValueWitnessTable)
  else if (← nextIf 'v') then
    let fieldOffset := createNode Kind.FieldOffset
    let fieldOffset ← childDirectness E fieldOffset
    childEntity E r fieldOffset
  else if (← nextIf 'P') then
    childProtocolConformance E r (createNode Kind.ProtocolWitnessTable)
  else if (← nextIf 'G') then
    childProtocolConformance E r (createNode Kind.GenericProtocolWitnessTable)
  else if (← nextIf 'I') then
    childProtocolConformance E r
      (createNode Kind.GenericProtocolWitnessTableInstantiationFunction)
  else if (← nextIf 'l') then
    let accessor := createNode Kind.LazyProtocolWitnessTableAccessor
    let accessor ← childType r accessor
    childProtocolConformance E r accessor
  else if (← nextIf 'L') then
    let accessor := createNode Kind.LazyProtocolWitnessTableCacheVariable
    let accessor ← childType r accessor
    childProtocolConformance E r accessor
  else if (← nextIf 'a') then
    childProtocolConformance E r (createNode Kind.ProtocolWitnessTableAccessor)
  else if (← nextIf 't') then
    let accessor := createNode Kind.AssociatedTypeMetadataAccessor
    let accessor ← childProtocolConformance E r accessor
    childDeclName E accessor
  else if (← nextIf 'T') then
    let accessor := createNode Kind.AssociatedTypeWitnessTableAccessor
    let accessor ← childProtocolConformance E r accessor
    let accessor ← childDeclName E accessor
    childProtocolName E r accessor
  else
    fail

/-- The block `if (Mangled.nextIf('T'))` of `demangleGlobal`. -/
def demangleGlobalThunk (E : Env) (r : Rec) : M Node := do
  if (← nextIf 'R') then
    demangleReabstractSignature E r (createNode Kind.ReabstractionThunkHelper)
  else if (← nextIf 'r') then
    demangleReabstractSignature E r (createNode Kind.ReabstractionThunk)
  else if (← nextIf 'W') then
    let thunk := createNode Kind.ProtocolWitness
    let thunk ← childProtocolConformance E r thunk
    childEntity E r thunk
  else
    fail

/-- `demangleGlobal`. -/
def demangleGlobal (E : Env) (r : Rec) : M Node := do
  if !(← nonEmpty) then
    fail
  else if (← nextIf 'M') then demangleGlobalMetadata E r
  else if (← nextIfStr "PA".toList) then
    let kind :=
      if (← nextIf 'o') then Kind.PartialApplyObjCForwarder
      else Kind.PartialApplyForwarder
    let forwarder := createNode kind
    if (← nextIfStr "__T".toList) then
      let _node ← r.demangleGlobal
      pure (forwarder.addChild _node)
    else
      pure forwarder
  else if (← nextIf 't') then childType r (createNode Kind.TypeMangling)
  else if (← nextIf 'w') then
    let w ← demangleValueWitnessKind
    let witness := createNodeIndex Kind.ValueWitness (w % unsignedMod)
    childType r witness
  else if (← nextIf 'W') then demangleGlobalWitness E r
  else if (← nextIf 'T') then demangleGlobalThunk E r
  else demangleEntity E r


/-- One round of the inner loop of `demangleGenericSpecialization`. -/
def demangleGenericSpecializationConformanceRound (E : Env) (r : Rec) (param : Node) :
    M (Iter Node) := do
  if (← nextIf '_') then
    pure (Iter.done param)
  else
    let param ← childProtocolConformance E r param
    pure (Iter.again param)

/-- One round of the outer loop of `demangleGenericSpecialization`. -/
def demangleGenericSpecializationRound (E : Env) (r : Rec) (specialization : Node) :
    M (Iter Node) := do
  if (← nextIf '_') then
    pure (Iter.done specialization)
  else
    let param := createNode Kind.GenericSpecializationParam
    let param ← childType r param
    let param ← r.loop (demangleGenericSpecializationConformanceRound E r) param
    pure (Iter.again (specialization.addChild param))

/-- `demangleGenericSpecialization(specialization)`. -/
def demangleGenericSpecialization (E : Env) (r : Rec) (specialization : Node) : M Node :=
  r.loop (demangleGenericSpecializationRound E r) specialization

/-- One round of the loop `while (Mangled.peek() != '_' && (type = demangleType()))` of
`demangleFuncSigSpecializationClosureProp`: a type that fails to demangle ends the
loop. -/
def demangleFuncSigSpecializationClosurePropRound (r : Rec) (parent : Node) :
    M (Iter Node) := do
  if (← peek) ≠ '_' then
    match (← attempt (demangleType r)) with
    | some type => pure (Iter.again (parent.addChild type))
    | Option.none => pure (Iter.done parent)
  else
    pure (Iter.done parent)

/-- `demangleFuncSigSpecializationClosureProp(parent)`; the node `parent` with the new
children is returned for `true`. -/
def demangleFuncSigSpecializationClosureProp (E : Env) (r : Rec) (parent : Node) :
    M Node := do
  let name ← demangleIdentifier E
  let parent := parent.addChild (FUNCSIGSPEC_CREATE_PARAM_KIND E.ClosureProp)
  let parent := parent.addChild (FUNCSIGSPEC_CREATE_PARAM_PAYLOAD name.getText)
  let parent ← r.loop (demangleFuncSigSpecializationClosurePropRound r) parent
  if !(← nextIf '_') then
    fail
  else
    pure parent

/-- The option sets of `demangleFunctionSignatureSpecialization`: the last `else` of
the chain, with the node `param` returned. -/
def demangleFunctionSignatureSpecializationOptions (E : Env) (param : Node) : M Node := do
  let Value := 0
  let Value := if (← nextIf 'd') then Value ||| (E.Dead % unsignedMod) else Value
  let Value :=
    if (← nextIf 'g') then Value ||| (E.OwnedToGuaranteed % unsignedMod) else Value
  let Value :=
    if (← nextIf 'o') then Value ||| (E.GuaranteedToOwned % unsignedMod) else Value
  let Value := if (← nextIf 's') then Value ||| (E.SROA % unsignedMod) else Value
  if !(← nextIf '_') then
    fail
  else if Value = 0 then
    fail
  else
    let result := createNodeIndex Kind.FunctionSignatureSpecializationParamKind Value
    pure (param.addChild result)

/-- One round of the loop of `demangleFunctionSignatureSpecialization`, on
`specialization` and `paramCount`. -/
def demangleFunctionSignatureSpecializationRound (E : Env) (r : Rec) (p : Node × Nat) :
    M (Iter (Node × Nat)) := do
  if (← nextIf '_') then
    pure (Iter.done p)
  else
    let param := createNodeIndex Kind.FunctionSignatureSpecializationParam p.2
    let param ← do
      if (← nextIfStr "n_".toList) then
        pure param
      else if (← nextIfStr "cp".toList) then
        demangleFuncSigSpecializationConstantProp E param
      else if (← nextIfStr "cl".toList) then
        demangleFuncSigSpecializationClosureProp E r param
      else if (← nextIfStr "i_".toList) then
        pure (param.addChild (FUNCSIGSPEC_CREATE_PARAM_KIND E.BoxToValue))
      else if (← nextIfStr "k_".toList) then
        pure (param.addChild (FUNCSIGSPEC_CREATE_PARAM_KIND E.BoxToStack))
      else
        demangleFunctionSignatureSpecializationOptions E param
    pure (Iter.again (p.1.addChild param, (p.2 + 1) % unsignedMod))

/-- `demangleFunctionSignatureSpecialization(specialization)`. -/
def demangleFunctionSignatureSpecialization (E : Env) (r : Rec) (specialization : Node) :
    M Node := do
  let paramCount := 0
  let (specialization, _) ←
    r.loop (demangleFunctionSignatureSpecializationRound E r) (specialization, paramCount)
  pure specialization

/-- The value of a `char` as an `int`; `char` is signed on the platforms of KSCrash. -/
def charToInt (c : Char) : Int :=
  if c.toNat < 128 then (c.toNat : Int) else (c.toNat : Int) - 256

/-- The conversion of an `int` to `unsigned`. -/
def toUnsigned (i : Int) : Nat := (i % (unsignedMod : Int)).toNat

/-- The node of the pass id: `unsigned(Mangled.next() - 48)`. -/
def demanglePassID : M Node := do
  let c ← next
  pure (createNodeIndex Kind.SpecializationPassID (toUnsigned (charToInt c - 48)))

/-- `demangleSpecializedAttribute`. -/
def demangleSpecializedAttribute (E : Env) (r : Rec) : M Node := do
  let isGeneric ← nextIfStr "g".toList
  let isNotReAbstracted ← if isGeneric then pure false else nextIfStr "r".toList
  if isGeneric || isNotReAbstracted then
    let spec := createNode (if isNotReAbstracted then
      Kind.GenericSpecializationNotReAbstracted else Kind.GenericSpecialization)
    let spec :=
      if (← nextIfStr "q".toList) then spec.addChild (createNode Kind.IsSerialized)
      else spec
    let spec := spec.addChild (← demanglePassID)
    demangleGenericSpecialization E r spec
  else if (← nextIfStr "f".toList) then
    let spec := createNode Kind.FunctionSignatureSpecialization
    let spec :=
      if (← nextIfStr "q".toList) then spec.addChild (createNode Kind.IsSerialized)
      else spec
    let spec := spec.addChild (← demanglePassID)
    demangleFunctionSignatureSpecialization E r spec
  else
    fail

/-- One round of the loop `do ... while (Mangled.nextIf("_TTS"))` of
`demangleTopLevel`. -/
def demangleTopLevelSpecializationRound (E : Env) (r : Rec) (topLevel : Node) :
    M (Iter Node) := do
  let _node ← demangleSpecializedAttribute E r
  let topLevel := topLevel.addChild _node
  clearSubstitutions
  if (← nextIfStr "_TTS".toList) then
    pure (Iter.again topLevel)
  else
    pure (Iter.done topLevel)

/-- The first part of `demangleTopLevel`: the marker `_T` and the prefixes.  It returns
the node `topLevel` with the children added so far. -/
def demangleTopLevelPrefix (E : Env) (r : Rec) : M Node := do
  if !(← nextIfStr "_T".toList) then
    fail
  else
    let topLevel := createNode Kind.Global
    if (← nextIfStr "TS".toList) then
      let topLevel ← r.loop (demangleTopLevelSpecializationRound E r) topLevel
      if !(← nextIfStr "_T".toList) then
        fail
      else
        pure topLevel
    else if (← nextIfStr "To".toList) then
      pure (topLevel.addChild (createNode Kind.ObjCAttribute))
    else if (← nextIfStr "TO".toList) then
      pure (topLevel.addChild (createNode Kind.NonObjCAttribute))
    else if (← nextIfStr "TD".toList) then
      pure (topLevel.addChild (createNode Kind.DynamicAttribute))
    else if (← nextIfStr "Td".toList) then
      pure (topLevel.addChild (createNode Kind.DirectMethodReferenceAttribute))
    else if (← nextIfStr "TV".toList) then
      pure (topLevel.addChild (createNode Kind.VTableAttribute))
    else
      pure topLevel

/-- The last part of `demangleTopLevel`: the suffix node for what is left unmangled. -/
def demangleTopLevelSuffix (topLevel : Node) : M Node := do
  if !(← isEmpty) then
    pure (topLevel.addChild (createNodeText Kind.Suffix (← getString)))
  else
    pure topLevel

/-- The body of `demangleTopLevel`: the prefixes, the global, the suffix. -/
def demangleTopLevelBody (E : Env) (r : Rec) : M Node := do
  let topLevel ← demangleTopLevelPrefix E r
  let _node ← r.demangleGlobal
  let topLevel := topLevel.addChild _node
  demangleTopLevelSuffix topLevel

/-- The table of the recursive productions, unfolded `n` times. -/
def tie (E : Env) : Nat → Rec
  | 0 =>
    { demangleTypeImpl := fun _ => Res.fuel
      demangleContext := fun _ => Res.fuel
      demangleGlobal := fun _ => Res.fuel
      demangleArchetypeType := fun _ => Res.fuel
      loop := fun _ _ _ => Res.fuel }
  | n + 1 =>
    { demangleTypeImpl := demangleTypeImpl E (tie E n)
      demangleContext := demangleContext E (tie E n)
      demangleGlobal := demangleGlobal E (tie E n)
      demangleArchetypeType := demangleArchetypeType E (tie E n)
      loop := fun round acc => do
        match (← round acc) with
        | Iter.again acc => (tie E n).loop round acc
        | Iter.done acc => pure acc }

/-- The state of a new `OldDemangler` on the text `mangled`. -/
def initial (mangled : List Char) : St := { Mangled := mangled, Substitutions := [] }

/-- `demangleTopLevel` (the body of `demangleOldSymbolAsNode`) on the text `mangled`; the
recursion is unfolded once more than the text is long. -/
def demangleTopLevel (E : Env) (mangled : List Char) : Res Node :=
  demangleTopLevelBody E (tie E (mangled.length + 1)) (initial mangled)

/-- `demangleTypeName` on the text `mangled`. -/
def demangleTypeName (E : Env) (mangled : List Char) : Res Node :=
  demangleType (tie E (mangled.length + 1)) (initial mangled)

/-! ## The predicates of the proofs -/

/-- The number of characters that are not consumed yet. -/
def St.len (s : St) : Nat := s.Mangled.length

/-- A relation between the state before and the state after a production which every
step of the demangler respects. -/
structure StepRel (R : St → St → Prop) : Prop where
  refl : ∀ s, R s s
  trans : ∀ {a b c}, R a b → R b c → R a c
  cursor : ∀ s t, t <:+ s.Mangled → R s { s with Mangled := t }
  push : ∀ s n, R s { s with Substitutions := s.Substitutions ++ [n] }

/-- The run of `m` from `s` is in order. -/
def Safe {α : Type} (F : Prop) (R : St → St → Prop) (m : M α) (s : St)
    (Q : α → St → Prop) : Prop :=
  match m s with
  | .ok a s1 => R s s1 ∧ s1.len ≤ s.len ∧ Q a s1
  | .null s1 => R s s1 ∧ s1.len ≤ s.len
  | .fault => True
  | .fuel => F

/-- The table `r` is in order on every text shorter than `n`. -/
structure Good (F : Prop) (R : St → St → Prop) (r : Rec) (n : Nat) : Prop where
  typeImpl : ∀ s : St, s.len < n → Safe F R r.demangleTypeImpl s (fun _ s1 => s1.len < s.len)
  context : ∀ s : St, s.len < n → Safe F R r.demangleContext s (fun _ s1 => s1.len < s.len)
  global : ∀ s : St, s.len < n → Safe F R r.demangleGlobal s (fun _ s1 => s1.len < s.len)
  archetype : ∀ s : St, s.len < n →
    Safe F R r.demangleArchetypeType s (fun _ s1 => s1.len < s.len)
  loop : ∀ {σ : Type} (round : σ → M (Iter σ)) (acc : σ) (s : St), s.len < n →
    (∀ (acc : σ) (s1 : St), s1.len ≤ s.len →
      Safe F R (round acc) s1 (fun it s2 => ∀ a, it = Iter.again a → s2.len < s1.len)) →
    Safe F R (r.loop round acc) s (fun _ _ => True)

/-- The tree `Global[TypeMangling[Type[BuiltinTypeName "Builtin.FPIEEE32"]]]`. -/
def fpieee32Tree : Node :=
  Node.mk Kind.Global Payload.none
    [Node.mk Kind.TypeMangling Payload.none
      [Node.mk Kind.Type_ Payload.none
        [Node.mk Kind.BuiltinTypeName (Payload.text "Builtin.FPIEEE32".toList) []]]]

/-- Every successful run of `m` from `s` ends with a value and a state in `Q`. -/
structure Ret {α : Type} (m : M α) (s : St) (Q : α → St → Prop) : Prop where
  /-- The value and the state of a successful run are in `Q`. -/
  out : ∀ a s1, m s = Res.ok a s1 → Q a s1

/-- The code letters of `demangleSubstitutionIndex` that stand for a built-in
substitution. -/
def builtinSubstitutionLetters : List Char := "oCabcdfiVvPpqQRrSu".toList

/-- The number that a run of decimal digits denotes. -/
def decimalValue (digits : List Char) : Nat :=
  digits.foldl (fun n c => 10 * n + (c.toNat - '0'.toNat)) 0

/-- The text of an identifier: the marker `X` when `punycoded`, the marker `o` and the
operator mode when `operator` is one, the digits of the length, and the rest. -/
def identifierText (punycoded : Bool) (operator : Option Char) (digits rest : List Char) :
    List Char :=
  (if punycoded then ['X'] else []) ++
    (match operator with
      | some mode => ['o', mode]
      | Option.none => []) ++ digits ++ rest

/-- The node `topLevel` of `demangleTopLevel` before the suffix is added: a `Global` node
none of whose children is a `Suffix` node. -/
def GlobalWithoutSuffix (topLevel : Node) : Prop :=
  topLevel.getKind = Kind.Global ∧ ∀ c ∈ topLevel.getChildren, c.getKind ≠ Kind.Suffix

/-- The table of the operator characters, indexed by the letters `a` to `z`; a blank
stands for a letter without an operator character. -/
def operatorTable : List Char := "& @/= >    <*!|+?%-~   ^ .".toList

/-- The image of one byte of the payload of an operator identifier: a byte with the high
bit set is its own image, a lowercase letter with an entry in `operatorTable` that is not
blank has this entry as its image, and every other byte has none. -/
def operatorImage (c : Char) : Option Char :=
  if 128 ≤ c.toNat then some c
  else if 'a'.toNat ≤ c.toNat ∧ c.toNat ≤ 'z'.toNat ∧
      operatorTable.getD (c.toNat - 'a'.toNat) ' ' ≠ ' ' then
    some (operatorTable.getD (c.toNat - 'a'.toNat) ' ')
  else Option.none

/-- The images of the bytes of a payload, in order; `none` when a byte has no image. -/
def operatorText : List Char → Option (List Char)
  | [] => some []
  | c :: t =>
      match operatorImage c, operatorText t with
      | some o, some text => some (o :: text)
      | _, _ => Option.none

/-- The kinds of the operator modes `p`, `P` and `i`. -/
def operatorModes : List (Char × Kind) :=
  [('p', Kind.PrefixOperator), ('P', Kind.PostfixOperator), ('i', Kind.InfixOperator)]

/-- An element of a tuple as `demangleTuple` builds it: a `TupleElement` node whose
children are the label, if there is one, and the type. -/
def IsTupleElement (e : Node) : Prop :=
  ∃ type : Node, type.getKind = Kind.Type_ ∧
    (e = Node.mk Kind.TupleElement Payload.none [type] ∨
      ∃ label : Node, label.getKind = Kind.TupleElementName ∧
        e = Node.mk Kind.TupleElement Payload.none [label, type])

/-- What `demangleTuple` keeps true of `tuple` and `elt` from round to round. -/
def TupleLoopInv (p : Node × Option Node) : Prop :=
  p.1.getKind = Kind.Tuple ∧ (∀ e ∈ p.1.getChildren, IsTupleElement e) ∧
    p.2 = p.1.getChildren.getLast?

/-- The states in which the rounds of the loop `(tie E n).loop round acc` start when it
is run from `s`, in order. -/
def loopStarts {σ : Type} (round : σ → M (Iter σ)) : Nat → σ → St → List St
  | 0, _, _ => []
  | n + 1, acc, s =>
      s :: (match round acc s with
        | Res.ok (Iter.again acc1) s1 => loopStarts round n acc1 s1
        | _ => [])

/-- The kinds of the annotation nodes that `demangleTopLevel` adds for the markers `To`,
`TO`, `TD`, `Td` and `TV`. -/
def annotationKinds : List Kind :=
  [Kind.ObjCAttribute, Kind.NonObjCAttribute, Kind.DynamicAttribute,
    Kind.DirectMethodReferenceAttribute, Kind.VTableAttribute]

/-- The two-byte markers of the annotations and the kinds of their nodes. -/
def attributeMarkers : List (List Char × Kind) :=
  [("To".toList, Kind.ObjCAttribute), ("TO".toList, Kind.NonObjCAttribute),
    ("TD".toList, Kind.DynamicAttribute), ("Td".toList, Kind.DirectMethodReferenceAttribute),
    ("TV".toList, Kind.VTableAttribute)]

/-- The index of the `SpecializationPassID` node for the character `c` that
`Mangled.next()` returns: `unsigned(c - 48)`. -/
def passIDIndex (c : Char) : Nat := toUnsigned (charToInt c - 48)

/-- The markers that start a specialization block, with the marker `q` of a serialized
specialization when it is there. -/
def specializationMarkers : List (List Char) :=
  ["g".toList, "gq".toList, "r".toList, "rq".toList, "f".toList, "fq".toList]

/-- What `demangleSpecializedAttribute` returns on a text: the marker, the text after it,
and the children of the node. -/
def PassIDShape (mangled : List Char) (a : Node) : Prop :=
  ∃ (marker text : List Char) (params : List Node),
    marker ∈ specializationMarkers ∧ mangled = marker ++ text ∧
    ('q' ∉ marker → text.head? ≠ some 'q') ∧
    a.getChildren =
      (if 'q' ∈ marker then [createNode Kind.IsSerialized] else []) ++
        [createNodeIndex Kind.SpecializationPassID (passIDIndex (text.headD '.'))] ++ params

/-- The node `typeKind[Module stdlib, Identifier name]` of a type of the standard
library. -/
def stdlibType (E : Env) (typeKind : Kind) (name : String) : Node :=
  Node.mk typeKind Payload.none
    [Node.mk Kind.Module (Payload.text E.STDLIB_NAME) [],
      Node.mk Kind.Identifier (Payload.text name.toList) []]

/-- The built-in substitutions: the code letter and the node that it stands for. -/
def builtinSubstitutions (E : Env) : List (Char × Node) :=
  [('o', Node.mk Kind.Module (Payload.text E.MANGLING_MODULE_OBJC) []),
    ('C', Node.mk Kind.Module (Payload.text E.MANGLING_MODULE_CLANG_IMPORTER) []),
    ('a', stdlibType E Kind.Structure "Array"),
    ('b', stdlibType E Kind.Structure "Bool"),
    ('c', stdlibType E Kind.Structure "UnicodeScalar"),
    ('d', stdlibType E Kind.Structure "Double"),
    ('f', stdlibType E Kind.Structure "Float"),
    ('i', stdlibType E Kind.Structure "Int"),
    ('V', stdlibType E Kind.Structure "UnsafeRawPointer"),
    ('v', stdlibType E Kind.Structure "UnsafeMutableRawPointer"),
    ('P', stdlibType E Kind.Structure "UnsafePointer"),
    ('p', stdlibType E Kind.Structure "UnsafeMutablePointer"),
    ('q', stdlibType E Kind.Enum "Optional"),
    ('Q', stdlibType E Kind.Enum "ImplicitlyUnwrappedOptional"),
    ('R', stdlibType E Kind.Structure "UnsafeBufferPointer"),
    ('r', stdlibType E Kind.Structure "UnsafeMutableBufferPointer"),
    ('S', stdlibType E Kind.Structure "String"),
    ('u', stdlibType E Kind.Structure "UInt")]

/-- The entity kinds of `demangleEntity`: the letter and the kind. -/
def entityKindMarkers : List (Char × Kind) :=
  [('F', Kind.Function), ('v', Kind.Variable), ('I', Kind.Initializer),
    ('i', Kind.Subscript)]

/-- The sigils of the function types in `demangleTypeImpl`, and the kind of each. -/
def functionTypeSigils : List (List Char × Kind) :=
  [("F".toList, Kind.FunctionType), ("f".toList, Kind.UncurriedFunctionType),
    ("b".toList, Kind.ObjCBlock), ("c".toList, Kind.CFunctionPointer),
    ("K".toList, Kind.AutoClosureType), ("Xf".toList, Kind.ThinFunctionType)]

/-- The node of a function type: the `ThrowsAnnotation` when `throws`, then
`ArgumentTuple[input]`, then `ReturnType[output]`. -/
def functionTypeNode (kind : Kind) (throws : Bool) (input output : Node) : Node :=
  Node.mk kind Payload.none
    ((if throws then [Node.mk Kind.ThrowsAnnotation Payload.none []] else []) ++
      [Node.mk Kind.ArgumentTuple Payload.none [input],
        Node.mk Kind.ReturnType Payload.none [output]])

/-- The entity-name tags of the accessors in `demangleEntity`, and the kind of each. -/
def accessorTags : List (List Char × Kind) :=
  [("g".toList, Kind.Getter), ("G".toList, Kind.GlobalGetter), ("s".toList, Kind.Setter),
    ("m".toList, Kind.MaterializeForSet), ("w".toList, Kind.WillSet),
    ("W".toList, Kind.DidSet), ("r".toList, Kind.ReadAccessor),
    ("M".toList, Kind.ModifyAccessor),
    ("aO".toList, Kind.OwningMutableAddressor),
    ("ao".toList, Kind.NativeOwningMutableAddressor),
    ("ap".toList, Kind.NativePinningMutableAddressor),
    ("au".toList, Kind.UnsafeMutableAddressor),
    ("lO".toList, Kind.OwningAddressor), ("lo".toList, Kind.NativeOwningAddressor),
    ("lp".toList, Kind.NativePinningAddressor), ("lu".toList, Kind.UnsafeAddressor)]

/-- The name is the `Identifier` with the text `subscript`. -/
def isSubscriptIdentifier (name : Node) : Bool :=
  decide (name.getKind = Kind.Identifier) && decide (name.getText = "subscript".toList)

/-- The name is a `PrivateDeclName` whose second child has the text `subscript`; the
value is the first child (the discriminator). -/
def privateSubscriptDiscriminator (name : Node) : Option Node :=
  if name.getKind = Kind.PrivateDeclName then
    match name.getChildren with
    | discriminator :: second :: _ =>
        if second.getText = "subscript".toList then some discriminator else Option.none
    | _ => Option.none
  else Option.none

/-- What an accessor of kind `kind` is wrapped around: `Subscript[context, type]` for the
identifier `subscript`, `Subscript[context, type, PrivateDeclName[discriminator]]` for a
private name of `subscript`, and `Variable[context, name, type]` for another name. -/
def accessorNode (kind : Kind) (context name type : Node) : Node :=
  Node.mk kind Payload.none
    [if isSubscriptIdentifier name then
        Node.mk Kind.Subscript Payload.none [context, type]
      else
        match privateSubscriptDiscriminator name with
        | some discriminator =>
            Node.mk Kind.Subscript Payload.none
              [context, type, Node.mk Kind.PrivateDeclName Payload.none [discriminator]]
        | Option.none => Node.mk Kind.Variable Payload.none [context, name, type]]

/-- The letters of an option set of a function-signature specialization, in the order
in which they are written. -/
def optionLetters (d g o s : Bool) : List Char :=
  (if d then ['d'] else []) ++ (if g then ['g'] else []) ++ (if o then ['o'] else []) ++
    (if s then ['s'] else [])

/-- The bitwise OR of the flags `Dead`, `OwnedToGuaranteed`, `GuaranteedToOwned` and
`SROA` (as `unsigned` values) of the letters that are present. -/
def optionValue (E : Env) (d g o s : Bool) : Nat :=
  (if d then E.Dead % unsignedMod else 0) |||
    (if g then E.OwnedToGuaranteed % unsignedMod else 0) |||
    (if o then E.GuaranteedToOwned % unsignedMod else 0) |||
    (if s then E.SROA % unsignedMod else 0)

/-- The text of a result of an `ImplFunctionType` with the convention `d` and the type
`Si`; an error result has the sigil `z` in front. -/
def implResultText (isError : Bool) : List Char :=
  (if isError then ['z'] else []) ++ "dSi".toList

/-- The node of the result that `implResultText` writes. -/
def implResultNode (E : Env) (isError : Bool) : Node :=
  Node.mk (if isError then Kind.ImplErrorResult else Kind.ImplResult) Payload.none
    [Node.mk Kind.ImplConvention (Payload.text "@unowned".toList) [],
      Node.mk Kind.Type_ Payload.none [stdlibType E Kind.Structure "Int"]]

/-- A mangled parameter count: `none` is the letter `z`, and `some digits` is the index
written with these digits (none for the index `_`). -/
def countText : Option (List Char) → List Char
  | Option.none => ['z']
  | some digits => digits ++ ['_']

/-- The index that the digits in front of `_` denote: 0 without digits, and one more than
their decimal value otherwise, as a `Node::IndexType`. -/
def indexValue (digits : List Char) : Nat :=
  if digits = [] then 0 else (decimalValue digits % indexMod + 1) % indexMod

/-- The value of a mangled parameter count: 0 for `z`, and one more than the index, as a
`Node::IndexType`. -/
def countValue : Option (List Char) → Nat
  | Option.none => 0
  | some digits => (indexValue digits + 1) % indexMod

/-- The `DependentGenericParamCount` children for the mangled counts: one child with the
value 1 when no count is mangled. -/
def countChildren (counts : List (Option (List Char))) : List Node :=
  if counts = [] then [Node.mk Kind.DependentGenericParamCount (Payload.index 1) []]
  else counts.map (fun x => Node.mk Kind.DependentGenericParamCount
    (Payload.index (countValue x)) [])

/-- The kind of the node of a generic signature. -/
def signatureKind (isPseudogeneric : Bool) : Kind :=
  if isPseudogeneric then Kind.DependentPseudogenericSignature
  else Kind.DependentGenericSignature

/-- Neither the node nor a node below it is a `BoundGenericClass`,
`BoundGenericStructure` or `BoundGenericEnum` node. -/
inductive BoundGenericFree : Node → Prop where
  | mk (kind : Kind) (payload : Payload) (children : List Node)
      (hkind : kind ≠ Kind.BoundGenericClass ∧ kind ≠ Kind.BoundGenericStructure ∧
        kind ≠ Kind.BoundGenericEnum)
      (hchildren : ∀ c ∈ children, BoundGenericFree c) :
      BoundGenericFree (Node.mk kind payload children)

/-- A nominal type that is a chain of `depth` declarations of the kinds `Class`,
`Structure` and `Enum` nested in one another, the outermost one in a module; the names and
the module have no bound generic node. -/
inductive NominalChain : Node → Nat → Prop where
  | root (kind : Kind) (module name : Node)
      (hkind : kind = Kind.Class ∨ kind = Kind.Structure ∨ kind = Kind.Enum)
      (hmodule : module.getKind = Kind.Module) (hfree : BoundGenericFree module)
      (hname : BoundGenericFree name) :
      NominalChain (Node.mk kind Payload.none [module, name]) 1
  | nest (kind : Kind) (parent name : Node) (depth : Nat)
      (hkind : kind = Kind.Class ∨ kind = Kind.Structure ∨ kind = Kind.Enum)
      (hparent : NominalChain parent depth) (hname : BoundGenericFree name) :
      NominalChain (Node.mk kind Payload.none [parent, name]) (depth + 1)

/-- A run of `m` that returns a value leaves the `Substitutions` table as it was. -/
def Keeps {α : Type} (m : M α) : Prop :=
  ∀ (s : St) (subs : List Node), s.Substitutions = subs →
    Ret m s (fun _ s1 => s1.Substitutions = subs)

/-- The state in which a run ends, when it ends with a value or with a failure. -/
def Res.after {α : Type} : Res α → Option St
  | Res.ok _ s => some s
  | Res.null s => some s
  | Res.fault => Option.none
  | Res.fuel => Option.none

/-- The operations of `NameSource` on the cursor, each with its arguments. -/
inductive CursorOperation : {α : Type} → M α → Prop where
  | hasAtLeast (len : Nat) : CursorOperation (hasAtLeast len)
  | isEmpty : CursorOperation isEmpty
  | nonEmpty : CursorOperation nonEmpty
  | peek : CursorOperation peek
  | next : CursorOperation next
  | nextIf (c : Char) : CursorOperation (nextIf c)
  | nextIfStr (str : List Char) : CursorOperation (nextIfStr str)
  | slice (len : Nat) : CursorOperation (slice len)
  | advanceOffset (len : Nat) : CursorOperation (advanceOffset len)
  | getString : CursorOperation getString
  | readUntil (c : Char) (result : List Char) : CursorOperation (readUntil c result)

/-- The productions of the grammar engine other than the top-level driver: the member
functions `demangle...` of `OldDemangler` and the lambda `makeAssociatedType`, each with
its arguments. -/
inductive Production (E : Env) (r : Rec) : {α : Type} → M α → Prop where
  | demangleNatural : Production E r (demangleNatural)
  | demangleDirectness : Production E r (demangleDirectness E)
  | demangleBuiltinSize : Production E r (demangleBuiltinSize)
  | demangleValueWitnessKind : Production E r (demangleValueWitnessKind)
  | demangleIdentifier (kind : Option Kind) : Production E r (demangleIdentifier E kind)
  | demangleIndex : Production E r (demangleIndex)
  | demangleIndexAsNode (kind : Kind) : Production E r (demangleIndexAsNode kind)
  | demangleSubstitutionIndex : Production E r (demangleSubstitutionIndex E)
  | demangleDeclName : Production E r (demangleDeclName E)
  | demangleModule : Production E r (demangleModule E)
  | demangleProtocolNameGivenContext (context : Node) : Production E r (demangleProtocolNameGivenContext E context)
  | demangleGenericParamIndex : Production E r (demangleGenericParamIndex E)
  | demangleMetatypeRepresentation : Production E r (demangleMetatypeRepresentation)
  | demangleImplConvention (ctxt : ImplConventionContext) : Production E r (demangleImplConvention ctxt)
  | demangleImplCalleeConvention (type : Node) : Production E r (demangleImplCalleeConvention type)
  | demangleFuncSigSpecializationConstantProp (parent : Node) : Production E r (demangleFuncSigSpecializationConstantProp E parent)
  | makeAssociatedType (root : Node) : Production E r (makeAssociatedType E root)
  | demangleType : Production E r (demangleType r)
  | demangleDeclarationName (kind : Kind) : Production E r (demangleDeclarationName E r kind)
  | demangleProtocolNameImpl : Production E r (demangleProtocolNameImpl E r)
  | demangleProtocolName : Production E r (demangleProtocolName E r)
  | demangleNominalType : Production E r (demangleNominalType E r)
  | demangleBoundGenericArgs (nominalType : Node) : Production E r (demangleBoundGenericArgs r nominalType)
  | demangleBoundGenericType : Production E r (demangleBoundGenericType E r)
  | demangleProtocolList : Production E r (demangleProtocolList E r)
  | demangleProtocolConformance : Production E r (demangleProtocolConformance E r)
  | demangleEntity : Production E r (demangleEntity E r)
  | demangleDependentMemberTypeName (base : Node) : Production E r (demangleDependentMemberTypeName E r base)
  | demangleAssociatedTypeSimple : Production E r (demangleAssociatedTypeSimple E r)
  | demangleAssociatedTypeCompound : Production E r (demangleAssociatedTypeCompound E r)
  | demangleDependentType : Production E r (demangleDependentType E r)
  | demangleConstrainedTypeImpl : Production E r (demangleConstrainedTypeImpl E r)
  | demangleConstrainedType : Production E r (demangleConstrainedType E r)
  | demangleGenericRequirement : Production E r (demangleGenericRequirement E r)
  | demangleGenericSignature (isPseudogeneric : Bool) : Production E r (demangleGenericSignature E r isPseudogeneric)
  | demangleContext : Production E r (demangleContext E r)
  | demangleArchetypeType : Production E r (demangleArchetypeType E r)
  | demangleTuple (isV : Bool) : Production E r (demangleTuple E r isV)
  | demangleFunctionType (kind : Kind) : Production E r (demangleFunctionType r kind)
  | demangleImplParameterOrResult (kind : Kind) : Production E r (demangleImplParameterOrResult r kind)
  | demangleImplParameters (parent : Node) : Production E r (demangleImplParameters r parent)
  | demangleImplResults (parent : Node) : Production E r (demangleImplResults r parent)
  | demangleImplFunctionType : Production E r (demangleImplFunctionType E r)
  | demangleTypeImpl : Production E r (demangleTypeImpl E r)
  | demangleReabstractSignature (signature : Node) : Production E r (demangleReabstractSignature E r signature)
  | demangleGlobal : Production E r (demangleGlobal E r)
  | demangleGenericSpecialization (specialization : Node) : Production E r (demangleGenericSpecialization E r specialization)
  | demangleFuncSigSpecializationClosureProp (parent : Node) : Production E r (demangleFuncSigSpecializationClosureProp E r parent)
  | demangleFunctionSignatureSpecialization (specialization : Node) : Production E r (demangleFunctionSignatureSpecialization E r specialization)
  | demangleSpecializedAttribute : Production E r (demangleSpecializedAttribute E r)

/-- The node of a generic parameter: its text is the archetype name, and its children are
`Index depth` and `Index index`. -/
def genericParamNode (E : Env) (depth index : Nat) : Node :=
  Node.mk Kind.DependentGenericParamType (Payload.text (E.archetypeName index depth))
    [Node.mk Kind.Index (Payload.index depth) [], Node.mk Kind.Index (Payload.index index) []]

/-- The conventions of the implementation function types: the context, the sigil and the
attribute. -/
def implConventions : List (ImplConventionContext × Char × String) :=
  [(ImplConventionContext.Callee, 'd', "@callee_unowned"),
    (ImplConventionContext.Callee, 'g', "@callee_guaranteed"),
    (ImplConventionContext.Callee, 'o', "@callee_owned"),
    (ImplConventionContext.Parameter, 'd', "@unowned"),
    (ImplConventionContext.Parameter, 'g', "@guaranteed"),
    (ImplConventionContext.Parameter, 'e', "@deallocating"),
    (ImplConventionContext.Parameter, 'i', "@in"),
    (ImplConventionContext.Parameter, 'l', "@inout"),
    (ImplConventionContext.Parameter, 'o', "@owned"),
    (ImplConventionContext.Result, 'a', "@autoreleased"),
    (ImplConventionContext.Result, 'd', "@unowned"),
    (ImplConventionContext.Result, 'D', "@unowned_inner_pointer"),
    (ImplConventionContext.Result, 'i', "@out"),
    (ImplConventionContext.Result, 'o', "@owned")]

/-- The attribute that `implConventions` gives for the sigil in the context, if any. -/
def implConventionFor (ctxt : ImplConventionContext) (c : Char) : Option (List Char) :=
  (implConventions.find? (fun e => decide (e.1 = ctxt) && decide (e.2.1 = c))).map
    (fun e => e.2.2.toList)

/-- The sigils that `demangleImplConvention` consumes. -/
def implConventionSigils : List Char := "adDgeilo".toList

/-- The text that is left after the sigil `c`: the sigil is consumed when it is one of
`implConventionSigils`. -/
def afterImplConvention (c : Char) (t : List Char) : List Char :=
  if c ∈ implConventionSigils then t else c :: t

/-- The node of a parameter or result: `kind[ImplConvention attr, type]`. -/
def implParameterNode (kind : Kind) (attr : List Char) (type : Node) : Node :=
  Node.mk kind Payload.none [Node.mk Kind.ImplConvention (Payload.text attr) [], type]

/-- The children of a layout requirement after the constrained type and the code: the
size unless it is `SIZE_MAX`, and then the alignment unless it is `SIZE_MAX`. -/
def layoutNumbers (size alignment : Nat) : List Node :=
  if size = SIZE_MAX then []
  else Node.mk Kind.Number (Payload.index size) [] ::
    (if alignment = SIZE_MAX then [] else [Node.mk Kind.Number (Payload.index alignment) []])

/-- The node of a layout requirement. -/
def layoutRequirementNode (constrainedType : Node) (code : Char) (numbers : List Node) :
    Node :=
  Node.mk Kind.DependentGenericLayoutRequirement Payload.none
    (constrainedType :: Node.mk Kind.Identifier (Payload.text [code]) [] :: numbers)

/-- The run of the loop of `demangleBoundGenericArgs` over argument types: from the first
state, the types are decoded one after the other by `demangleType`, none of them starts at
a `_`, and text remains after each of them; the run ends in the last state. -/
inductive Arguments (r : Rec) : St → List Node → St → Prop where
  | done (s : St) : Arguments r s [] s
  | more (s s1 s2 : St) (type : Node) (types : List Node)
      (hstart : s.Mangled.head? ≠ some '_') (htype : demangleType r s = Res.ok type s1)
      (hleft : s1.Mangled ≠ []) (hrest : Arguments r s1 types s2) :
      Arguments r s (type :: types) s2

/-- The bound generic kinds: the kind of the nominal type and the kind of the node. -/
def boundGenericKinds : List (Kind × Kind) :=
  [(Kind.Class, Kind.BoundGenericClass), (Kind.Structure, Kind.BoundGenericStructure),
    (Kind.Enum, Kind.BoundGenericEnum)]

/-- The kinds of the results of an implementation function type. -/
def isImplResultKind (k : Kind) : Bool :=
  decide (k = Kind.ImplResult) || decide (k = Kind.ImplErrorResult)

/-- The node of a result with the attribute `attr` and the type `type`: an
`ImplErrorResult` when the result is introduced by the sigil `z`, an `ImplResult`
otherwise. -/
def implResult (z : Bool) (attr : String) (type : Node) : Node :=
  implParameterNode (if z then Kind.ImplErrorResult else Kind.ImplResult) attr.toList type

/-- The run of the loop of `demangleImplResults` over a list of results: from the first
state, each result is the sigil `z` or nothing (the flag), the sigil `c` of a result
convention and a type that `demangleType` decodes, and gives the node `implResult`; the
list ends at the terminator `_`, which is consumed. -/
inductive ImplResults (r : Rec) : St → List Bool → List Node → St → Prop where
  | done (s : St) (rest : List Char) (hend : s.Mangled = '_' :: rest) :
      ImplResults r s [] [] { s with Mangled := rest }
  | more (s s1 s2 : St) (z : Bool) (c : Char) (attr : String) (t : List Char) (type : Node)
      (zs : List Bool) (results : List Node)
      (htext : s.Mangled = (if z then ['z'] else []) ++ c :: t)
      (hconv : (ImplConventionContext.Result, c, attr) ∈ implConventions)
      (htype : demangleType r ⟨t, s.Substitutions⟩ = Res.ok type s1)
      (hrest : ImplResults r s1 zs results s2) :
      ImplResults r s (z :: zs) (implResult z attr type :: results) s2

/-- The node of an implementation function type with no result among its children. -/
def NoResults (node : Node) : Prop :=
  node.getKind = Kind.ImplFunctionType ∧ node.getPayload = Payload.none ∧
    ∀ c ∈ node.getChildren, isImplResultKind c.getKind = false

/-! ## Theorems -/

variable {F : Prop} {R : St → St → Prop} {α β : Type}

theorem Safe.pure (hR : StepRel R) {a : α} {s : St} {Q : α → St → Prop} (h : Q a s) :
    Safe F R (pure a : M α) s Q := ⟨hR.refl s, Nat.le_refl _, h⟩

theorem Safe.fail (hR : StepRel R) {s : St} {Q : α → St → Prop} :
    Safe F R (fail : M α) s Q := ⟨hR.refl s, Nat.le_refl _⟩

@[simp] theorem run_pure {α : Type} (a : α) (s : St) : (pure a : M α) s = Res.ok a s := rfl
@[simp] theorem run_bind {α β : Type} (m : M α) (f : α → M β) (s : St) :
    (m >>= f) s = match m s with
      | .ok a s1 => f a s1
      | .null s1 => .null s1
      | .fault => .fault
      | .fuel => .fuel := rfl

@[simp] theorem run_fail {α : Type} (s : St) : (fail : M α) s = Res.null s := rfl
theorem Safe.bind (hR : StepRel R) {m : M α} {f : α → M β} {s : St} {P : α → St → Prop}
    {Q : β → St → Prop} (h1 : Safe F R m s P)
    (h2 : ∀ a s1, s1.len ≤ s.len → P a s1 → Safe F R (f a) s1 Q) :
    Safe F R (m >>= f) s Q := by
  simp only [Safe, run_bind] at h1 ⊢
  cases hm : m s with
  | ok a s1 =>
    simp only [hm] at h1 ⊢
    obtain ⟨hr, hl, hp⟩ := h1
    have h3 := h2 a s1 hl hp
    simp only [Safe] at h3
    cases hf : f a s1 with
    | ok b s2 =>
      simp only [hf] at h3 ⊢
      exact ⟨hR.trans hr h3.1, Nat.le_trans h3.2.1 hl, h3.2.2⟩
    | null s2 =>
      simp only [hf] at h3 ⊢
      exact ⟨hR.trans hr h3.1, Nat.le_trans h3.2 hl⟩
    | fault => trivial
    | fuel => simp only [hf] at h3 ⊢; exact h3
  | null s1 => simp only [hm] at h1 ⊢; exact h1
  | fault => trivial
  | fuel => simp only [hm] at h1 ⊢; exact h1

theorem Safe.mono {m : M α} {s : St} {P Q : α → St → Prop} (h1 : Safe F R m s P)
    (h2 : ∀ a s1, s1.len ≤ s.len → P a s1 → Q a s1) : Safe F R m s Q := by
  unfold Safe at h1 ⊢
  cases hm : m s with
  | ok a s1 => rw [hm] at h1; exact ⟨h1.1, h1.2.1, h2 a s1 h1.2.1 h1.2.2⟩
  | null s1 => rw [hm] at h1; exact h1
  | fault => trivial
  | fuel => rw [hm] at h1; exact h1

theorem St.len_cursor (s : St) (t : List Char) : St.len { s with Mangled := t } = t.length := rfl

/-- A step that moves the cursor to a suffix of the text. -/
theorem Safe.step (hR : StepRel R) {s : St} {t : List Char} {a : α} {Q : α → St → Prop}
    (ht : t <:+ s.Mangled) (h : Q a { s with Mangled := t }) :
    Safe F R (fun s : St => Res.ok a { s with Mangled := t }) s Q := 
  ⟨hR.cursor s t ht, ht.length_le, h⟩

theorem run_isEmpty (s : St) : isEmpty s = Res.ok s.Mangled.isEmpty s := rfl

theorem run_nonEmpty (s : St) : nonEmpty s = Res.ok (!s.Mangled.isEmpty) s := rfl

theorem run_peek (s : St) : peek s = Res.ok (s.Mangled.headD '.') s := by
  unfold peek; cases s.Mangled <;> rfl

theorem run_advanceOffset (k : Nat) (s : St) :
    advanceOffset k s = Res.ok () { s with Mangled := s.Mangled.drop k } := rfl

theorem run_next (s : St) : next s = Res.ok (s.Mangled.headD '.') { s with Mangled := s.Mangled.tail } := by
  obtain ⟨t, u⟩ := s
  cases t <;> rfl

theorem run_nextIf (c : Char) (s : St) :
    nextIf c s = if s.Mangled.head? = some c then Res.ok true { s with Mangled := s.Mangled.tail }
      else Res.ok false s := by
  obtain ⟨t, u⟩ := s
  cases t with
  | nil => rfl
  | cons x t =>
    simp only [nextIf, run_bind, run_isEmpty, run_peek, List.isEmpty_cons, List.headD_cons,
      List.head?_cons, Option.some.injEq, List.tail_cons]
    by_cases h : x = c <;> simp [h, run_advanceOffset, run_peek]

theorem isEmpty_safe (hR : StepRel R) (s : St) :
    Safe F R isEmpty s (fun b s1 => s1 = s ∧ (b = true ↔ s.len = 0)) := by
  refine ⟨hR.refl s, Nat.le_refl _, rfl, ?_⟩
  simp [St.len, List.isEmpty_iff]

theorem Safe.of_run {m : M α} {s s1 : St} {a : α} {Q : α → St → Prop}
    (hm : m s = Res.ok a s1) (hr : R s s1) (hl : s1.len ≤ s.len) (hq : Q a s1) :
    Safe F R m s Q := by
  simp only [Safe, hm]; exact ⟨hr, hl, hq⟩

/-- A primitive that leaves the state as it is: the rest runs from the same state. -/
theorem Safe.bind_same (hR : StepRel R) {m : M α} {f : α → M β} {s : St} {a : α}
    {Q : β → St → Prop} (hm : m s = Res.ok a s) (h : Safe F R (f a) s Q) :
    Safe F R (m >>= f) s Q := by
  simp only [Safe, run_bind, hm] at h ⊢; exact h

/-- A primitive that moves the cursor: the rest runs from the new state. -/
theorem Safe.bind_step (hR : StepRel R) {m : M α} {f : α → M β} {s : St} {a : α}
    {t : List Char} {Q : β → St → Prop} (hm : m s = Res.ok a { s with Mangled := t })
    (ht : t <:+ s.Mangled) (h : Safe F R (f a) { s with Mangled := t } Q) :
    Safe F R (m >>= f) s Q :=
  Safe.bind hR (P := fun b s1 => b = a ∧ s1 = { s with Mangled := t })
    (Safe.of_run hm (hR.cursor s t ht) ht.length_le ⟨rfl, rfl⟩)
    (fun b s1 _ hb => by rw [hb.1, hb.2]; exact h)

theorem Safe.ite_isEmpty (hR : StepRel R) {A B : M β} {s : St} {Q : β → St → Prop}
    (hA : s.len = 0 → Safe F R A s Q) (hB : 0 < s.len → Safe F R B s Q) :
    Safe F R (do if (← isEmpty) then A else B) s Q := by
  refine Safe.bind_same hR (run_isEmpty s) ?_
  cases h : s.Mangled with
  | nil => simpa using hA (by simp [St.len, h])
  | cons x t => simpa using hB (by simp [St.len, h])

theorem Safe.ite_not_isEmpty (hR : StepRel R) {A B : M β} {s : St} {Q : β → St → Prop}
    (hA : 0 < s.len → Safe F R A s Q) (hB : s.len = 0 → Safe F R B s Q) :
    Safe F R (do if !(← isEmpty) then A else B) s Q := by
  refine Safe.bind_same hR (run_isEmpty s) ?_
  cases h : s.Mangled with
  | nil => simpa using hB (by simp [St.len, h])
  | cons x t => simpa using hA (by simp [St.len, h])

theorem Safe.ite_nonEmpty (hR : StepRel R) {A B : M β} {s : St} {Q : β → St → Prop}
    (hA : 0 < s.len → Safe F R A s Q) (hB : s.len = 0 → Safe F R B s Q) :
    Safe F R (do if (← nonEmpty) then A else B) s Q := by
  refine Safe.bind_same hR (run_nonEmpty s) ?_
  cases h : s.Mangled with
  | nil => simpa using hB (by simp [St.len, h])
  | cons x t => simpa using hA (by simp [St.len, h])

theorem Safe.ite_not_nonEmpty (hR : StepRel R) {A B : M β} {s : St} {Q : β → St → Prop}
    (hA : s.len = 0 → Safe F R A s Q) (hB : 0 < s.len → Safe F R B s Q) :
    Safe F R (do if !(← nonEmpty) then A else B) s Q := by
  refine Safe.bind_same hR (run_nonEmpty s) ?_
  cases h : s.Mangled with
  | nil => simpa using hA (by simp [St.len, h])
  | cons x t => simpa using hB (by simp [St.len, h])

theorem Safe.bind_peek (hR : StepRel R) {f : Char → M β} {s : St} {Q : β → St → Prop}
    (h : ∀ c, Safe F R (f c) s Q) : Safe F R (peek >>= f) s Q :=
  Safe.bind_same hR (run_peek s) (h _)

theorem Safe.bind_next (hR : StepRel R) {f : Char → M β} {s : St} {Q : β → St → Prop}
    (h : ∀ c s1, s1.len = s.len - 1 → Safe F R (f c) s1 Q) : Safe F R (next >>= f) s Q :=
  Safe.bind_step hR (run_next s) (List.tail_suffix _) (h _ _ (by simp [St.len]))

theorem Safe.bind_nextIf (hR : StepRel R) {f : Bool → M β} {s : St} {Q : β → St → Prop}
    (hA : ∀ s1, s1.len + 1 = s.len → Safe F R (f true) s1 Q) (hB : Safe F R (f false) s Q)
    (c : Char) : Safe F R (nextIf c >>= f) s Q := by
  by_cases h : s.Mangled.head? = some c
  · refine Safe.bind_step hR (by rw [run_nextIf, if_pos h]) (List.tail_suffix _) (hA _ ?_)
    cases hs : s.Mangled with
    | nil => simp [hs] at h
    | cons x t => simp [St.len, hs]
  · exact Safe.bind_same hR (by rw [run_nextIf, if_neg h]) hB

theorem Safe.ite_nextIf (hR : StepRel R) {A B : M β} {s : St} {Q : β → St → Prop} (c : Char)
    (hA : ∀ s1, s1.len + 1 = s.len → Safe F R A s1 Q) (hB : Safe F R B s Q) :
    Safe F R (do if (← nextIf c) then A else B) s Q :=
  Safe.bind_nextIf hR (by simpa using hA) (by simpa using hB) c

theorem Safe.ite_not_nextIf (hR : StepRel R) {A B : M β} {s : St} {Q : β → St → Prop}
    (c : Char) (hA : Safe F R A s Q) (hB : ∀ s1, s1.len + 1 = s.len → Safe F R B s1 Q) :
    Safe F R (do if !(← nextIf c) then A else B) s Q :=
  Safe.bind_nextIf hR (by simpa using hB) (by simpa using hA) c

theorem Safe.bind_nextIfStr (hR : StepRel R) {f : Bool → M β} {s : St} {Q : β → St → Prop}
    (str : List Char) (hstr : 0 < str.length)
    (hA : ∀ s1, s1.len < s.len → Safe F R (f true) s1 Q) (hB : Safe F R (f false) s Q) :
    Safe F R (nextIfStr str >>= f) s Q := by
  by_cases h : str.isPrefixOf s.Mangled
  · have hp : str <+: s.Mangled := by simpa using h
    refine Safe.bind_step hR (t := s.Mangled.drop str.length)
      (by simp only [NameSource.nextIfStr, if_pos h]) (List.drop_suffix _ _) (hA _ ?_)
    have := hp.length_le
    simp only [St.len, List.length_drop]
    omega
  · exact Safe.bind_same hR (by simp only [NameSource.nextIfStr, if_neg h]) hB

theorem Safe.ite_nextIfStr (hR : StepRel R) {A B : M β} {s : St} {Q : β → St → Prop}
    (str : List Char) (hstr : 0 < str.length)
    (hA : ∀ s1, s1.len < s.len → Safe F R A s1 Q) (hB : Safe F R B s Q) :
    Safe F R (do if (← nextIfStr str) then A else B) s Q :=
  Safe.bind_nextIfStr hR str hstr (by simpa using hA) (by simpa using hB)

theorem Safe.ite_not_nextIfStr (hR : StepRel R) {A B : M β} {s : St} {Q : β → St → Prop}
    (str : List Char) (hstr : 0 < str.length)
    (hA : Safe F R A s Q) (hB : ∀ s1, s1.len < s.len → Safe F R B s1 Q) :
    Safe F R (do if !(← nextIfStr str) then A else B) s Q :=
  Safe.bind_nextIfStr hR str hstr (by simpa using hB) (by simpa using hA)

/-- The goal is about a run. -/
theorem Safe.here {m : M α} {s : St} {Q : α → St → Prop} (h : Safe F R m s Q) :
    Safe F R m s Q := h

theorem Safe.ite {c : Prop} [Decidable c] {A B : M α} {s : St} {Q : α → St → Prop}
    (hA : c → Safe F R A s Q) (hB : ¬ c → Safe F R B s Q) :
    Safe F R (if c then A else B) s Q := by
  by_cases h : c
  · rw [if_pos h]; exact hA h
  · rw [if_neg h]; exact hB h

theorem run_hasAtLeast (len : Nat) (s : St) :
    hasAtLeast len s = Res.ok (decide (len ≤ s.Mangled.length)) s := rfl

theorem run_slice (len : Nat) (s : St) : slice len s = Res.ok (s.Mangled.take len) s := rfl

theorem run_getSubstitutions (s : St) : getSubstitutions s = Res.ok s.Substitutions s := rfl

theorem advanceOffset_safe (hR : StepRel R) (len : Nat) (s : St) :
    Safe F R (advanceOffset len) s (fun _ _ => True) :=
  ⟨hR.cursor _ _ (List.drop_suffix _ _), (List.drop_suffix _ _).length_le, trivial⟩

theorem pushSubstitution_safe (hR : StepRel R) (n : Node) (s : St) :
    Safe F R (pushSubstitution n) s (fun _ s1 => s1.len = s.len) :=
  ⟨hR.push s n, Nat.le_refl _, rfl⟩

theorem getChild_safe (hR : StepRel R) (n : Node) (i : Nat) (s : St) :
    Safe F R (getChild n i) s (fun _ s1 => s1.len = s.len) := by
  unfold Safe getChild
  cases n.getChildren.get? i with
  | none => trivial
  | some c => exact ⟨hR.refl s, Nat.le_refl _, rfl⟩

theorem Safe.bind_attempt (hR : StepRel R) {m : M α} {f : Option α → M β} {s : St}
    {P : α → St → Prop} {Q : β → St → Prop} (h1 : Safe F R m s P)
    (h2 : ∀ a s1, s1.len ≤ s.len → P a s1 → Safe F R (f (some a)) s1 Q)
    (h3 : ∀ s1, s1.len ≤ s.len → Safe F R (f Option.none) s1 Q) :
    Safe F R (attempt m >>= f) s Q := by
  refine Safe.bind hR (P := fun o s1 => ∀ a, o = some a → P a s1) ?_ ?_
  · simp only [Safe, attempt] at h1 ⊢
    cases hm : m s with
    | ok a s1 =>
      simp only [hm] at h1 ⊢
      exact ⟨h1.1, h1.2.1, fun b hb => by cases hb; exact h1.2.2⟩
    | null s1 =>
      simp only [hm] at h1 ⊢
      exact ⟨h1.1, h1.2, fun b hb => by cases hb⟩
    | fault => trivial
    | fuel => simp only [hm] at h1 ⊢; exact h1
  · intro o s1 hl hp
    cases o with
    | none => exact h3 s1 hl
    | some a => exact h2 a s1 hl (hp a rfl)

theorem demangleNaturalLoop_suffix (t : List Char) (num : Nat) :
    (demangleNaturalLoop t num).2 <:+ t := by
  induction t generalizing num with
  | nil => exact List.suffix_refl _
  | cons c t ih =>
    unfold demangleNaturalLoop
    split
    · exact List.suffix_refl _
    · exact (ih _).trans (List.suffix_cons c t)

theorem readUntilText_suffix (c : Char) (t result : List Char) :
    (readUntilText c t result).2.2 <:+ t := by
  induction t generalizing result with
  | nil => exact List.suffix_refl _
  | cons c2 t ih =>
    unfold readUntilText
    split
    · exact (ih _).trans (List.suffix_cons c2 t)
    · exact List.suffix_refl _

theorem readUntil_safe (hR : StepRel R) (c : Char) (result : List Char) (s : St) :
    Safe F R (readUntil c result) s (fun _ _ => True) := by
  have hs := readUntilText_suffix c s.Mangled result
  exact ⟨hR.cursor _ _ hs, hs.length_le, trivial⟩

theorem demangleNatural_safe (hR : StepRel R) (s : St) :
    Safe F R (demangleNatural) s (fun _ s1 => s1.len < s.len) := by
  unfold demangleNatural
  refine Safe.ite_not_nonEmpty hR (fun _ => Safe.fail hR) (fun h0 => ?_)
  refine Safe.bind_next hR (fun c s1 h1 => ?_)
  split
  · exact Safe.fail hR
  · have hs := demangleNaturalLoop_suffix s1.Mangled (c.toNat - '0'.toNat)
    refine ⟨hR.cursor _ _ hs, hs.length_le, ?_⟩
    have := hs.length_le
    simp only [St.len] at *
    omega

theorem demangleDirectness_safe (hR : StepRel R) (E : Env) (s : St) :
    Safe F R (demangleDirectness E) s (fun _ s1 => s1.len < s.len) := by
  unfold demangleDirectness
  repeat' first
    | ((with_reducible apply Safe.here); first
        | with_reducible apply Safe.fail hR
        | with_reducible apply Safe.pure hR
        | with_reducible apply Safe.ite_nextIf hR _
        | with_reducible apply Safe.ite_not_nextIf hR _
        | with_reducible apply Safe.ite_nextIfStr hR _
        | with_reducible apply Safe.ite_not_nextIfStr hR _
        | with_reducible apply Safe.ite_nonEmpty hR
        | with_reducible apply Safe.ite_not_nonEmpty hR
        | with_reducible apply Safe.ite_isEmpty hR
        | with_reducible apply Safe.ite_not_isEmpty hR
        | with_reducible apply Safe.bind_nextIf hR ?_ ?_ _
        | with_reducible apply Safe.bind_nextIfStr hR _
        | with_reducible apply Safe.bind_peek hR
        | with_reducible apply Safe.bind_next hR
        | with_reducible apply Safe.bind_same hR (run_hasAtLeast _ _)
        | with_reducible apply Safe.bind_same hR (run_slice _ _)
        | with_reducible apply Safe.bind_same hR (run_getSubstitutions _)
        | with_reducible apply Safe.ite
        | with_reducible apply Safe.bind hR (P := fun _ _ => True)
        | split
        | simp only [])
    | ((fail_if_success with_reducible apply Safe.here); first
        | intro _
        | omega
        | with_reducible exact trivial
        | contradiction
        | decide
        | dsimp only)

theorem demangleBuiltinSize_safe (hR : StepRel R) (s : St) :
    Safe F R (demangleBuiltinSize) s (fun _ s1 => s1.len < s.len) := by
  unfold demangleBuiltinSize
  repeat' first
    | ((with_reducible apply Safe.here); first
        | with_reducible apply Safe.fail hR
        | with_reducible apply Safe.pure hR
        | with_reducible apply Safe.ite_nextIf hR _
        | with_reducible apply Safe.ite_not_nextIf hR _
        | with_reducible apply Safe.ite_nextIfStr hR _
        | with_reducible apply Safe.ite_not_nextIfStr hR _
        | with_reducible apply Safe.ite_nonEmpty hR
        | with_reducible apply Safe.ite_not_nonEmpty hR
        | with_reducible apply Safe.ite_isEmpty hR
        | with_reducible apply Safe.ite_not_isEmpty hR
        | with_reducible apply Safe.bind_nextIf hR ?_ ?_ _
        | with_reducible apply Safe.bind_nextIfStr hR _
        | with_reducible apply Safe.bind_peek hR
        | with_reducible apply Safe.bind_next hR
        | with_reducible apply Safe.bind_same hR (run_hasAtLeast _ _)
        | with_reducible apply Safe.bind_same hR (run_slice _ _)
        | with_reducible apply Safe.bind_same hR (run_getSubstitutions _)
        | with_reducible apply Safe.bind hR (demangleNatural_safe hR _)
        | with_reducible apply demangleNatural_safe hR _
        | with_reducible apply Safe.mono (demangleNatural_safe hR _)
        | with_reducible apply Safe.ite
        | with_reducible apply Safe.bind hR (P := fun _ _ => True)
        | split
        | simp only [])
    | ((fail_if_success with_reducible apply Safe.here); first
        | intro _
        | omega
        | with_reducible exact trivial
        | contradiction
        | decide
        | dsimp only)

theorem demangleValueWitnessKind_safe (hR : StepRel R) (s : St) :
    Safe F R (demangleValueWitnessKind) s (fun _ _ => True) := by
  unfold demangleValueWitnessKind
  repeat' first
    | ((with_reducible apply Safe.here); first
        | with_reducible apply Safe.fail hR
        | with_reducible apply Safe.pure hR
        | with_reducible apply Safe.ite_nextIf hR _
        | with_reducible apply Safe.ite_not_nextIf hR _
        | with_reducible apply Safe.ite_nextIfStr hR _
        | with_reducible apply Safe.ite_not_nextIfStr hR _
        | with_reducible apply Safe.ite_nonEmpty hR
        | with_reducible apply Safe.ite_not_nonEmpty hR
        | with_reducible apply Safe.ite_isEmpty hR
        | with_reducible apply Safe.ite_not_isEmpty hR
        | with_reducible apply Safe.bind_nextIf hR ?_ ?_ _
        | with_reducible apply Safe.bind_nextIfStr hR _
        | with_reducible apply Safe.bind_peek hR
        | with_reducible apply Safe.bind_next hR
        | with_reducible apply Safe.bind_same hR (run_hasAtLeast _ _)
        | with_reducible apply Safe.bind_same hR (run_slice _ _)
        | with_reducible apply Safe.bind_same hR (run_getSubstitutions _)
        | with_reducible apply Safe.ite
        | with_reducible apply Safe.bind hR (P := fun _ _ => True)
        | split
        | simp only [])
    | ((fail_if_success with_reducible apply Safe.here); first
        | intro _
        | omega
        | with_reducible exact trivial
        | contradiction
        | decide
        | dsimp only)

theorem demangleIdentifierPayload_safe (hR : StepRel R) (E : Env) (isPunycoded : Bool) (isOperator : Bool) (kind : Kind) (s : St) :
    Safe F R (demangleIdentifierPayload E isPunycoded isOperator kind) s (fun _ s1 => s1.len < s.len) := by
  unfold demangleIdentifierPayload
  repeat' first
    | ((with_reducible apply Safe.here); first
        | with_reducible apply Safe.fail hR
        | with_reducible apply Safe.pure hR
        | with_reducible apply Safe.ite_nextIf hR _
        | with_reducible apply Safe.ite_not_nextIf hR _
        | with_reducible apply Safe.ite_nextIfStr hR _
        | with_reducible apply Safe.ite_not_nextIfStr hR _
        | with_reducible apply Safe.ite_nonEmpty hR
        | with_reducible apply Safe.ite_not_nonEmpty hR
        | with_reducible apply Safe.ite_isEmpty hR
        | with_reducible apply Safe.ite_not_isEmpty hR
        | with_reducible apply Safe.bind_nextIf hR ?_ ?_ _
        | with_reducible apply Safe.bind_nextIfStr hR _
        | with_reducible apply Safe.bind_peek hR
        | with_reducible apply Safe.bind_next hR
        | with_reducible apply Safe.bind_same hR (run_hasAtLeast _ _)
        | with_reducible apply Safe.bind_same hR (run_slice _ _)
        | with_reducible apply Safe.bind_same hR (run_getSubstitutions _)
        | with_reducible apply Safe.bind hR (demangleNatural_safe hR _)
        | with_reducible apply Safe.bind hR (advanceOffset_safe hR _ _)
        | with_reducible apply demangleNatural_safe hR _
        | with_reducible apply advanceOffset_safe hR _ _
        | with_reducible apply Safe.mono (demangleNatural_safe hR _)
        | with_reducible apply Safe.mono (advanceOffset_safe hR _ _)
        | with_reducible apply Safe.ite
        | with_reducible apply Safe.bind hR (P := fun _ _ => True)
        | split
        | simp only [])
    | ((fail_if_success with_reducible apply Safe.here); first
        | intro _
        | omega
        | with_reducible exact trivial
        | contradiction
        | decide
        | dsimp only)

theorem demangleIdentifier_safe (hR : StepRel R) (E : Env) (kind : Option Kind) (s : St) :
    Safe F R (demangleIdentifier E kind) s (fun _ s1 => s1.len < s.len) := by
  unfold demangleIdentifier
  repeat' first
    | ((with_reducible apply Safe.here); first
        | with_reducible apply Safe.fail hR
        | with_reducible apply Safe.pure hR
        | with_reducible apply Safe.ite_nextIf hR _
        | with_reducible apply Safe.ite_not_nextIf hR _
        | with_reducible apply Safe.ite_nextIfStr hR _
        | with_reducible apply Safe.ite_not_nextIfStr hR _
        | with_reducible apply Safe.ite_nonEmpty hR
        | with_reducible apply Safe.ite_not_nonEmpty hR
        | with_reducible apply Safe.ite_isEmpty hR
        | with_reducible apply Safe.ite_not_isEmpty hR
        | with_reducible apply Safe.bind_nextIf hR ?_ ?_ _
        | with_reducible apply Safe.bind_nextIfStr hR _
        | with_reducible apply Safe.bind_peek hR
        | with_reducible apply Safe.bind_next hR
        | with_reducible apply Safe.bind_same hR (run_hasAtLeast _ _)
        | with_reducible apply Safe.bind_same hR (run_slice _ _)
        | with_reducible apply Safe.bind_same hR (run_getSubstitutions _)
        | with_reducible apply Safe.bind hR (demangleIdentifierPayload_safe hR _ _ _ _ _)
        | with_reducible apply demangleIdentifierPayload_safe hR _ _ _ _ _
        | with_reducible apply Safe.mono (demangleIdentifierPayload_safe hR _ _ _ _ _)
        | with_reducible apply Safe.ite
        | with_reducible apply Safe.bind hR (P := fun _ _ => True)
        | split
        | simp only [])
    | ((fail_if_success with_reducible apply Safe.here); first
        | intro _
        | omega
        | with_reducible exact trivial
        | contradiction
        | decide
        | dsimp only)

theorem demangleIndex_safe (hR : StepRel R) (s : St) :
    Safe F R (demangleIndex) s (fun _ s1 => s1.len < s.len) := by
  unfold demangleIndex
  refine Safe.ite_nextIf hR _ (fun s1 h1 => Safe.pure hR (by omega)) ?_
  refine Safe.bind_attempt hR (demangleNatural_safe hR s) (fun a s1 hl hp => ?_)
    (fun s1 hl => Safe.fail hR)
  refine Safe.ite_not_nextIf hR _ (Safe.fail hR) (fun s2 h2 => Safe.pure hR (by omega))

theorem demangleIndexAsNode_safe (hR : StepRel R) (kind : Kind) (s : St) :
    Safe F R (demangleIndexAsNode kind) s (fun _ s1 => s1.len < s.len) := by
  unfold demangleIndexAsNode
  repeat' first
    | ((with_reducible apply Safe.here); first
        | with_reducible apply Safe.fail hR
        | with_reducible apply Safe.pure hR
        | with_reducible apply Safe.ite_nextIf hR _
        | with_reducible apply Safe.ite_not_nextIf hR _
        | with_reducible apply Safe.ite_nextIfStr hR _
        | with_reducible apply Safe.ite_not_nextIfStr hR _
        | with_reducible apply Safe.ite_nonEmpty hR
        | with_reducible apply Safe.ite_not_nonEmpty hR
        | with_reducible apply Safe.ite_isEmpty hR
        | with_reducible apply Safe.ite_not_isEmpty hR
        | with_reducible apply Safe.bind_nextIf hR ?_ ?_ _
        | with_reducible apply Safe.bind_nextIfStr hR _
        | with_reducible apply Safe.bind_peek hR
        | with_reducible apply Safe.bind_next hR
        | with_reducible apply Safe.bind_same hR (run_hasAtLeast _ _)
        | with_reducible apply Safe.bind_same hR (run_slice _ _)
        | with_reducible apply Safe.bind_same hR (run_getSubstitutions _)
        | with_reducible apply Safe.bind hR (demangleIndex_safe hR _)
        | with_reducible apply demangleIndex_safe hR _
        | with_reducible apply Safe.mono (demangleIndex_safe hR _)
        | with_reducible apply Safe.ite
        | with_reducible apply Safe.bind hR (P := fun _ _ => True)
        | split
        | simp only [])
    | ((fail_if_success with_reducible apply Safe.here); first
        | intro _
        | omega
        | with_reducible exact trivial
        | contradiction
        | decide
        | dsimp only)

theorem demangleSubstitutionIndex_safe (hR : StepRel R) (E : Env) (s : St) :
    Safe F R (demangleSubstitutionIndex E) s (fun _ s1 => s1.len < s.len) := by
  unfold demangleSubstitutionIndex
  repeat' first
    | ((with_reducible apply Safe.here); first
        | with_reducible apply Safe.fail hR
        | with_reducible apply Safe.pure hR
        | with_reducible apply Safe.ite_nextIf hR _
        | with_reducible apply Safe.ite_not_nextIf hR _
        | with_reducible apply Safe.ite_nextIfStr hR _
        | with_reducible apply Safe.ite_not_nextIfStr hR _
        | with_reducible apply Safe.ite_nonEmpty hR
        | with_reducible apply Safe.ite_not_nonEmpty hR
        | with_reducible apply Safe.ite_isEmpty hR
        | with_reducible apply Safe.ite_not_isEmpty hR
        | with_reducible apply Safe.bind_nextIf hR ?_ ?_ _
        | with_reducible apply Safe.bind_nextIfStr hR _
        | with_reducible apply Safe.bind_peek hR
        | with_reducible apply Safe.bind_next hR
        | with_reducible apply Safe.bind_same hR (run_hasAtLeast _ _)
        | with_reducible apply Safe.bind_same hR (run_slice _ _)
        | with_reducible apply Safe.bind_same hR (run_getSubstitutions _)
        | with_reducible apply Safe.bind hR (demangleIndex_safe hR _)
        | with_reducible apply demangleIndex_safe hR _
        | with_reducible apply Safe.mono (demangleIndex_safe hR _)
        | with_reducible apply Safe.ite
        | with_reducible apply Safe.bind hR (P := fun _ _ => True)
        | split
        | simp only [])
    | ((fail_if_success with_reducible apply Safe.here); first
        | intro _
        | omega
        | with_reducible exact trivial
        | contradiction
        | decide
        | dsimp only)

theorem demangleDeclName_safe (hR : StepRel R) (E : Env) (s : St) :
    Safe F R (demangleDeclName E) s (fun _ s1 => s1.len < s.len) := by
  unfold demangleDeclName
  repeat' first
    | ((with_reducible apply Safe.here); first
        | with_reducible apply Safe.fail hR
        | with_reducible apply Safe.pure hR
        | with_reducible apply Safe.ite_nextIf hR _
        | with_reducible apply Safe.ite_not_nextIf hR _
        | with_reducible apply Safe.ite_nextIfStr hR _
        | with_reducible apply Safe.ite_not_nextIfStr hR _
        | with_reducible apply Safe.ite_nonEmpty hR
        | with_reducible apply Safe.ite_not_nonEmpty hR
        | with_reducible apply Safe.ite_isEmpty hR
        | with_reducible apply Safe.ite_not_isEmpty hR
        | with_reducible apply Safe.bind_nextIf hR ?_ ?_ _
        | with_reducible apply Safe.bind_nextIfStr hR _
        | with_reducible apply Safe.bind_peek hR
        | with_reducible apply Safe.bind_next hR
        | with_reducible apply Safe.bind_same hR (run_hasAtLeast _ _)
        | with_reducible apply Safe.bind_same hR (run_slice _ _)
        | with_reducible apply Safe.bind_same hR (run_getSubstitutions _)
        | with_reducible apply Safe.bind hR (demangleIndexAsNode_safe hR _ _)
        | with_reducible apply Safe.bind hR (demangleIdentifier_safe hR _ _ _)
        | with_reducible apply demangleIndexAsNode_safe hR _ _
        | with_reducible apply demangleIdentifier_safe hR _ _ _
        | with_reducible apply Safe.mono (demangleIndexAsNode_safe hR _ _)
        | with_reducible apply Safe.mono (demangleIdentifier_safe hR _ _ _)
        | with_reducible apply Safe.ite
        | with_reducible apply Safe.bind hR (P := fun _ _ => True)
        | split
        | simp only [])
    | ((fail_if_success with_reducible apply Safe.here); first
        | intro _
        | omega
        | with_reducible exact trivial
        | contradiction
        | decide
        | dsimp only)

theorem demangleModule_safe (hR : StepRel R) (E : Env) (s : St) :
    Safe F R (demangleModule E) s (fun _ s1 => s1.len < s.len) := by
  unfold demangleModule
  repeat' first
    | ((with_reducible apply Safe.here); first
        | with_reducible apply Safe.fail hR
        | with_reducible apply Safe.pure hR
        | with_reducible apply Safe.ite_nextIf hR _
        | with_reducible apply Safe.ite_not_nextIf hR _
        | with_reducible apply Safe.ite_nextIfStr hR _
        | with_reducible apply Safe.ite_not_nextIfStr hR _
        | with_reducible apply Safe.ite_nonEmpty hR
        | with_reducible apply Safe.ite_not_nonEmpty hR
        | with_reducible apply Safe.ite_isEmpty hR
        | with_reducible apply Safe.ite_not_isEmpty hR
        | with_reducible apply Safe.bind_nextIf hR ?_ ?_ _
        | with_reducible apply Safe.bind_nextIfStr hR _
        | with_reducible apply Safe.bind_peek hR
        | with_reducible apply Safe.bind_next hR
        | with_reducible apply Safe.bind_same hR (run_hasAtLeast _ _)
        | with_reducible apply Safe.bind_same hR (run_slice _ _)
        | with_reducible apply Safe.bind_same hR (run_getSubstitutions _)
        | with_reducible apply Safe.bind hR (demangleSubstitutionIndex_safe hR _ _)
        | with_reducible apply Safe.bind hR (demangleIdentifier_safe hR _ _ _)
        | with_reducible apply Safe.bind hR (pushSubstitution_safe hR _ _)
        | with_reducible apply demangleSubstitutionIndex_safe hR _ _
        | with_reducible apply demangleIdentifier_safe hR _ _ _
        | with_reducible apply pushSubstitution_safe hR _ _
        | with_reducible apply Safe.mono (demangleSubstitutionIndex_safe hR _ _)
        | with_reducible apply Safe.mono (demangleIdentifier_safe hR _ _ _)
        | with_reducible apply Safe.mono (pushSubstitution_safe hR _ _)
        | with_reducible apply Safe.ite
        | with_reducible apply Safe.bind hR (P := fun _ _ => True)
        | split
        | simp only [])
    | ((fail_if_success with_reducible apply Safe.here); first
        | intro _
        | omega
        | with_reducible exact trivial
        | contradiction
        | decide
        | dsimp only)

theorem demangleProtocolNameGivenContext_safe (hR : StepRel R) (E : Env) (context : Node) (s : St) :
    Safe F R (demangleProtocolNameGivenContext E context) s (fun _ s1 => s1.len < s.len) := by
  unfold demangleProtocolNameGivenContext
  repeat' first
    | ((with_reducible apply Safe.here); first
        | with_reducible apply Safe.fail hR
        | with_reducible apply Safe.pure hR
        | with_reducible apply Safe.ite_nextIf hR _
        | with_reducible apply Safe.ite_not_nextIf hR _
        | with_reducible apply Safe.ite_nextIfStr hR _
        | with_reducible apply Safe.ite_not_nextIfStr hR _
        | with_reducible apply Safe.ite_nonEmpty hR
        | with_reducible apply Safe.ite_not_nonEmpty hR
        | with_reducible apply Safe.ite_isEmpty hR
        | with_reducible apply Safe.ite_not_isEmpty hR
        | with_reducible apply Safe.bind_nextIf hR ?_ ?_ _
        | with_reducible apply Safe.bind_nextIfStr hR _
        | with_reducible apply Safe.bind_peek hR
        | with_reducible apply Safe.bind_next hR
        | with_reducible apply Safe.bind_same hR (run_hasAtLeast _ _)
        | with_reducible apply Safe.bind_same hR (run_slice _ _)
        | with_reducible apply Safe.bind_same hR (run_getSubstitutions _)
        | with_reducible apply Safe.bind hR (demangleDeclName_safe hR _ _)
        | with_reducible apply Safe.bind hR (pushSubstitution_safe hR _ _)
        | with_reducible apply demangleDeclName_safe hR _ _
        | with_reducible apply pushSubstitution_safe hR _ _
        | with_reducible apply Safe.mono (demangleDeclName_safe hR _ _)
        | with_reducible apply Safe.mono (pushSubstitution_safe hR _ _)
        | with_reducible apply Safe.ite
        | with_reducible apply Safe.bind hR (P := fun _ _ => True)
        | split
        | simp only [])
    | ((fail_if_success with_reducible apply Safe.here); first
        | intro _
        | omega
        | with_reducible exact trivial
        | contradiction
        | decide
        | dsimp only)

theorem demangleGenericParamIndex_safe (hR : StepRel R) (E : Env) (s : St) :
    Safe F R (demangleGenericParamIndex E) s (fun _ s1 => s1.len < s.len) := by
  unfold demangleGenericParamIndex
  repeat' first
    | ((with_reducible apply Safe.here); first
        | with_reducible apply Safe.fail hR
        | with_reducible apply Safe.pure hR
        | with_reducible apply Safe.ite_nextIf hR _
        | with_reducible apply Safe.ite_not_nextIf hR _
        | with_reducible apply Safe.ite_nextIfStr hR _
        | with_reducible apply Safe.ite_not_nextIfStr hR _
        | with_reducible apply Safe.ite_nonEmpty hR
        | with_reducible apply Safe.ite_not_nonEmpty hR
        | with_reducible apply Safe.ite_isEmpty hR
        | with_reducible apply Safe.ite_not_isEmpty hR
        | with_reducible apply Safe.bind_nextIf hR ?_ ?_ _
        | with_reducible apply Safe.bind_nextIfStr hR _
        | with_reducible apply Safe.bind_peek hR
        | with_reducible apply Safe.bind_next hR
        | with_reducible apply Safe.bind_same hR (run_hasAtLeast _ _)
        | with_reducible apply Safe.bind_same hR (run_slice _ _)
        | with_reducible apply Safe.bind_same hR (run_getSubstitutions _)
        | with_reducible apply Safe.bind hR (demangleIndex_safe hR _)
        | with_reducible apply demangleIndex_safe hR _
        | with_reducible apply Safe.mono (demangleIndex_safe hR _)
        | with_reducible apply Safe.ite
        | with_reducible apply Safe.bind hR (P := fun _ _ => True)
        | split
        | simp only [])
    | ((fail_if_success with_reducible apply Safe.here); first
        | intro _
        | omega
        | with_reducible exact trivial
        | contradiction
        | decide
        | dsimp only)

theorem demangleMetatypeRepresentation_safe (hR : StepRel R) (s : St) :
    Safe F R (demangleMetatypeRepresentation) s (fun _ s1 => s1.len < s.len) := by
  unfold demangleMetatypeRepresentation
  repeat' first
    | ((with_reducible apply Safe.here); first
        | with_reducible apply Safe.fail hR
        | with_reducible apply Safe.pure hR
        | with_reducible apply Safe.ite_nextIf hR _
        | with_reducible apply Safe.ite_not_nextIf hR _
        | with_reducible apply Safe.ite_nextIfStr hR _
        | with_reducible apply Safe.ite_not_nextIfStr hR _
        | with_reducible apply Safe.ite_nonEmpty hR
        | with_reducible apply Safe.ite_not_nonEmpty hR
        | with_reducible apply Safe.ite_isEmpty hR
        | with_reducible apply Safe.ite_not_isEmpty hR
        | with_reducible apply Safe.bind_nextIf hR ?_ ?_ _
        | with_reducible apply Safe.bind_nextIfStr hR _
        | with_reducible apply Safe.bind_peek hR
        | with_reducible apply Safe.bind_next hR
        | with_reducible apply Safe.bind_same hR (run_hasAtLeast _ _)
        | with_reducible apply Safe.bind_same hR (run_slice _ _)
        | with_reducible apply Safe.bind_same hR (run_getSubstitutions _)
        | with_reducible apply Safe.ite
        | with_reducible apply Safe.bind hR (P := fun _ _ => True)
        | split
        | simp only [])
    | ((fail_if_success with_reducible apply Safe.here); first
        | intro _
        | omega
        | with_reducible exact trivial
        | contradiction
        | decide
        | dsimp only)

theorem demangleImplConvention_safe (hR : StepRel R) (ctxt : ImplConventionContext) (s : St) :
    Safe F R (demangleImplConvention ctxt) s (fun _ _ => True) := by
  unfold demangleImplConvention
  repeat' first
    | ((with_reducible apply Safe.here); first
        | with_reducible apply Safe.fail hR
        | with_reducible apply Safe.pure hR
        | with_reducible apply Safe.ite_nextIf hR _
        | with_reducible apply Safe.ite_not_nextIf hR _
        | with_reducible apply Safe.ite_nextIfStr hR _
        | with_reducible apply Safe.ite_not_nextIfStr hR _
        | with_reducible apply Safe.ite_nonEmpty hR
        | with_reducible apply Safe.ite_not_nonEmpty hR
        | with_reducible apply Safe.ite_isEmpty hR
        | with_reducible apply Safe.ite_not_isEmpty hR
        | with_reducible apply Safe.bind_nextIf hR ?_ ?_ _
        | with_reducible apply Safe.bind_nextIfStr hR _
        | with_reducible apply Safe.bind_peek hR
        | with_reducible apply Safe.bind_next hR
        | with_reducible apply Safe.bind_same hR (run_hasAtLeast _ _)
        | with_reducible apply Safe.bind_same hR (run_slice _ _)
        | with_reducible apply Safe.bind_same hR (run_getSubstitutions _)
        | with_reducible apply Safe.ite
        | with_reducible apply Safe.bind hR (P := fun _ _ => True)
        | split
        | simp only [])
    | ((fail_if_success with_reducible apply Safe.here); first
        | intro _
        | omega
        | with_reducible exact trivial
        | contradiction
        | decide
        | dsimp only)

theorem demangleImplCalleeConvention_safe (hR : StepRel R) (type : Node) (s : St) :
    Safe F R (demangleImplCalleeConvention type) s (fun _ _ => True) := by
  unfold demangleImplCalleeConvention
  repeat' first
    | ((with_reducible apply Safe.here); first
        | with_reducible apply Safe.fail hR
        | with_reducible apply Safe.pure hR
        | with_reducible apply Safe.ite_nextIf hR _
        | with_reducible apply Safe.ite_not_nextIf hR _
        | with_reducible apply Safe.ite_nextIfStr hR _
        | with_reducible apply Safe.ite_not_nextIfStr hR _
        | with_reducible apply Safe.ite_nonEmpty hR
        | with_reducible apply Safe.ite_not_nonEmpty hR
        | with_reducible apply Safe.ite_isEmpty hR
        | with_reducible apply Safe.ite_not_isEmpty hR
        | with_reducible apply Safe.bind_nextIf hR ?_ ?_ _
        | with_reducible apply Safe.bind_nextIfStr hR _
        | with_reducible apply Safe.bind_peek hR
        | with_reducible apply Safe.bind_next hR
        | with_reducible apply Safe.bind_same hR (run_hasAtLeast _ _)
        | with_reducible apply Safe.bind_same hR (run_slice _ _)
        | with_reducible apply Safe.bind_same hR (run_getSubstitutions _)
        | with_reducible apply Safe.bind hR (demangleImplConvention_safe hR _ _)
        | with_reducible apply demangleImplConvention_safe hR _ _
        | with_reducible apply Safe.mono (demangleImplConvention_safe hR _ _)
        | with_reducible apply Safe.ite
        | with_reducible apply Safe.bind hR (P := fun _ _ => True)
        | split
        | simp only [])
    | ((fail_if_success with_reducible apply Safe.here); first
        | intro _
        | omega
        | with_reducible exact trivial
        | contradiction
        | decide
        | dsimp only)

theorem demangleFuncSigSpecializationConstantProp_safe (hR : StepRel R) (E : Env) (parent : Node) (s : St) :
    Safe F R (demangleFuncSigSpecializationConstantProp E parent) s (fun _ s1 => s1.len < s.len) := by
  unfold demangleFuncSigSpecializationConstantProp
  repeat' first
    | ((with_reducible apply Safe.here); first
        | with_reducible apply Safe.fail hR
        | with_reducible apply Safe.pure hR
        | with_reducible apply Safe.ite_nextIf hR _
        | with_reducible apply Safe.ite_not_nextIf hR _
        | with_reducible apply Safe.ite_nextIfStr hR _
        | with_reducible apply Safe.ite_not_nextIfStr hR _
        | with_reducible apply Safe.ite_nonEmpty hR
        | with_reducible apply Safe.ite_not_nonEmpty hR
        | with_reducible apply Safe.ite_isEmpty hR
        | with_reducible apply Safe.ite_not_isEmpty hR
        | with_reducible apply Safe.bind_nextIf hR ?_ ?_ _
        | with_reducible apply Safe.bind_nextIfStr hR _
        | with_reducible apply Safe.bind_peek hR
        | with_reducible apply Safe.bind_next hR
        | with_reducible apply Safe.bind_same hR (run_hasAtLeast _ _)
        | with_reducible apply Safe.bind_same hR (run_slice _ _)
        | with_reducible apply Safe.bind_same hR (run_getSubstitutions _)
        | with_reducible apply Safe.bind hR (demangleIdentifier_safe hR _ _ _)
        | with_reducible apply Safe.bind hR (readUntil_safe hR _ _ _)
        | with_reducible apply Safe.bind hR (advanceOffset_safe hR _ _)
        | with_reducible apply demangleIdentifier_safe hR _ _ _
        | with_reducible apply readUntil_safe hR _ _ _
        | with_reducible apply advanceOffset_safe hR _ _
        | with_reducible apply Safe.mono (demangleIdentifier_safe hR _ _ _)
        | with_reducible apply Safe.mono (readUntil_safe hR _ _ _)
        | with_reducible apply Safe.mono (advanceOffset_safe hR _ _)
        | with_reducible apply Safe.ite
        | with_reducible apply Safe.bind hR (P := fun _ _ => True)
        | split
        | simp only [])
    | ((fail_if_success with_reducible apply Safe.here); first
        | intro _
        | omega
        | with_reducible exact trivial
        | contradiction
        | decide
        | dsimp only)

theorem demangleAccessorName_safe (hR : StepRel R) (E : Env) (entityKind : Kind) (s : St) :
    Safe F R (demangleAccessorName E entityKind) s (fun _ s1 => s1.len < s.len) := by
  unfold demangleAccessorName
  repeat' first
    | ((with_reducible apply Safe.here); first
        | with_reducible apply Safe.fail hR
        | with_reducible apply Safe.pure hR
        | with_reducible apply Safe.ite_nextIf hR _
        | with_reducible apply Safe.ite_not_nextIf hR _
        | with_reducible apply Safe.ite_nextIfStr hR _
        | with_reducible apply Safe.ite_not_nextIfStr hR _
        | with_reducible apply Safe.ite_nonEmpty hR
        | with_reducible apply Safe.ite_not_nonEmpty hR
        | with_reducible apply Safe.ite_isEmpty hR
        | with_reducible apply Safe.ite_not_isEmpty hR
        | with_reducible apply Safe.bind_nextIf hR ?_ ?_ _
        | with_reducible apply Safe.bind_nextIfStr hR _
        | with_reducible apply Safe.bind_peek hR
        | with_reducible apply Safe.bind_next hR
        | with_reducible apply Safe.bind_same hR (run_hasAtLeast _ _)
        | with_reducible apply Safe.bind_same hR (run_slice _ _)
        | with_reducible apply Safe.bind_same hR (run_getSubstitutions _)
        | with_reducible apply Safe.bind hR (demangleDeclName_safe hR _ _)
        | with_reducible apply demangleDeclName_safe hR _ _
        | with_reducible apply Safe.mono (demangleDeclName_safe hR _ _)
        | with_reducible apply Safe.ite
        | with_reducible apply Safe.bind hR (P := fun _ _ => True)
        | split
        | simp only [])
    | ((fail_if_success with_reducible apply Safe.here); first
        | intro _
        | omega
        | with_reducible exact trivial
        | contradiction
        | decide
        | dsimp only)

theorem demangleEntityName_safe (hR : StepRel R) (E : Env) (entityBasicKind : Kind) (s : St) :
    Safe F R (demangleEntityName E entityBasicKind) s (fun _ s1 => s1.len < s.len) := by
  unfold demangleEntityName
  repeat' first
    | ((with_reducible apply Safe.here); first
        | with_reducible apply Safe.fail hR
        | with_reducible apply Safe.pure hR
        | with_reducible apply Safe.ite_nextIf hR _
        | with_reducible apply Safe.ite_not_nextIf hR _
        | with_reducible apply Safe.ite_nextIfStr hR _
        | with_reducible apply Safe.ite_not_nextIfStr hR _
        | with_reducible apply Safe.ite_nonEmpty hR
        | with_reducible apply Safe.ite_not_nonEmpty hR
        | with_reducible apply Safe.ite_isEmpty hR
        | with_reducible apply Safe.ite_not_isEmpty hR
        | with_reducible apply Safe.bind_nextIf hR ?_ ?_ _
        | with_reducible apply Safe.bind_nextIfStr hR _
        | with_reducible apply Safe.bind_peek hR
        | with_reducible apply Safe.bind_next hR
        | with_reducible apply Safe.bind_same hR (run_hasAtLeast _ _)
        | with_reducible apply Safe.bind_same hR (run_slice _ _)
        | with_reducible apply Safe.bind_same hR (run_getSubstitutions _)
        | with_reducible apply Safe.bind hR (demangleAccessorName_safe hR _ _ _)
        | with_reducible apply Safe.bind hR (demangleDeclName_safe hR _ _)
        | with_reducible apply Safe.bind hR (demangleIndexAsNode_safe hR _ _)
        | with_reducible apply demangleAccessorName_safe hR _ _ _
        | with_reducible apply demangleDeclName_safe hR _ _
        | with_reducible apply demangleIndexAsNode_safe hR _ _
        | with_reducible apply Safe.mono (demangleAccessorName_safe hR _ _ _)
        | with_reducible apply Safe.mono (demangleDeclName_safe hR _ _)
        | with_reducible apply Safe.mono (demangleIndexAsNode_safe hR _ _)
        | with_reducible apply Safe.ite
        | with_reducible apply Safe.bind hR (P := fun _ _ => True)
        | split
        | simp only [])
    | ((fail_if_success with_reducible apply Safe.here); first
        | intro _
        | omega
        | with_reducible exact trivial
        | contradiction
        | decide
        | dsimp only)

theorem rewriteSubscriptName_safe (hR : StepRel R) (name : Node) (s : St) :
    Safe F R (rewriteSubscriptName name) s (fun _ _ => True) := by
  unfold rewriteSubscriptName
  repeat' first
    | ((with_reducible apply Safe.here); first
        | with_reducible apply Safe.fail hR
        | with_reducible apply Safe.pure hR
        | with_reducible apply Safe.ite_nextIf hR _
        | with_reducible apply Safe.ite_not_nextIf hR _
        | with_reducible apply Safe.ite_nextIfStr hR _
        | with_reducible apply Safe.ite_not_nextIfStr hR _
        | with_reducible apply Safe.ite_nonEmpty hR
        | with_reducible apply Safe.ite_not_nonEmpty hR
        | with_reducible apply Safe.ite_isEmpty hR
        | with_reducible apply Safe.ite_not_isEmpty hR
        | with_reducible apply Safe.bind_nextIf hR ?_ ?_ _
        | with_reducible apply Safe.bind_nextIfStr hR _
        | with_reducible apply Safe.bind_peek hR
        | with_reducible apply Safe.bind_next hR
        | with_reducible apply Safe.bind_same hR (run_hasAtLeast _ _)
        | with_reducible apply Safe.bind_same hR (run_slice _ _)
        | with_reducible apply Safe.bind_same hR (run_getSubstitutions _)
        | with_reducible apply Safe.bind hR (getChild_safe hR _ _ _)
        | with_reducible apply getChild_safe hR _ _ _
        | with_reducible apply Safe.mono (getChild_safe hR _ _ _)
        | with_reducible apply Safe.ite
        | with_reducible apply Safe.bind hR (P := fun _ _ => True)
        | split
        | simp only [])
    | ((fail_if_success with_reducible apply Safe.here); first
        | intro _
        | omega
        | with_reducible exact trivial
        | contradiction
        | decide
        | dsimp only)

theorem demangleLayoutCode_safe (hR : StepRel R) (s : St) :
    Safe F R (demangleLayoutCode) s (fun _ s1 => s1.len < s.len) := by
  unfold demangleLayoutCode
  repeat' first
    | ((with_reducible apply Safe.here); first
        | with_reducible apply Safe.fail hR
        | with_reducible apply Safe.pure hR
        | with_reducible apply Safe.ite_nextIf hR _
        | with_reducible apply Safe.ite_not_nextIf hR _
        | with_reducible apply Safe.ite_nextIfStr hR _
        | with_reducible apply Safe.ite_not_nextIfStr hR _
        | with_reducible apply Safe.ite_nonEmpty hR
        | with_reducible apply Safe.ite_not_nonEmpty hR
        | with_reducible apply Safe.ite_isEmpty hR
        | with_reducible apply Safe.ite_not_isEmpty hR
        | with_reducible apply Safe.bind_nextIf hR ?_ ?_ _
        | with_reducible apply Safe.bind_nextIfStr hR _
        | with_reducible apply Safe.bind_peek hR
        | with_reducible apply Safe.bind_next hR
        | with_reducible apply Safe.bind_same hR (run_hasAtLeast _ _)
        | with_reducible apply Safe.bind_same hR (run_slice _ _)
        | with_reducible apply Safe.bind_same hR (run_getSubstitutions _)
        | with_reducible apply Safe.bind hR (demangleNatural_safe hR _)
        | with_reducible apply demangleNatural_safe hR _
        | with_reducible apply Safe.mono (demangleNatural_safe hR _)
        | with_reducible apply Safe.ite
        | with_reducible apply Safe.bind hR (P := fun _ _ => True)
        | split
        | simp only [])
    | ((fail_if_success with_reducible apply Safe.here); first
        | intro _
        | omega
        | with_reducible exact trivial
        | contradiction
        | decide
        | dsimp only)

theorem makeAssociatedType_safe (hR : StepRel R) (E : Env) (root : Node) (s : St) :
    Safe F R (makeAssociatedType E root) s (fun _ s1 => s1.len < s.len) := by
  unfold makeAssociatedType
  repeat' first
    | ((with_reducible apply Safe.here); first
        | with_reducible apply Safe.fail hR
        | with_reducible apply Safe.pure hR
        | with_reducible apply Safe.ite_nextIf hR _
        | with_reducible apply Safe.ite_not_nextIf hR _
        | with_reducible apply Safe.ite_nextIfStr hR _
        | with_reducible apply Safe.ite_not_nextIfStr hR _
        | with_reducible apply Safe.ite_nonEmpty hR
        | with_reducible apply Safe.ite_not_nonEmpty hR
        | with_reducible apply Safe.ite_isEmpty hR
        | with_reducible apply Safe.ite_not_isEmpty hR
        | with_reducible apply Safe.bind_nextIf hR ?_ ?_ _
        | with_reducible apply Safe.bind_nextIfStr hR _
        | with_reducible apply Safe.bind_peek hR
        | with_reducible apply Safe.bind_next hR
        | with_reducible apply Safe.bind_same hR (run_hasAtLeast _ _)
        | with_reducible apply Safe.bind_same hR (run_slice _ _)
        | with_reducible apply Safe.bind_same hR (run_getSubstitutions _)
        | with_reducible apply Safe.bind hR (demangleIdentifier_safe hR _ _ _)
        | with_reducible apply Safe.bind hR (pushSubstitution_safe hR _ _)
        | with_reducible apply demangleIdentifier_safe hR _ _ _
        | with_reducible apply pushSubstitution_safe hR _ _
        | with_reducible apply Safe.mono (demangleIdentifier_safe hR _ _ _)
        | with_reducible apply Safe.mono (pushSubstitution_safe hR _ _)
        | with_reducible apply Safe.ite
        | with_reducible apply Safe.bind hR (P := fun _ _ => True)
        | split
        | simp only [])
    | ((fail_if_success with_reducible apply Safe.here); first
        | intro _
        | omega
        | with_reducible exact trivial
        | contradiction
        | decide
        | dsimp only)

theorem demangleBuiltinType_safe (hR : StepRel R) (s : St) :
    Safe F R (demangleBuiltinType) s (fun _ s1 => s1.len < s.len) := by
  unfold demangleBuiltinType
  repeat' first
    | ((with_reducible apply Safe.here); first
        | with_reducible apply Safe.fail hR
        | with_reducible apply Safe.pure hR
        | with_reducible apply Safe.ite_nextIf hR _
        | with_reducible apply Safe.ite_not_nextIf hR _
        | with_reducible apply Safe.ite_nextIfStr hR _
        | with_reducible apply Safe.ite_not_nextIfStr hR _
        | with_reducible apply Safe.ite_nonEmpty hR
        | with_reducible apply Safe.ite_not_nonEmpty hR
        | with_reducible apply Safe.ite_isEmpty hR
        | with_reducible apply Safe.ite_not_isEmpty hR
        | with_reducible apply Safe.bind_nextIf hR ?_ ?_ _
        | with_reducible apply Safe.bind_nextIfStr hR _
        | with_reducible apply Safe.bind_peek hR
        | with_reducible apply Safe.bind_next hR
        | with_reducible apply Safe.bind_same hR (run_hasAtLeast _ _)
        | with_reducible apply Safe.bind_same hR (run_slice _ _)
        | with_reducible apply Safe.bind_same hR (run_getSubstitutions _)
        | with_reducible apply Safe.bind hR (demangleBuiltinSize_safe hR _)
        | with_reducible apply Safe.bind hR (demangleNatural_safe hR _)
        | with_reducible apply demangleBuiltinSize_safe hR _
        | with_reducible apply demangleNatural_safe hR _
        | with_reducible apply Safe.mono (demangleBuiltinSize_safe hR _)
        | with_reducible apply Safe.mono (demangleNatural_safe hR _)
        | with_reducible apply Safe.ite
        | with_reducible apply Safe.bind hR (P := fun _ _ => True)
        | split
        | simp only [])
    | ((fail_if_success with_reducible apply Safe.here); first
        | intro _
        | omega
        | with_reducible exact trivial
        | contradiction
        | decide
        | dsimp only)

theorem demanglePassID_safe (hR : StepRel R) (s : St) :
    Safe F R (demanglePassID) s (fun _ _ => True) := by
  unfold demanglePassID
  repeat' first
    | ((with_reducible apply Safe.here); first
        | with_reducible apply Safe.fail hR
        | with_reducible apply Safe.pure hR
        | with_reducible apply Safe.ite_nextIf hR _
        | with_reducible apply Safe.ite_not_nextIf hR _
        | with_reducible apply Safe.ite_nextIfStr hR _
        | with_reducible apply Safe.ite_not_nextIfStr hR _
        | with_reducible apply Safe.ite_nonEmpty hR
        | with_reducible apply Safe.ite_not_nonEmpty hR
        | with_reducible apply Safe.ite_isEmpty hR
        | with_reducible apply Safe.ite_not_isEmpty hR
        | with_reducible apply Safe.bind_nextIf hR ?_ ?_ _
        | with_reducible apply Safe.bind_nextIfStr hR _
        | with_reducible apply Safe.bind_peek hR
        | with_reducible apply Safe.bind_next hR
        | with_reducible apply Safe.bind_same hR (run_hasAtLeast _ _)
        | with_reducible apply Safe.bind_same hR (run_slice _ _)
        | with_reducible apply Safe.bind_same hR (run_getSubstitutions _)
        | with_reducible apply Safe.ite
        | with_reducible apply Safe.bind hR (P := fun _ _ => True)
        | split
        | simp only [])
    | ((fail_if_success with_reducible apply Safe.here); first
        | intro _
        | omega
        | with_reducible exact trivial
        | contradiction
        | decide
        | dsimp only)

theorem demangleFunctionSignatureSpecializationOptions_safe (hR : StepRel R) (E : Env) (param : Node) (s : St) :
    Safe F R (demangleFunctionSignatureSpecializationOptions E param) s (fun _ s1 => s1.len < s.len) := by
  unfold demangleFunctionSignatureSpecializationOptions
  repeat' first
    | ((with_reducible apply Safe.here); first
        | with_reducible apply Safe.fail hR
        | with_reducible apply Safe.pure hR
        | with_reducible apply Safe.ite_nextIf hR _
        | with_reducible apply Safe.ite_not_nextIf hR _
        | with_reducible apply Safe.ite_nextIfStr hR _
        | with_reducible apply Safe.ite_not_nextIfStr hR _
        | with_reducible apply Safe.ite_nonEmpty hR
        | with_reducible apply Safe.ite_not_nonEmpty hR
        | with_reducible apply Safe.ite_isEmpty hR
        | with_reducible apply Safe.ite_not_isEmpty hR
        | with_reducible apply Safe.bind_nextIf hR ?_ ?_ _
        | with_reducible apply Safe.bind_nextIfStr hR _
        | with_reducible apply Safe.bind_peek hR
        | with_reducible apply Safe.bind_next hR
        | with_reducible apply Safe.bind_same hR (run_hasAtLeast _ _)
        | with_reducible apply Safe.bind_same hR (run_slice _ _)
        | with_reducible apply Safe.bind_same hR (run_getSubstitutions _)
        | with_reducible apply Safe.ite
        | with_reducible apply Safe.bind hR (P := fun _ _ => True)
        | split
        | simp only [])
    | ((fail_if_success with_reducible apply Safe.here); first
        | intro _
        | omega
        | with_reducible exact trivial
        | contradiction
        | decide
        | dsimp only)

theorem demangleGenericSignatureCountRound_safe (hR : StepRel R) (p : Node × Nat) (s : St) :
    Safe F R (demangleGenericSignatureCountRound p) s (fun it s1 => ∀ a, it = Iter.again a → s1.len < s.len) := by
  unfold demangleGenericSignatureCountRound
  repeat' first
    | ((with_reducible apply Safe.here); first
        | with_reducible apply Safe.fail hR
        | with_reducible apply Safe.pure hR
        | with_reducible apply Safe.ite_nextIf hR _
        | with_reducible apply Safe.ite_not_nextIf hR _
        | with_reducible apply Safe.ite_nextIfStr hR _
        | with_reducible apply Safe.ite_not_nextIfStr hR _
        | with_reducible apply Safe.ite_nonEmpty hR
        | with_reducible apply Safe.ite_not_nonEmpty hR
        | with_reducible apply Safe.ite_isEmpty hR
        | with_reducible apply Safe.ite_not_isEmpty hR
        | with_reducible apply Safe.bind_nextIf hR ?_ ?_ _
        | with_reducible apply Safe.bind_nextIfStr hR _
        | with_reducible apply Safe.bind_peek hR
        | with_reducible apply Safe.bind_next hR
        | with_reducible apply Safe.bind_same hR (run_hasAtLeast _ _)
        | with_reducible apply Safe.bind_same hR (run_slice _ _)
        | with_reducible apply Safe.bind_same hR (run_getSubstitutions _)
        | with_reducible apply Safe.bind hR (demangleIndex_safe hR _)
        | with_reducible apply demangleIndex_safe hR _
        | with_reducible apply Safe.mono (demangleIndex_safe hR _)
        | with_reducible apply Safe.ite
        | with_reducible apply Safe.bind hR (P := fun _ _ => True)
        | split
        | simp only [])
    | ((fail_if_success with_reducible apply Safe.here); first
        | intro _
        | omega
        | with_reducible exact trivial
        | contradiction
        | decide
        | dsimp only)

theorem demangleType_safe (hR : StepRel R) {r : Rec} {n : Nat} (hr : Good F R r n)
    (s : St) (h : s.len < n) :
    Safe F R (demangleType r) s (fun _ s1 => s1.len < s.len) := by
  unfold demangleType
  repeat' first
    | ((with_reducible apply Safe.here); first
        | with_reducible apply Safe.fail hR
        | with_reducible apply Safe.pure hR
        | with_reducible apply Safe.ite_nextIf hR _
        | with_reducible apply Safe.ite_not_nextIf hR _
        | with_reducible apply Safe.ite_nextIfStr hR _
        | with_reducible apply Safe.ite_not_nextIfStr hR _
        | with_reducible apply Safe.ite_nonEmpty hR
        | with_reducible apply Safe.ite_not_nonEmpty hR
        | with_reducible apply Safe.ite_isEmpty hR
        | with_reducible apply Safe.ite_not_isEmpty hR
        | with_reducible apply Safe.bind_nextIf hR ?_ ?_ _
        | with_reducible apply Safe.bind_nextIfStr hR _
        | with_reducible apply Safe.bind_peek hR
        | with_reducible apply Safe.bind_next hR
        | with_reducible apply Safe.bind_same hR (run_hasAtLeast _ _)
        | with_reducible apply Safe.bind_same hR (run_slice _ _)
        | with_reducible apply Safe.bind_same hR (run_getSubstitutions _)
        | with_reducible apply Safe.bind hR (hr.typeImpl _ ?_)
        | with_reducible apply Safe.bind hR (hr.context _ ?_)
        | with_reducible apply Safe.bind hR (hr.global _ ?_)
        | with_reducible apply Safe.bind hR (hr.archetype _ ?_)
        | with_reducible apply Safe.bind hR (hr.loop _ _ _ ?_ ?_)
        | with_reducible apply hr.typeImpl _ ?_
        | with_reducible apply hr.context _ ?_
        | with_reducible apply hr.global _ ?_
        | with_reducible apply hr.archetype _ ?_
        | with_reducible apply hr.loop _ _ _ ?_ ?_
        | with_reducible apply Safe.mono (hr.typeImpl _ ?_)
        | with_reducible apply Safe.mono (hr.context _ ?_)
        | with_reducible apply Safe.mono (hr.global _ ?_)
        | with_reducible apply Safe.mono (hr.archetype _ ?_)
        | with_reducible apply Safe.mono (hr.loop _ _ _ ?_ ?_)
        | with_reducible apply Safe.ite
        | with_reducible apply Safe.bind hR (P := fun _ _ => True)
        | split
        | simp only [])
    | ((fail_if_success with_reducible apply Safe.here); first
        | intro _
        | omega
        | with_reducible exact trivial
        | contradiction
        | decide
        | dsimp only)

theorem demangleDeclarationName_safe (hR : StepRel R) {r : Rec} {n : Nat} (hr : Good F R r n)
    (E : Env) (kind : Kind) (s : St) (h : s.len < n) :
    Safe F R (demangleDeclarationName E r kind) s (fun _ s1 => s1.len < s.len) := by
  unfold demangleDeclarationName
  repeat' first
    | ((with_reducible apply Safe.here); first
        | with_reducible apply Safe.fail hR
        | with_reducible apply Safe.pure hR
        | with_reducible apply Safe.ite_nextIf hR _
        | with_reducible apply Safe.ite_not_nextIf hR _
        | with_reducible apply Safe.ite_nextIfStr hR _
        | with_reducible apply Safe.ite_not_nextIfStr hR _
        | with_reducible apply Safe.ite_nonEmpty hR
        | with_reducible apply Safe.ite_not_nonEmpty hR
        | with_reducible apply Safe.ite_isEmpty hR
        | with_reducible apply Safe.ite_not_isEmpty hR
        | with_reducible apply Safe.bind_nextIf hR ?_ ?_ _
        | with_reducible apply Safe.bind_nextIfStr hR _
        | with_reducible apply Safe.bind_peek hR
        | with_reducible apply Safe.bind_next hR
        | with_reducible apply Safe.bind_same hR (run_hasAtLeast _ _)
        | with_reducible apply Safe.bind_same hR (run_slice _ _)
        | with_reducible apply Safe.bind_same hR (run_getSubstitutions _)
        | with_reducible apply Safe.bind hR (hr.typeImpl _ ?_)
        | with_reducible apply Safe.bind hR (hr.context _ ?_)
        | with_reducible apply Safe.bind hR (hr.global _ ?_)
        | with_reducible apply Safe.bind hR (hr.archetype _ ?_)
        | with_reducible apply Safe.bind hR (hr.loop _ _ _ ?_ ?_)
        | with_reducible apply Safe.bind hR (demangleDeclName_safe hR _ _)
        | with_reducible apply Safe.bind hR (pushSubstitution_safe hR _ _)
        | with_reducible apply hr.typeImpl _ ?_
        | with_reducible apply hr.context _ ?_
        | with_reducible apply hr.global _ ?_
        | with_reducible apply hr.archetype _ ?_
        | with_reducible apply hr.loop _ _ _ ?_ ?_
        | with_reducible apply demangleDeclName_safe hR _ _
        | with_reducible apply pushSubstitution_safe hR _ _
        | with_reducible apply Safe.mono (hr.typeImpl _ ?_)
        | with_reducible apply Safe.mono (hr.context _ ?_)
        | with_reducible apply Safe.mono (hr.global _ ?_)
        | with_reducible apply Safe.mono (hr.archetype _ ?_)
        | with_reducible apply Safe.mono (hr.loop _ _ _ ?_ ?_)
        | with_reducible apply Safe.mono (demangleDeclName_safe hR _ _)
        | with_reducible apply Safe.mono (pushSubstitution_safe hR _ _)
        | with_reducible apply Safe.ite
        | with_reducible apply Safe.bind hR (P := fun _ _ => True)
        | split
        | simp only [])
    | ((fail_if_success with_reducible apply Safe.here); first
        | intro _
        | omega
        | with_reducible exact trivial
        | contradiction
        | decide
        | dsimp only)

theorem demangleProtocolNameImpl_safe (hR : StepRel R) {r : Rec} {n : Nat} (hr : Good F R r n)
    (E : Env) (s : St) (h : s.len < n) :
    Safe F R (demangleProtocolNameImpl E r) s (fun _ s1 => s1.len < s.len) := by
  unfold demangleProtocolNameImpl
  repeat' first
    | ((with_reducible apply Safe.here); first
        | with_reducible apply Safe.fail hR
        | with_reducible apply Safe.pure hR
        | with_reducible apply Safe.ite_nextIf hR _
        | with_reducible apply Safe.ite_not_nextIf hR _
        | with_reducible apply Safe.ite_nextIfStr hR _
        | with_reducible apply Safe.ite_not_nextIfStr hR _
        | with_reducible apply Safe.ite_nonEmpty hR
        | with_reducible apply Safe.ite_not_nonEmpty hR
        | with_reducible apply Safe.ite_isEmpty hR
        | with_reducible apply Safe.ite_not_isEmpty hR
        | with_reducible apply Safe.bind_nextIf hR ?_ ?_ _
        | with_reducible apply Safe.bind_nextIfStr hR _
        | with_reducible apply Safe.bind_peek hR
        | with_reducible apply Safe.bind_next hR
        | with_reducible apply Safe.bind_same hR (run_hasAtLeast _ _)
        | with_reducible apply Safe.bind_same hR (run_slice _ _)
        | with_reducible apply Safe.bind_same hR (run_getSubstitutions _)
        | with_reducible apply Safe.bind hR (hr.typeImpl _ ?_)
        | with_reducible apply Safe.bind hR (hr.context _ ?_)
        | with_reducible apply Safe.bind hR (hr.global _ ?_)
        | with_reducible apply Safe.bind hR (hr.archetype _ ?_)
        | with_reducible apply Safe.bind hR (hr.loop _ _ _ ?_ ?_)
        | with_reducible apply Safe.bind hR (demangleDeclarationName_safe hR hr _ _ _ ?_)
        | with_reducible apply Safe.bind hR (demangleProtocolNameGivenContext_safe hR _ _ _)
        | with_reducible apply Safe.bind hR (demangleSubstitutionIndex_safe hR _ _)
        | with_reducible apply hr.typeImpl _ ?_
        | with_reducible apply hr.context _ ?_
        | with_reducible apply hr.global _ ?_
        | with_reducible apply hr.archetype _ ?_
        | with_reducible apply hr.loop _ _ _ ?_ ?_
        | with_reducible apply demangleDeclarationName_safe hR hr _ _ _ ?_
        | with_reducible apply demangleProtocolNameGivenContext_safe hR _ _ _
        | with_reducible apply demangleSubstitutionIndex_safe hR _ _
        | with_reducible apply Safe.mono (hr.typeImpl _ ?_)
        | with_reducible apply Safe.mono (hr.context _ ?_)
        | with_reducible apply Safe.mono (hr.global _ ?_)
        | with_reducible apply Safe.mono (hr.archetype _ ?_)
        | with_reducible apply Safe.mono (hr.loop _ _ _ ?_ ?_)
        | with_reducible apply Safe.mono (demangleDeclarationName_safe hR hr _ _ _ ?_)
        | with_reducible apply Safe.mono (demangleProtocolNameGivenContext_safe hR _ _ _)
        | with_reducible apply Safe.mono (demangleSubstitutionIndex_safe hR _ _)
        | with_reducible apply Safe.ite
        | with_reducible apply Safe.bind hR (P := fun _ _ => True)
        | split
        | simp only [])
    | ((fail_if_success with_reducible apply Safe.here); first
        | intro _
        | omega
        | with_reducible exact trivial
        | contradiction
        | decide
        | dsimp only)

theorem demangleProtocolName_safe (hR : StepRel R) {r : Rec} {n : Nat} (hr : Good F R r n)
    (E : Env) (s : St) (h : s.len < n) :
    Safe F R (demangleProtocolName E r) s (fun _ s1 => s1.len < s.len) := by
  unfold demangleProtocolName
  repeat' first
    | ((with_reducible apply Safe.here); first
        | with_reducible apply Safe.fail hR
        | with_reducible apply Safe.pure hR
        | with_reducible apply Safe.ite_nextIf hR _
        | with_reducible apply Safe.ite_not_nextIf hR _
        | with_reducible apply Safe.ite_nextIfStr hR _
        | with_reducible apply Safe.ite_not_nextIfStr hR _
        | with_reducible apply Safe.ite_nonEmpty hR
        | with_reducible apply Safe.ite_not_nonEmpty hR
        | with_reducible apply Safe.ite_isEmpty hR
        | with_reducible apply Safe.ite_not_isEmpty hR
        | with_reducible apply Safe.bind_nextIf hR ?_ ?_ _
        | with_reducible apply Safe.bind_nextIfStr hR _
        | with_reducible apply Safe.bind_peek hR
        | with_reducible apply Safe.bind_next hR
        | with_reducible apply Safe.bind_same hR (run_hasAtLeast _ _)
        | with_reducible apply Safe.bind_same hR (run_slice _ _)
        | with_reducible apply Safe.bind_same hR (run_getSubstitutions _)
        | with_reducible apply Safe.bind hR (hr.typeImpl _ ?_)
        | with_reducible apply Safe.bind hR (hr.context _ ?_)
        | with_reducible apply Safe.bind hR (hr.global _ ?_)
        | with_reducible apply Safe.bind hR (hr.archetype _ ?_)
        | with_reducible apply Safe.bind hR (hr.loop _ _ _ ?_ ?_)
        | with_reducible apply Safe.bind hR (demangleProtocolNameImpl_safe hR hr _ _ ?_)
        | with_reducible apply hr.typeImpl _ ?_
        | with_reducible apply hr.context _ ?_
        | with_reducible apply hr.global _ ?_
        | with_reducible apply hr.archetype _ ?_
        | with_reducible apply hr.loop _ _ _ ?_ ?_
        | with_reducible apply demangleProtocolNameImpl_safe hR hr _ _ ?_
        | with_reducible apply Safe.mono (hr.typeImpl _ ?_)
        | with_reducible apply Safe.mono (hr.context _ ?_)
        | with_reducible apply Safe.mono (hr.global _ ?_)
        | with_reducible apply Safe.mono (hr.archetype _ ?_)
        | with_reducible apply Safe.mono (hr.loop _ _ _ ?_ ?_)
        | with_reducible apply Safe.mono (demangleProtocolNameImpl_safe hR hr _ _ ?_)
        | with_reducible apply Safe.ite
        | with_reducible apply Safe.bind hR (P := fun _ _ => True)
        | split
        | simp only [])
    | ((fail_if_success with_reducible apply Safe.here); first
        | intro _
        | omega
        | with_reducible exact trivial
        | contradiction
        | decide
        | dsimp only)

theorem demangleNominalType_safe (hR : StepRel R) {r : Rec} {n : Nat} (hr : Good F R r n)
    (E : Env) (s : St) (h : s.len ≤ n) :
    Safe F R (demangleNominalType E r) s (fun _ s1 => s1.len < s.len) := by
  unfold demangleNominalType
  repeat' first
    | ((with_reducible apply Safe.here); first
        | with_reducible apply Safe.fail hR
        | with_reducible apply Safe.pure hR
        | with_reducible apply Safe.ite_nextIf hR _
        | with_reducible apply Safe.ite_not_nextIf hR _
        | with_reducible apply Safe.ite_nextIfStr hR _
        | with_reducible apply Safe.ite_not_nextIfStr hR _
        | with_reducible apply Safe.ite_nonEmpty hR
        | with_reducible apply Safe.ite_not_nonEmpty hR
        | with_reducible apply Safe.ite_isEmpty hR
        | with_reducible apply Safe.ite_not_isEmpty hR
        | with_reducible apply Safe.bind_nextIf hR ?_ ?_ _
        | with_reducible apply Safe.bind_nextIfStr hR _
        | with_reducible apply Safe.bind_peek hR
        | with_reducible apply Safe.bind_next hR
        | with_reducible apply Safe.bind_same hR (run_hasAtLeast _ _)
        | with_reducible apply Safe.bind_same hR (run_slice _ _)
        | with_reducible apply Safe.bind_same hR (run_getSubstitutions _)
        | with_reducible apply Safe.bind hR (hr.typeImpl _ ?_)
        | with_reducible apply Safe.bind hR (hr.context _ ?_)
        | with_reducible apply Safe.bind hR (hr.global _ ?_)
        | with_reducible apply Safe.bind hR (hr.archetype _ ?_)
        | with_reducible apply Safe.bind hR (hr.loop _ _ _ ?_ ?_)
        | with_reducible apply Safe.bind hR (demangleDeclarationName_safe hR hr _ _ _ ?_)
        | with_reducible apply Safe.bind hR (demangleSubstitutionIndex_safe hR _ _)
        | with_reducible apply hr.typeImpl _ ?_
        | with_reducible apply hr.context _ ?_
        | with_reducible apply hr.global _ ?_
        | with_reducible apply hr.archetype _ ?_
        | with_reducible apply hr.loop _ _ _ ?_ ?_
        | with_reducible apply demangleDeclarationName_safe hR hr _ _ _ ?_
        | with_reducible apply demangleSubstitutionIndex_safe hR _ _
        | with_reducible apply Safe.mono (hr.typeImpl _ ?_)
        | with_reducible apply Safe.mono (hr.context _ ?_)
        | with_reducible apply Safe.mono (hr.global _ ?_)
        | with_reducible apply Safe.mono (hr.archetype _ ?_)
        | with_reducible apply Safe.mono (hr.loop _ _ _ ?_ ?_)
        | with_reducible apply Safe.mono (demangleDeclarationName_safe hR hr _ _ _ ?_)
        | with_reducible apply Safe.mono (demangleSubstitutionIndex_safe hR _ _)
        | with_reducible apply Safe.ite
        | with_reducible apply Safe.bind hR (P := fun _ _ => True)
        | split
        | simp only [])
    | ((fail_if_success with_reducible apply Safe.here); first
        | intro _
        | omega
        | with_reducible exact trivial
        | contradiction
        | decide
        | dsimp only)

theorem demangleBoundGenericArgsRound_safe (hR : StepRel R) {r : Rec} {n : Nat} (hr : Good F R r n)
    (args : Node) (s : St) (h : s.len < n) :
    Safe F R (demangleBoundGenericArgsRound r args) s (fun it s1 => ∀ a, it = Iter.again a → s1.len < s.len) := by
  unfold demangleBoundGenericArgsRound
  repeat' first
    | ((with_reducible apply Safe.here); first
        | with_reducible apply Safe.fail hR
        | with_reducible apply Safe.pure hR
        | with_reducible apply Safe.ite_nextIf hR _
        | with_reducible apply Safe.ite_not_nextIf hR _
        | with_reducible apply Safe.ite_nextIfStr hR _
        | with_reducible apply Safe.ite_not_nextIfStr hR _
        | with_reducible apply Safe.ite_nonEmpty hR
        | with_reducible apply Safe.ite_not_nonEmpty hR
        | with_reducible apply Safe.ite_isEmpty hR
        | with_reducible apply Safe.ite_not_isEmpty hR
        | with_reducible apply Safe.bind_nextIf hR ?_ ?_ _
        | with_reducible apply Safe.bind_nextIfStr hR _
        | with_reducible apply Safe.bind_peek hR
        | with_reducible apply Safe.bind_next hR
        | with_reducible apply Safe.bind_same hR (run_hasAtLeast _ _)
        | with_reducible apply Safe.bind_same hR (run_slice _ _)
        | with_reducible apply Safe.bind_same hR (run_getSubstitutions _)
        | with_reducible apply Safe.bind hR (hr.typeImpl _ ?_)
        | with_reducible apply Safe.bind hR (hr.context _ ?_)
        | with_reducible apply Safe.bind hR (hr.global _ ?_)
        | with_reducible apply Safe.bind hR (hr.archetype _ ?_)
        | with_reducible apply Safe.bind hR (hr.loop _ _ _ ?_ ?_)
        | with_reducible apply Safe.bind hR (demangleType_safe hR hr _ ?_)
        | with_reducible apply hr.typeImpl _ ?_
        | with_reducible apply hr.context _ ?_
        | with_reducible apply hr.global _ ?_
        | with_reducible apply hr.archetype _ ?_
        | with_reducible apply hr.loop _ _ _ ?_ ?_
        | with_reducible apply demangleType_safe hR hr _ ?_
        | with_reducible apply Safe.mono (hr.typeImpl _ ?_)
        | with_reducible apply Safe.mono (hr.context _ ?_)
        | with_reducible apply Safe.mono (hr.global _ ?_)
        | with_reducible apply Safe.mono (hr.archetype _ ?_)
        | with_reducible apply Safe.mono (hr.loop _ _ _ ?_ ?_)
        | with_reducible apply Safe.mono (demangleType_safe hR hr _ ?_)
        | with_reducible apply Safe.ite
        | with_reducible apply Safe.bind hR (P := fun _ _ => True)
        | split
        | simp only [])
    | ((fail_if_success with_reducible apply Safe.here); first
        | intro _
        | omega
        | with_reducible exact trivial
        | contradiction
        | decide
        | dsimp only)

theorem demangleBoundGenericArgsList_safe (hR : StepRel R) {r : Rec} {n : Nat} (hr : Good F R r n)
    (nominalType : Node) (s : St) (h : s.len < n) :
    Safe F R (demangleBoundGenericArgsList r nominalType) s (fun _ _ => True) := by
  unfold demangleBoundGenericArgsList
  repeat' first
    | ((with_reducible apply Safe.here); first
        | with_reducible apply Safe.fail hR
        | with_reducible apply Safe.pure hR
        | with_reducible apply Safe.ite_nextIf hR _
        | with_reducible apply Safe.ite_not_nextIf hR _
        | with_reducible apply Safe.ite_nextIfStr hR _
        | with_reducible apply Safe.ite_not_nextIfStr hR _
        | with_reducible apply Safe.ite_nonEmpty hR
        | with_reducible apply Safe.ite_not_nonEmpty hR
        | with_reducible apply Safe.ite_isEmpty hR
        | with_reducible apply Safe.ite_not_isEmpty hR
        | with_reducible apply Safe.bind_nextIf hR ?_ ?_ _
        | with_reducible apply Safe.bind_nextIfStr hR _
        | with_reducible apply Safe.bind_peek hR
        | with_reducible apply Safe.bind_next hR
        | with_reducible apply Safe.bind_same hR (run_hasAtLeast _ _)
        | with_reducible apply Safe.bind_same hR (run_slice _ _)
        | with_reducible apply Safe.bind_same hR (run_getSubstitutions _)
        | with_reducible apply Safe.bind hR (hr.typeImpl _ ?_)
        | with_reducible apply Safe.bind hR (hr.context _ ?_)
        | with_reducible apply Safe.bind hR (hr.global _ ?_)
        | with_reducible apply Safe.bind hR (hr.archetype _ ?_)
        | with_reducible apply Safe.bind hR (hr.loop _ _ _ ?_ ?_)
        | with_reducible apply Safe.bind hR (demangleBoundGenericArgsRound_safe hR hr _ _ ?_)
        | with_reducible apply hr.typeImpl _ ?_
        | with_reducible apply hr.context _ ?_
        | with_reducible apply hr.global _ ?_
        | with_reducible apply hr.archetype _ ?_
        | with_reducible apply hr.loop _ _ _ ?_ ?_
        | with_reducible apply demangleBoundGenericArgsRound_safe hR hr _ _ ?_
        | with_reducible apply Safe.mono (hr.typeImpl _ ?_)
        | with_reducible apply Safe.mono (hr.context _ ?_)
        | with_reducible apply Safe.mono (hr.global _ ?_)
        | with_reducible apply Safe.mono (hr.archetype _ ?_)
        | with_reducible apply Safe.mono (hr.loop _ _ _ ?_ ?_)
        | with_reducible apply Safe.mono (demangleBoundGenericArgsRound_safe hR hr _ _ ?_)
        | with_reducible apply Safe.ite
        | with_reducible apply Safe.bind hR (P := fun _ _ => True)
        | split
        | simp only [])
    | ((fail_if_success with_reducible apply Safe.here); first
        | intro _
        | omega
        | with_reducible exact trivial
        | contradiction
        | decide
        | dsimp only)

theorem demangleBoundGenericArgs_safe (hR : StepRel R) {r : Rec} {n : Nat} (hr : Good F R r n) :
    ∀ (nominalType : Node) (s : St), s.len < n →
      Safe F R (demangleBoundGenericArgs r nominalType) s (fun _ _ => True)
  | .mk _ _ [], s, _ => by
    unfold demangleBoundGenericArgs
    exact Safe.fail hR
  | .mk kind payload (parentOrModule :: rest), s, h => by
    unfold demangleBoundGenericArgs
    repeat' first
      | ((with_reducible apply Safe.here); first
          | with_reducible apply Safe.fail hR
          | with_reducible apply Safe.pure hR
          | with_reducible apply Safe.ite_nextIf hR _
          | with_reducible apply Safe.ite_not_nextIf hR _
          | with_reducible apply Safe.ite_nextIfStr hR _
          | with_reducible apply Safe.ite_not_nextIfStr hR _
          | with_reducible apply Safe.ite_nonEmpty hR
          | with_reducible apply Safe.ite_not_nonEmpty hR
          | with_reducible apply Safe.ite_isEmpty hR
          | with_reducible apply Safe.ite_not_isEmpty hR
          | with_reducible apply Safe.bind_nextIf hR ?_ ?_ _
          | with_reducible apply Safe.bind_nextIfStr hR _
          | with_reducible apply Safe.bind_peek hR
          | with_reducible apply Safe.bind_next hR
          | with_reducible apply Safe.bind_same hR (run_hasAtLeast _ _)
          | with_reducible apply Safe.bind_same hR (run_slice _ _)
          | with_reducible apply Safe.bind_same hR (run_getSubstitutions _)
          | with_reducible apply Safe.bind hR (demangleBoundGenericArgs_safe hR hr parentOrModule _ ?_)
          | with_reducible apply Safe.bind hR (hr.typeImpl _ ?_)
          | with_reducible apply Safe.bind hR (hr.context _ ?_)
          | with_reducible apply Safe.bind hR (hr.global _ ?_)
          | with_reducible apply Safe.bind hR (hr.archetype _ ?_)
          | with_reducible apply Safe.bind hR (hr.loop _ _ _ ?_ ?_)
          | with_reducible apply Safe.bind hR (demangleBoundGenericArgsList_safe hR hr _ _ ?_)
          | with_reducible apply Safe.bind hR (getChild_safe hR _ _ _)
          | with_reducible apply demangleBoundGenericArgs_safe hR hr parentOrModule _ ?_
          | with_reducible apply hr.typeImpl _ ?_
          | with_reducible apply hr.context _ ?_
          | with_reducible apply hr.global _ ?_
          | with_reducible apply hr.archetype _ ?_
          | with_reducible apply hr.loop _ _ _ ?_ ?_
          | with_reducible apply demangleBoundGenericArgsList_safe hR hr _ _ ?_
          | with_reducible apply getChild_safe hR _ _ _
          | with_reducible apply Safe.mono (demangleBoundGenericArgs_safe hR hr parentOrModule _ ?_)
          | with_reducible apply Safe.mono (hr.typeImpl _ ?_)
          | with_reducible apply Safe.mono (hr.context _ ?_)
          | with_reducible apply Safe.mono (hr.global _ ?_)
          | with_reducible apply Safe.mono (hr.archetype _ ?_)
          | with_reducible apply Safe.mono (hr.loop _ _ _ ?_ ?_)
          | with_reducible apply Safe.mono (demangleBoundGenericArgsList_safe hR hr _ _ ?_)
          | with_reducible apply Safe.mono (getChild_safe hR _ _ _)
          | with_reducible apply Safe.ite
          | with_reducible apply Safe.bind hR (P := fun _ _ => True)
          | split
          | simp only [])
      | ((fail_if_success with_reducible apply Safe.here); first
          | intro _
          | omega
          | with_reducible exact trivial
          | contradiction
          | decide
          | dsimp only)

theorem demangleBoundGenericType_safe (hR : StepRel R) {r : Rec} {n : Nat} (hr : Good F R r n)
    (E : Env) (s : St) (h : s.len ≤ n) :
    Safe F R (demangleBoundGenericType E r) s (fun _ s1 => s1.len < s.len) := by
  unfold demangleBoundGenericType
  repeat' first
    | ((with_reducible apply Safe.here); first
        | with_reducible apply Safe.fail hR
        | with_reducible apply Safe.pure hR
        | with_reducible apply Safe.ite_nextIf hR _
        | with_reducible apply Safe.ite_not_nextIf hR _
        | with_reducible apply Safe.ite_nextIfStr hR _
        | with_reducible apply Safe.ite_not_nextIfStr hR _
        | with_reducible apply Safe.ite_nonEmpty hR
        | with_reducible apply Safe.ite_not_nonEmpty hR
        | with_reducible apply Safe.ite_isEmpty hR
        | with_reducible apply Safe.ite_not_isEmpty hR
        | with_reducible apply Safe.bind_nextIf hR ?_ ?_ _
        | with_reducible apply Safe.bind_nextIfStr hR _
        | with_reducible apply Safe.bind_peek hR
        | with_reducible apply Safe.bind_next hR
        | with_reducible apply Safe.bind_same hR (run_hasAtLeast _ _)
        | with_reducible apply Safe.bind_same hR (run_slice _ _)
        | with_reducible apply Safe.bind_same hR (run_getSubstitutions _)
        | with_reducible apply Safe.bind hR (hr.typeImpl _ ?_)
        | with_reducible apply Safe.bind hR (hr.context _ ?_)
        | with_reducible apply Safe.bind hR (hr.global _ ?_)
        | with_reducible apply Safe.bind hR (hr.archetype _ ?_)
        | with_reducible apply Safe.bind hR (hr.loop _ _ _ ?_ ?_)
        | with_reducible apply Safe.bind hR (demangleBoundGenericArgs_safe hR hr _ _ ?_)
        | with_reducible apply Safe.bind hR (demangleNominalType_safe hR hr _ _ ?_)
        | with_reducible apply hr.typeImpl _ ?_
        | with_reducible apply hr.context _ ?_
        | with_reducible apply hr.global _ ?_
        | with_reducible apply hr.archetype _ ?_
        | with_reducible apply hr.loop _ _ _ ?_ ?_
        | with_reducible apply demangleBoundGenericArgs_safe hR hr _ _ ?_
        | with_reducible apply demangleNominalType_safe hR hr _ _ ?_
        | with_reducible apply Safe.mono (hr.typeImpl _ ?_)
        | with_reducible apply Safe.mono (hr.context _ ?_)
        | with_reducible apply Safe.mono (hr.global _ ?_)
        | with_reducible apply Safe.mono (hr.archetype _ ?_)
        | with_reducible apply Safe.mono (hr.loop _ _ _ ?_ ?_)
        | with_reducible apply Safe.mono (demangleBoundGenericArgs_safe hR hr _ _ ?_)
        | with_reducible apply Safe.mono (demangleNominalType_safe hR hr _ _ ?_)
        | with_reducible apply Safe.ite
        | with_reducible apply Safe.bind hR (P := fun _ _ => True)
        | split
        | simp only [])
    | ((fail_if_success with_reducible apply Safe.here); first
        | intro _
        | omega
        | with_reducible exact trivial
        | contradiction
        | decide
        | dsimp only)

theorem demangleProtocolListRound_safe (hR : StepRel R) {r : Rec} {n : Nat} (hr : Good F R r n)
    (E : Env) (type_list : Node) (s : St) (h : s.len < n) :
    Safe F R (demangleProtocolListRound E r type_list) s (fun it s1 => ∀ a, it = Iter.again a → s1.len < s.len) := by
  unfold demangleProtocolListRound
  repeat' first
    | ((with_reducible apply Safe.here); first
        | with_reducible apply Safe.fail hR
        | with_reducible apply Safe.pure hR
        | with_reducible apply Safe.ite_nextIf hR _
        | with_reducible apply Safe.ite_not_nextIf hR _
        | with_reducible apply Safe.ite_nextIfStr hR _
        | with_reducible apply Safe.ite_not_nextIfStr hR _
        | with_reducible apply Safe.ite_nonEmpty hR
        | with_reducible apply Safe.ite_not_nonEmpty hR
        | with_reducible apply Safe.ite_isEmpty hR
        | with_reducible apply Safe.ite_not_isEmpty hR
        | with_reducible apply Safe.bind_nextIf hR ?_ ?_ _
        | with_reducible apply Safe.bind_nextIfStr hR _
        | with_reducible apply Safe.bind_peek hR
        | with_reducible apply Safe.bind_next hR
        | with_reducible apply Safe.bind_same hR (run_hasAtLeast _ _)
        | with_reducible apply Safe.bind_same hR (run_slice _ _)
        | with_reducible apply Safe.bind_same hR (run_getSubstitutions _)
        | with_reducible apply Safe.bind hR (hr.typeImpl _ ?_)
        | with_reducible apply Safe.bind hR (hr.context _ ?_)
        | with_reducible apply Safe.bind hR (hr.global _ ?_)
        | with_reducible apply Safe.bind hR (hr.archetype _ ?_)
        | with_reducible apply Safe.bind hR (hr.loop _ _ _ ?_ ?_)
        | with_reducible apply Safe.bind hR (demangleProtocolName_safe hR hr _ _ ?_)
        | with_reducible apply hr.typeImpl _ ?_
        | with_reducible apply hr.context _ ?_
        | with_reducible apply hr.global _ ?_
        | with_reducible apply hr.archetype _ ?_
        | with_reducible apply hr.loop _ _ _ ?_ ?_
        | with_reducible apply demangleProtocolName_safe hR hr _ _ ?_
        | with_reducible apply Safe.mono (hr.typeImpl _ ?_)
        | with_reducible apply Safe.mono (hr.context _ ?_)
        | with_reducible apply Safe.mono (hr.global _ ?_)
        | with_reducible apply Safe.mono (hr.archetype _ ?_)
        | with_reducible apply Safe.mono (hr.loop _ _ _ ?_ ?_)
        | with_reducible apply Safe.mono (demangleProtocolName_safe hR hr _ _ ?_)
        | with_reducible apply Safe.ite
        | with_reducible apply Safe.bind hR (P := fun _ _ => True)
        | split
        | simp only [])
    | ((fail_if_success with_reducible apply Safe.here); first
        | intro _
        | omega
        | with_reducible exact trivial
        | contradiction
        | decide
        | dsimp only)

theorem demangleProtocolList_safe (hR : StepRel R) {r : Rec} {n : Nat} (hr : Good F R r n)
    (E : Env) (s : St) (h : s.len < n) :
    Safe F R (demangleProtocolList E r) s (fun _ _ => True) := by
  unfold demangleProtocolList
  repeat' first
    | ((with_reducible apply Safe.here); first
        | with_reducible apply Safe.fail hR
        | with_reducible apply Safe.pure hR
        | with_reducible apply Safe.ite_nextIf hR _
        | with_reducible apply Safe.ite_not_nextIf hR _
        | with_reducible apply Safe.ite_nextIfStr hR _
        | with_reducible apply Safe.ite_not_nextIfStr hR _
        | with_reducible apply Safe.ite_nonEmpty hR
        | with_reducible apply Safe.ite_not_nonEmpty hR
        | with_reducible apply Safe.ite_isEmpty hR
        | with_reducible apply Safe.ite_not_isEmpty hR
        | with_reducible apply Safe.bind_nextIf hR ?_ ?_ _
        | with_reducible apply Safe.bind_nextIfStr hR _
        | with_reducible apply Safe.bind_peek hR
        | with_reducible apply Safe.bind_next hR
        | with_reducible apply Safe.bind_same hR (run_hasAtLeast _ _)
        | with_reducible apply Safe.bind_same hR (run_slice _ _)
        | with_reducible apply Safe.bind_same hR (run_getSubstitutions _)
        | with_reducible apply Safe.bind hR (hr.typeImpl _ ?_)
        | with_reducible apply Safe.bind hR (hr.context _ ?_)
        | with_reducible apply Safe.bind hR (hr.global _ ?_)
        | with_reducible apply Safe.bind hR (hr.archetype _ ?_)
        | with_reducible apply Safe.bind hR (hr.loop _ _ _ ?_ ?_)
        | with_reducible apply Safe.bind hR (demangleProtocolListRound_safe hR hr _ _ _ ?_)
        | with_reducible apply hr.typeImpl _ ?_
        | with_reducible apply hr.context _ ?_
        | with_reducible apply hr.global _ ?_
        | with_reducible apply hr.archetype _ ?_
        | with_reducible apply hr.loop _ _ _ ?_ ?_
        | with_reducible apply demangleProtocolListRound_safe hR hr _ _ _ ?_
        | with_reducible apply Safe.mono (hr.typeImpl _ ?_)
        | with_reducible apply Safe.mono (hr.context _ ?_)
        | with_reducible apply Safe.mono (hr.global _ ?_)
        | with_reducible apply Safe.mono (hr.archetype _ ?_)
        | with_reducible apply Safe.mono (hr.loop _ _ _ ?_ ?_)
        | with_reducible apply Safe.mono (demangleProtocolListRound_safe hR hr _ _ _ ?_)
        | with_reducible apply Safe.ite
        | with_reducible apply Safe.bind hR (P := fun _ _ => True)
        | split
        | simp only [])
    | ((fail_if_success with_reducible apply Safe.here); first
        | intro _
        | omega
        | with_reducible exact trivial
        | contradiction
        | decide
        | dsimp only)

theorem demangleProtocolConformance_safe (hR : StepRel R) {r : Rec} {n : Nat} (hr : Good F R r n)
    (E : Env) (s : St) (h : s.len < n) :
    Safe F R (demangleProtocolConformance E r) s (fun _ s1 => s1.len < s.len) := by
  unfold demangleProtocolConformance
  repeat' first
    | ((with_reducible apply Safe.here); first
        | with_reducible apply Safe.fail hR
        | with_reducible apply Safe.pure hR
        | with_reducible apply Safe.ite_nextIf hR _
        | with_reducible apply Safe.ite_not_nextIf hR _
        | with_reducible apply Safe.ite_nextIfStr hR _
        | with_reducible apply Safe.ite_not_nextIfStr hR _
        | with_reducible apply Safe.ite_nonEmpty hR
        | with_reducible apply Safe.ite_not_nonEmpty hR
        | with_reducible apply Safe.ite_isEmpty hR
        | with_reducible apply Safe.ite_not_isEmpty hR
        | with_reducible apply Safe.bind_nextIf hR ?_ ?_ _
        | with_reducible apply Safe.bind_nextIfStr hR _
        | with_reducible apply Safe.bind_peek hR
        | with_reducible apply Safe.bind_next hR
        | with_reducible apply Safe.bind_same hR (run_hasAtLeast _ _)
        | with_reducible apply Safe.bind_same hR (run_slice _ _)
        | with_reducible apply Safe.bind_same hR (run_getSubstitutions _)
        | with_reducible apply Safe.bind hR (hr.typeImpl _ ?_)
        | with_reducible apply Safe.bind hR (hr.context _ ?_)
        | with_reducible apply Safe.bind hR (hr.global _ ?_)
        | with_reducible apply Safe.bind hR (hr.archetype _ ?_)
        | with_reducible apply Safe.bind hR (hr.loop _ _ _ ?_ ?_)
        | with_reducible apply Safe.bind hR (demangleProtocolName_safe hR hr _ _ ?_)
        | with_reducible apply Safe.bind hR (demangleType_safe hR hr _ ?_)
        | with_reducible apply hr.typeImpl _ ?_
        | with_reducible apply hr.context _ ?_
        | with_reducible apply hr.global _ ?_
        | with_reducible apply hr.archetype _ ?_
        | with_reducible apply hr.loop _ _ _ ?_ ?_
        | with_reducible apply demangleProtocolName_safe hR hr _ _ ?_
        | with_reducible apply demangleType_safe hR hr _ ?_
        | with_reducible apply Safe.mono (hr.typeImpl _ ?_)
        | with_reducible apply Safe.mono (hr.context _ ?_)
        | with_reducible apply Safe.mono (hr.global _ ?_)
        | with_reducible apply Safe.mono (hr.archetype _ ?_)
        | with_reducible apply Safe.mono (hr.loop _ _ _ ?_ ?_)
        | with_reducible apply Safe.mono (demangleProtocolName_safe hR hr _ _ ?_)
        | with_reducible apply Safe.mono (demangleType_safe hR hr _ ?_)
        | with_reducible apply Safe.ite
        | with_reducible apply Safe.bind hR (P := fun _ _ => True)
        | split
        | simp only [])
    | ((fail_if_success with_reducible apply Safe.here); first
        | intro _
        | omega
        | with_reducible exact trivial
        | contradiction
        | decide
        | dsimp only)

theorem demangleEntityNode_safe (hR : StepRel R) {r : Rec} {n : Nat} (hr : Good F R r n)
    (context : Node) (en : EntityName) (s : St) (h : s.len < n) :
    Safe F R (demangleEntityNode r context en) s (fun _ _ => True) := by
  unfold demangleEntityNode
  repeat' first
    | ((with_reducible apply Safe.here); first
        | with_reducible apply Safe.fail hR
        | with_reducible apply Safe.pure hR
        | with_reducible apply Safe.ite_nextIf hR _
        | with_reducible apply Safe.ite_not_nextIf hR _
        | with_reducible apply Safe.ite_nextIfStr hR _
        | with_reducible apply Safe.ite_not_nextIfStr hR _
        | with_reducible apply Safe.ite_nonEmpty hR
        | with_reducible apply Safe.ite_not_nonEmpty hR
        | with_reducible apply Safe.ite_isEmpty hR
        | with_reducible apply Safe.ite_not_isEmpty hR
        | with_reducible apply Safe.bind_nextIf hR ?_ ?_ _
        | with_reducible apply Safe.bind_nextIfStr hR _
        | with_reducible apply Safe.bind_peek hR
        | with_reducible apply Safe.bind_next hR
        | with_reducible apply Safe.bind_same hR (run_hasAtLeast _ _)
        | with_reducible apply Safe.bind_same hR (run_slice _ _)
        | with_reducible apply Safe.bind_same hR (run_getSubstitutions _)
        | with_reducible apply Safe.bind hR (hr.typeImpl _ ?_)
        | with_reducible apply Safe.bind hR (hr.context _ ?_)
        | with_reducible apply Safe.bind hR (hr.global _ ?_)
        | with_reducible apply Safe.bind hR (hr.archetype _ ?_)
        | with_reducible apply Safe.bind hR (hr.loop _ _ _ ?_ ?_)
        | with_reducible apply Safe.bind hR (demangleType_safe hR hr _ ?_)
        | with_reducible apply Safe.bind hR (rewriteSubscriptName_safe hR _ _)
        | with_reducible apply hr.typeImpl _ ?_
        | with_reducible apply hr.context _ ?_
        | with_reducible apply hr.global _ ?_
        | with_reducible apply hr.archetype _ ?_
        | with_reducible apply hr.loop _ _ _ ?_ ?_
        | with_reducible apply demangleType_safe hR hr _ ?_
        | with_reducible apply rewriteSubscriptName_safe hR _ _
        | with_reducible apply Safe.mono (hr.typeImpl _ ?_)
        | with_reducible apply Safe.mono (hr.context _ ?_)
        | with_reducible apply Safe.mono (hr.global _ ?_)
        | with_reducible apply Safe.mono (hr.archetype _ ?_)
        | with_reducible apply Safe.mono (hr.loop _ _ _ ?_ ?_)
        | with_reducible apply Safe.mono (demangleType_safe hR hr _ ?_)
        | with_reducible apply Safe.mono (rewriteSubscriptName_safe hR _ _)
        | with_reducible apply Safe.ite
        | with_reducible apply Safe.bind hR (P := fun _ _ => True)
        | split
        | simp only [])
    | ((fail_if_success with_reducible apply Safe.here); first
        | intro _
        | omega
        | with_reducible exact trivial
        | contradiction
        | decide
        | dsimp only)

theorem demangleEntityOfKind_safe (hR : StepRel R) {r : Rec} {n : Nat} (hr : Good F R r n)
    (E : Env) (isStatic : Bool) (entityBasicKind : Kind) (s : St) (h : s.len < n) :
    Safe F R (demangleEntityOfKind E r isStatic entityBasicKind) s (fun _ s1 => s1.len < s.len) := by
  unfold demangleEntityOfKind
  repeat' first
    | ((with_reducible apply Safe.here); first
        | with_reducible apply Safe.fail hR
        | with_reducible apply Safe.pure hR
        | with_reducible apply Safe.ite_nextIf hR _
        | with_reducible apply Safe.ite_not_nextIf hR _
        | with_reducible apply Safe.ite_nextIfStr hR _
        | with_reducible apply Safe.ite_not_nextIfStr hR _
        | with_reducible apply Safe.ite_nonEmpty hR
        | with_reducible apply Safe.ite_not_nonEmpty hR
        | with_reducible apply Safe.ite_isEmpty hR
        | with_reducible apply Safe.ite_not_isEmpty hR
        | with_reducible apply Safe.bind_nextIf hR ?_ ?_ _
        | with_reducible apply Safe.bind_nextIfStr hR _
        | with_reducible apply Safe.bind_peek hR
        | with_reducible apply Safe.bind_next hR
        | with_reducible apply Safe.bind_same hR (run_hasAtLeast _ _)
        | with_reducible apply Safe.bind_same hR (run_slice _ _)
        | with_reducible apply Safe.bind_same hR (run_getSubstitutions _)
        | with_reducible apply Safe.bind hR (hr.typeImpl _ ?_)
        | with_reducible apply Safe.bind hR (hr.context _ ?_)
        | with_reducible apply Safe.bind hR (hr.global _ ?_)
        | with_reducible apply Safe.bind hR (hr.archetype _ ?_)
        | with_reducible apply Safe.bind hR (hr.loop _ _ _ ?_ ?_)
        | with_reducible apply Safe.bind hR (demangleEntityNode_safe hR hr _ _ _ ?_)
        | with_reducible apply Safe.bind hR (demangleEntityName_safe hR _ _ _)
        | with_reducible apply hr.typeImpl _ ?_
        | with_reducible apply hr.context _ ?_
        | with_reducible apply hr.global _ ?_
        | with_reducible apply hr.archetype _ ?_
        | with_reducible apply hr.loop _ _ _ ?_ ?_
        | with_reducible apply demangleEntityNode_safe hR hr _ _ _ ?_
        | with_reducible apply demangleEntityName_safe hR _ _ _
        | with_reducible apply Safe.mono (hr.typeImpl _ ?_)
        | with_reducible apply Safe.mono (hr.context _ ?_)
        | with_reducible apply Safe.mono (hr.global _ ?_)
        | with_reducible apply Safe.mono (hr.archetype _ ?_)
        | with_reducible apply Safe.mono (hr.loop _ _ _ ?_ ?_)
        | with_reducible apply Safe.mono (demangleEntityNode_safe hR hr _ _ _ ?_)
        | with_reducible apply Safe.mono (demangleEntityName_safe hR _ _ _)
        | with_reducible apply Safe.ite
        | with_reducible apply Safe.bind hR (P := fun _ _ => True)
        | split
        | simp only [])
    | ((fail_if_success with_reducible apply Safe.here); first
        | intro _
        | omega
        | with_reducible exact trivial
        | contradiction
        | decide
        | dsimp only)

theorem demangleEntity_safe (hR : StepRel R) {r : Rec} {n : Nat} (hr : Good F R r n)
    (E : Env) (s : St) (h : s.len ≤ n) :
    Safe F R (demangleEntity E r) s (fun _ s1 => s1.len < s.len) := by
  unfold demangleEntity
  repeat' first
    | ((with_reducible apply Safe.here); first
        | with_reducible apply Safe.fail hR
        | with_reducible apply Safe.pure hR
        | with_reducible apply Safe.ite_nextIf hR _
        | with_reducible apply Safe.ite_not_nextIf hR _
        | with_reducible apply Safe.ite_nextIfStr hR _
        | with_reducible apply Safe.ite_not_nextIfStr hR _
        | with_reducible apply Safe.ite_nonEmpty hR
        | with_reducible apply Safe.ite_not_nonEmpty hR
        | with_reducible apply Safe.ite_isEmpty hR
        | with_reducible apply Safe.ite_not_isEmpty hR
        | with_reducible apply Safe.bind_nextIf hR ?_ ?_ _
        | with_reducible apply Safe.bind_nextIfStr hR _
        | with_reducible apply Safe.bind_peek hR
        | with_reducible apply Safe.bind_next hR
        | with_reducible apply Safe.bind_same hR (run_hasAtLeast _ _)
        | with_reducible apply Safe.bind_same hR (run_slice _ _)
        | with_reducible apply Safe.bind_same hR (run_getSubstitutions _)
        | with_reducible apply Safe.bind hR (hr.typeImpl _ ?_)
        | with_reducible apply Safe.bind hR (hr.context _ ?_)
        | with_reducible apply Safe.bind hR (hr.global _ ?_)
        | with_reducible apply Safe.bind hR (hr.archetype _ ?_)
        | with_reducible apply Safe.bind hR (hr.loop _ _ _ ?_ ?_)
        | with_reducible apply Safe.bind hR (demangleEntityOfKind_safe hR hr _ _ _ _ ?_)
        | with_reducible apply Safe.bind hR (demangleNominalType_safe hR hr _ _ ?_)
        | with_reducible apply hr.typeImpl _ ?_
        | with_reducible apply hr.context _ ?_
        | with_reducible apply hr.global _ ?_
        | with_reducible apply hr.archetype _ ?_
        | with_reducible apply hr.loop _ _ _ ?_ ?_
        | with_reducible apply demangleEntityOfKind_safe hR hr _ _ _ _ ?_
        | with_reducible apply demangleNominalType_safe hR hr _ _ ?_
        | with_reducible apply Safe.mono (hr.typeImpl _ ?_)
        | with_reducible apply Safe.mono (hr.context _ ?_)
        | with_reducible apply Safe.mono (hr.global _ ?_)
        | with_reducible apply Safe.mono (hr.archetype _ ?_)
        | with_reducible apply Safe.mono (hr.loop _ _ _ ?_ ?_)
        | with_reducible apply Safe.mono (demangleEntityOfKind_safe hR hr _ _ _ _ ?_)
        | with_reducible apply Safe.mono (demangleNominalType_safe hR hr _ _ ?_)
        | with_reducible apply Safe.ite
        | with_reducible apply Safe.bind hR (P := fun _ _ => True)
        | split
        | simp only [])
    | ((fail_if_success with_reducible apply Safe.here); first
        | intro _
        | omega
        | with_reducible exact trivial
        | contradiction
        | decide
        | dsimp only)

theorem demangleDependentMemberTypeName_safe (hR : StepRel R) {r : Rec} {n : Nat} (hr : Good F R r n)
    (E : Env) (base : Node) (s : St) (h : s.len ≤ n) :
    Safe F R (demangleDependentMemberTypeName E r base) s (fun _ s1 => s1.len < s.len) := by
  unfold demangleDependentMemberTypeName
  repeat' first
    | ((with_reducible apply Safe.here); first
        | with_reducible apply Safe.fail hR
        | with_reducible apply Safe.pure hR
        | with_reducible apply Safe.ite_nextIf hR _
        | with_reducible apply Safe.ite_not_nextIf hR _
        | with_reducible apply Safe.ite_nextIfStr hR _
        | with_reducible apply Safe.ite_not_nextIfStr hR _
        | with_reducible apply Safe.ite_nonEmpty hR
        | with_reducible apply Safe.ite_not_nonEmpty hR
        | with_reducible apply Safe.ite_isEmpty hR
        | with_reducible apply Safe.ite_not_isEmpty hR
        | with_reducible apply Safe.bind_nextIf hR ?_ ?_ _
        | with_reducible apply Safe.bind_nextIfStr hR _
        | with_reducible apply Safe.bind_peek hR
        | with_reducible apply Safe.bind_next hR
        | with_reducible apply Safe.bind_same hR (run_hasAtLeast _ _)
        | with_reducible apply Safe.bind_same hR (run_slice _ _)
        | with_reducible apply Safe.bind_same hR (run_getSubstitutions _)
        | with_reducible apply Safe.bind hR (hr.typeImpl _ ?_)
        | with_reducible apply Safe.bind hR (hr.context _ ?_)
        | with_reducible apply Safe.bind hR (hr.global _ ?_)
        | with_reducible apply Safe.bind hR (hr.archetype _ ?_)
        | with_reducible apply Safe.bind hR (hr.loop _ _ _ ?_ ?_)
        | with_reducible apply Safe.bind hR (demangleProtocolName_safe hR hr _ _ ?_)
        | with_reducible apply Safe.bind hR (demangleSubstitutionIndex_safe hR _ _)
        | with_reducible apply Safe.bind hR (demangleIdentifier_safe hR _ _ _)
        | with_reducible apply Safe.bind hR (pushSubstitution_safe hR _ _)
        | with_reducible apply hr.typeImpl _ ?_
        | with_reducible apply hr.context _ ?_
        | with_reducible apply hr.global _ ?_
        | with_reducible apply hr.archetype _ ?_
        | with_reducible apply hr.loop _ _ _ ?_ ?_
        | with_reducible apply demangleProtocolName_safe hR hr _ _ ?_
        | with_reducible apply demangleSubstitutionIndex_safe hR _ _
        | with_reducible apply demangleIdentifier_safe hR _ _ _
        | with_reducible apply pushSubstitution_safe hR _ _
        | with_reducible apply Safe.mono (hr.typeImpl _ ?_)
        | with_reducible apply Safe.mono (hr.context _ ?_)
        | with_reducible apply Safe.mono (hr.global _ ?_)
        | with_reducible apply Safe.mono (hr.archetype _ ?_)
        | with_reducible apply Safe.mono (hr.loop _ _ _ ?_ ?_)
        | with_reducible apply Safe.mono (demangleProtocolName_safe hR hr _ _ ?_)
        | with_reducible apply Safe.mono (demangleSubstitutionIndex_safe hR _ _)
        | with_reducible apply Safe.mono (demangleIdentifier_safe hR _ _ _)
        | with_reducible apply Safe.mono (pushSubstitution_safe hR _ _)
        | with_reducible apply Safe.ite
        | with_reducible apply Safe.bind hR (P := fun _ _ => True)
        | split
        | simp only [])
    | ((fail_if_success with_reducible apply Safe.here); first
        | intro _
        | omega
        | with_reducible exact trivial
        | contradiction
        | decide
        | dsimp only)

theorem demangleAssociatedTypeSimple_safe (hR : StepRel R) {r : Rec} {n : Nat} (hr : Good F R r n)
    (E : Env) (s : St) (h : s.len ≤ n) :
    Safe F R (demangleAssociatedTypeSimple E r) s (fun _ s1 => s1.len < s.len) := by
  unfold demangleAssociatedTypeSimple
  repeat' first
    | ((with_reducible apply Safe.here); first
        | with_reducible apply Safe.fail hR
        | with_reducible apply Safe.pure hR
        | with_reducible apply Safe.ite_nextIf hR _
        | with_reducible apply Safe.ite_not_nextIf hR _
        | with_reducible apply Safe.ite_nextIfStr hR _
        | with_reducible apply Safe.ite_not_nextIfStr hR _
        | with_reducible apply Safe.ite_nonEmpty hR
        | with_reducible apply Safe.ite_not_nonEmpty hR
        | with_reducible apply Safe.ite_isEmpty hR
        | with_reducible apply Safe.ite_not_isEmpty hR
        | with_reducible apply Safe.bind_nextIf hR ?_ ?_ _
        | with_reducible apply Safe.bind_nextIfStr hR _
        | with_reducible apply Safe.bind_peek hR
        | with_reducible apply Safe.bind_next hR
        | with_reducible apply Safe.bind_same hR (run_hasAtLeast _ _)
        | with_reducible apply Safe.bind_same hR (run_slice _ _)
        | with_reducible apply Safe.bind_same hR (run_getSubstitutions _)
        | with_reducible apply Safe.bind hR (hr.typeImpl _ ?_)
        | with_reducible apply Safe.bind hR (hr.context _ ?_)
        | with_reducible apply Safe.bind hR (hr.global _ ?_)
        | with_reducible apply Safe.bind hR (hr.archetype _ ?_)
        | with_reducible apply Safe.bind hR (hr.loop _ _ _ ?_ ?_)
        | with_reducible apply Safe.bind hR (demangleDependentMemberTypeName_safe hR hr _ _ _ ?_)
        | with_reducible apply Safe.bind hR (demangleGenericParamIndex_safe hR _ _)
        | with_reducible apply hr.typeImpl _ ?_
        | with_reducible apply hr.context _ ?_
        | with_reducible apply hr.global _ ?_
        | with_reducible apply hr.archetype _ ?_
        | with_reducible apply hr.loop _ _ _ ?_ ?_
        | with_reducible apply demangleDependentMemberTypeName_safe hR hr _ _ _ ?_
        | with_reducible apply demangleGenericParamIndex_safe hR _ _
        | with_reducible apply Safe.mono (hr.typeImpl _ ?_)
        | with_reducible apply Safe.mono (hr.context _ ?_)
        | with_reducible apply Safe.mono (hr.global _ ?_)
        | with_reducible apply Safe.mono (hr.archetype _ ?_)
        | with_reducible apply Safe.mono (hr.loop _ _ _ ?_ ?_)
        | with_reducible apply Safe.mono (demangleDependentMemberTypeName_safe hR hr _ _ _ ?_)
        | with_reducible apply Safe.mono (demangleGenericParamIndex_safe hR _ _)
        | with_reducible apply Safe.ite
        | with_reducible apply Safe.bind hR (P := fun _ _ => True)
        | split
        | simp only [])
    | ((fail_if_success with_reducible apply Safe.here); first
        | intro _
        | omega
        | with_reducible exact trivial
        | contradiction
        | decide
        | dsimp only)

theorem demangleAssociatedTypeCompoundRound_safe (hR : StepRel R) {r : Rec} {n : Nat} (hr : Good F R r n)
    (E : Env) (base : Node) (s : St) (h : s.len ≤ n) :
    Safe F R (demangleAssociatedTypeCompoundRound E r base) s (fun it s1 => ∀ a, it = Iter.again a → s1.len < s.len) := by
  unfold demangleAssociatedTypeCompoundRound
  repeat' first
    | ((with_reducible apply Safe.here); first
        | with_reducible apply Safe.fail hR
        | with_reducible apply Safe.pure hR
        | with_reducible apply Safe.ite_nextIf hR _
        | with_reducible apply Safe.ite_not_nextIf hR _
        | with_reducible apply Safe.ite_nextIfStr hR _
        | with_reducible apply Safe.ite_not_nextIfStr hR _
        | with_reducible apply Safe.ite_nonEmpty hR
        | with_reducible apply Safe.ite_not_nonEmpty hR
        | with_reducible apply Safe.ite_isEmpty hR
        | with_reducible apply Safe.ite_not_isEmpty hR
        | with_reducible apply Safe.bind_nextIf hR ?_ ?_ _
        | with_reducible apply Safe.bind_nextIfStr hR _
        | with_reducible apply Safe.bind_peek hR
        | with_reducible apply Safe.bind_next hR
        | with_reducible apply Safe.bind_same hR (run_hasAtLeast _ _)
        | with_reducible apply Safe.bind_same hR (run_slice _ _)
        | with_reducible apply Safe.bind_same hR (run_getSubstitutions _)
        | with_reducible apply Safe.bind hR (hr.typeImpl _ ?_)
        | with_reducible apply Safe.bind hR (hr.context _ ?_)
        | with_reducible apply Safe.bind hR (hr.global _ ?_)
        | with_reducible apply Safe.bind hR (hr.archetype _ ?_)
        | with_reducible apply Safe.bind hR (hr.loop _ _ _ ?_ ?_)
        | with_reducible apply Safe.bind hR (demangleDependentMemberTypeName_safe hR hr _ _ _ ?_)
        | with_reducible apply hr.typeImpl _ ?_
        | with_reducible apply hr.context _ ?_
        | with_reducible apply hr.global _ ?_
        | with_reducible apply hr.archetype _ ?_
        | with_reducible apply hr.loop _ _ _ ?_ ?_
        | with_reducible apply demangleDependentMemberTypeName_safe hR hr _ _ _ ?_
        | with_reducible apply Safe.mono (hr.typeImpl _ ?_)
        | with_reducible apply Safe.mono (hr.context _ ?_)
        | with_reducible apply Safe.mono (hr.global _ ?_)
        | with_reducible apply Safe.mono (hr.archetype _ ?_)
        | with_reducible apply Safe.mono (hr.loop _ _ _ ?_ ?_)
        | with_reducible apply Safe.mono (demangleDependentMemberTypeName_safe hR hr _ _ _ ?_)
        | with_reducible apply Safe.ite
        | with_reducible apply Safe.bind hR (P := fun _ _ => True)
        | split
        | simp only [])
    | ((fail_if_success with_reducible apply Safe.here); first
        | intro _
        | omega
        | with_reducible exact trivial
        | contradiction
        | decide
        | dsimp only)

theorem demangleAssociatedTypeCompound_safe (hR : StepRel R) {r : Rec} {n : Nat} (hr : Good F R r n)
    (E : Env) (s : St) (h : s.len ≤ n) :
    Safe F R (demangleAssociatedTypeCompound E r) s (fun _ s1 => s1.len < s.len) := by
  unfold demangleAssociatedTypeCompound
  repeat' first
    | ((with_reducible apply Safe.here); first
        | with_reducible apply Safe.fail hR
        | with_reducible apply Safe.pure hR
        | with_reducible apply Safe.ite_nextIf hR _
        | with_reducible apply Safe.ite_not_nextIf hR _
        | with_reducible apply Safe.ite_nextIfStr hR _
        | with_reducible apply Safe.ite_not_nextIfStr hR _
        | with_reducible apply Safe.ite_nonEmpty hR
        | with_reducible apply Safe.ite_not_nonEmpty hR
        | with_reducible apply Safe.ite_isEmpty hR
        | with_reducible apply Safe.ite_not_isEmpty hR
        | with_reducible apply Safe.bind_nextIf hR ?_ ?_ _
        | with_reducible apply Safe.bind_nextIfStr hR _
        | with_reducible apply Safe.bind_peek hR
        | with_reducible apply Safe.bind_next hR
        | with_reducible apply Safe.bind_same hR (run_hasAtLeast _ _)
        | with_reducible apply Safe.bind_same hR (run_slice _ _)
        | with_reducible apply Safe.bind_same hR (run_getSubstitutions _)
        | with_reducible apply Safe.bind hR (hr.typeImpl _ ?_)
        | with_reducible apply Safe.bind hR (hr.context _ ?_)
        | with_reducible apply Safe.bind hR (hr.global _ ?_)
        | with_reducible apply Safe.bind hR (hr.archetype _ ?_)
        | with_reducible apply Safe.bind hR (hr.loop _ _ _ ?_ ?_)
        | with_reducible apply Safe.bind hR (demangleAssociatedTypeCompoundRound_safe hR hr _ _ _ ?_)
        | with_reducible apply Safe.bind hR (demangleGenericParamIndex_safe hR _ _)
        | with_reducible apply hr.typeImpl _ ?_
        | with_reducible apply hr.context _ ?_
        | with_reducible apply hr.global _ ?_
        | with_reducible apply hr.archetype _ ?_
        | with_reducible apply hr.loop _ _ _ ?_ ?_
        | with_reducible apply demangleAssociatedTypeCompoundRound_safe hR hr _ _ _ ?_
        | with_reducible apply demangleGenericParamIndex_safe hR _ _
        | with_reducible apply Safe.mono (hr.typeImpl _ ?_)
        | with_reducible apply Safe.mono (hr.context _ ?_)
        | with_reducible apply Safe.mono (hr.global _ ?_)
        | with_reducible apply Safe.mono (hr.archetype _ ?_)
        | with_reducible apply Safe.mono (hr.loop _ _ _ ?_ ?_)
        | with_reducible apply Safe.mono (demangleAssociatedTypeCompoundRound_safe hR hr _ _ _ ?_)
        | with_reducible apply Safe.mono (demangleGenericParamIndex_safe hR _ _)
        | with_reducible apply Safe.ite
        | with_reducible apply Safe.bind hR (P := fun _ _ => True)
        | split
        | simp only [])
    | ((fail_if_success with_reducible apply Safe.here); first
        | intro _
        | omega
        | with_reducible exact trivial
        | contradiction
        | decide
        | dsimp only)

theorem demangleDependentType_safe (hR : StepRel R) {r : Rec} {n : Nat} (hr : Good F R r n)
    (E : Env) (s : St) (h : s.len < n) :
    Safe F R (demangleDependentType E r) s (fun _ s1 => s1.len < s.len) := by
  unfold demangleDependentType
  repeat' first
    | ((with_reducible apply Safe.here); first
        | with_reducible apply Safe.fail hR
        | with_reducible apply Safe.pure hR
        | with_reducible apply Safe.ite_nextIf hR _
        | with_reducible apply Safe.ite_not_nextIf hR _
        | with_reducible apply Safe.ite_nextIfStr hR _
        | with_reducible apply Safe.ite_not_nextIfStr hR _
        | with_reducible apply Safe.ite_nonEmpty hR
        | with_reducible apply Safe.ite_not_nonEmpty hR
        | with_reducible apply Safe.ite_isEmpty hR
        | with_reducible apply Safe.ite_not_isEmpty hR
        | with_reducible apply Safe.bind_nextIf hR ?_ ?_ _
        | with_reducible apply Safe.bind_nextIfStr hR _
        | with_reducible apply Safe.bind_peek hR
        | with_reducible apply Safe.bind_next hR
        | with_reducible apply Safe.bind_same hR (run_hasAtLeast _ _)
        | with_reducible apply Safe.bind_same hR (run_slice _ _)
        | with_reducible apply Safe.bind_same hR (run_getSubstitutions _)
        | with_reducible apply Safe.bind hR (hr.typeImpl _ ?_)
        | with_reducible apply Safe.bind hR (hr.context _ ?_)
        | with_reducible apply Safe.bind hR (hr.global _ ?_)
        | with_reducible apply Safe.bind hR (hr.archetype _ ?_)
        | with_reducible apply Safe.bind hR (hr.loop _ _ _ ?_ ?_)
        | with_reducible apply Safe.bind hR (demangleDependentMemberTypeName_safe hR hr _ _ _ ?_)
        | with_reducible apply Safe.bind hR (demangleType_safe hR hr _ ?_)
        | with_reducible apply Safe.bind hR (demangleGenericParamIndex_safe hR _ _)
        | with_reducible apply hr.typeImpl _ ?_
        | with_reducible apply hr.context _ ?_
        | with_reducible apply hr.global _ ?_
        | with_reducible apply hr.archetype _ ?_
        | with_reducible apply hr.loop _ _ _ ?_ ?_
        | with_reducible apply demangleDependentMemberTypeName_safe hR hr _ _ _ ?_
        | with_reducible apply demangleType_safe hR hr _ ?_
        | with_reducible apply demangleGenericParamIndex_safe hR _ _
        | with_reducible apply Safe.mono (hr.typeImpl _ ?_)
        | with_reducible apply Safe.mono (hr.context _ ?_)
        | with_reducible apply Safe.mono (hr.global _ ?_)
        | with_reducible apply Safe.mono (hr.archetype _ ?_)
        | with_reducible apply Safe.mono (hr.loop _ _ _ ?_ ?_)
        | with_reducible apply Safe.mono (demangleDependentMemberTypeName_safe hR hr _ _ _ ?_)
        | with_reducible apply Safe.mono (demangleType_safe hR hr _ ?_)
        | with_reducible apply Safe.mono (demangleGenericParamIndex_safe hR _ _)
        | with_reducible apply Safe.ite
        | with_reducible apply Safe.bind hR (P := fun _ _ => True)
        | split
        | simp only [])
    | ((fail_if_success with_reducible apply Safe.here); first
        | intro _
        | omega
        | with_reducible exact trivial
        | contradiction
        | decide
        | dsimp only)

theorem demangleConstrainedTypeImpl_safe (hR : StepRel R) {r : Rec} {n : Nat} (hr : Good F R r n)
    (E : Env) (s : St) (h : s.len ≤ n) :
    Safe F R (demangleConstrainedTypeImpl E r) s (fun _ s1 => s1.len < s.len) := by
  unfold demangleConstrainedTypeImpl
  repeat' first
    | ((with_reducible apply Safe.here); first
        | with_reducible apply Safe.fail hR
        | with_reducible apply Safe.pure hR
        | with_reducible apply Safe.ite_nextIf hR _
        | with_reducible apply Safe.ite_not_nextIf hR _
        | with_reducible apply Safe.ite_nextIfStr hR _
        | with_reducible apply Safe.ite_not_nextIfStr hR _
        | with_reducible apply Safe.ite_nonEmpty hR
        | with_reducible apply Safe.ite_not_nonEmpty hR
        | with_reducible apply Safe.ite_isEmpty hR
        | with_reducible apply Safe.ite_not_isEmpty hR
        | with_reducible apply Safe.bind_nextIf hR ?_ ?_ _
        | with_reducible apply Safe.bind_nextIfStr hR _
        | with_reducible apply Safe.bind_peek hR
        | with_reducible apply Safe.bind_next hR
        | with_reducible apply Safe.bind_same hR (run_hasAtLeast _ _)
        | with_reducible apply Safe.bind_same hR (run_slice _ _)
        | with_reducible apply Safe.bind_same hR (run_getSubstitutions _)
        | with_reducible apply Safe.bind hR (hr.typeImpl _ ?_)
        | with_reducible apply Safe.bind hR (hr.context _ ?_)
        | with_reducible apply Safe.bind hR (hr.global _ ?_)
        | with_reducible apply Safe.bind hR (hr.archetype _ ?_)
        | with_reducible apply Safe.bind hR (hr.loop _ _ _ ?_ ?_)
        | with_reducible apply Safe.bind hR (demangleAssociatedTypeCompound_safe hR hr _ _ ?_)
        | with_reducible apply Safe.bind hR (demangleAssociatedTypeSimple_safe hR hr _ _ ?_)
        | with_reducible apply Safe.bind hR (demangleGenericParamIndex_safe hR _ _)
        | with_reducible apply hr.typeImpl _ ?_
        | with_reducible apply hr.context _ ?_
        | with_reducible apply hr.global _ ?_
        | with_reducible apply hr.archetype _ ?_
        | with_reducible apply hr.loop _ _ _ ?_ ?_
        | with_reducible apply demangleAssociatedTypeCompound_safe hR hr _ _ ?_
        | with_reducible apply demangleAssociatedTypeSimple_safe hR hr _ _ ?_
        | with_reducible apply demangleGenericParamIndex_safe hR _ _
        | with_reducible apply Safe.mono (hr.typeImpl _ ?_)
        | with_reducible apply Safe.mono (hr.context _ ?_)
        | with_reducible apply Safe.mono (hr.global _ ?_)
        | with_reducible apply Safe.mono (hr.archetype _ ?_)
        | with_reducible apply Safe.mono (hr.loop _ _ _ ?_ ?_)
        | with_reducible apply Safe.mono (demangleAssociatedTypeCompound_safe hR hr _ _ ?_)
        | with_reducible apply Safe.mono (demangleAssociatedTypeSimple_safe hR hr _ _ ?_)
        | with_reducible apply Safe.mono (demangleGenericParamIndex_safe hR _ _)
        | with_reducible apply Safe.ite
        | with_reducible apply Safe.bind hR (P := fun _ _ => True)
        | split
        | simp only [])
    | ((fail_if_success with_reducible apply Safe.here); first
        | intro _
        | omega
        | with_reducible exact trivial
        | contradiction
        | decide
        | dsimp only)

theorem demangleConstrainedType_safe (hR : StepRel R) {r : Rec} {n : Nat} (hr : Good F R r n)
    (E : Env) (s : St) (h : s.len ≤ n) :
    Safe F R (demangleConstrainedType E r) s (fun _ s1 => s1.len < s.len) := by
  unfold demangleConstrainedType
  repeat' first
    | ((with_reducible apply Safe.here); first
        | with_reducible apply Safe.fail hR
        | with_reducible apply Safe.pure hR
        | with_reducible apply Safe.ite_nextIf hR _
        | with_reducible apply Safe.ite_not_nextIf hR _
        | with_reducible apply Safe.ite_nextIfStr hR _
        | with_reducible apply Safe.ite_not_nextIfStr hR _
        | with_reducible apply Safe.ite_nonEmpty hR
        | with_reducible apply Safe.ite_not_nonEmpty hR
        | with_reducible apply Safe.ite_isEmpty hR
        | with_reducible apply Safe.ite_not_isEmpty hR
        | with_reducible apply Safe.bind_nextIf hR ?_ ?_ _
        | with_reducible apply Safe.bind_nextIfStr hR _
        | with_reducible apply Safe.bind_peek hR
        | with_reducible apply Safe.bind_next hR
        | with_reducible apply Safe.bind_same hR (run_hasAtLeast _ _)
        | with_reducible apply Safe.bind_same hR (run_slice _ _)
        | with_reducible apply Safe.bind_same hR (run_getSubstitutions _)
        | with_reducible apply Safe.bind hR (hr.typeImpl _ ?_)
        | with_reducible apply Safe.bind hR (hr.context _ ?_)
        | with_reducible apply Safe.bind hR (hr.global _ ?_)
        | with_reducible apply Safe.bind hR (hr.archetype _ ?_)
        | with_reducible apply Safe.bind hR (hr.loop _ _ _ ?_ ?_)
        | with_reducible apply Safe.bind hR (demangleConstrainedTypeImpl_safe hR hr _ _ ?_)
        | with_reducible apply hr.typeImpl _ ?_
        | with_reducible apply hr.context _ ?_
        | with_reducible apply hr.global _ ?_
        | with_reducible apply hr.archetype _ ?_
        | with_reducible apply hr.loop _ _ _ ?_ ?_
        | with_reducible apply demangleConstrainedTypeImpl_safe hR hr _ _ ?_
        | with_reducible apply Safe.mono (hr.typeImpl _ ?_)
        | with_reducible apply Safe.mono (hr.context _ ?_)
        | with_reducible apply Safe.mono (hr.global _ ?_)
        | with_reducible apply Safe.mono (hr.archetype _ ?_)
        | with_reducible apply Safe.mono (hr.loop _ _ _ ?_ ?_)
        | with_reducible apply Safe.mono (demangleConstrainedTypeImpl_safe hR hr _ _ ?_)
        | with_reducible apply Safe.ite
        | with_reducible apply Safe.bind hR (P := fun _ _ => True)
        | split
        | simp only [])
    | ((fail_if_success with_reducible apply Safe.here); first
        | intro _
        | omega
        | with_reducible exact trivial
        | contradiction
        | decide
        | dsimp only)

theorem demangleGenericRequirement_safe (hR : StepRel R) {r : Rec} {n : Nat} (hr : Good F R r n)
    (E : Env) (s : St) (h : s.len ≤ n) :
    Safe F R (demangleGenericRequirement E r) s (fun _ s1 => s1.len < s.len) := by
  unfold demangleGenericRequirement
  repeat' first
    | ((with_reducible apply Safe.here); first
        | with_reducible apply Safe.fail hR
        | with_reducible apply Safe.pure hR
        | with_reducible apply Safe.ite_nextIf hR _
        | with_reducible apply Safe.ite_not_nextIf hR _
        | with_reducible apply Safe.ite_nextIfStr hR _
        | with_reducible apply Safe.ite_not_nextIfStr hR _
        | with_reducible apply Safe.ite_nonEmpty hR
        | with_reducible apply Safe.ite_not_nonEmpty hR
        | with_reducible apply Safe.ite_isEmpty hR
        | with_reducible apply Safe.ite_not_isEmpty hR
        | with_reducible apply Safe.bind_nextIf hR ?_ ?_ _
        | with_reducible apply Safe.bind_nextIfStr hR _
        | with_reducible apply Safe.bind_peek hR
        | with_reducible apply Safe.bind_next hR
        | with_reducible apply Safe.bind_same hR (run_hasAtLeast _ _)
        | with_reducible apply Safe.bind_same hR (run_slice _ _)
        | with_reducible apply Safe.bind_same hR (run_getSubstitutions _)
        | with_reducible apply Safe.bind hR (hr.typeImpl _ ?_)
        | with_reducible apply Safe.bind hR (hr.context _ ?_)
        | with_reducible apply Safe.bind hR (hr.global _ ?_)
        | with_reducible apply Safe.bind hR (hr.archetype _ ?_)
        | with_reducible apply Safe.bind hR (hr.loop _ _ _ ?_ ?_)
        | with_reducible apply Safe.bind hR (demangleConstrainedType_safe hR hr _ _ ?_)
        | with_reducible apply Safe.bind hR (demangleProtocolName_safe hR hr _ _ ?_)
        | with_reducible apply Safe.bind hR (demangleType_safe hR hr _ ?_)
        | with_reducible apply Safe.bind hR (demangleLayoutCode_safe hR _)
        | with_reducible apply Safe.bind hR (demangleProtocolNameGivenContext_safe hR _ _ _)
        | with_reducible apply Safe.bind hR (demangleSubstitutionIndex_safe hR _ _)
        | with_reducible apply hr.typeImpl _ ?_
        | with_reducible apply hr.context _ ?_
        | with_reducible apply hr.global _ ?_
        | with_reducible apply hr.archetype _ ?_
        | with_reducible apply hr.loop _ _ _ ?_ ?_
        | with_reducible apply demangleConstrainedType_safe hR hr _ _ ?_
        | with_reducible apply demangleProtocolName_safe hR hr _ _ ?_
        | with_reducible apply demangleType_safe hR hr _ ?_
        | with_reducible apply demangleLayoutCode_safe hR _
        | with_reducible apply demangleProtocolNameGivenContext_safe hR _ _ _
        | with_reducible apply demangleSubstitutionIndex_safe hR _ _
        | with_reducible apply Safe.mono (hr.typeImpl _ ?_)
        | with_reducible apply Safe.mono (hr.context _ ?_)
        | with_reducible apply Safe.mono (hr.global _ ?_)
        | with_reducible apply Safe.mono (hr.archetype _ ?_)
        | with_reducible apply Safe.mono (hr.loop _ _ _ ?_ ?_)
        | with_reducible apply Safe.mono (demangleConstrainedType_safe hR hr _ _ ?_)
        | with_reducible apply Safe.mono (demangleProtocolName_safe hR hr _ _ ?_)
        | with_reducible apply Safe.mono (demangleType_safe hR hr _ ?_)
        | with_reducible apply Safe.mono (demangleLayoutCode_safe hR _)
        | with_reducible apply Safe.mono (demangleProtocolNameGivenContext_safe hR _ _ _)
        | with_reducible apply Safe.mono (demangleSubstitutionIndex_safe hR _ _)
        | with_reducible apply Safe.ite
        | with_reducible apply Safe.bind hR (P := fun _ _ => True)
        | split
        | simp only [])
    | ((fail_if_success with_reducible apply Safe.here); first
        | intro _
        | omega
        | with_reducible exact trivial
        | contradiction
        | decide
        | dsimp only)

theorem demangleGenericSignatureRequirementRound_safe (hR : StepRel R) {r : Rec} {n : Nat} (hr : Good F R r n)
    (E : Env) (sig : Node) (s : St) (h : s.len ≤ n) :
    Safe F R (demangleGenericSignatureRequirementRound E r sig) s (fun it s1 => ∀ a, it = Iter.again a → s1.len < s.len) := by
  unfold demangleGenericSignatureRequirementRound
  repeat' first
    | ((with_reducible apply Safe.here); first
        | with_reducible apply Safe.fail hR
        | with_reducible apply Safe.pure hR
        | with_reducible apply Safe.ite_nextIf hR _
        | with_reducible apply Safe.ite_not_nextIf hR _
        | with_reducible apply Safe.ite_nextIfStr hR _
        | with_reducible apply Safe.ite_not_nextIfStr hR _
        | with_reducible apply Safe.ite_nonEmpty hR
        | with_reducible apply Safe.ite_not_nonEmpty hR
        | with_reducible apply Safe.ite_isEmpty hR
        | with_reducible apply Safe.ite_not_isEmpty hR
        | with_reducible apply Safe.bind_nextIf hR ?_ ?_ _
        | with_reducible apply Safe.bind_nextIfStr hR _
        | with_reducible apply Safe.bind_peek hR
        | with_reducible apply Safe.bind_next hR
        | with_reducible apply Safe.bind_same hR (run_hasAtLeast _ _)
        | with_reducible apply Safe.bind_same hR (run_slice _ _)
        | with_reducible apply Safe.bind_same hR (run_getSubstitutions _)
        | with_reducible apply Safe.bind hR (hr.typeImpl _ ?_)
        | with_reducible apply Safe.bind hR (hr.context _ ?_)
        | with_reducible apply Safe.bind hR (hr.global _ ?_)
        | with_reducible apply Safe.bind hR (hr.archetype _ ?_)
        | with_reducible apply Safe.bind hR (hr.loop _ _ _ ?_ ?_)
        | with_reducible apply Safe.bind hR (demangleGenericRequirement_safe hR hr _ _ ?_)
        | with_reducible apply hr.typeImpl _ ?_
        | with_reducible apply hr.context _ ?_
        | with_reducible apply hr.global _ ?_
        | with_reducible apply hr.archetype _ ?_
        | with_reducible apply hr.loop _ _ _ ?_ ?_
        | with_reducible apply demangleGenericRequirement_safe hR hr _ _ ?_
        | with_reducible apply Safe.mono (hr.typeImpl _ ?_)
        | with_reducible apply Safe.mono (hr.context _ ?_)
        | with_reducible apply Safe.mono (hr.global _ ?_)
        | with_reducible apply Safe.mono (hr.archetype _ ?_)
        | with_reducible apply Safe.mono (hr.loop _ _ _ ?_ ?_)
        | with_reducible apply Safe.mono (demangleGenericRequirement_safe hR hr _ _ ?_)
        | with_reducible apply Safe.ite
        | with_reducible apply Safe.bind hR (P := fun _ _ => True)
        | split
        | simp only [])
    | ((fail_if_success with_reducible apply Safe.here); first
        | intro _
        | omega
        | with_reducible exact trivial
        | contradiction
        | decide
        | dsimp only)

theorem demangleGenericSignature_safe (hR : StepRel R) {r : Rec} {n : Nat} (hr : Good F R r n)
    (E : Env) (isPseudogeneric : Bool) (s : St) (h : s.len < n) :
    Safe F R (demangleGenericSignature E r isPseudogeneric) s (fun _ s1 => s1.len < s.len) := by
  unfold demangleGenericSignature
  repeat' first
    | ((with_reducible apply Safe.here); first
        | with_reducible apply Safe.fail hR
        | with_reducible apply Safe.pure hR
        | with_reducible apply Safe.ite_nextIf hR _
        | with_reducible apply Safe.ite_not_nextIf hR _
        | with_reducible apply Safe.ite_nextIfStr hR _
        | with_reducible apply Safe.ite_not_nextIfStr hR _
        | with_reducible apply Safe.ite_nonEmpty hR
        | with_reducible apply Safe.ite_not_nonEmpty hR
        | with_reducible apply Safe.ite_isEmpty hR
        | with_reducible apply Safe.ite_not_isEmpty hR
        | with_reducible apply Safe.bind_nextIf hR ?_ ?_ _
        | with_reducible apply Safe.bind_nextIfStr hR _
        | with_reducible apply Safe.bind_peek hR
        | with_reducible apply Safe.bind_next hR
        | with_reducible apply Safe.bind_same hR (run_hasAtLeast _ _)
        | with_reducible apply Safe.bind_same hR (run_slice _ _)
        | with_reducible apply Safe.bind_same hR (run_getSubstitutions _)
        | with_reducible apply Safe.bind hR (hr.typeImpl _ ?_)
        | with_reducible apply Safe.bind hR (hr.context _ ?_)
        | with_reducible apply Safe.bind hR (hr.global _ ?_)
        | with_reducible apply Safe.bind hR (hr.archetype _ ?_)
        | with_reducible apply Safe.bind hR (hr.loop _ _ _ ?_ ?_)
        | with_reducible apply Safe.bind hR (demangleGenericSignatureRequirementRound_safe hR hr _ _ _ ?_)
        | with_reducible apply Safe.bind hR (demangleGenericSignatureCountRound_safe hR _ _)
        | with_reducible apply hr.typeImpl _ ?_
        | with_reducible apply hr.context _ ?_
        | with_reducible apply hr.global _ ?_
        | with_reducible apply hr.archetype _ ?_
        | with_reducible apply hr.loop _ _ _ ?_ ?_
        | with_reducible apply demangleGenericSignatureRequirementRound_safe hR hr _ _ _ ?_
        | with_reducible apply demangleGenericSignatureCountRound_safe hR _ _
        | with_reducible apply Safe.mono (hr.typeImpl _ ?_)
        | with_reducible apply Safe.mono (hr.context _ ?_)
        | with_reducible apply Safe.mono (hr.global _ ?_)
        | with_reducible apply Safe.mono (hr.archetype _ ?_)
        | with_reducible apply Safe.mono (hr.loop _ _ _ ?_ ?_)
        | with_reducible apply Safe.mono (demangleGenericSignatureRequirementRound_safe hR hr _ _ _ ?_)
        | with_reducible apply Safe.mono (demangleGenericSignatureCountRound_safe hR _ _)
        | with_reducible apply Safe.ite
        | with_reducible apply Safe.bind hR (P := fun _ _ => True)
        | split
        | simp only [])
    | ((fail_if_success with_reducible apply Safe.here); first
        | intro _
        | omega
        | with_reducible exact trivial
        | contradiction
        | decide
        | dsimp only)

theorem demangleContext_safe (hR : StepRel R) {r : Rec} {n : Nat} (hr : Good F R r n)
    (E : Env) (s : St) (h : s.len ≤ n) :
    Safe F R (demangleContext E r) s (fun _ s1 => s1.len < s.len) := by
  unfold demangleContext
  repeat' first
    | ((with_reducible apply Safe.here); first
        | with_reducible apply Safe.fail hR
        | with_reducible apply Safe.pure hR
        | with_reducible apply Safe.ite_nextIf hR _
        | with_reducible apply Safe.ite_not_nextIf hR _
        | with_reducible apply Safe.ite_nextIfStr hR _
        | with_reducible apply Safe.ite_not_nextIfStr hR _
        | with_reducible apply Safe.ite_nonEmpty hR
        | with_reducible apply Safe.ite_not_nonEmpty hR
        | with_reducible apply Safe.ite_isEmpty hR
        | with_reducible apply Safe.ite_not_isEmpty hR
        | with_reducible apply Safe.bind_nextIf hR ?_ ?_ _
        | with_reducible apply Safe.bind_nextIfStr hR _
        | with_reducible apply Safe.bind_peek hR
        | with_reducible apply Safe.bind_next hR
        | with_reducible apply Safe.bind_same hR (run_hasAtLeast _ _)
        | with_reducible apply Safe.bind_same hR (run_slice _ _)
        | with_reducible apply Safe.bind_same hR (run_getSubstitutions _)
        | with_reducible apply Safe.bind hR (hr.typeImpl _ ?_)
        | with_reducible apply Safe.bind hR (hr.context _ ?_)
        | with_reducible apply Safe.bind hR (hr.global _ ?_)
        | with_reducible apply Safe.bind hR (hr.archetype _ ?_)
        | with_reducible apply Safe.bind hR (hr.loop _ _ _ ?_ ?_)
        | with_reducible apply Safe.bind hR (demangleGenericSignature_safe hR hr _ _ _ ?_)
        | with_reducible apply Safe.bind hR (demangleEntity_safe hR hr _ _ ?_)
        | with_reducible apply Safe.bind hR (demangleBoundGenericType_safe hR hr _ _ ?_)
        | with_reducible apply Safe.bind hR (demangleModule_safe hR _ _)
        | with_reducible apply Safe.bind hR (demangleSubstitutionIndex_safe hR _ _)
        | with_reducible apply hr.typeImpl _ ?_
        | with_reducible apply hr.context _ ?_
        | with_reducible apply hr.global _ ?_
        | with_reducible apply hr.archetype _ ?_
        | with_reducible apply hr.loop _ _ _ ?_ ?_
        | with_reducible apply demangleGenericSignature_safe hR hr _ _ _ ?_
        | with_reducible apply demangleEntity_safe hR hr _ _ ?_
        | with_reducible apply demangleBoundGenericType_safe hR hr _ _ ?_
        | with_reducible apply demangleModule_safe hR _ _
        | with_reducible apply demangleSubstitutionIndex_safe hR _ _
        | with_reducible apply Safe.mono (hr.typeImpl _ ?_)
        | with_reducible apply Safe.mono (hr.context _ ?_)
        | with_reducible apply Safe.mono (hr.global _ ?_)
        | with_reducible apply Safe.mono (hr.archetype _ ?_)
        | with_reducible apply Safe.mono (hr.loop _ _ _ ?_ ?_)
        | with_reducible apply Safe.mono (demangleGenericSignature_safe hR hr _ _ _ ?_)
        | with_reducible apply Safe.mono (demangleEntity_safe hR hr _ _ ?_)
        | with_reducible apply Safe.mono (demangleBoundGenericType_safe hR hr _ _ ?_)
        | with_reducible apply Safe.mono (demangleModule_safe hR _ _)
        | with_reducible apply Safe.mono (demangleSubstitutionIndex_safe hR _ _)
        | with_reducible apply Safe.ite
        | with_reducible apply Safe.bind hR (P := fun _ _ => True)
        | split
        | simp only [])
    | ((fail_if_success with_reducible apply Safe.here); first
        | intro _
        | omega
        | with_reducible exact trivial
        | contradiction
        | decide
        | dsimp only)

theorem demangleArchetypeType_safe (hR : StepRel R) {r : Rec} {n : Nat} (hr : Good F R r n)
    (E : Env) (s : St) (h : s.len ≤ n) :
    Safe F R (demangleArchetypeType E r) s (fun _ s1 => s1.len < s.len) := by
  unfold demangleArchetypeType
  repeat' first
    | ((with_reducible apply Safe.here); first
        | with_reducible apply Safe.fail hR
        | with_reducible apply Safe.pure hR
        | with_reducible apply Safe.ite_nextIf hR _
        | with_reducible apply Safe.ite_not_nextIf hR _
        | with_reducible apply Safe.ite_nextIfStr hR _
        | with_reducible apply Safe.ite_not_nextIfStr hR _
        | with_reducible apply Safe.ite_nonEmpty hR
        | with_reducible apply Safe.ite_not_nonEmpty hR
        | with_reducible apply Safe.ite_isEmpty hR
        | with_reducible apply Safe.ite_not_isEmpty hR
        | with_reducible apply Safe.bind_nextIf hR ?_ ?_ _
        | with_reducible apply Safe.bind_nextIfStr hR _
        | with_reducible apply Safe.bind_peek hR
        | with_reducible apply Safe.bind_next hR
        | with_reducible apply Safe.bind_same hR (run_hasAtLeast _ _)
        | with_reducible apply Safe.bind_same hR (run_slice _ _)
        | with_reducible apply Safe.bind_same hR (run_getSubstitutions _)
        | with_reducible apply Safe.bind hR (hr.typeImpl _ ?_)
        | with_reducible apply Safe.bind hR (hr.context _ ?_)
        | with_reducible apply Safe.bind hR (hr.global _ ?_)
        | with_reducible apply Safe.bind hR (hr.archetype _ ?_)
        | with_reducible apply Safe.bind hR (hr.loop _ _ _ ?_ ?_)
        | with_reducible apply Safe.bind hR (makeAssociatedType_safe hR _ _ _)
        | with_reducible apply Safe.bind hR (demangleSubstitutionIndex_safe hR _ _)
        | with_reducible apply hr.typeImpl _ ?_
        | with_reducible apply hr.context _ ?_
        | with_reducible apply hr.global _ ?_
        | with_reducible apply hr.archetype _ ?_
        | with_reducible apply hr.loop _ _ _ ?_ ?_
        | with_reducible apply makeAssociatedType_safe hR _ _ _
        | with_reducible apply demangleSubstitutionIndex_safe hR _ _
        | with_reducible apply Safe.mono (hr.typeImpl _ ?_)
        | with_reducible apply Safe.mono (hr.context _ ?_)
        | with_reducible apply Safe.mono (hr.global _ ?_)
        | with_reducible apply Safe.mono (hr.archetype _ ?_)
        | with_reducible apply Safe.mono (hr.loop _ _ _ ?_ ?_)
        | with_reducible apply Safe.mono (makeAssociatedType_safe hR _ _ _)
        | with_reducible apply Safe.mono (demangleSubstitutionIndex_safe hR _ _)
        | with_reducible apply Safe.ite
        | with_reducible apply Safe.bind hR (P := fun _ _ => True)
        | split
        | simp only [])
    | ((fail_if_success with_reducible apply Safe.here); first
        | intro _
        | omega
        | with_reducible exact trivial
        | contradiction
        | decide
        | dsimp only)

theorem demangleTupleRound_safe (hR : StepRel R) {r : Rec} {n : Nat} (hr : Good F R r n)
    (E : Env) (p : Node × Option Node) (s : St) (h : s.len < n) :
    Safe F R (demangleTupleRound E r p) s (fun it s1 => ∀ a, it = Iter.again a → s1.len < s.len) := by
  unfold demangleTupleRound
  repeat' first
    | ((with_reducible apply Safe.here); first
        | with_reducible apply Safe.fail hR
        | with_reducible apply Safe.pure hR
        | with_reducible apply Safe.ite_nextIf hR _
        | with_reducible apply Safe.ite_not_nextIf hR _
        | with_reducible apply Safe.ite_nextIfStr hR _
        | with_reducible apply Safe.ite_not_nextIfStr hR _
        | with_reducible apply Safe.ite_nonEmpty hR
        | with_reducible apply Safe.ite_not_nonEmpty hR
        | with_reducible apply Safe.ite_isEmpty hR
        | with_reducible apply Safe.ite_not_isEmpty hR
        | with_reducible apply Safe.bind_nextIf hR ?_ ?_ _
        | with_reducible apply Safe.bind_nextIfStr hR _
        | with_reducible apply Safe.bind_peek hR
        | with_reducible apply Safe.bind_next hR
        | with_reducible apply Safe.bind_same hR (run_hasAtLeast _ _)
        | with_reducible apply Safe.bind_same hR (run_slice _ _)
        | with_reducible apply Safe.bind_same hR (run_getSubstitutions _)
        | with_reducible apply Safe.bind hR (hr.typeImpl _ ?_)
        | with_reducible apply Safe.bind hR (hr.context _ ?_)
        | with_reducible apply Safe.bind hR (hr.global _ ?_)
        | with_reducible apply Safe.bind hR (hr.archetype _ ?_)
        | with_reducible apply Safe.bind hR (hr.loop _ _ _ ?_ ?_)
        | with_reducible apply Safe.bind hR (demangleType_safe hR hr _ ?_)
        | with_reducible apply Safe.bind hR (demangleIdentifier_safe hR _ _ _)
        | with_reducible apply hr.typeImpl _ ?_
        | with_reducible apply hr.context _ ?_
        | with_reducible apply hr.global _ ?_
        | with_reducible apply hr.archetype _ ?_
        | with_reducible apply hr.loop _ _ _ ?_ ?_
        | with_reducible apply demangleType_safe hR hr _ ?_
        | with_reducible apply demangleIdentifier_safe hR _ _ _
        | with_reducible apply Safe.mono (hr.typeImpl _ ?_)
        | with_reducible apply Safe.mono (hr.context _ ?_)
        | with_reducible apply Safe.mono (hr.global _ ?_)
        | with_reducible apply Safe.mono (hr.archetype _ ?_)
        | with_reducible apply Safe.mono (hr.loop _ _ _ ?_ ?_)
        | with_reducible apply Safe.mono (demangleType_safe hR hr _ ?_)
        | with_reducible apply Safe.mono (demangleIdentifier_safe hR _ _ _)
        | with_reducible apply Safe.ite
        | with_reducible apply Safe.bind hR (P := fun _ _ => True)
        | split
        | simp only [])
    | ((fail_if_success with_reducible apply Safe.here); first
        | intro _
        | omega
        | with_reducible exact trivial
        | contradiction
        | decide
        | dsimp only)

theorem demangleTuple_safe (hR : StepRel R) {r : Rec} {n : Nat} (hr : Good F R r n)
    (E : Env) (isV : Bool) (s : St) (h : s.len < n) :
    Safe F R (demangleTuple E r isV) s (fun _ _ => True) := by
  unfold demangleTuple
  repeat' first
    | ((with_reducible apply Safe.here); first
        | with_reducible apply Safe.fail hR
        | with_reducible apply Safe.pure hR
        | with_reducible apply Safe.ite_nextIf hR _
        | with_reducible apply Safe.ite_not_nextIf hR _
        | with_reducible apply Safe.ite_nextIfStr hR _
        | with_reducible apply Safe.ite_not_nextIfStr hR _
        | with_reducible apply Safe.ite_nonEmpty hR
        | with_reducible apply Safe.ite_not_nonEmpty hR
        | with_reducible apply Safe.ite_isEmpty hR
        | with_reducible apply Safe.ite_not_isEmpty hR
        | with_reducible apply Safe.bind_nextIf hR ?_ ?_ _
        | with_reducible apply Safe.bind_nextIfStr hR _
        | with_reducible apply Safe.bind_peek hR
        | with_reducible apply Safe.bind_next hR
        | with_reducible apply Safe.bind_same hR (run_hasAtLeast _ _)
        | with_reducible apply Safe.bind_same hR (run_slice _ _)
        | with_reducible apply Safe.bind_same hR (run_getSubstitutions _)
        | with_reducible apply Safe.bind hR (hr.typeImpl _ ?_)
        | with_reducible apply Safe.bind hR (hr.context _ ?_)
        | with_reducible apply Safe.bind hR (hr.global _ ?_)
        | with_reducible apply Safe.bind hR (hr.archetype _ ?_)
        | with_reducible apply Safe.bind hR (hr.loop _ _ _ ?_ ?_)
        | with_reducible apply Safe.bind hR (demangleTupleRound_safe hR hr _ _ _ ?_)
        | with_reducible apply hr.typeImpl _ ?_
        | with_reducible apply hr.context _ ?_
        | with_reducible apply hr.global _ ?_
        | with_reducible apply hr.archetype _ ?_
        | with_reducible apply hr.loop _ _ _ ?_ ?_
        | with_reducible apply demangleTupleRound_safe hR hr _ _ _ ?_
        | with_reducible apply Safe.mono (hr.typeImpl _ ?_)
        | with_reducible apply Safe.mono (hr.context _ ?_)
        | with_reducible apply Safe.mono (hr.global _ ?_)
        | with_reducible apply Safe.mono (hr.archetype _ ?_)
        | with_reducible apply Safe.mono (hr.loop _ _ _ ?_ ?_)
        | with_reducible apply Safe.mono (demangleTupleRound_safe hR hr _ _ _ ?_)
        | with_reducible apply Safe.ite
        | with_reducible apply Safe.bind hR (P := fun _ _ => True)
        | split
        | simp only [])
    | ((fail_if_success with_reducible apply Safe.here); first
        | intro _
        | omega
        | with_reducible exact trivial
        | contradiction
        | decide
        | dsimp only)

theorem demangleFunctionType_safe (hR : StepRel R) {r : Rec} {n : Nat} (hr : Good F R r n)
    (kind : Kind) (s : St) (h : s.len < n) :
    Safe F R (demangleFunctionType r kind) s (fun _ s1 => s1.len < s.len) := by
  unfold demangleFunctionType
  repeat' first
    | ((with_reducible apply Safe.here); first
        | with_reducible apply Safe.fail hR
        | with_reducible apply Safe.pure hR
        | with_reducible apply Safe.ite_nextIf hR _
        | with_reducible apply Safe.ite_not_nextIf hR _
        | with_reducible apply Safe.ite_nextIfStr hR _
        | with_reducible apply Safe.ite_not_nextIfStr hR _
        | with_reducible apply Safe.ite_nonEmpty hR
        | with_reducible apply Safe.ite_not_nonEmpty hR
        | with_reducible apply Safe.ite_isEmpty hR
        | with_reducible apply Safe.ite_not_isEmpty hR
        | with_reducible apply Safe.bind_nextIf hR ?_ ?_ _
        | with_reducible apply Safe.bind_nextIfStr hR _
        | with_reducible apply Safe.bind_peek hR
        | with_reducible apply Safe.bind_next hR
        | with_reducible apply Safe.bind_same hR (run_hasAtLeast _ _)
        | with_reducible apply Safe.bind_same hR (run_slice _ _)
        | with_reducible apply Safe.bind_same hR (run_getSubstitutions _)
        | with_reducible apply Safe.bind hR (hr.typeImpl _ ?_)
        | with_reducible apply Safe.bind hR (hr.context _ ?_)
        | with_reducible apply Safe.bind hR (hr.global _ ?_)
        | with_reducible apply Safe.bind hR (hr.archetype _ ?_)
        | with_reducible apply Safe.bind hR (hr.loop _ _ _ ?_ ?_)
        | with_reducible apply Safe.bind hR (demangleType_safe hR hr _ ?_)
        | with_reducible apply hr.typeImpl _ ?_
        | with_reducible apply hr.context _ ?_
        | with_reducible apply hr.global _ ?_
        | with_reducible apply hr.archetype _ ?_
        | with_reducible apply hr.loop _ _ _ ?_ ?_
        | with_reducible apply demangleType_safe hR hr _ ?_
        | with_reducible apply Safe.mono (hr.typeImpl _ ?_)
        | with_reducible apply Safe.mono (hr.context _ ?_)
        | with_reducible apply Safe.mono (hr.global _ ?_)
        | with_reducible apply Safe.mono (hr.archetype _ ?_)
        | with_reducible apply Safe.mono (hr.loop _ _ _ ?_ ?_)
        | with_reducible apply Safe.mono (demangleType_safe hR hr _ ?_)
        | with_reducible apply Safe.ite
        | with_reducible apply Safe.bind hR (P := fun _ _ => True)
        | split
        | simp only [])
    | ((fail_if_success with_reducible apply Safe.here); first
        | intro _
        | omega
        | with_reducible exact trivial
        | contradiction
        | decide
        | dsimp only)

theorem demangleImplParameterOrResult_safe (hR : StepRel R) {r : Rec} {n : Nat} (hr : Good F R r n)
    (kind : Kind) (s : St) (h : s.len < n) :
    Safe F R (demangleImplParameterOrResult r kind) s (fun _ s1 => s1.len < s.len) := by
  unfold demangleImplParameterOrResult
  repeat' first
    | ((with_reducible apply Safe.here); first
        | with_reducible apply Safe.fail hR
        | with_reducible apply Safe.pure hR
        | with_reducible apply Safe.ite_nextIf hR _
        | with_reducible apply Safe.ite_not_nextIf hR _
        | with_reducible apply Safe.ite_nextIfStr hR _
        | with_reducible apply Safe.ite_not_nextIfStr hR _
        | with_reducible apply Safe.ite_nonEmpty hR
        | with_reducible apply Safe.ite_not_nonEmpty hR
        | with_reducible apply Safe.ite_isEmpty hR
        | with_reducible apply Safe.ite_not_isEmpty hR
        | with_reducible apply Safe.bind_nextIf hR ?_ ?_ _
        | with_reducible apply Safe.bind_nextIfStr hR _
        | with_reducible apply Safe.bind_peek hR
        | with_reducible apply Safe.bind_next hR
        | with_reducible apply Safe.bind_same hR (run_hasAtLeast _ _)
        | with_reducible apply Safe.bind_same hR (run_slice _ _)
        | with_reducible apply Safe.bind_same hR (run_getSubstitutions _)
        | with_reducible apply Safe.bind hR (hr.typeImpl _ ?_)
        | with_reducible apply Safe.bind hR (hr.context _ ?_)
        | with_reducible apply Safe.bind hR (hr.global _ ?_)
        | with_reducible apply Safe.bind hR (hr.archetype _ ?_)
        | with_reducible apply Safe.bind hR (hr.loop _ _ _ ?_ ?_)
        | with_reducible apply Safe.bind hR (demangleType_safe hR hr _ ?_)
        | with_reducible apply Safe.bind hR (demangleImplConvention_safe hR _ _)
        | with_reducible apply hr.typeImpl _ ?_
        | with_reducible apply hr.context _ ?_
        | with_reducible apply hr.global _ ?_
        | with_reducible apply hr.archetype _ ?_
        | with_reducible apply hr.loop _ _ _ ?_ ?_
        | with_reducible apply demangleType_safe hR hr _ ?_
        | with_reducible apply demangleImplConvention_safe hR _ _
        | with_reducible apply Safe.mono (hr.typeImpl _ ?_)
        | with_reducible apply Safe.mono (hr.context _ ?_)
        | with_reducible apply Safe.mono (hr.global _ ?_)
        | with_reducible apply Safe.mono (hr.archetype _ ?_)
        | with_reducible apply Safe.mono (hr.loop _ _ _ ?_ ?_)
        | with_reducible apply Safe.mono (demangleType_safe hR hr _ ?_)
        | with_reducible apply Safe.mono (demangleImplConvention_safe hR _ _)
        | with_reducible apply Safe.ite
        | with_reducible apply Safe.bind hR (P := fun _ _ => True)
        | split
        | simp only [])
    | ((fail_if_success with_reducible apply Safe.here); first
        | intro _
        | omega
        | with_reducible exact trivial
        | contradiction
        | decide
        | dsimp only)

theorem demangleImplParametersRound_safe (hR : StepRel R) {r : Rec} {n : Nat} (hr : Good F R r n)
    (parent : Node) (s : St) (h : s.len < n) :
    Safe F R (demangleImplParametersRound r parent) s (fun it s1 => ∀ a, it = Iter.again a → s1.len < s.len) := by
  unfold demangleImplParametersRound
  repeat' first
    | ((with_reducible apply Safe.here); first
        | with_reducible apply Safe.fail hR
        | with_reducible apply Safe.pure hR
        | with_reducible apply Safe.ite_nextIf hR _
        | with_reducible apply Safe.ite_not_nextIf hR _
        | with_reducible apply Safe.ite_nextIfStr hR _
        | with_reducible apply Safe.ite_not_nextIfStr hR _
        | with_reducible apply Safe.ite_nonEmpty hR
        | with_reducible apply Safe.ite_not_nonEmpty hR
        | with_reducible apply Safe.ite_isEmpty hR
        | with_reducible apply Safe.ite_not_isEmpty hR
        | with_reducible apply Safe.bind_nextIf hR ?_ ?_ _
        | with_reducible apply Safe.bind_nextIfStr hR _
        | with_reducible apply Safe.bind_peek hR
        | with_reducible apply Safe.bind_next hR
        | with_reducible apply Safe.bind_same hR (run_hasAtLeast _ _)
        | with_reducible apply Safe.bind_same hR (run_slice _ _)
        | with_reducible apply Safe.bind_same hR (run_getSubstitutions _)
        | with_reducible apply Safe.bind hR (hr.typeImpl _ ?_)
        | with_reducible apply Safe.bind hR (hr.context _ ?_)
        | with_reducible apply Safe.bind hR (hr.global _ ?_)
        | with_reducible apply Safe.bind hR (hr.archetype _ ?_)
        | with_reducible apply Safe.bind hR (hr.loop _ _ _ ?_ ?_)
        | with_reducible apply Safe.bind hR (demangleImplParameterOrResult_safe hR hr _ _ ?_)
        | with_reducible apply hr.typeImpl _ ?_
        | with_reducible apply hr.context _ ?_
        | with_reducible apply hr.global _ ?_
        | with_reducible apply hr.archetype _ ?_
        | with_reducible apply hr.loop _ _ _ ?_ ?_
        | with_reducible apply demangleImplParameterOrResult_safe hR hr _ _ ?_
        | with_reducible apply Safe.mono (hr.typeImpl _ ?_)
        | with_reducible apply Safe.mono (hr.context _ ?_)
        | with_reducible apply Safe.mono (hr.global _ ?_)
        | with_reducible apply Safe.mono (hr.archetype _ ?_)
        | with_reducible apply Safe.mono (hr.loop _ _ _ ?_ ?_)
        | with_reducible apply Safe.mono (demangleImplParameterOrResult_safe hR hr _ _ ?_)
        | with_reducible apply Safe.ite
        | with_reducible apply Safe.bind hR (P := fun _ _ => True)
        | split
        | simp only [])
    | ((fail_if_success with_reducible apply Safe.here); first
        | intro _
        | omega
        | with_reducible exact trivial
        | contradiction
        | decide
        | dsimp only)

theorem demangleImplParameters_safe (hR : StepRel R) {r : Rec} {n : Nat} (hr : Good F R r n)
    (parent : Node) (s : St) (h : s.len < n) :
    Safe F R (demangleImplParameters r parent) s (fun _ _ => True) := by
  unfold demangleImplParameters
  repeat' first
    | ((with_reducible apply Safe.here); first
        | with_reducible apply Safe.fail hR
        | with_reducible apply Safe.pure hR
        | with_reducible apply Safe.ite_nextIf hR _
        | with_reducible apply Safe.ite_not_nextIf hR _
        | with_reducible apply Safe.ite_nextIfStr hR _
        | with_reducible apply Safe.ite_not_nextIfStr hR _
        | with_reducible apply Safe.ite_nonEmpty hR
        | with_reducible apply Safe.ite_not_nonEmpty hR
        | with_reducible apply Safe.ite_isEmpty hR
        | with_reducible apply Safe.ite_not_isEmpty hR
        | with_reducible apply Safe.bind_nextIf hR ?_ ?_ _
        | with_reducible apply Safe.bind_nextIfStr hR _
        | with_reducible apply Safe.bind_peek hR
        | with_reducible apply Safe.bind_next hR
        | with_reducible apply Safe.bind_same hR (run_hasAtLeast _ _)
        | with_reducible apply Safe.bind_same hR (run_slice _ _)
        | with_reducible apply Safe.bind_same hR (run_getSubstitutions _)
        | with_reducible apply Safe.bind hR (hr.typeImpl _ ?_)
        | with_reducible apply Safe.bind hR (hr.context _ ?_)
        | with_reducible apply Safe.bind hR (hr.global _ ?_)
        | with_reducible apply Safe.bind hR (hr.archetype _ ?_)
        | with_reducible apply Safe.bind hR (hr.loop _ _ _ ?_ ?_)
        | with_reducible apply Safe.bind hR (demangleImplParametersRound_safe hR hr _ _ ?_)
        | with_reducible apply hr.typeImpl _ ?_
        | with_reducible apply hr.context _ ?_
        | with_reducible apply hr.global _ ?_
        | with_reducible apply hr.archetype _ ?_
        | with_reducible apply hr.loop _ _ _ ?_ ?_
        | with_reducible apply demangleImplParametersRound_safe hR hr _ _ ?_
        | with_reducible apply Safe.mono (hr.typeImpl _ ?_)
        | with_reducible apply Safe.mono (hr.context _ ?_)
        | with_reducible apply Safe.mono (hr.global _ ?_)
        | with_reducible apply Safe.mono (hr.archetype _ ?_)
        | with_reducible apply Safe.mono (hr.loop _ _ _ ?_ ?_)
        | with_reducible apply Safe.mono (demangleImplParametersRound_safe hR hr _ _ ?_)
        | with_reducible apply Safe.ite
        | with_reducible apply Safe.bind hR (P := fun _ _ => True)
        | split
        | simp only [])
    | ((fail_if_success with_reducible apply Safe.here); first
        | intro _
        | omega
        | with_reducible exact trivial
        | contradiction
        | decide
        | dsimp only)

theorem demangleImplResultsRound_safe (hR : StepRel R) {r : Rec} {n : Nat} (hr : Good F R r n)
    (parent : Node) (s : St) (h : s.len < n) :
    Safe F R (demangleImplResultsRound r parent) s (fun it s1 => ∀ a, it = Iter.again a → s1.len < s.len) := by
  unfold demangleImplResultsRound
  repeat' first
    | ((with_reducible apply Safe.here); first
        | with_reducible apply Safe.fail hR
        | with_reducible apply Safe.pure hR
        | with_reducible apply Safe.ite_nextIf hR _
        | with_reducible apply Safe.ite_not_nextIf hR _
        | with_reducible apply Safe.ite_nextIfStr hR _
        | with_reducible apply Safe.ite_not_nextIfStr hR _
        | with_reducible apply Safe.ite_nonEmpty hR
        | with_reducible apply Safe.ite_not_nonEmpty hR
        | with_reducible apply Safe.ite_isEmpty hR
        | with_reducible apply Safe.ite_not_isEmpty hR
        | with_reducible apply Safe.bind_nextIf hR ?_ ?_ _
        | with_reducible apply Safe.bind_nextIfStr hR _
        | with_reducible apply Safe.bind_peek hR
        | with_reducible apply Safe.bind_next hR
        | with_reducible apply Safe.bind_same hR (run_hasAtLeast _ _)
        | with_reducible apply Safe.bind_same hR (run_slice _ _)
        | with_reducible apply Safe.bind_same hR (run_getSubstitutions _)
        | with_reducible apply Safe.bind hR (hr.typeImpl _ ?_)
        | with_reducible apply Safe.bind hR (hr.context _ ?_)
        | with_reducible apply Safe.bind hR (hr.global _ ?_)
        | with_reducible apply Safe.bind hR (hr.archetype _ ?_)
        | with_reducible apply Safe.bind hR (hr.loop _ _ _ ?_ ?_)
        | with_reducible apply Safe.bind hR (demangleImplParameterOrResult_safe hR hr _ _ ?_)
        | with_reducible apply hr.typeImpl _ ?_
        | with_reducible apply hr.context _ ?_
        | with_reducible apply hr.global _ ?_
        | with_reducible apply hr.archetype _ ?_
        | with_reducible apply hr.loop _ _ _ ?_ ?_
        | with_reducible apply demangleImplParameterOrResult_safe hR hr _ _ ?_
        | with_reducible apply Safe.mono (hr.typeImpl _ ?_)
        | with_reducible apply Safe.mono (hr.context _ ?_)
        | with_reducible apply Safe.mono (hr.global _ ?_)
        | with_reducible apply Safe.mono (hr.archetype _ ?_)
        | with_reducible apply Safe.mono (hr.loop _ _ _ ?_ ?_)
        | with_reducible apply Safe.mono (demangleImplParameterOrResult_safe hR hr _ _ ?_)
        | with_reducible apply Safe.ite
        | with_reducible apply Safe.bind hR (P := fun _ _ => True)
        | split
        | simp only [])
    | ((fail_if_success with_reducible apply Safe.here); first
        | intro _
        | omega
        | with_reducible exact trivial
        | contradiction
        | decide
        | dsimp only)

theorem demangleImplResults_safe (hR : StepRel R) {r : Rec} {n : Nat} (hr : Good F R r n)
    (parent : Node) (s : St) (h : s.len < n) :
    Safe F R (demangleImplResults r parent) s (fun _ _ => True) := by
  unfold demangleImplResults
  repeat' first
    | ((with_reducible apply Safe.here); first
        | with_reducible apply Safe.fail hR
        | with_reducible apply Safe.pure hR
        | with_reducible apply Safe.ite_nextIf hR _
        | with_reducible apply Safe.ite_not_nextIf hR _
        | with_reducible apply Safe.ite_nextIfStr hR _
        | with_reducible apply Safe.ite_not_nextIfStr hR _
        | with_reducible apply Safe.ite_nonEmpty hR
        | with_reducible apply Safe.ite_not_nonEmpty hR
        | with_reducible apply Safe.ite_isEmpty hR
        | with_reducible apply Safe.ite_not_isEmpty hR
        | with_reducible apply Safe.bind_nextIf hR ?_ ?_ _
        | with_reducible apply Safe.bind_nextIfStr hR _
        | with_reducible apply Safe.bind_peek hR
        | with_reducible apply Safe.bind_next hR
        | with_reducible apply Safe.bind_same hR (run_hasAtLeast _ _)
        | with_reducible apply Safe.bind_same hR (run_slice _ _)
        | with_reducible apply Safe.bind_same hR (run_getSubstitutions _)
        | with_reducible apply Safe.bind hR (hr.typeImpl _ ?_)
        | with_reducible apply Safe.bind hR (hr.context _ ?_)
        | with_reducible apply Safe.bind hR (hr.global _ ?_)
        | with_reducible apply Safe.bind hR (hr.archetype _ ?_)
        | with_reducible apply Safe.bind hR (hr.loop _ _ _ ?_ ?_)
        | with_reducible apply Safe.bind hR (demangleImplResultsRound_safe hR hr _ _ ?_)
        | with_reducible apply hr.typeImpl _ ?_
        | with_reducible apply hr.context _ ?_
        | with_reducible apply hr.global _ ?_
        | with_reducible apply hr.archetype _ ?_
        | with_reducible apply hr.loop _ _ _ ?_ ?_
        | with_reducible apply demangleImplResultsRound_safe hR hr _ _ ?_
        | with_reducible apply Safe.mono (hr.typeImpl _ ?_)
        | with_reducible apply Safe.mono (hr.context _ ?_)
        | with_reducible apply Safe.mono (hr.global _ ?_)
        | with_reducible apply Safe.mono (hr.archetype _ ?_)
        | with_reducible apply Safe.mono (hr.loop _ _ _ ?_ ?_)
        | with_reducible apply Safe.mono (demangleImplResultsRound_safe hR hr _ _ ?_)
        | with_reducible apply Safe.ite
        | with_reducible apply Safe.bind hR (P := fun _ _ => True)
        | split
        | simp only [])
    | ((fail_if_success with_reducible apply Safe.here); first
        | intro _
        | omega
        | with_reducible exact trivial
        | contradiction
        | decide
        | dsimp only)

theorem demangleImplFunctionType_safe (hR : StepRel R) {r : Rec} {n : Nat} (hr : Good F R r n)
    (E : Env) (s : St) (h : s.len < n) :
    Safe F R (demangleImplFunctionType E r) s (fun _ _ => True) := by
  unfold demangleImplFunctionType
  repeat' first
    | ((with_reducible apply Safe.here); first
        | with_reducible apply Safe.fail hR
        | with_reducible apply Safe.pure hR
        | with_reducible apply Safe.ite_nextIf hR _
        | with_reducible apply Safe.ite_not_nextIf hR _
        | with_reducible apply Safe.ite_nextIfStr hR _
        | with_reducible apply Safe.ite_not_nextIfStr hR _
        | with_reducible apply Safe.ite_nonEmpty hR
        | with_reducible apply Safe.ite_not_nonEmpty hR
        | with_reducible apply Safe.ite_isEmpty hR
        | with_reducible apply Safe.ite_not_isEmpty hR
        | with_reducible apply Safe.bind_nextIf hR ?_ ?_ _
        | with_reducible apply Safe.bind_nextIfStr hR _
        | with_reducible apply Safe.bind_peek hR
        | with_reducible apply Safe.bind_next hR
        | with_reducible apply Safe.bind_same hR (run_hasAtLeast _ _)
        | with_reducible apply Safe.bind_same hR (run_slice _ _)
        | with_reducible apply Safe.bind_same hR (run_getSubstitutions _)
        | with_reducible apply Safe.bind hR (hr.typeImpl _ ?_)
        | with_reducible apply Safe.bind hR (hr.context _ ?_)
        | with_reducible apply Safe.bind hR (hr.global _ ?_)
        | with_reducible apply Safe.bind hR (hr.archetype _ ?_)
        | with_reducible apply Safe.bind hR (hr.loop _ _ _ ?_ ?_)
        | with_reducible apply Safe.bind hR (demangleImplResults_safe hR hr _ _ ?_)
        | with_reducible apply Safe.bind hR (demangleImplParameters_safe hR hr _ _ ?_)
        | with_reducible apply Safe.bind hR (demangleGenericSignature_safe hR hr _ _ _ ?_)
        | with_reducible apply Safe.bind hR (demangleImplCalleeConvention_safe hR _ _)
        | with_reducible apply hr.typeImpl _ ?_
        | with_reducible apply hr.context _ ?_
        | with_reducible apply hr.global _ ?_
        | with_reducible apply hr.archetype _ ?_
        | with_reducible apply hr.loop _ _ _ ?_ ?_
        | with_reducible apply demangleImplResults_safe hR hr _ _ ?_
        | with_reducible apply demangleImplParameters_safe hR hr _ _ ?_
        | with_reducible apply demangleGenericSignature_safe hR hr _ _ _ ?_
        | with_reducible apply demangleImplCalleeConvention_safe hR _ _
        | with_reducible apply Safe.mono (hr.typeImpl _ ?_)
        | with_reducible apply Safe.mono (hr.context _ ?_)
        | with_reducible apply Safe.mono (hr.global _ ?_)
        | with_reducible apply Safe.mono (hr.archetype _ ?_)
        | with_reducible apply Safe.mono (hr.loop _ _ _ ?_ ?_)
        | with_reducible apply Safe.mono (demangleImplResults_safe hR hr _ _ ?_)
        | with_reducible apply Safe.mono (demangleImplParameters_safe hR hr _ _ ?_)
        | with_reducible apply Safe.mono (demangleGenericSignature_safe hR hr _ _ _ ?_)
        | with_reducible apply Safe.mono (demangleImplCalleeConvention_safe hR _ _)
        | with_reducible apply Safe.ite
        | with_reducible apply Safe.bind hR (P := fun _ _ => True)
        | split
        | simp only [])
    | ((fail_if_success with_reducible apply Safe.here); first
        | intro _
        | omega
        | with_reducible exact trivial
        | contradiction
        | decide
        | dsimp only)

theorem demangleSILBoxFieldRound_safe (hR : StepRel R) {r : Rec} {n : Nat} (hr : Good F R r n)
    (layout : Node) (s : St) (h : s.len < n) :
    Safe F R (demangleSILBoxFieldRound r layout) s (fun it s1 => ∀ a, it = Iter.again a → s1.len < s.len) := by
  unfold demangleSILBoxFieldRound
  repeat' first
    | ((with_reducible apply Safe.here); first
        | with_reducible apply Safe.fail hR
        | with_reducible apply Safe.pure hR
        | with_reducible apply Safe.ite_nextIf hR _
        | with_reducible apply Safe.ite_not_nextIf hR _
        | with_reducible apply Safe.ite_nextIfStr hR _
        | with_reducible apply Safe.ite_not_nextIfStr hR _
        | with_reducible apply Safe.ite_nonEmpty hR
        | with_reducible apply Safe.ite_not_nonEmpty hR
        | with_reducible apply Safe.ite_isEmpty hR
        | with_reducible apply Safe.ite_not_isEmpty hR
        | with_reducible apply Safe.bind_nextIf hR ?_ ?_ _
        | with_reducible apply Safe.bind_nextIfStr hR _
        | with_reducible apply Safe.bind_peek hR
        | with_reducible apply Safe.bind_next hR
        | with_reducible apply Safe.bind_same hR (run_hasAtLeast _ _)
        | with_reducible apply Safe.bind_same hR (run_slice _ _)
        | with_reducible apply Safe.bind_same hR (run_getSubstitutions _)
        | with_reducible apply Safe.bind hR (hr.typeImpl _ ?_)
        | with_reducible apply Safe.bind hR (hr.context _ ?_)
        | with_reducible apply Safe.bind hR (hr.global _ ?_)
        | with_reducible apply Safe.bind hR (hr.archetype _ ?_)
        | with_reducible apply Safe.bind hR (hr.loop _ _ _ ?_ ?_)
        | with_reducible apply Safe.bind hR (demangleType_safe hR hr _ ?_)
        | with_reducible apply hr.typeImpl _ ?_
        | with_reducible apply hr.context _ ?_
        | with_reducible apply hr.global _ ?_
        | with_reducible apply hr.archetype _ ?_
        | with_reducible apply hr.loop _ _ _ ?_ ?_
        | with_reducible apply demangleType_safe hR hr _ ?_
        | with_reducible apply Safe.mono (hr.typeImpl _ ?_)
        | with_reducible apply Safe.mono (hr.context _ ?_)
        | with_reducible apply Safe.mono (hr.global _ ?_)
        | with_reducible apply Safe.mono (hr.archetype _ ?_)
        | with_reducible apply Safe.mono (hr.loop _ _ _ ?_ ?_)
        | with_reducible apply Safe.mono (demangleType_safe hR hr _ ?_)
        | with_reducible apply Safe.ite
        | with_reducible apply Safe.bind hR (P := fun _ _ => True)
        | split
        | simp only [])
    | ((fail_if_success with_reducible apply Safe.here); first
        | intro _
        | omega
        | with_reducible exact trivial
        | contradiction
        | decide
        | dsimp only)

theorem demangleSILBoxArgRound_safe (hR : StepRel R) {r : Rec} {n : Nat} (hr : Good F R r n)
    (genericArgs : Node) (s : St) (h : s.len < n) :
    Safe F R (demangleSILBoxArgRound r genericArgs) s (fun it s1 => ∀ a, it = Iter.again a → s1.len < s.len) := by
  unfold demangleSILBoxArgRound
  repeat' first
    | ((with_reducible apply Safe.here); first
        | with_reducible apply Safe.fail hR
        | with_reducible apply Safe.pure hR
        | with_reducible apply Safe.ite_nextIf hR _
        | with_reducible apply Safe.ite_not_nextIf hR _
        | with_reducible apply Safe.ite_nextIfStr hR _
        | with_reducible apply Safe.ite_not_nextIfStr hR _
        | with_reducible apply Safe.ite_nonEmpty hR
        | with_reducible apply Safe.ite_not_nonEmpty hR
        | with_reducible apply Safe.ite_isEmpty hR
        | with_reducible apply Safe.ite_not_isEmpty hR
        | with_reducible apply Safe.bind_nextIf hR ?_ ?_ _
        | with_reducible apply Safe.bind_nextIfStr hR _
        | with_reducible apply Safe.bind_peek hR
        | with_reducible apply Safe.bind_next hR
        | with_reducible apply Safe.bind_same hR (run_hasAtLeast _ _)
        | with_reducible apply Safe.bind_same hR (run_slice _ _)
        | with_reducible apply Safe.bind_same hR (run_getSubstitutions _)
        | with_reducible apply Safe.bind hR (hr.typeImpl _ ?_)
        | with_reducible apply Safe.bind hR (hr.context _ ?_)
        | with_reducible apply Safe.bind hR (hr.global _ ?_)
        | with_reducible apply Safe.bind hR (hr.archetype _ ?_)
        | with_reducible apply Safe.bind hR (hr.loop _ _ _ ?_ ?_)
        | with_reducible apply Safe.bind hR (demangleType_safe hR hr _ ?_)
        | with_reducible apply hr.typeImpl _ ?_
        | with_reducible apply hr.context _ ?_
        | with_reducible apply hr.global _ ?_
        | with_reducible apply hr.archetype _ ?_
        | with_reducible apply hr.loop _ _ _ ?_ ?_
        | with_reducible apply demangleType_safe hR hr _ ?_
        | with_reducible apply Safe.mono (hr.typeImpl _ ?_)
        | with_reducible apply Safe.mono (hr.context _ ?_)
        | with_reducible apply Safe.mono (hr.global _ ?_)
        | with_reducible apply Safe.mono (hr.archetype _ ?_)
        | with_reducible apply Safe.mono (hr.loop _ _ _ ?_ ?_)
        | with_reducible apply Safe.mono (demangleType_safe hR hr _ ?_)
        | with_reducible apply Safe.ite
        | with_reducible apply Safe.bind hR (P := fun _ _ => True)
        | split
        | simp only [])
    | ((fail_if_success with_reducible apply Safe.here); first
        | intro _
        | omega
        | with_reducible exact trivial
        | contradiction
        | decide
        | dsimp only)

theorem demangleSILBoxTypeWithLayout_safe (hR : StepRel R) {r : Rec} {n : Nat} (hr : Good F R r n)
    (E : Env) (s : St) (h : s.len < n) :
    Safe F R (demangleSILBoxTypeWithLayout E r) s (fun _ _ => True) := by
  unfold demangleSILBoxTypeWithLayout
  repeat' first
    | ((with_reducible apply Safe.here); first
        | with_reducible apply Safe.fail hR
        | with_reducible apply Safe.pure hR
        | with_reducible apply Safe.ite_nextIf hR _
        | with_reducible apply Safe.ite_not_nextIf hR _
        | with_reducible apply Safe.ite_nextIfStr hR _
        | with_reducible apply Safe.ite_not_nextIfStr hR _
        | with_reducible apply Safe.ite_nonEmpty hR
        | with_reducible apply Safe.ite_not_nonEmpty hR
        | with_reducible apply Safe.ite_isEmpty hR
        | with_reducible apply Safe.ite_not_isEmpty hR
        | with_reducible apply Safe.bind_nextIf hR ?_ ?_ _
        | with_reducible apply Safe.bind_nextIfStr hR _
        | with_reducible apply Safe.bind_peek hR
        | with_reducible apply Safe.bind_next hR
        | with_reducible apply Safe.bind_same hR (run_hasAtLeast _ _)
        | with_reducible apply Safe.bind_same hR (run_slice _ _)
        | with_reducible apply Safe.bind_same hR (run_getSubstitutions _)
        | with_reducible apply Safe.bind hR (hr.typeImpl _ ?_)
        | with_reducible apply Safe.bind hR (hr.context _ ?_)
        | with_reducible apply Safe.bind hR (hr.global _ ?_)
        | with_reducible apply Safe.bind hR (hr.archetype _ ?_)
        | with_reducible apply Safe.bind hR (hr.loop _ _ _ ?_ ?_)
        | with_reducible apply Safe.bind hR (demangleSILBoxArgRound_safe hR hr _ _ ?_)
        | with_reducible apply Safe.bind hR (demangleSILBoxFieldRound_safe hR hr _ _ ?_)
        | with_reducible apply Safe.bind hR (demangleGenericSignature_safe hR hr _ _ _ ?_)
        | with_reducible apply hr.typeImpl _ ?_
        | with_reducible apply hr.context _ ?_
        | with_reducible apply hr.global _ ?_
        | with_reducible apply hr.archetype _ ?_
        | with_reducible apply hr.loop _ _ _ ?_ ?_
        | with_reducible apply demangleSILBoxArgRound_safe hR hr _ _ ?_
        | with_reducible apply demangleSILBoxFieldRound_safe hR hr _ _ ?_
        | with_reducible apply demangleGenericSignature_safe hR hr _ _ _ ?_
        | with_reducible apply Safe.mono (hr.typeImpl _ ?_)
        | with_reducible apply Safe.mono (hr.context _ ?_)
        | with_reducible apply Safe.mono (hr.global _ ?_)
        | with_reducible apply Safe.mono (hr.archetype _ ?_)
        | with_reducible apply Safe.mono (hr.loop _ _ _ ?_ ?_)
        | with_reducible apply Safe.mono (demangleSILBoxArgRound_safe hR hr _ _ ?_)
        | with_reducible apply Safe.mono (demangleSILBoxFieldRound_safe hR hr _ _ ?_)
        | with_reducible apply Safe.mono (demangleGenericSignature_safe hR hr _ _ _ ?_)
        | with_reducible apply Safe.ite
        | with_reducible apply Safe.bind hR (P := fun _ _ => True)
        | split
        | simp only [])
    | ((fail_if_success with_reducible apply Safe.here); first
        | intro _
        | omega
        | with_reducible exact trivial
        | contradiction
        | decide
        | dsimp only)

theorem demangleTypeInto_safe (hR : StepRel R) {r : Rec} {n : Nat} (hr : Good F R r n)
    (kind : Kind) (s : St) (h : s.len < n) :
    Safe F R (demangleTypeInto r kind) s (fun _ s1 => s1.len < s.len) := by
  unfold demangleTypeInto
  repeat' first
    | ((with_reducible apply Safe.here); first
        | with_reducible apply Safe.fail hR
        | with_reducible apply Safe.pure hR
        | with_reducible apply Safe.ite_nextIf hR _
        | with_reducible apply Safe.ite_not_nextIf hR _
        | with_reducible apply Safe.ite_nextIfStr hR _
        | with_reducible apply Safe.ite_not_nextIfStr hR _
        | with_reducible apply Safe.ite_nonEmpty hR
        | with_reducible apply Safe.ite_not_nonEmpty hR
        | with_reducible apply Safe.ite_isEmpty hR
        | with_reducible apply Safe.ite_not_isEmpty hR
        | with_reducible apply Safe.bind_nextIf hR ?_ ?_ _
        | with_reducible apply Safe.bind_nextIfStr hR _
        | with_reducible apply Safe.bind_peek hR
        | with_reducible apply Safe.bind_next hR
        | with_reducible apply Safe.bind_same hR (run_hasAtLeast _ _)
        | with_reducible apply Safe.bind_same hR (run_slice _ _)
        | with_reducible apply Safe.bind_same hR (run_getSubstitutions _)
        | with_reducible apply Safe.bind hR (hr.typeImpl _ ?_)
        | with_reducible apply Safe.bind hR (hr.context _ ?_)
        | with_reducible apply Safe.bind hR (hr.global _ ?_)
        | with_reducible apply Safe.bind hR (hr.archetype _ ?_)
        | with_reducible apply Safe.bind hR (hr.loop _ _ _ ?_ ?_)
        | with_reducible apply Safe.bind hR (demangleType_safe hR hr _ ?_)
        | with_reducible apply hr.typeImpl _ ?_
        | with_reducible apply hr.context _ ?_
        | with_reducible apply hr.global _ ?_
        | with_reducible apply hr.archetype _ ?_
        | with_reducible apply hr.loop _ _ _ ?_ ?_
        | with_reducible apply demangleType_safe hR hr _ ?_
        | with_reducible apply Safe.mono (hr.typeImpl _ ?_)
        | with_reducible apply Safe.mono (hr.context _ ?_)
        | with_reducible apply Safe.mono (hr.global _ ?_)
        | with_reducible apply Safe.mono (hr.archetype _ ?_)
        | with_reducible apply Safe.mono (hr.loop _ _ _ ?_ ?_)
        | with_reducible apply Safe.mono (demangleType_safe hR hr _ ?_)
        | with_reducible apply Safe.ite
        | with_reducible apply Safe.bind hR (P := fun _ _ => True)
        | split
        | simp only [])
    | ((fail_if_success with_reducible apply Safe.here); first
        | intro _
        | omega
        | with_reducible exact trivial
        | contradiction
        | decide
        | dsimp only)

theorem demangleMetatypeWithRepresentation_safe (hR : StepRel R) {r : Rec} {n : Nat} (hr : Good F R r n)
    (kind : Kind) (s : St) (h : s.len < n) :
    Safe F R (demangleMetatypeWithRepresentation r kind) s (fun _ s1 => s1.len < s.len) := by
  unfold demangleMetatypeWithRepresentation
  repeat' first
    | ((with_reducible apply Safe.here); first
        | with_reducible apply Safe.fail hR
        | with_reducible apply Safe.pure hR
        | with_reducible apply Safe.ite_nextIf hR _
        | with_reducible apply Safe.ite_not_nextIf hR _
        | with_reducible apply Safe.ite_nextIfStr hR _
        | with_reducible apply Safe.ite_not_nextIfStr hR _
        | with_reducible apply Safe.ite_nonEmpty hR
        | with_reducible apply Safe.ite_not_nonEmpty hR
        | with_reducible apply Safe.ite_isEmpty hR
        | with_reducible apply Safe.ite_not_isEmpty hR
        | with_reducible apply Safe.bind_nextIf hR ?_ ?_ _
        | with_reducible apply Safe.bind_nextIfStr hR _
        | with_reducible apply Safe.bind_peek hR
        | with_reducible apply Safe.bind_next hR
        | with_reducible apply Safe.bind_same hR (run_hasAtLeast _ _)
        | with_reducible apply Safe.bind_same hR (run_slice _ _)
        | with_reducible apply Safe.bind_same hR (run_getSubstitutions _)
        | with_reducible apply Safe.bind hR (hr.typeImpl _ ?_)
        | with_reducible apply Safe.bind hR (hr.context _ ?_)
        | with_reducible apply Safe.bind hR (hr.global _ ?_)
        | with_reducible apply Safe.bind hR (hr.archetype _ ?_)
        | with_reducible apply Safe.bind hR (hr.loop _ _ _ ?_ ?_)
        | with_reducible apply Safe.bind hR (demangleType_safe hR hr _ ?_)
        | with_reducible apply Safe.bind hR (demangleMetatypeRepresentation_safe hR _)
        | with_reducible apply hr.typeImpl _ ?_
        | with_reducible apply hr.context _ ?_
        | with_reducible apply hr.global _ ?_
        | with_reducible apply hr.archetype _ ?_
        | with_reducible apply hr.loop _ _ _ ?_ ?_
        | with_reducible apply demangleType_safe hR hr _ ?_
        | with_reducible apply demangleMetatypeRepresentation_safe hR _
        | with_reducible apply Safe.mono (hr.typeImpl _ ?_)
        | with_reducible apply Safe.mono (hr.context _ ?_)
        | with_reducible apply Safe.mono (hr.global _ ?_)
        | with_reducible apply Safe.mono (hr.archetype _ ?_)
        | with_reducible apply Safe.mono (hr.loop _ _ _ ?_ ?_)
        | with_reducible apply Safe.mono (demangleType_safe hR hr _ ?_)
        | with_reducible apply Safe.mono (demangleMetatypeRepresentation_safe hR _)
        | with_reducible apply Safe.ite
        | with_reducible apply Safe.bind hR (P := fun _ _ => True)
        | split
        | simp only [])
    | ((fail_if_success with_reducible apply Safe.here); first
        | intro _
        | omega
        | with_reducible exact trivial
        | contradiction
        | decide
        | dsimp only)

theorem demangleTypeImplX_safe (hR : StepRel R) {r : Rec} {n : Nat} (hr : Good F R r n)
    (E : Env) (s : St) (h : s.len ≤ n) :
    Safe F R (demangleTypeImplX E r) s (fun _ s1 => s1.len < s.len) := by
  unfold demangleTypeImplX
  repeat' first
    | ((with_reducible apply Safe.here); first
        | with_reducible apply Safe.fail hR
        | with_reducible apply Safe.pure hR
        | with_reducible apply Safe.ite_nextIf hR _
        | with_reducible apply Safe.ite_not_nextIf hR _
        | with_reducible apply Safe.ite_nextIfStr hR _
        | with_reducible apply Safe.ite_not_nextIfStr hR _
        | with_reducible apply Safe.ite_nonEmpty hR
        | with_reducible apply Safe.ite_not_nonEmpty hR
        | with_reducible apply Safe.ite_isEmpty hR
        | with_reducible apply Safe.ite_not_isEmpty hR
        | with_reducible apply Safe.bind_nextIf hR ?_ ?_ _
        | with_reducible apply Safe.bind_nextIfStr hR _
        | with_reducible apply Safe.bind_peek hR
        | with_reducible apply Safe.bind_next hR
        | with_reducible apply Safe.bind_same hR (run_hasAtLeast _ _)
        | with_reducible apply Safe.bind_same hR (run_slice _ _)
        | with_reducible apply Safe.bind_same hR (run_getSubstitutions _)
        | with_reducible apply Safe.bind hR (hr.typeImpl _ ?_)
        | with_reducible apply Safe.bind hR (hr.context _ ?_)
        | with_reducible apply Safe.bind hR (hr.global _ ?_)
        | with_reducible apply Safe.bind hR (hr.archetype _ ?_)
        | with_reducible apply Safe.bind hR (hr.loop _ _ _ ?_ ?_)
        | with_reducible apply Safe.bind hR (demangleMetatypeWithRepresentation_safe hR hr _ _ ?_)
        | with_reducible apply Safe.bind hR (demangleTypeInto_safe hR hr _ _ ?_)
        | with_reducible apply Safe.bind hR (demangleSILBoxTypeWithLayout_safe hR hr _ _ ?_)
        | with_reducible apply Safe.bind hR (demangleImplFunctionType_safe hR hr _ _ ?_)
        | with_reducible apply Safe.bind hR (demangleFunctionType_safe hR hr _ _ ?_)
        | with_reducible apply Safe.bind hR (demangleProtocolList_safe hR hr _ _ ?_)
        | with_reducible apply hr.typeImpl _ ?_
        | with_reducible apply hr.context _ ?_
        | with_reducible apply hr.global _ ?_
        | with_reducible apply hr.archetype _ ?_
        | with_reducible apply hr.loop _ _ _ ?_ ?_
        | with_reducible apply demangleMetatypeWithRepresentation_safe hR hr _ _ ?_
        | with_reducible apply demangleTypeInto_safe hR hr _ _ ?_
        | with_reducible apply demangleSILBoxTypeWithLayout_safe hR hr _ _ ?_
        | with_reducible apply demangleImplFunctionType_safe hR hr _ _ ?_
        | with_reducible apply demangleFunctionType_safe hR hr _ _ ?_
        | with_reducible apply demangleProtocolList_safe hR hr _ _ ?_
        | with_reducible apply Safe.mono (hr.typeImpl _ ?_)
        | with_reducible apply Safe.mono (hr.context _ ?_)
        | with_reducible apply Safe.mono (hr.global _ ?_)
        | with_reducible apply Safe.mono (hr.archetype _ ?_)
        | with_reducible apply Safe.mono (hr.loop _ _ _ ?_ ?_)
        | with_reducible apply Safe.mono (demangleMetatypeWithRepresentation_safe hR hr _ _ ?_)
        | with_reducible apply Safe.mono (demangleTypeInto_safe hR hr _ _ ?_)
        | with_reducible apply Safe.mono (demangleSILBoxTypeWithLayout_safe hR hr _ _ ?_)
        | with_reducible apply Safe.mono (demangleImplFunctionType_safe hR hr _ _ ?_)
        | with_reducible apply Safe.mono (demangleFunctionType_safe hR hr _ _ ?_)
        | with_reducible apply Safe.mono (demangleProtocolList_safe hR hr _ _ ?_)
        | with_reducible apply Safe.ite
        | with_reducible apply Safe.bind hR (P := fun _ _ => True)
        | split
        | simp only [])
    | ((fail_if_success with_reducible apply Safe.here); first
        | intro _
        | omega
        | with_reducible exact trivial
        | contradiction
        | decide
        | dsimp only)

theorem demangleTypeImpl_safe (hR : StepRel R) {r : Rec} {n : Nat} (hr : Good F R r n)
    (E : Env) (s : St) (h : s.len ≤ n) :
    Safe F R (demangleTypeImpl E r) s (fun _ s1 => s1.len < s.len) := by
  unfold demangleTypeImpl
  repeat' first
    | ((with_reducible apply Safe.here); first
        | with_reducible apply Safe.fail hR
        | with_reducible apply Safe.pure hR
        | with_reducible apply Safe.ite_nextIf hR _
        | with_reducible apply Safe.ite_not_nextIf hR _
        | with_reducible apply Safe.ite_nextIfStr hR _
        | with_reducible apply Safe.ite_not_nextIfStr hR _
        | with_reducible apply Safe.ite_nonEmpty hR
        | with_reducible apply Safe.ite_not_nonEmpty hR
        | with_reducible apply Safe.ite_isEmpty hR
        | with_reducible apply Safe.ite_not_isEmpty hR
        | with_reducible apply Safe.bind_nextIf hR ?_ ?_ _
        | with_reducible apply Safe.bind_nextIfStr hR _
        | with_reducible apply Safe.bind_peek hR
        | with_reducible apply Safe.bind_next hR
        | with_reducible apply Safe.bind_same hR (run_hasAtLeast _ _)
        | with_reducible apply Safe.bind_same hR (run_slice _ _)
        | with_reducible apply Safe.bind_same hR (run_getSubstitutions _)
        | with_reducible apply Safe.bind hR (hr.typeImpl _ ?_)
        | with_reducible apply Safe.bind hR (hr.context _ ?_)
        | with_reducible apply Safe.bind hR (hr.global _ ?_)
        | with_reducible apply Safe.bind hR (hr.archetype _ ?_)
        | with_reducible apply Safe.bind hR (hr.loop _ _ _ ?_ ?_)
        | with_reducible apply Safe.bind hR (demangleTypeImplX_safe hR hr _ _ ?_)
        | with_reducible apply Safe.bind hR (demangleTypeInto_safe hR hr _ _ ?_)
        | with_reducible apply Safe.bind hR (demangleFunctionType_safe hR hr _ _ ?_)
        | with_reducible apply Safe.bind hR (demangleTuple_safe hR hr _ _ _ ?_)
        | with_reducible apply Safe.bind hR (demangleGenericSignature_safe hR hr _ _ _ ?_)
        | with_reducible apply Safe.bind hR (demangleDependentType_safe hR hr _ _ ?_)
        | with_reducible apply Safe.bind hR (demangleAssociatedTypeCompound_safe hR hr _ _ ?_)
        | with_reducible apply Safe.bind hR (demangleAssociatedTypeSimple_safe hR hr _ _ ?_)
        | with_reducible apply Safe.bind hR (demangleProtocolList_safe hR hr _ _ ?_)
        | with_reducible apply Safe.bind hR (demangleBoundGenericType_safe hR hr _ _ ?_)
        | with_reducible apply Safe.bind hR (demangleDeclarationName_safe hR hr _ _ _ ?_)
        | with_reducible apply Safe.bind hR (demangleType_safe hR hr _ ?_)
        | with_reducible apply Safe.bind hR (demangleBuiltinType_safe hR _)
        | with_reducible apply Safe.bind hR (demangleSubstitutionIndex_safe hR _ _)
        | with_reducible apply hr.typeImpl _ ?_
        | with_reducible apply hr.context _ ?_
        | with_reducible apply hr.global _ ?_
        | with_reducible apply hr.archetype _ ?_
        | with_reducible apply hr.loop _ _ _ ?_ ?_
        | with_reducible apply demangleTypeImplX_safe hR hr _ _ ?_
        | with_reducible apply demangleTypeInto_safe hR hr _ _ ?_
        | with_reducible apply demangleFunctionType_safe hR hr _ _ ?_
        | with_reducible apply demangleTuple_safe hR hr _ _ _ ?_
        | with_reducible apply demangleGenericSignature_safe hR hr _ _ _ ?_
        | with_reducible apply demangleDependentType_safe hR hr _ _ ?_
        | with_reducible apply demangleAssociatedTypeCompound_safe hR hr _ _ ?_
        | with_reducible apply demangleAssociatedTypeSimple_safe hR hr _ _ ?_
        | with_reducible apply demangleProtocolList_safe hR hr _ _ ?_
        | with_reducible apply demangleBoundGenericType_safe hR hr _ _ ?_
        | with_reducible apply demangleDeclarationName_safe hR hr _ _ _ ?_
        | with_reducible apply demangleType_safe hR hr _ ?_
        | with_reducible apply demangleBuiltinType_safe hR _
        | with_reducible apply demangleSubstitutionIndex_safe hR _ _
        | with_reducible apply Safe.mono (hr.typeImpl _ ?_)
        | with_reducible apply Safe.mono (hr.context _ ?_)
        | with_reducible apply Safe.mono (hr.global _ ?_)
        | with_reducible apply Safe.mono (hr.archetype _ ?_)
        | with_reducible apply Safe.mono (hr.loop _ _ _ ?_ ?_)
        | with_reducible apply Safe.mono (demangleTypeImplX_safe hR hr _ _ ?_)
        | with_reducible apply Safe.mono (demangleTypeInto_safe hR hr _ _ ?_)
        | with_reducible apply Safe.mono (demangleFunctionType_safe hR hr _ _ ?_)
        | with_reducible apply Safe.mono (demangleTuple_safe hR hr _ _ _ ?_)
        | with_reducible apply Safe.mono (demangleGenericSignature_safe hR hr _ _ _ ?_)
        | with_reducible apply Safe.mono (demangleDependentType_safe hR hr _ _ ?_)
        | with_reducible apply Safe.mono (demangleAssociatedTypeCompound_safe hR hr _ _ ?_)
        | with_reducible apply Safe.mono (demangleAssociatedTypeSimple_safe hR hr _ _ ?_)
        | with_reducible apply Safe.mono (demangleProtocolList_safe hR hr _ _ ?_)
        | with_reducible apply Safe.mono (demangleBoundGenericType_safe hR hr _ _ ?_)
        | with_reducible apply Safe.mono (demangleDeclarationName_safe hR hr _ _ _ ?_)
        | with_reducible apply Safe.mono (demangleType_safe hR hr _ ?_)
        | with_reducible apply Safe.mono (demangleBuiltinType_safe hR _)
        | with_reducible apply Safe.mono (demangleSubstitutionIndex_safe hR _ _)
        | with_reducible apply Safe.ite
        | with_reducible apply Safe.bind hR (P := fun _ _ => True)
        | split
        | simp only [])
    | ((fail_if_success with_reducible apply Safe.here); first
        | intro _
        | omega
        | with_reducible exact trivial
        | contradiction
        | decide
        | dsimp only)

theorem demangleReabstractSignature_safe (hR : StepRel R) {r : Rec} {n : Nat} (hr : Good F R r n)
    (E : Env) (signature : Node) (s : St) (h : s.len < n) :
    Safe F R (demangleReabstractSignature E r signature) s (fun _ s1 => s1.len < s.len) := by
  unfold demangleReabstractSignature
  repeat' first
    | ((with_reducible apply Safe.here); first
        | with_reducible apply Safe.fail hR
        | with_reducible apply Safe.pure hR
        | with_reducible apply Safe.ite_nextIf hR _
        | with_reducible apply Safe.ite_not_nextIf hR _
        | with_reducible apply Safe.ite_nextIfStr hR _
        | with_reducible apply Safe.ite_not_nextIfStr hR _
        | with_reducible apply Safe.ite_nonEmpty hR
        | with_reducible apply Safe.ite_not_nonEmpty hR
        | with_reducible apply Safe.ite_isEmpty hR
        | with_reducible apply Safe.ite_not_isEmpty hR
        | with_reducible apply Safe.bind_nextIf hR ?_ ?_ _
        | with_reducible apply Safe.bind_nextIfStr hR _
        | with_reducible apply Safe.bind_peek hR
        | with_reducible apply Safe.bind_next hR
        | with_reducible apply Safe.bind_same hR (run_hasAtLeast _ _)
        | with_reducible apply Safe.bind_same hR (run_slice _ _)
        | with_reducible apply Safe.bind_same hR (run_getSubstitutions _)
        | with_reducible apply Safe.bind hR (hr.typeImpl _ ?_)
        | with_reducible apply Safe.bind hR (hr.context _ ?_)
        | with_reducible apply Safe.bind hR (hr.global _ ?_)
        | with_reducible apply Safe.bind hR (hr.archetype _ ?_)
        | with_reducible apply Safe.bind hR (hr.loop _ _ _ ?_ ?_)
        | with_reducible apply Safe.bind hR (demangleGenericSignature_safe hR hr _ _ _ ?_)
        | with_reducible apply Safe.bind hR (demangleType_safe hR hr _ ?_)
        | with_reducible apply hr.typeImpl _ ?_
        | with_reducible apply hr.context _ ?_
        | with_reducible apply hr.global _ ?_
        | with_reducible apply hr.archetype _ ?_
        | with_reducible apply hr.loop _ _ _ ?_ ?_
        | with_reducible apply demangleGenericSignature_safe hR hr _ _ _ ?_
        | with_reducible apply demangleType_safe hR hr _ ?_
        | with_reducible apply Safe.mono (hr.typeImpl _ ?_)
        | with_reducible apply Safe.mono (hr.context _ ?_)
        | with_reducible apply Safe.mono (hr.global _ ?_)
        | with_reducible apply Safe.mono (hr.archetype _ ?_)
        | with_reducible apply Safe.mono (hr.loop _ _ _ ?_ ?_)
        | with_reducible apply Safe.mono (demangleGenericSignature_safe hR hr _ _ _ ?_)
        | with_reducible apply Safe.mono (demangleType_safe hR hr _ ?_)
        | with_reducible apply Safe.ite
        | with_reducible apply Safe.bind hR (P := fun _ _ => True)
        | split
        | simp only [])
    | ((fail_if_success with_reducible apply Safe.here); first
        | intro _
        | omega
        | with_reducible exact trivial
        | contradiction
        | decide
        | dsimp only)

theorem childType_safe (hR : StepRel R) {r : Rec} {n : Nat} (hr : Good F R r n)
    (parent : Node) (s : St) (h : s.len < n) :
    Safe F R (childType r parent) s (fun _ s1 => s1.len < s.len) := by
  unfold childType
  repeat' first
    | ((with_reducible apply Safe.here); first
        | with_reducible apply Safe.fail hR
        | with_reducible apply Safe.pure hR
        | with_reducible apply Safe.ite_nextIf hR _
        | with_reducible apply Safe.ite_not_nextIf hR _
        | with_reducible apply Safe.ite_nextIfStr hR _
        | with_reducible apply Safe.ite_not_nextIfStr hR _
        | with_reducible apply Safe.ite_nonEmpty hR
        | with_reducible apply Safe.ite_not_nonEmpty hR
        | with_reducible apply Safe.ite_isEmpty hR
        | with_reducible apply Safe.ite_not_isEmpty hR
        | with_reducible apply Safe.bind_nextIf hR ?_ ?_ _
        | with_reducible apply Safe.bind_nextIfStr hR _
        | with_reducible apply Safe.bind_peek hR
        | with_reducible apply Safe.bind_next hR
        | with_reducible apply Safe.bind_same hR (run_hasAtLeast _ _)
        | with_reducible apply Safe.bind_same hR (run_slice _ _)
        | with_reducible apply Safe.bind_same hR (run_getSubstitutions _)
        | with_reducible apply Safe.bind hR (hr.typeImpl _ ?_)
        | with_reducible apply Safe.bind hR (hr.context _ ?_)
        | with_reducible apply Safe.bind hR (hr.global _ ?_)
        | with_reducible apply Safe.bind hR (hr.archetype _ ?_)
        | with_reducible apply Safe.bind hR (hr.loop _ _ _ ?_ ?_)
        | with_reducible apply Safe.bind hR (demangleType_safe hR hr _ ?_)
        | with_reducible apply hr.typeImpl _ ?_
        | with_reducible apply hr.context _ ?_
        | with_reducible apply hr.global _ ?_
        | with_reducible apply hr.archetype _ ?_
        | with_reducible apply hr.loop _ _ _ ?_ ?_
        | with_reducible apply demangleType_safe hR hr _ ?_
        | with_reducible apply Safe.mono (hr.typeImpl _ ?_)
        | with_reducible apply Safe.mono (hr.context _ ?_)
        | with_reducible apply Safe.mono (hr.global _ ?_)
        | with_reducible apply Safe.mono (hr.archetype _ ?_)
        | with_reducible apply Safe.mono (hr.loop _ _ _ ?_ ?_)
        | with_reducible apply Safe.mono (demangleType_safe hR hr _ ?_)
        | with_reducible apply Safe.ite
        | with_reducible apply Safe.bind hR (P := fun _ _ => True)
        | split
        | simp only [])
    | ((fail_if_success with_reducible apply Safe.here); first
        | intro _
        | omega
        | with_reducible exact trivial
        | contradiction
        | decide
        | dsimp only)

theorem childProtocolConformance_safe (hR : StepRel R) {r : Rec} {n : Nat} (hr : Good F R r n)
    (E : Env) (parent : Node) (s : St) (h : s.len < n) :
    Safe F R (childProtocolConformance E r parent) s (fun _ s1 => s1.len < s.len) := by
  unfold childProtocolConformance
  repeat' first
    | ((with_reducible apply Safe.here); first
        | with_reducible apply Safe.fail hR
        | with_reducible apply Safe.pure hR
        | with_reducible apply Safe.ite_nextIf hR _
        | with_reducible apply Safe.ite_not_nextIf hR _
        | with_reducible apply Safe.ite_nextIfStr hR _
        | with_reducible apply Safe.ite_not_nextIfStr hR _
        | with_reducible apply Safe.ite_nonEmpty hR
        | with_reducible apply Safe.ite_not_nonEmpty hR
        | with_reducible apply Safe.ite_isEmpty hR
        | with_reducible apply Safe.ite_not_isEmpty hR
        | with_reducible apply Safe.bind_nextIf hR ?_ ?_ _
        | with_reducible apply Safe.bind_nextIfStr hR _
        | with_reducible apply Safe.bind_peek hR
        | with_reducible apply Safe.bind_next hR
        | with_reducible apply Safe.bind_same hR (run_hasAtLeast _ _)
        | with_reducible apply Safe.bind_same hR (run_slice _ _)
        | with_reducible apply Safe.bind_same hR (run_getSubstitutions _)
        | with_reducible apply Safe.bind hR (hr.typeImpl _ ?_)
        | with_reducible apply Safe.bind hR (hr.context _ ?_)
        | with_reducible apply Safe.bind hR (hr.global _ ?_)
        | with_reducible apply Safe.bind hR (hr.archetype _ ?_)
        | with_reducible apply Safe.bind hR (hr.loop _ _ _ ?_ ?_)
        | with_reducible apply Safe.bind hR (demangleProtocolConformance_safe hR hr _ _ ?_)
        | with_reducible apply hr.typeImpl _ ?_
        | with_reducible apply hr.context _ ?_
        | with_reducible apply hr.global _ ?_
        | with_reducible apply hr.archetype _ ?_
        | with_reducible apply hr.loop _ _ _ ?_ ?_
        | with_reducible apply demangleProtocolConformance_safe hR hr _ _ ?_
        | with_reducible apply Safe.mono (hr.typeImpl _ ?_)
        | with_reducible apply Safe.mono (hr.context _ ?_)
        | with_reducible apply Safe.mono (hr.global _ ?_)
        | with_reducible apply Safe.mono (hr.archetype _ ?_)
        | with_reducible apply Safe.mono (hr.loop _ _ _ ?_ ?_)
        | with_reducible apply Safe.mono (demangleProtocolConformance_safe hR hr _ _ ?_)
        | with_reducible apply Safe.ite
        | with_reducible apply Safe.bind hR (P := fun _ _ => True)
        | split
        | simp only [])
    | ((fail_if_success with_reducible apply Safe.here); first
        | intro _
        | omega
        | with_reducible exact trivial
        | contradiction
        | decide
        | dsimp only)

theorem childProtocolName_safe (hR : StepRel R) {r : Rec} {n : Nat} (hr : Good F R r n)
    (E : Env) (parent : Node) (s : St) (h : s.len < n) :
    Safe F R (childProtocolName E r parent) s (fun _ s1 => s1.len < s.len) := by
  unfold childProtocolName
  repeat' first
    | ((with_reducible apply Safe.here); first
        | with_reducible apply Safe.fail hR
        | with_reducible apply Safe.pure hR
        | with_reducible apply Safe.ite_nextIf hR _
        | with_reducible apply Safe.ite_not_nextIf hR _
        | with_reducible apply Safe.ite_nextIfStr hR _
        | with_reducible apply Safe.ite_not_nextIfStr hR _
        | with_reducible apply Safe.ite_nonEmpty hR
        | with_reducible apply Safe.ite_not_nonEmpty hR
        | with_reducible apply Safe.ite_isEmpty hR
        | with_reducible apply Safe.ite_not_isEmpty hR
        | with_reducible apply Safe.bind_nextIf hR ?_ ?_ _
        | with_reducible apply Safe.bind_nextIfStr hR _
        | with_reducible apply Safe.bind_peek hR
        | with_reducible apply Safe.bind_next hR
        | with_reducible apply Safe.bind_same hR (run_hasAtLeast _ _)
        | with_reducible apply Safe.bind_same hR (run_slice _ _)
        | with_reducible apply Safe.bind_same hR (run_getSubstitutions _)
        | with_reducible apply Safe.bind hR (hr.typeImpl _ ?_)
        | with_reducible apply Safe.bind hR (hr.context _ ?_)
        | with_reducible apply Safe.bind hR (hr.global _ ?_)
        | with_reducible apply Safe.bind hR (hr.archetype _ ?_)
        | with_reducible apply Safe.bind hR (hr.loop _ _ _ ?_ ?_)
        | with_reducible apply Safe.bind hR (demangleProtocolName_safe hR hr _ _ ?_)
        | with_reducible apply hr.typeImpl _ ?_
        | with_reducible apply hr.context _ ?_
        | with_reducible apply hr.global _ ?_
        | with_reducible apply hr.archetype _ ?_
        | with_reducible apply hr.loop _ _ _ ?_ ?_
        | with_reducible apply demangleProtocolName_safe hR hr _ _ ?_
        | with_reducible apply Safe.mono (hr.typeImpl _ ?_)
        | with_reducible apply Safe.mono (hr.context _ ?_)
        | with_reducible apply Safe.mono (hr.global _ ?_)
        | with_reducible apply Safe.mono (hr.archetype _ ?_)
        | with_reducible apply Safe.mono (hr.loop _ _ _ ?_ ?_)
        | with_reducible apply Safe.mono (demangleProtocolName_safe hR hr _ _ ?_)
        | with_reducible apply Safe.ite
        | with_reducible apply Safe.bind hR (P := fun _ _ => True)
        | split
        | simp only [])
    | ((fail_if_success with_reducible apply Safe.here); first
        | intro _
        | omega
        | with_reducible exact trivial
        | contradiction
        | decide
        | dsimp only)

theorem childEntity_safe (hR : StepRel R) {r : Rec} {n : Nat} (hr : Good F R r n)
    (E : Env) (parent : Node) (s : St) (h : s.len ≤ n) :
    Safe F R (childEntity E r parent) s (fun _ s1 => s1.len < s.len) := by
  unfold childEntity
  repeat' first
    | ((with_reducible apply Safe.here); first
        | with_reducible apply Safe.fail hR
        | with_reducible apply Safe.pure hR
        | with_reducible apply Safe.ite_nextIf hR _
        | with_reducible apply Safe.ite_not_nextIf hR _
        | with_reducible apply Safe.ite_nextIfStr hR _
        | with_reducible apply Safe.ite_not_nextIfStr hR _
        | with_reducible apply Safe.ite_nonEmpty hR
        | with_reducible apply Safe.ite_not_nonEmpty hR
        | with_reducible apply Safe.ite_isEmpty hR
        | with_reducible apply Safe.ite_not_isEmpty hR
        | with_reducible apply Safe.bind_nextIf hR ?_ ?_ _
        | with_reducible apply Safe.bind_nextIfStr hR _
        | with_reducible apply Safe.bind_peek hR
        | with_reducible apply Safe.bind_next hR
        | with_reducible apply Safe.bind_same hR (run_hasAtLeast _ _)
        | with_reducible apply Safe.bind_same hR (run_slice _ _)
        | with_reducible apply Safe.bind_same hR (run_getSubstitutions _)
        | with_reducible apply Safe.bind hR (hr.typeImpl _ ?_)
        | with_reducible apply Safe.bind hR (hr.context _ ?_)
        | with_reducible apply Safe.bind hR (hr.global _ ?_)
        | with_reducible apply Safe.bind hR (hr.archetype _ ?_)
        | with_reducible apply Safe.bind hR (hr.loop _ _ _ ?_ ?_)
        | with_reducible apply Safe.bind hR (demangleEntity_safe hR hr _ _ ?_)
        | with_reducible apply hr.typeImpl _ ?_
        | with_reducible apply hr.context _ ?_
        | with_reducible apply hr.global _ ?_
        | with_reducible apply hr.archetype _ ?_
        | with_reducible apply hr.loop _ _ _ ?_ ?_
        | with_reducible apply demangleEntity_safe hR hr _ _ ?_
        | with_reducible apply Safe.mono (hr.typeImpl _ ?_)
        | with_reducible apply Safe.mono (hr.context _ ?_)
        | with_reducible apply Safe.mono (hr.global _ ?_)
        | with_reducible apply Safe.mono (hr.archetype _ ?_)
        | with_reducible apply Safe.mono (hr.loop _ _ _ ?_ ?_)
        | with_reducible apply Safe.mono (demangleEntity_safe hR hr _ _ ?_)
        | with_reducible apply Safe.ite
        | with_reducible apply Safe.bind hR (P := fun _ _ => True)
        | split
        | simp only [])
    | ((fail_if_success with_reducible apply Safe.here); first
        | intro _
        | omega
        | with_reducible exact trivial
        | contradiction
        | decide
        | dsimp only)

theorem childDeclName_safe (hR : StepRel R) (E : Env) (parent : Node) (s : St) :
    Safe F R (childDeclName E parent) s (fun _ s1 => s1.len < s.len) := by
  unfold childDeclName
  refine Safe.bind hR (demangleDeclName_safe hR E s) (fun a s1 _ h1 => Safe.pure hR h1)

theorem childDirectness_safe (hR : StepRel R) (E : Env) (parent : Node) (s : St) :
    Safe F R (childDirectness E parent) s (fun _ s1 => s1.len < s.len) := by
  unfold childDirectness
  refine Safe.bind hR (demangleDirectness_safe hR E s) (fun a s1 _ h1 => Safe.pure hR h1)

theorem demangleGlobalMetadata_safe (hR : StepRel R) {r : Rec} {n : Nat} (hr : Good F R r n)
    (E : Env) (s : St) (h : s.len < n) :
    Safe F R (demangleGlobalMetadata E r) s (fun _ s1 => s1.len < s.len) := by
  unfold demangleGlobalMetadata
  repeat' first
    | ((with_reducible apply Safe.here); first
        | with_reducible apply Safe.fail hR
        | with_reducible apply Safe.pure hR
        | with_reducible apply Safe.ite_nextIf hR _
        | with_reducible apply Safe.ite_not_nextIf hR _
        | with_reducible apply Safe.ite_nextIfStr hR _
        | with_reducible apply Safe.ite_not_nextIfStr hR _
        | with_reducible apply Safe.ite_nonEmpty hR
        | with_reducible apply Safe.ite_not_nonEmpty hR
        | with_reducible apply Safe.ite_isEmpty hR
        | with_reducible apply Safe.ite_not_isEmpty hR
        | with_reducible apply Safe.bind_nextIf hR ?_ ?_ _
        | with_reducible apply Safe.bind_nextIfStr hR _
        | with_reducible apply Safe.bind_peek hR
        | with_reducible apply Safe.bind_next hR
        | with_reducible apply Safe.bind_same hR (run_hasAtLeast _ _)
        | with_reducible apply Safe.bind_same hR (run_slice _ _)
        | with_reducible apply Safe.bind_same hR (run_getSubstitutions _)
        | with_reducible apply Safe.bind hR (hr.typeImpl _ ?_)
        | with_reducible apply Safe.bind hR (hr.context _ ?_)
        | with_reducible apply Safe.bind hR (hr.global _ ?_)
        | with_reducible apply Safe.bind hR (hr.archetype _ ?_)
        | with_reducible apply Safe.bind hR (hr.loop _ _ _ ?_ ?_)
        | with_reducible apply Safe.bind hR (childProtocolName_safe hR hr _ _ _ ?_)
        | with_reducible apply Safe.bind hR (childType_safe hR hr _ _ ?_)
        | with_reducible apply hr.typeImpl _ ?_
        | with_reducible apply hr.context _ ?_
        | with_reducible apply hr.global _ ?_
        | with_reducible apply hr.archetype _ ?_
        | with_reducible apply hr.loop _ _ _ ?_ ?_
        | with_reducible apply childProtocolName_safe hR hr _ _ _ ?_
        | with_reducible apply childType_safe hR hr _ _ ?_
        | with_reducible apply Safe.mono (hr.typeImpl _ ?_)
        | with_reducible apply Safe.mono (hr.context _ ?_)
        | with_reducible apply Safe.mono (hr.global _ ?_)
        | with_reducible apply Safe.mono (hr.archetype _ ?_)
        | with_reducible apply Safe.mono (hr.loop _ _ _ ?_ ?_)
        | with_reducible apply Safe.mono (childProtocolName_safe hR hr _ _ _ ?_)
        | with_reducible apply Safe.mono (childType_safe hR hr _ _ ?_)
        | with_reducible apply Safe.ite
        | with_reducible apply Safe.bind hR (P := fun _ _ => True)
        | split
        | simp only [])
    | ((fail_if_success with_reducible apply Safe.here); first
        | intro _
        | omega
        | with_reducible exact trivial
        | contradiction
        | decide
        | dsimp only)

theorem demangleGlobalWitness_safe (hR : StepRel R) {r : Rec} {n : Nat} (hr : Good F R r n)
    (E : Env) (s : St) (h : s.len ≤ n) :
    Safe F R (demangleGlobalWitness E r) s (fun _ s1 => s1.len < s.len) := by
  unfold demangleGlobalWitness
  repeat' first
    | ((with_reducible apply Safe.here); first
        | with_reducible apply Safe.fail hR
        | with_reducible apply Safe.pure hR
        | with_reducible apply Safe.ite_nextIf hR _
        | with_reducible apply Safe.ite_not_nextIf hR _
        | with_reducible apply Safe.ite_nextIfStr hR _
        | with_reducible apply Safe.ite_not_nextIfStr hR _
        | with_reducible apply Safe.ite_nonEmpty hR
        | with_reducible apply Safe.ite_not_nonEmpty hR
        | with_reducible apply Safe.ite_isEmpty hR
        | with_reducible apply Safe.ite_not_isEmpty hR
        | with_reducible apply Safe.bind_nextIf hR ?_ ?_ _
        | with_reducible apply Safe.bind_nextIfStr hR _
        | with_reducible apply Safe.bind_peek hR
        | with_reducible apply Safe.bind_next hR
        | with_reducible apply Safe.bind_same hR (run_hasAtLeast _ _)
        | with_reducible apply Safe.bind_same hR (run_slice _ _)
        | with_reducible apply Safe.bind_same hR (run_getSubstitutions _)
        | with_reducible apply Safe.bind hR (hr.typeImpl _ ?_)
        | with_reducible apply Safe.bind hR (hr.context _ ?_)
        | with_reducible apply Safe.bind hR (hr.global _ ?_)
        | with_reducible apply Safe.bind hR (hr.archetype _ ?_)
        | with_reducible apply Safe.bind hR (hr.loop _ _ _ ?_ ?_)
        | with_reducible apply Safe.bind hR (childDirectness_safe hR _ _ _)
        | with_reducible apply Safe.bind hR (childDeclName_safe hR _ _ _)
        | with_reducible apply Safe.bind hR (childEntity_safe hR hr _ _ _ ?_)
        | with_reducible apply Safe.bind hR (childProtocolName_safe hR hr _ _ _ ?_)
        | with_reducible apply Safe.bind hR (childProtocolConformance_safe hR hr _ _ _ ?_)
        | with_reducible apply Safe.bind hR (childType_safe hR hr _ _ ?_)
        | with_reducible apply hr.typeImpl _ ?_
        | with_reducible apply hr.context _ ?_
        | with_reducible apply hr.global _ ?_
        | with_reducible apply hr.archetype _ ?_
        | with_reducible apply hr.loop _ _ _ ?_ ?_
        | with_reducible apply childDirectness_safe hR _ _ _
        | with_reducible apply childDeclName_safe hR _ _ _
        | with_reducible apply childEntity_safe hR hr _ _ _ ?_
        | with_reducible apply childProtocolName_safe hR hr _ _ _ ?_
        | with_reducible apply childProtocolConformance_safe hR hr _ _ _ ?_
        | with_reducible apply childType_safe hR hr _ _ ?_
        | with_reducible apply Safe.mono (hr.typeImpl _ ?_)
        | with_reducible apply Safe.mono (hr.context _ ?_)
        | with_reducible apply Safe.mono (hr.global _ ?_)
        | with_reducible apply Safe.mono (hr.archetype _ ?_)
        | with_reducible apply Safe.mono (hr.loop _ _ _ ?_ ?_)
        | with_reducible apply Safe.mono (childDirectness_safe hR _ _ _)
        | with_reducible apply Safe.mono (childDeclName_safe hR _ _ _)
        | with_reducible apply Safe.mono (childEntity_safe hR hr _ _ _ ?_)
        | with_reducible apply Safe.mono (childProtocolName_safe hR hr _ _ _ ?_)
        | with_reducible apply Safe.mono (childProtocolConformance_safe hR hr _ _ _ ?_)
        | with_reducible apply Safe.mono (childType_safe hR hr _ _ ?_)
        | with_reducible apply Safe.ite
        | with_reducible apply Safe.bind hR (P := fun _ _ => True)
        | split
        | simp only [])
    | ((fail_if_success with_reducible apply Safe.here); first
        | intro _
        | omega
        | with_reducible exact trivial
        | contradiction
        | decide
        | dsimp only)

theorem demangleGlobalThunk_safe (hR : StepRel R) {r : Rec} {n : Nat} (hr : Good F R r n)
    (E : Env) (s : St) (h : s.len ≤ n) :
    Safe F R (demangleGlobalThunk E r) s (fun _ s1 => s1.len < s.len) := by
  unfold demangleGlobalThunk
  repeat' first
    | ((with_reducible apply Safe.here); first
        | with_reducible apply Safe.fail hR
        | with_reducible apply Safe.pure hR
        | with_reducible apply Safe.ite_nextIf hR _
        | with_reducible apply Safe.ite_not_nextIf hR _
        | with_reducible apply Safe.ite_nextIfStr hR _
        | with_reducible apply Safe.ite_not_nextIfStr hR _
        | with_reducible apply Safe.ite_nonEmpty hR
        | with_reducible apply Safe.ite_not_nonEmpty hR
        | with_reducible apply Safe.ite_isEmpty hR
        | with_reducible apply Safe.ite_not_isEmpty hR
        | with_reducible apply Safe.bind_nextIf hR ?_ ?_ _
        | with_reducible apply Safe.bind_nextIfStr hR _
        | with_reducible apply Safe.bind_peek hR
        | with_reducible apply Safe.bind_next hR
        | with_reducible apply Safe.bind_same hR (run_hasAtLeast _ _)
        | with_reducible apply Safe.bind_same hR (run_slice _ _)
        | with_reducible apply Safe.bind_same hR (run_getSubstitutions _)
        | with_reducible apply Safe.bind hR (hr.typeImpl _ ?_)
        | with_reducible apply Safe.bind hR (hr.context _ ?_)
        | with_reducible apply Safe.bind hR (hr.global _ ?_)
        | with_reducible apply Safe.bind hR (hr.archetype _ ?_)
        | with_reducible apply Safe.bind hR (hr.loop _ _ _ ?_ ?_)
        | with_reducible apply Safe.bind hR (childEntity_safe hR hr _ _ _ ?_)
        | with_reducible apply Safe.bind hR (childProtocolConformance_safe hR hr _ _ _ ?_)
        | with_reducible apply Safe.bind hR (demangleReabstractSignature_safe hR hr _ _ _ ?_)
        | with_reducible apply hr.typeImpl _ ?_
        | with_reducible apply hr.context _ ?_
        | with_reducible apply hr.global _ ?_
        | with_reducible apply hr.archetype _ ?_
        | with_reducible apply hr.loop _ _ _ ?_ ?_
        | with_reducible apply childEntity_safe hR hr _ _ _ ?_
        | with_reducible apply childProtocolConformance_safe hR hr _ _ _ ?_
        | with_reducible apply demangleReabstractSignature_safe hR hr _ _ _ ?_
        | with_reducible apply Safe.mono (hr.typeImpl _ ?_)
        | with_reducible apply Safe.mono (hr.context _ ?_)
        | with_reducible apply Safe.mono (hr.global _ ?_)
        | with_reducible apply Safe.mono (hr.archetype _ ?_)
        | with_reducible apply Safe.mono (hr.loop _ _ _ ?_ ?_)
        | with_reducible apply Safe.mono (childEntity_safe hR hr _ _ _ ?_)
        | with_reducible apply Safe.mono (childProtocolConformance_safe hR hr _ _ _ ?_)
        | with_reducible apply Safe.mono (demangleReabstractSignature_safe hR hr _ _ _ ?_)
        | with_reducible apply Safe.ite
        | with_reducible apply Safe.bind hR (P := fun _ _ => True)
        | split
        | simp only [])
    | ((fail_if_success with_reducible apply Safe.here); first
        | intro _
        | omega
        | with_reducible exact trivial
        | contradiction
        | decide
        | dsimp only)

theorem demangleGlobal_safe (hR : StepRel R) {r : Rec} {n : Nat} (hr : Good F R r n)
    (E : Env) (s : St) (h : s.len ≤ n) :
    Safe F R (demangleGlobal E r) s (fun _ s1 => s1.len < s.len) := by
  unfold demangleGlobal
  repeat' first
    | ((with_reducible apply Safe.here); first
        | with_reducible apply Safe.fail hR
        | with_reducible apply Safe.pure hR
        | with_reducible apply Safe.ite_nextIf hR _
        | with_reducible apply Safe.ite_not_nextIf hR _
        | with_reducible apply Safe.ite_nextIfStr hR _
        | with_reducible apply Safe.ite_not_nextIfStr hR _
        | with_reducible apply Safe.ite_nonEmpty hR
        | with_reducible apply Safe.ite_not_nonEmpty hR
        | with_reducible apply Safe.ite_isEmpty hR
        | with_reducible apply Safe.ite_not_isEmpty hR
        | with_reducible apply Safe.bind_nextIf hR ?_ ?_ _
        | with_reducible apply Safe.bind_nextIfStr hR _
        | with_reducible apply Safe.bind_peek hR
        | with_reducible apply Safe.bind_next hR
        | with_reducible apply Safe.bind_same hR (run_hasAtLeast _ _)
        | with_reducible apply Safe.bind_same hR (run_slice _ _)
        | with_reducible apply Safe.bind_same hR (run_getSubstitutions _)
        | with_reducible apply Safe.bind hR (hr.typeImpl _ ?_)
        | with_reducible apply Safe.bind hR (hr.context _ ?_)
        | with_reducible apply Safe.bind hR (hr.global _ ?_)
        | with_reducible apply Safe.bind hR (hr.archetype _ ?_)
        | with_reducible apply Safe.bind hR (hr.loop _ _ _ ?_ ?_)
        | with_reducible apply Safe.bind hR (demangleGlobalThunk_safe hR hr _ _ ?_)
        | with_reducible apply Safe.bind hR (demangleGlobalWitness_safe hR hr _ _ ?_)
        | with_reducible apply Safe.bind hR (demangleGlobalMetadata_safe hR hr _ _ ?_)
        | with_reducible apply Safe.bind hR (childType_safe hR hr _ _ ?_)
        | with_reducible apply Safe.bind hR (demangleEntity_safe hR hr _ _ ?_)
        | with_reducible apply Safe.bind hR (demangleValueWitnessKind_safe hR _)
        | with_reducible apply hr.typeImpl _ ?_
        | with_reducible apply hr.context _ ?_
        | with_reducible apply hr.global _ ?_
        | with_reducible apply hr.archetype _ ?_
        | with_reducible apply hr.loop _ _ _ ?_ ?_
        | with_reducible apply demangleGlobalThunk_safe hR hr _ _ ?_
        | with_reducible apply demangleGlobalWitness_safe hR hr _ _ ?_
        | with_reducible apply demangleGlobalMetadata_safe hR hr _ _ ?_
        | with_reducible apply childType_safe hR hr _ _ ?_
        | with_reducible apply demangleEntity_safe hR hr _ _ ?_
        | with_reducible apply demangleValueWitnessKind_safe hR _
        | with_reducible apply Safe.mono (hr.typeImpl _ ?_)
        | with_reducible apply Safe.mono (hr.context _ ?_)
        | with_reducible apply Safe.mono (hr.global _ ?_)
        | with_reducible apply Safe.mono (hr.archetype _ ?_)
        | with_reducible apply Safe.mono (hr.loop _ _ _ ?_ ?_)
        | with_reducible apply Safe.mono (demangleGlobalThunk_safe hR hr _ _ ?_)
        | with_reducible apply Safe.mono (demangleGlobalWitness_safe hR hr _ _ ?_)
        | with_reducible apply Safe.mono (demangleGlobalMetadata_safe hR hr _ _ ?_)
        | with_reducible apply Safe.mono (childType_safe hR hr _ _ ?_)
        | with_reducible apply Safe.mono (demangleEntity_safe hR hr _ _ ?_)
        | with_reducible apply Safe.mono (demangleValueWitnessKind_safe hR _)
        | with_reducible apply Safe.ite
        | with_reducible apply Safe.bind hR (P := fun _ _ => True)
        | split
        | simp only [])
    | ((fail_if_success with_reducible apply Safe.here); first
        | intro _
        | omega
        | with_reducible exact trivial
        | contradiction
        | decide
        | dsimp only)

theorem demangleGenericSpecializationConformanceRound_safe (hR : StepRel R) {r : Rec} {n : Nat} (hr : Good F R r n)
    (E : Env) (param : Node) (s : St) (h : s.len < n) :
    Safe F R (demangleGenericSpecializationConformanceRound E r param) s (fun it s1 => ∀ a, it = Iter.again a → s1.len < s.len) := by
  unfold demangleGenericSpecializationConformanceRound
  repeat' first
    | ((with_reducible apply Safe.here); first
        | with_reducible apply Safe.fail hR
        | with_reducible apply Safe.pure hR
        | with_reducible apply Safe.ite_nextIf hR _
        | with_reducible apply Safe.ite_not_nextIf hR _
        | with_reducible apply Safe.ite_nextIfStr hR _
        | with_reducible apply Safe.ite_not_nextIfStr hR _
        | with_reducible apply Safe.ite_nonEmpty hR
        | with_reducible apply Safe.ite_not_nonEmpty hR
        | with_reducible apply Safe.ite_isEmpty hR
        | with_reducible apply Safe.ite_not_isEmpty hR
        | with_reducible apply Safe.bind_nextIf hR ?_ ?_ _
        | with_reducible apply Safe.bind_nextIfStr hR _
        | with_reducible apply Safe.bind_peek hR
        | with_reducible apply Safe.bind_next hR
        | with_reducible apply Safe.bind_same hR (run_hasAtLeast _ _)
        | with_reducible apply Safe.bind_same hR (run_slice _ _)
        | with_reducible apply Safe.bind_same hR (run_getSubstitutions _)
        | with_reducible apply Safe.bind hR (hr.typeImpl _ ?_)
        | with_reducible apply Safe.bind hR (hr.context _ ?_)
        | with_reducible apply Safe.bind hR (hr.global _ ?_)
        | with_reducible apply Safe.bind hR (hr.archetype _ ?_)
        | with_reducible apply Safe.bind hR (hr.loop _ _ _ ?_ ?_)
        | with_reducible apply Safe.bind hR (childProtocolConformance_safe hR hr _ _ _ ?_)
        | with_reducible apply hr.typeImpl _ ?_
        | with_reducible apply hr.context _ ?_
        | with_reducible apply hr.global _ ?_
        | with_reducible apply hr.archetype _ ?_
        | with_reducible apply hr.loop _ _ _ ?_ ?_
        | with_reducible apply childProtocolConformance_safe hR hr _ _ _ ?_
        | with_reducible apply Safe.mono (hr.typeImpl _ ?_)
        | with_reducible apply Safe.mono (hr.context _ ?_)
        | with_reducible apply Safe.mono (hr.global _ ?_)
        | with_reducible apply Safe.mono (hr.archetype _ ?_)
        | with_reducible apply Safe.mono (hr.loop _ _ _ ?_ ?_)
        | with_reducible apply Safe.mono (childProtocolConformance_safe hR hr _ _ _ ?_)
        | with_reducible apply Safe.ite
        | with_reducible apply Safe.bind hR (P := fun _ _ => True)
        | split
        | simp only [])
    | ((fail_if_success with_reducible apply Safe.here); first
        | intro _
        | omega
        | with_reducible exact trivial
        | contradiction
        | decide
        | dsimp only)

theorem demangleGenericSpecializationRound_safe (hR : StepRel R) {r : Rec} {n : Nat} (hr : Good F R r n)
    (E : Env) (specialization : Node) (s : St) (h : s.len < n) :
    Safe F R (demangleGenericSpecializationRound E r specialization) s (fun it s1 => ∀ a, it = Iter.again a → s1.len < s.len) := by
  unfold demangleGenericSpecializationRound
  repeat' first
    | ((with_reducible apply Safe.here); first
        | with_reducible apply Safe.fail hR
        | with_reducible apply Safe.pure hR
        | with_reducible apply Safe.ite_nextIf hR _
        | with_reducible apply Safe.ite_not_nextIf hR _
        | with_reducible apply Safe.ite_nextIfStr hR _
        | with_reducible apply Safe.ite_not_nextIfStr hR _
        | with_reducible apply Safe.ite_nonEmpty hR
        | with_reducible apply Safe.ite_not_nonEmpty hR
        | with_reducible apply Safe.ite_isEmpty hR
        | with_reducible apply Safe.ite_not_isEmpty hR
        | with_reducible apply Safe.bind_nextIf hR ?_ ?_ _
        | with_reducible apply Safe.bind_nextIfStr hR _
        | with_reducible apply Safe.bind_peek hR
        | with_reducible apply Safe.bind_next hR
        | with_reducible apply Safe.bind_same hR (run_hasAtLeast _ _)
        | with_reducible apply Safe.bind_same hR (run_slice _ _)
        | with_reducible apply Safe.bind_same hR (run_getSubstitutions _)
        | with_reducible apply Safe.bind hR (hr.typeImpl _ ?_)
        | with_reducible apply Safe.bind hR (hr.context _ ?_)
        | with_reducible apply Safe.bind hR (hr.global _ ?_)
        | with_reducible apply Safe.bind hR (hr.archetype _ ?_)
        | with_reducible apply Safe.bind hR (hr.loop _ _ _ ?_ ?_)
        | with_reducible apply Safe.bind hR (demangleGenericSpecializationConformanceRound_safe hR hr _ _ _ ?_)
        | with_reducible apply Safe.bind hR (childType_safe hR hr _ _ ?_)
        | with_reducible apply hr.typeImpl _ ?_
        | with_reducible apply hr.context _ ?_
        | with_reducible apply hr.global _ ?_
        | with_reducible apply hr.archetype _ ?_
        | with_reducible apply hr.loop _ _ _ ?_ ?_
        | with_reducible apply demangleGenericSpecializationConformanceRound_safe hR hr _ _ _ ?_
        | with_reducible apply childType_safe hR hr _ _ ?_
        | with_reducible apply Safe.mono (hr.typeImpl _ ?_)
        | with_reducible apply Safe.mono (hr.context _ ?_)
        | with_reducible apply Safe.mono (hr.global _ ?_)
        | with_reducible apply Safe.mono (hr.archetype _ ?_)
        | with_reducible apply Safe.mono (hr.loop _ _ _ ?_ ?_)
        | with_reducible apply Safe.mono (demangleGenericSpecializationConformanceRound_safe hR hr _ _ _ ?_)
        | with_reducible apply Safe.mono (childType_safe hR hr _ _ ?_)
        | with_reducible apply Safe.ite
        | with_reducible apply Safe.bind hR (P := fun _ _ => True)
        | split
        | simp only [])
    | ((fail_if_success with_reducible apply Safe.here); first
        | intro _
        | omega
        | with_reducible exact trivial
        | contradiction
        | decide
        | dsimp only)

theorem demangleGenericSpecialization_safe (hR : StepRel R) {r : Rec} {n : Nat} (hr : Good F R r n)
    (E : Env) (specialization : Node) (s : St) (h : s.len < n) :
    Safe F R (demangleGenericSpecialization E r specialization) s (fun _ _ => True) := by
  unfold demangleGenericSpecialization
  repeat' first
    | ((with_reducible apply Safe.here); first
        | with_reducible apply Safe.fail hR
        | with_reducible apply Safe.pure hR
        | with_reducible apply Safe.ite_nextIf hR _
        | with_reducible apply Safe.ite_not_nextIf hR _
        | with_reducible apply Safe.ite_nextIfStr hR _
        | with_reducible apply Safe.ite_not_nextIfStr hR _
        | with_reducible apply Safe.ite_nonEmpty hR
        | with_reducible apply Safe.ite_not_nonEmpty hR
        | with_reducible apply Safe.ite_isEmpty hR
        | with_reducible apply Safe.ite_not_isEmpty hR
        | with_reducible apply Safe.bind_nextIf hR ?_ ?_ _
        | with_reducible apply Safe.bind_nextIfStr hR _
        | with_reducible apply Safe.bind_peek hR
        | with_reducible apply Safe.bind_next hR
        | with_reducible apply Safe.bind_same hR (run_hasAtLeast _ _)
        | with_reducible apply Safe.bind_same hR (run_slice _ _)
        | with_reducible apply Safe.bind_same hR (run_getSubstitutions _)
        | with_reducible apply Safe.bind hR (hr.typeImpl _ ?_)
        | with_reducible apply Safe.bind hR (hr.context _ ?_)
        | with_reducible apply Safe.bind hR (hr.global _ ?_)
        | with_reducible apply Safe.bind hR (hr.archetype _ ?_)
        | with_reducible apply Safe.bind hR (hr.loop _ _ _ ?_ ?_)
        | with_reducible apply Safe.bind hR (demangleGenericSpecializationRound_safe hR hr _ _ _ ?_)
        | with_reducible apply hr.typeImpl _ ?_
        | with_reducible apply hr.context _ ?_
        | with_reducible apply hr.global _ ?_
        | with_reducible apply hr.archetype _ ?_
        | with_reducible apply hr.loop _ _ _ ?_ ?_
        | with_reducible apply demangleGenericSpecializationRound_safe hR hr _ _ _ ?_
        | with_reducible apply Safe.mono (hr.typeImpl _ ?_)
        | with_reducible apply Safe.mono (hr.context _ ?_)
        | with_reducible apply Safe.mono (hr.global _ ?_)
        | with_reducible apply Safe.mono (hr.archetype _ ?_)
        | with_reducible apply Safe.mono (hr.loop _ _ _ ?_ ?_)
        | with_reducible apply Safe.mono (demangleGenericSpecializationRound_safe hR hr _ _ _ ?_)
        | with_reducible apply Safe.ite
        | with_reducible apply Safe.bind hR (P := fun _ _ => True)
        | split
        | simp only [])
    | ((fail_if_success with_reducible apply Safe.here); first
        | intro _
        | omega
        | with_reducible exact trivial
        | contradiction
        | decide
        | dsimp only)

theorem demangleFuncSigSpecializationClosurePropRound_safe (hR : StepRel R) {r : Rec} {n : Nat} (hr : Good F R r n)
    (parent : Node) (s : St) (h : s.len < n) :
    Safe F R (demangleFuncSigSpecializationClosurePropRound r parent) s (fun it s1 => ∀ a, it = Iter.again a → s1.len < s.len) := by
  unfold demangleFuncSigSpecializationClosurePropRound
  refine Safe.bind_peek hR (fun c => ?_)
  refine Safe.ite (fun _ => ?_) (fun _ => Safe.pure hR (fun a ha => by contradiction))
  refine Safe.bind_attempt hR (demangleType_safe hR hr s h)
    (fun a s1 _ h1 => Safe.pure hR (fun _ _ => h1))
    (fun s1 _ => Safe.pure hR (fun a ha => by contradiction))

theorem demangleFuncSigSpecializationClosureProp_safe (hR : StepRel R) {r : Rec} {n : Nat} (hr : Good F R r n)
    (E : Env) (parent : Node) (s : St) (h : s.len ≤ n) :
    Safe F R (demangleFuncSigSpecializationClosureProp E r parent) s (fun _ s1 => s1.len < s.len) := by
  unfold demangleFuncSigSpecializationClosureProp
  repeat' first
    | ((with_reducible apply Safe.here); first
        | with_reducible apply Safe.fail hR
        | with_reducible apply Safe.pure hR
        | with_reducible apply Safe.ite_nextIf hR _
        | with_reducible apply Safe.ite_not_nextIf hR _
        | with_reducible apply Safe.ite_nextIfStr hR _
        | with_reducible apply Safe.ite_not_nextIfStr hR _
        | with_reducible apply Safe.ite_nonEmpty hR
        | with_reducible apply Safe.ite_not_nonEmpty hR
        | with_reducible apply Safe.ite_isEmpty hR
        | with_reducible apply Safe.ite_not_isEmpty hR
        | with_reducible apply Safe.bind_nextIf hR ?_ ?_ _
        | with_reducible apply Safe.bind_nextIfStr hR _
        | with_reducible apply Safe.bind_peek hR
        | with_reducible apply Safe.bind_next hR
        | with_reducible apply Safe.bind_same hR (run_hasAtLeast _ _)
        | with_reducible apply Safe.bind_same hR (run_slice _ _)
        | with_reducible apply Safe.bind_same hR (run_getSubstitutions _)
        | with_reducible apply Safe.bind hR (hr.typeImpl _ ?_)
        | with_reducible apply Safe.bind hR (hr.context _ ?_)
        | with_reducible apply Safe.bind hR (hr.global _ ?_)
        | with_reducible apply Safe.bind hR (hr.archetype _ ?_)
        | with_reducible apply Safe.bind hR (hr.loop _ _ _ ?_ ?_)
        | with_reducible apply Safe.bind hR (demangleFuncSigSpecializationClosurePropRound_safe hR hr _ _ ?_)
        | with_reducible apply Safe.bind hR (demangleIdentifier_safe hR _ _ _)
        | with_reducible apply hr.typeImpl _ ?_
        | with_reducible apply hr.context _ ?_
        | with_reducible apply hr.global _ ?_
        | with_reducible apply hr.archetype _ ?_
        | with_reducible apply hr.loop _ _ _ ?_ ?_
        | with_reducible apply demangleFuncSigSpecializationClosurePropRound_safe hR hr _ _ ?_
        | with_reducible apply demangleIdentifier_safe hR _ _ _
        | with_reducible apply Safe.mono (hr.typeImpl _ ?_)
        | with_reducible apply Safe.mono (hr.context _ ?_)
        | with_reducible apply Safe.mono (hr.global _ ?_)
        | with_reducible apply Safe.mono (hr.archetype _ ?_)
        | with_reducible apply Safe.mono (hr.loop _ _ _ ?_ ?_)
        | with_reducible apply Safe.mono (demangleFuncSigSpecializationClosurePropRound_safe hR hr _ _ ?_)
        | with_reducible apply Safe.mono (demangleIdentifier_safe hR _ _ _)
        | with_reducible apply Safe.ite
        | with_reducible apply Safe.bind hR (P := fun _ _ => True)
        | split
        | simp only [])
    | ((fail_if_success with_reducible apply Safe.here); first
        | intro _
        | omega
        | with_reducible exact trivial
        | contradiction
        | decide
        | dsimp only)

theorem demangleFunctionSignatureSpecializationRound_safe (hR : StepRel R) {r : Rec} {n : Nat} (hr : Good F R r n)
    (E : Env) (p : Node × Nat) (s : St) (h : s.len ≤ n) :
    Safe F R (demangleFunctionSignatureSpecializationRound E r p) s (fun it s1 => ∀ a, it = Iter.again a → s1.len < s.len) := by
  unfold demangleFunctionSignatureSpecializationRound
  repeat' first
    | ((with_reducible apply Safe.here); first
        | with_reducible apply Safe.fail hR
        | with_reducible apply Safe.pure hR
        | with_reducible apply Safe.ite_nextIf hR _
        | with_reducible apply Safe.ite_not_nextIf hR _
        | with_reducible apply Safe.ite_nextIfStr hR _
        | with_reducible apply Safe.ite_not_nextIfStr hR _
        | with_reducible apply Safe.ite_nonEmpty hR
        | with_reducible apply Safe.ite_not_nonEmpty hR
        | with_reducible apply Safe.ite_isEmpty hR
        | with_reducible apply Safe.ite_not_isEmpty hR
        | with_reducible apply Safe.bind_nextIf hR ?_ ?_ _
        | with_reducible apply Safe.bind_nextIfStr hR _
        | with_reducible apply Safe.bind_peek hR
        | with_reducible apply Safe.bind_next hR
        | with_reducible apply Safe.bind_same hR (run_hasAtLeast _ _)
        | with_reducible apply Safe.bind_same hR (run_slice _ _)
        | with_reducible apply Safe.bind_same hR (run_getSubstitutions _)
        | with_reducible apply Safe.bind hR (hr.typeImpl _ ?_)
        | with_reducible apply Safe.bind hR (hr.context _ ?_)
        | with_reducible apply Safe.bind hR (hr.global _ ?_)
        | with_reducible apply Safe.bind hR (hr.archetype _ ?_)
        | with_reducible apply Safe.bind hR (hr.loop _ _ _ ?_ ?_)
        | with_reducible apply Safe.bind hR (demangleFuncSigSpecializationClosureProp_safe hR hr _ _ _ ?_)
        | with_reducible apply Safe.bind hR (demangleFunctionSignatureSpecializationOptions_safe hR _ _ _)
        | with_reducible apply Safe.bind hR (demangleFuncSigSpecializationConstantProp_safe hR _ _ _)
        | with_reducible apply hr.typeImpl _ ?_
        | with_reducible apply hr.context _ ?_
        | with_reducible apply hr.global _ ?_
        | with_reducible apply hr.archetype _ ?_
        | with_reducible apply hr.loop _ _ _ ?_ ?_
        | with_reducible apply demangleFuncSigSpecializationClosureProp_safe hR hr _ _ _ ?_
        | with_reducible apply demangleFunctionSignatureSpecializationOptions_safe hR _ _ _
        | with_reducible apply demangleFuncSigSpecializationConstantProp_safe hR _ _ _
        | with_reducible apply Safe.mono (hr.typeImpl _ ?_)
        | with_reducible apply Safe.mono (hr.context _ ?_)
        | with_reducible apply Safe.mono (hr.global _ ?_)
        | with_reducible apply Safe.mono (hr.archetype _ ?_)
        | with_reducible apply Safe.mono (hr.loop _ _ _ ?_ ?_)
        | with_reducible apply Safe.mono (demangleFuncSigSpecializationClosureProp_safe hR hr _ _ _ ?_)
        | with_reducible apply Safe.mono (demangleFunctionSignatureSpecializationOptions_safe hR _ _ _)
        | with_reducible apply Safe.mono (demangleFuncSigSpecializationConstantProp_safe hR _ _ _)
        | with_reducible apply Safe.ite
        | with_reducible apply Safe.bind hR (P := fun _ _ => True)
        | split
        | simp only [])
    | ((fail_if_success with_reducible apply Safe.here); first
        | intro _
        | omega
        | with_reducible exact trivial
        | contradiction
        | decide
        | dsimp only)

theorem demangleFunctionSignatureSpecialization_safe (hR : StepRel R) {r : Rec} {n : Nat} (hr : Good F R r n)
    (E : Env) (specialization : Node) (s : St) (h : s.len < n) :
    Safe F R (demangleFunctionSignatureSpecialization E r specialization) s (fun _ _ => True) := by
  unfold demangleFunctionSignatureSpecialization
  repeat' first
    | ((with_reducible apply Safe.here); first
        | with_reducible apply Safe.fail hR
        | with_reducible apply Safe.pure hR
        | with_reducible apply Safe.ite_nextIf hR _
        | with_reducible apply Safe.ite_not_nextIf hR _
        | with_reducible apply Safe.ite_nextIfStr hR _
        | with_reducible apply Safe.ite_not_nextIfStr hR _
        | with_reducible apply Safe.ite_nonEmpty hR
        | with_reducible apply Safe.ite_not_nonEmpty hR
        | with_reducible apply Safe.ite_isEmpty hR
        | with_reducible apply Safe.ite_not_isEmpty hR
        | with_reducible apply Safe.bind_nextIf hR ?_ ?_ _
        | with_reducible apply Safe.bind_nextIfStr hR _
        | with_reducible apply Safe.bind_peek hR
        | with_reducible apply Safe.bind_next hR
        | with_reducible apply Safe.bind_same hR (run_hasAtLeast _ _)
        | with_reducible apply Safe.bind_same hR (run_slice _ _)
        | with_reducible apply Safe.bind_same hR (run_getSubstitutions _)
        | with_reducible apply Safe.bind hR (hr.typeImpl _ ?_)
        | with_reducible apply Safe.bind hR (hr.context _ ?_)
        | with_reducible apply Safe.bind hR (hr.global _ ?_)
        | with_reducible apply Safe.bind hR (hr.archetype _ ?_)
        | with_reducible apply Safe.bind hR (hr.loop _ _ _ ?_ ?_)
        | with_reducible apply Safe.bind hR (demangleFunctionSignatureSpecializationRound_safe hR hr _ _ _ ?_)
        | with_reducible apply hr.typeImpl _ ?_
        | with_reducible apply hr.context _ ?_
        | with_reducible apply hr.global _ ?_
        | with_reducible apply hr.archetype _ ?_
        | with_reducible apply hr.loop _ _ _ ?_ ?_
        | with_reducible apply demangleFunctionSignatureSpecializationRound_safe hR hr _ _ _ ?_
        | with_reducible apply Safe.mono (hr.typeImpl _ ?_)
        | with_reducible apply Safe.mono (hr.context _ ?_)
        | with_reducible apply Safe.mono (hr.global _ ?_)
        | with_reducible apply Safe.mono (hr.archetype _ ?_)
        | with_reducible apply Safe.mono (hr.loop _ _ _ ?_ ?_)
        | with_reducible apply Safe.mono (demangleFunctionSignatureSpecializationRound_safe hR hr _ _ _ ?_)
        | with_reducible apply Safe.ite
        | with_reducible apply Safe.bind hR (P := fun _ _ => True)
        | split
        | simp only [])
    | ((fail_if_success with_reducible apply Safe.here); first
        | intro _
        | omega
        | with_reducible exact trivial
        | contradiction
        | decide
        | dsimp only)

theorem demangleSpecializedAttribute_safe (hR : StepRel R) {r : Rec} {n : Nat} (hr : Good F R r n)
    (E : Env) (s : St) (h : s.len ≤ n) :
    Safe F R (demangleSpecializedAttribute E r) s (fun _ s1 => s1.len < s.len) := by
  unfold demangleSpecializedAttribute
  repeat' first
    | ((with_reducible apply Safe.here); first
        | with_reducible apply Safe.fail hR
        | with_reducible apply Safe.pure hR
        | with_reducible apply Safe.ite_nextIf hR _
        | with_reducible apply Safe.ite_not_nextIf hR _
        | with_reducible apply Safe.ite_nextIfStr hR _
        | with_reducible apply Safe.ite_not_nextIfStr hR _
        | with_reducible apply Safe.ite_nonEmpty hR
        | with_reducible apply Safe.ite_not_nonEmpty hR
        | with_reducible apply Safe.ite_isEmpty hR
        | with_reducible apply Safe.ite_not_isEmpty hR
        | with_reducible apply Safe.bind_nextIf hR ?_ ?_ _
        | with_reducible apply Safe.bind_nextIfStr hR _
        | with_reducible apply Safe.bind_peek hR
        | with_reducible apply Safe.bind_next hR
        | with_reducible apply Safe.bind_same hR (run_hasAtLeast _ _)
        | with_reducible apply Safe.bind_same hR (run_slice _ _)
        | with_reducible apply Safe.bind_same hR (run_getSubstitutions _)
        | with_reducible apply Safe.bind hR (hr.typeImpl _ ?_)
        | with_reducible apply Safe.bind hR (hr.context _ ?_)
        | with_reducible apply Safe.bind hR (hr.global _ ?_)
        | with_reducible apply Safe.bind hR (hr.archetype _ ?_)
        | with_reducible apply Safe.bind hR (hr.loop _ _ _ ?_ ?_)
        | with_reducible apply Safe.bind hR (demangleFunctionSignatureSpecialization_safe hR hr _ _ _ ?_)
        | with_reducible apply Safe.bind hR (demangleGenericSpecialization_safe hR hr _ _ _ ?_)
        | with_reducible apply Safe.bind hR (demanglePassID_safe hR _)
        | with_reducible apply hr.typeImpl _ ?_
        | with_reducible apply hr.context _ ?_
        | with_reducible apply hr.global _ ?_
        | with_reducible apply hr.archetype _ ?_
        | with_reducible apply hr.loop _ _ _ ?_ ?_
        | with_reducible apply demangleFunctionSignatureSpecialization_safe hR hr _ _ _ ?_
        | with_reducible apply demangleGenericSpecialization_safe hR hr _ _ _ ?_
        | with_reducible apply demanglePassID_safe hR _
        | with_reducible apply Safe.mono (hr.typeImpl _ ?_)
        | with_reducible apply Safe.mono (hr.context _ ?_)
        | with_reducible apply Safe.mono (hr.global _ ?_)
        | with_reducible apply Safe.mono (hr.archetype _ ?_)
        | with_reducible apply Safe.mono (hr.loop _ _ _ ?_ ?_)
        | with_reducible apply Safe.mono (demangleFunctionSignatureSpecialization_safe hR hr _ _ _ ?_)
        | with_reducible apply Safe.mono (demangleGenericSpecialization_safe hR hr _ _ _ ?_)
        | with_reducible apply Safe.mono (demanglePassID_safe hR _)
        | with_reducible apply Safe.ite
        | with_reducible apply Safe.bind hR (P := fun _ _ => True)
        | split
        | simp only [])
    | ((fail_if_success with_reducible apply Safe.here); first
        | intro _
        | omega
        | with_reducible exact trivial
        | contradiction
        | decide
        | dsimp only)

theorem Good.of_le {r : Rec} {n m : Nat} (hr : Good F R r n) (h : m ≤ n) : Good F R r m where
  typeImpl := fun s hs => hr.typeImpl s (by omega)
  context := fun s hs => hr.context s (by omega)
  global := fun s hs => hr.global s (by omega)
  archetype := fun s hs => hr.archetype s (by omega)
  loop := fun round acc s hs hround => hr.loop round acc s (by omega) hround

theorem tie_loop (E : Env) (k : Nat) {σ : Type} (round : σ → M (Iter σ)) (acc : σ) :
    (tie E (k + 1)).loop round acc =
      (do match (← round acc) with
          | Iter.again acc => (tie E k).loop round acc
          | Iter.done acc => pure acc) := rfl

theorem tie_succ_good (hR : StepRel R) (E : Env) {k m : Nat} (hg : Good F R (tie E k) m) :
    Good F R (tie E (k + 1)) (m + 1) where
  typeImpl := fun s hs => demangleTypeImpl_safe hR hg E s (by omega)
  context := fun s hs => demangleContext_safe hR hg E s (by omega)
  global := fun s hs => demangleGlobal_safe hR hg E s (by omega)
  archetype := fun s hs => demangleArchetypeType_safe hR hg E s (by omega)
  loop := by
    intro σ round acc s hs hround
    rw [tie_loop]
    refine Safe.bind hR (hround acc s (Nat.le_refl _)) (fun it s1 hl hp => ?_)
    cases it with
    | again a =>
      have h1 : s1.len < s.len := hp a rfl
      exact hg.loop round a s1 (by omega) (fun acc s2 h2 => hround acc s2 (by omega))
    | done a => exact Safe.pure hR trivial

/-- Unfolded `n` times, the table is in order on every text shorter than `n`: no run
ends with an exhausted unfolding. -/
theorem tie_good (hR : StepRel R) (E : Env) : ∀ n : Nat, Good False R (tie E n) n
  | 0 =>
    { typeImpl := fun s hs => absurd hs (Nat.not_lt_zero _)
      context := fun s hs => absurd hs (Nat.not_lt_zero _)
      global := fun s hs => absurd hs (Nat.not_lt_zero _)
      archetype := fun s hs => absurd hs (Nat.not_lt_zero _)
      loop := fun _ _ s hs _ => absurd hs (Nat.not_lt_zero _) }
  | n + 1 => tie_succ_good hR E (tie_good hR E n)

/-- When an exhausted unfolding is let pass, the table is in order on every text,
however often it is unfolded. -/
theorem tie_good_any (hR : StepRel R) (E : Env) : ∀ k m : Nat, Good True R (tie E k) m
  | 0, _ =>
    { typeImpl := fun _ _ => trivial
      context := fun _ _ => trivial
      global := fun _ _ => trivial
      archetype := fun _ _ => trivial
      loop := fun _ _ _ _ _ => trivial }
  | k + 1, 0 => (tie_succ_good hR E (tie_good_any hR E k 0)).of_le (Nat.zero_le _)
  | k + 1, m + 1 => tie_succ_good hR E (tie_good_any hR E k m)

theorem clearSubstitutions_safe (hR : StepRel R)
    (hclear : ∀ s : St, R s { s with Substitutions := [] }) (s : St) :
    Safe F R clearSubstitutions s (fun _ s1 => s1.len = s.len) :=
  ⟨hclear s, Nat.le_refl _, rfl⟩

theorem getString_safe (hR : StepRel R) (s : St) :
    Safe F R getString s (fun _ _ => True) :=
  ⟨hR.cursor s [] List.nil_suffix, Nat.zero_le _, trivial⟩

theorem demangleTopLevelSpecializationRound_safe (hR : StepRel R)
    (hclear : ∀ s : St, R s { s with Substitutions := [] }) {r : Rec} {n : Nat}
    (hr : Good F R r n) (E : Env) (topLevel : Node) (s : St) (h : s.len ≤ n) :
    Safe F R (demangleTopLevelSpecializationRound E r topLevel) s (fun it s1 => ∀ a, it = Iter.again a → s1.len < s.len) := by
  unfold demangleTopLevelSpecializationRound
  repeat' first
    | ((with_reducible apply Safe.here); first
        | with_reducible apply Safe.fail hR
        | with_reducible apply Safe.pure hR
        | with_reducible apply Safe.ite_nextIf hR _
        | with_reducible apply Safe.ite_not_nextIf hR _
        | with_reducible apply Safe.ite_nextIfStr hR _
        | with_reducible apply Safe.ite_not_nextIfStr hR _
        | with_reducible apply Safe.ite_nonEmpty hR
        | with_reducible apply Safe.ite_not_nonEmpty hR
        | with_reducible apply Safe.ite_isEmpty hR
        | with_reducible apply Safe.ite_not_isEmpty hR
        | with_reducible apply Safe.bind_nextIf hR ?_ ?_ _
        | with_reducible apply Safe.bind_nextIfStr hR _
        | with_reducible apply Safe.bind_peek hR
        | with_reducible apply Safe.bind_next hR
        | with_reducible apply Safe.bind_same hR (run_hasAtLeast _ _)
        | with_reducible apply Safe.bind_same hR (run_slice _ _)
        | with_reducible apply Safe.bind_same hR (run_getSubstitutions _)
        | with_reducible apply Safe.bind hR (hr.typeImpl _ ?_)
        | with_reducible apply Safe.bind hR (hr.context _ ?_)
        | with_reducible apply Safe.bind hR (hr.global _ ?_)
        | with_reducible apply Safe.bind hR (hr.archetype _ ?_)
        | with_reducible apply Safe.bind hR (hr.loop _ _ _ ?_ ?_)
        | with_reducible apply Safe.bind hR (clearSubstitutions_safe hR hclear _)
        | with_reducible apply Safe.bind hR (demangleSpecializedAttribute_safe hR hr _ _ ?_)
        | with_reducible apply hr.typeImpl _ ?_
        | with_reducible apply hr.context _ ?_
        | with_reducible apply hr.global _ ?_
        | with_reducible apply hr.archetype _ ?_
        | with_reducible apply hr.loop _ _ _ ?_ ?_
        | with_reducible apply clearSubstitutions_safe hR hclear _
        | with_reducible apply demangleSpecializedAttribute_safe hR hr _ _ ?_
        | with_reducible apply Safe.mono (hr.typeImpl _ ?_)
        | with_reducible apply Safe.mono (hr.context _ ?_)
        | with_reducible apply Safe.mono (hr.global _ ?_)
        | with_reducible apply Safe.mono (hr.archetype _ ?_)
        | with_reducible apply Safe.mono (hr.loop _ _ _ ?_ ?_)
        | with_reducible apply Safe.mono (clearSubstitutions_safe hR hclear _)
        | with_reducible apply Safe.mono (demangleSpecializedAttribute_safe hR hr _ _ ?_)
        | with_reducible apply Safe.ite
        | with_reducible apply Safe.bind hR (P := fun _ _ => True)
        | split
        | simp only [])
    | ((fail_if_success with_reducible apply Safe.here); first
        | intro _
        | omega
        | with_reducible exact trivial
        | contradiction
        | decide
        | dsimp only)

theorem demangleTopLevelPrefix_safe (hR : StepRel R)
    (hclear : ∀ s : St, R s { s with Substitutions := [] }) {r : Rec} {n : Nat}
    (hr : Good F R r n) (E : Env) (s : St) (h : s.len ≤ n) :
    Safe F R (demangleTopLevelPrefix E r) s (fun _ s1 => s1.len < s.len) := by
  unfold demangleTopLevelPrefix
  repeat' first
    | ((with_reducible apply Safe.here); first
        | with_reducible apply Safe.fail hR
        | with_reducible apply Safe.pure hR
        | with_reducible apply Safe.ite_nextIf hR _
        | with_reducible apply Safe.ite_not_nextIf hR _
        | with_reducible apply Safe.ite_nextIfStr hR _
        | with_reducible apply Safe.ite_not_nextIfStr hR _
        | with_reducible apply Safe.ite_nonEmpty hR
        | with_reducible apply Safe.ite_not_nonEmpty hR
        | with_reducible apply Safe.ite_isEmpty hR
        | with_reducible apply Safe.ite_not_isEmpty hR
        | with_reducible apply Safe.bind_nextIf hR ?_ ?_ _
        | with_reducible apply Safe.bind_nextIfStr hR _
        | with_reducible apply Safe.bind_peek hR
        | with_reducible apply Safe.bind_next hR
        | with_reducible apply Safe.bind_same hR (run_hasAtLeast _ _)
        | with_reducible apply Safe.bind_same hR (run_slice _ _)
        | with_reducible apply Safe.bind_same hR (run_getSubstitutions _)
        | with_reducible apply Safe.bind hR (hr.typeImpl _ ?_)
        | with_reducible apply Safe.bind hR (hr.context _ ?_)
        | with_reducible apply Safe.bind hR (hr.global _ ?_)
        | with_reducible apply Safe.bind hR (hr.archetype _ ?_)
        | with_reducible apply Safe.bind hR (hr.loop _ _ _ ?_ ?_)
        | with_reducible apply Safe.bind hR (demangleTopLevelSpecializationRound_safe hR hclear hr _ _ _ ?_)
        | with_reducible apply hr.typeImpl _ ?_
        | with_reducible apply hr.context _ ?_
        | with_reducible apply hr.global _ ?_
        | with_reducible apply hr.archetype _ ?_
        | with_reducible apply hr.loop _ _ _ ?_ ?_
        | with_reducible apply demangleTopLevelSpecializationRound_safe hR hclear hr _ _ _ ?_
        | with_reducible apply Safe.mono (hr.typeImpl _ ?_)
        | with_reducible apply Safe.mono (hr.context _ ?_)
        | with_reducible apply Safe.mono (hr.global _ ?_)
        | with_reducible apply Safe.mono (hr.archetype _ ?_)
        | with_reducible apply Safe.mono (hr.loop _ _ _ ?_ ?_)
        | with_reducible apply Safe.mono (demangleTopLevelSpecializationRound_safe hR hclear hr _ _ _ ?_)
        | with_reducible apply Safe.ite
        | with_reducible apply Safe.bind hR (P := fun _ _ => True)
        | split
        | simp only [])
    | ((fail_if_success with_reducible apply Safe.here); first
        | intro _
        | omega
        | with_reducible exact trivial
        | contradiction
        | decide
        | dsimp only)

theorem demangleTopLevelSuffix_safe (hR : StepRel R) (topLevel : Node) (s : St) :
    Safe F R (demangleTopLevelSuffix topLevel) s (fun _ _ => True) := by
  unfold demangleTopLevelSuffix
  refine Safe.ite_not_isEmpty hR (fun _ => ?_) (fun _ => Safe.pure hR trivial)
  exact Safe.bind hR (getString_safe hR s) (fun _ _ _ _ => Safe.pure hR trivial)

theorem demangleTopLevelBody_safe (hR : StepRel R)
    (hclear : ∀ s : St, R s { s with Substitutions := [] }) {r : Rec} {n : Nat}
    (hr : Good F R r n) (E : Env) (s : St) (h : s.len ≤ n) :
    Safe F R (demangleTopLevelBody E r) s (fun _ s1 => s1.len < s.len) := by
  unfold demangleTopLevelBody
  repeat' first
    | ((with_reducible apply Safe.here); first
        | with_reducible apply Safe.fail hR
        | with_reducible apply Safe.pure hR
        | with_reducible apply Safe.ite_nextIf hR _
        | with_reducible apply Safe.ite_not_nextIf hR _
        | with_reducible apply Safe.ite_nextIfStr hR _
        | with_reducible apply Safe.ite_not_nextIfStr hR _
        | with_reducible apply Safe.ite_nonEmpty hR
        | with_reducible apply Safe.ite_not_nonEmpty hR
        | with_reducible apply Safe.ite_isEmpty hR
        | with_reducible apply Safe.ite_not_isEmpty hR
        | with_reducible apply Safe.bind_nextIf hR ?_ ?_ _
        | with_reducible apply Safe.bind_nextIfStr hR _
        | with_reducible apply Safe.bind_peek hR
        | with_reducible apply Safe.bind_next hR
        | with_reducible apply Safe.bind_same hR (run_hasAtLeast _ _)
        | with_reducible apply Safe.bind_same hR (run_slice _ _)
        | with_reducible apply Safe.bind_same hR (run_getSubstitutions _)
        | with_reducible apply Safe.bind hR (hr.typeImpl _ ?_)
        | with_reducible apply Safe.bind hR (hr.context _ ?_)
        | with_reducible apply Safe.bind hR (hr.global _ ?_)
        | with_reducible apply Safe.bind hR (hr.archetype _ ?_)
        | with_reducible apply Safe.bind hR (hr.loop _ _ _ ?_ ?_)
        | with_reducible apply Safe.bind hR (demangleTopLevelSuffix_safe hR _ _)
        | with_reducible apply Safe.bind hR (demangleTopLevelPrefix_safe hR hclear hr _ _ ?_)
        | with_reducible apply hr.typeImpl _ ?_
        | with_reducible apply hr.context _ ?_
        | with_reducible apply hr.global _ ?_
        | with_reducible apply hr.archetype _ ?_
        | with_reducible apply hr.loop _ _ _ ?_ ?_
        | with_reducible apply demangleTopLevelSuffix_safe hR _ _
        | with_reducible apply demangleTopLevelPrefix_safe hR hclear hr _ _ ?_
        | with_reducible apply Safe.mono (hr.typeImpl _ ?_)
        | with_reducible apply Safe.mono (hr.context _ ?_)
        | with_reducible apply Safe.mono (hr.global _ ?_)
        | with_reducible apply Safe.mono (hr.archetype _ ?_)
        | with_reducible apply Safe.mono (hr.loop _ _ _ ?_ ?_)
        | with_reducible apply Safe.mono (demangleTopLevelSuffix_safe hR _ _)
        | with_reducible apply Safe.mono (demangleTopLevelPrefix_safe hR hclear hr _ _ ?_)
        | with_reducible apply Safe.ite
        | with_reducible apply Safe.bind hR (P := fun _ _ => True)
        | split
        | simp only [])
    | ((fail_if_success with_reducible apply Safe.here); first
        | intro _
        | omega
        | with_reducible exact trivial
        | contradiction
        | decide
        | dsimp only)

/-- The relation that holds between any two states. -/
theorem stepRel_true : StepRel (fun _ _ => True) where
  refl := fun _ => trivial
  trans := fun _ _ => trivial
  cursor := fun _ _ _ => trivial
  push := fun _ _ => trivial

theorem St.len_initial (mangled : List Char) : (initial mangled).len = mangled.length := rfl

theorem Safe.ne_fuel {m : M α} {s : St} {Q : α → St → Prop} (h : Safe False R m s Q) :
    m s ≠ Res.fuel := by
  intro hm
  simp only [Safe, hm] at h

/-- C4. `demangleTopLevel` and `demangleTypeName` terminate on every input: with the
recursion unfolded once more than the input is long, no run reaches the end of the
unfolding, because every entry into a recursive production and every round of a loop
comes after a character was consumed (`demangleBoundGenericArgs` descends into a child
of its argument instead). -/
theorem demangle_terminates (E : Env) (mangled : List Char) :
    demangleTopLevel E mangled ≠ Res.fuel ∧ demangleTypeName E mangled ≠ Res.fuel := by
  have hg := tie_good stepRel_true E (mangled.length + 1)
  constructor
  · exact Safe.ne_fuel (demangleTopLevelBody_safe stepRel_true (fun _ => trivial) hg E
      (initial mangled) (by rw [St.len_initial]; omega))
  · exact Safe.ne_fuel (demangleType_safe stepRel_true hg
      (initial mangled) (by rw [St.len_initial]; omega))

theorem bind_ok {α β : Type} {m : M α} {f : α → M β} {s s1 : St} {a : α}
    (h : m s = Res.ok a s1) : (m >>= f) s = f a s1 := by
  simp only [run_bind, h]

theorem bind_null {α β : Type} {m : M α} {f : α → M β} {s s1 : St}
    (h : m s = Res.null s1) : (m >>= f) s = Res.null s1 := by
  simp only [run_bind, h]

theorem run_nextIfStr (str : List Char) (s : St) :
    nextIfStr str s = if str.isPrefixOf s.Mangled then
      Res.ok true { s with Mangled := s.Mangled.drop str.length } else Res.ok false s := rfl

theorem nextIfStr_false {str : List Char} {s : St} (h : ¬ str <+: s.Mangled) :
    nextIfStr str s = Res.ok false s := by
  rw [run_nextIfStr, if_neg]
  simpa using h

theorem demangleTopLevelPrefix_null (E : Env) (r : Rec) (s : St)
    (h : ¬ "_T".toList <+: s.Mangled) : demangleTopLevelPrefix E r s = Res.null s := by
  unfold demangleTopLevelPrefix
  rw [bind_ok (nextIfStr_false h)]
  rfl

/-- C1. For every input that does not begin with the two bytes `_T`, `demangleTopLevel`
returns null (and has consumed nothing). -/
theorem demangleTopLevel_null_of_no_marker (E : Env) (mangled : List Char)
    (h : ¬ "_T".toList <+: mangled) :
    demangleTopLevel E mangled = Res.null (initial mangled) := by
  unfold demangleTopLevel demangleTopLevelBody
  exact bind_null (demangleTopLevelPrefix_null E _ (initial mangled) h)

/-- The input `T_tBf32_` does not begin with `_T`, and `demangleTopLevel` returns null
on it. -/
theorem demangleTopLevel_null_of_no_marker_witness :
    ¬ "_T".toList <+: "T_tBf32_".toList ∧
      demangleTopLevel swiftEnv "T_tBf32_".toList = Res.null (initial "T_tBf32_".toList) :=
  ⟨by decide, demangleTopLevel_null_of_no_marker swiftEnv _ (by decide)⟩

/-- C3. Not every `getChild(i)` is applied to a node with more than `i` children: on the
input `_TtGVGVs5ArraySi_3Foo_` the recursion of `demangleBoundGenericArgs` reaches the
node `Type[Structure Array]`, which has one child, and calls `getChild(1)` on it. -/
theorem demangleTopLevel_reads_missing_child (E : Env) :
    demangleTopLevel E "_TtGVGVs5ArraySi_3Foo_".toList = Res.fault := rfl

/-- C5. `demangleTopLevel("_TtBf32_")` returns exactly
`Global[TypeMangling[Type[BuiltinTypeName "Builtin.FPIEEE32"]]]`; the whole input is
consumed and the root has no `Suffix` child. -/
theorem demangleTopLevel_fpieee32 (E : Env) :
    demangleTopLevel E "_TtBf32_".toList = Res.ok fpieee32Tree ⟨[], []⟩ ∧
      fpieee32Tree = Node.mk Kind.Global Payload.none
        [Node.mk Kind.TypeMangling Payload.none
          [Node.mk Kind.Type_ Payload.none
            [Node.mk Kind.BuiltinTypeName (Payload.text "Builtin.FPIEEE32".toList) []]]] :=
  ⟨rfl, rfl⟩

/-- C6. For every non-empty `x`, `demangleTopLevel("_TtBf32_" ++ x)` returns the tree of
`_TtBf32_` with one more child, placed last: a `Suffix` node with the text `x`. -/
theorem demangleTopLevel_trailing_bytes (E : Env) (x : List Char) (hx : x ≠ []) :
    demangleTopLevel E ("_TtBf32_".toList ++ x) =
      Res.ok (Node.mk Kind.Global Payload.none
        (fpieee32Tree.getChildren ++ [Node.mk Kind.Suffix (Payload.text x) []])) ⟨[], []⟩ := by
  cases x with
  | nil => exact absurd rfl hx
  | cons c cs => rfl

/-- The tree of `_TtBf32_xyz` is the tree of `_TtBf32_` with the child `Suffix "xyz"`. -/
theorem demangleTopLevel_trailing_bytes_witness :
    "xyz".toList ≠ [] ∧ demangleTopLevel swiftEnv ("_TtBf32_".toList ++ "xyz".toList) =
      Res.ok (Node.mk Kind.Global Payload.none
        (fpieee32Tree.getChildren ++ [Node.mk Kind.Suffix (Payload.text "xyz".toList) []]))
        ⟨[], []⟩ :=
  ⟨by decide, demangleTopLevel_trailing_bytes swiftEnv "xyz".toList (by decide)⟩

/-- C7. On the empty input `demangleTopLevel` returns null and `demangleTypeName` returns
null. -/
theorem demangle_empty_null (E : Env) :
    demangleTopLevel E [] = Res.null (initial []) ∧
      demangleTypeName E [] = Res.null (initial []) := ⟨rfl, rfl⟩

theorem bind_eq_ok {m : M α} {f : α → M β} {s s2 : St} {b : β}
    (h : (m >>= f) s = Res.ok b s2) : ∃ a s1, m s = Res.ok a s1 ∧ f a s1 = Res.ok b s2 := by
  rw [run_bind] at h
  cases hm : m s with
  | ok a s1 => rw [hm] at h; exact ⟨a, s1, rfl, h⟩
  | null s1 => rw [hm] at h; cases h
  | fault => rw [hm] at h; cases h
  | fuel => rw [hm] at h; cases h

theorem ret_done {a : α} {s : St} {Q : α → St → Prop} (h : Q a s) :
    Ret (pure a : M α) s Q := by
  refine ⟨fun b s1 hb => ?_⟩
  cases hb
  exact h

theorem ret_failed {s : St} {Q : α → St → Prop} : Ret (fail : M α) s Q := by
  refine ⟨fun b s1 hb => ?_⟩
  cases hb

theorem ret_bind {m : M α} {f : α → M β} {s : St} {P : α → St → Prop} {Q : β → St → Prop}
    (h1 : Ret m s P) (h2 : ∀ a s1, P a s1 → Ret (f a) s1 Q) : Ret (m >>= f) s Q := by
  refine ⟨fun b s2 hb => ?_⟩
  obtain ⟨a, s1, hm, hf⟩ := bind_eq_ok hb
  exact (h2 a s1 (h1.out a s1 hm)).out b s2 hf

theorem ret_mono {m : M α} {s : St} {P Q : α → St → Prop} (h1 : Ret m s P)
    (h2 : ∀ a s1, P a s1 → Q a s1) : Ret m s Q :=
  ⟨fun a s1 h => h2 a s1 (h1.out a s1 h)⟩

theorem ret_any {m : M α} {s : St} : Ret m s (fun _ _ => True) := ⟨fun _ _ _ => trivial⟩

theorem ret_ite {c : Prop} [Decidable c] {A B : M α} {s : St} {Q : α → St → Prop}
    (hA : c → Ret A s Q) (hB : ¬ c → Ret B s Q) : Ret (if c then A else B) s Q := by
  by_cases h : c
  · rw [if_pos h]; exact hA h
  · rw [if_neg h]; exact hB h

theorem ret_bind_nextIf {f : Bool → M β} {s : St} {Q : β → St → Prop} (c : Char)
    (hA : Ret (f true) { s with Mangled := s.Mangled.tail } Q) (hB : Ret (f false) s Q) :
    Ret (nextIf c >>= f) s Q := by
  refine ⟨fun b s2 hb => ?_⟩
  rw [run_bind, run_nextIf] at hb
  by_cases h : s.Mangled.head? = some c
  · rw [if_pos h] at hb; exact hA.out b s2 hb
  · rw [if_neg h] at hb; exact hB.out b s2 hb

theorem ret_ite_nextIf {A B : M β} {s : St} {Q : β → St → Prop} (c : Char)
    (hA : Ret A { s with Mangled := s.Mangled.tail } Q) (hB : Ret B s Q) :
    Ret (do if (← nextIf c) then A else B) s Q :=
  ret_bind_nextIf c (by simpa using hA) (by simpa using hB)

theorem ret_ite_not_nextIf {A B : M β} {s : St} {Q : β → St → Prop} (c : Char)
    (hA : Ret A s Q) (hB : Ret B { s with Mangled := s.Mangled.tail } Q) :
    Ret (do if !(← nextIf c) then A else B) s Q :=
  ret_bind_nextIf c (by simpa using hB) (by simpa using hA)

theorem ret_bind_nextIfStr {f : Bool → M β} {s : St} {Q : β → St → Prop} (str : List Char)
    (hA : Ret (f true) { s with Mangled := s.Mangled.drop str.length } Q)
    (hB : Ret (f false) s Q) : Ret (nextIfStr str >>= f) s Q := by
  refine ⟨fun b s2 hb => ?_⟩
  rw [run_bind, run_nextIfStr] at hb
  by_cases h : str.isPrefixOf s.Mangled
  · rw [if_pos h] at hb; exact hA.out b s2 hb
  · rw [if_neg h] at hb; exact hB.out b s2 hb

theorem ret_ite_nextIfStr {A B : M β} {s : St} {Q : β → St → Prop} (str : List Char)
    (hA : Ret A { s with Mangled := s.Mangled.drop str.length } Q) (hB : Ret B s Q) :
    Ret (do if (← nextIfStr str) then A else B) s Q :=
  ret_bind_nextIfStr str (by simpa using hA) (by simpa using hB)

theorem ret_ite_not_nextIfStr {A B : M β} {s : St} {Q : β → St → Prop} (str : List Char)
    (hA : Ret A s Q) (hB : Ret B { s with Mangled := s.Mangled.drop str.length } Q) :
    Ret (do if !(← nextIfStr str) then A else B) s Q :=
  ret_bind_nextIfStr str (by simpa using hB) (by simpa using hA)

theorem ret_ite_not_nonEmpty {B : M β} {s : St} {Q : β → St → Prop}
    (hB : Ret B s Q) : Ret (do if !(← nonEmpty) then (fail : M β) else B) s Q := by
  refine ⟨fun b s2 hb => ?_⟩
  rw [run_bind, run_nonEmpty] at hb
  cases h : s.Mangled.isEmpty with
  | true => simp [h] at hb
  | false => simp only [h, Bool.not_false, Bool.not_true, Bool.false_eq_true, if_false] at hb
             exact hB.out b s2 hb

theorem run_attempt (m : M α) (s : St) :
    attempt m s = match m s with
      | .ok a s1 => .ok (some a) s1
      | .null s1 => .ok Option.none s1
      | .fault => .fault
      | .fuel => .fuel := rfl

theorem run_demangleNatural (s : St) :
    demangleNatural s = match s.Mangled with
      | [] => Res.null s
      | c :: t =>
          if c.toNat < '0'.toNat ∨ c.toNat > '9'.toNat then
            Res.null { s with Mangled := t }
          else
            Res.ok (demangleNaturalLoop t (c.toNat - '0'.toNat)).1
              { s with Mangled := (demangleNaturalLoop t (c.toNat - '0'.toNat)).2 } := by
  obtain ⟨m, u⟩ := s
  cases m with
  | nil => rfl
  | cons c t =>
    simp only [demangleNatural, run_bind, run_nonEmpty, run_next, List.isEmpty_cons,
      List.headD_cons, List.tail_cons, Bool.not_false, Bool.not_true, Bool.false_eq_true,
      if_false]
    by_cases hd : (c.toNat < '0'.toNat ∨ c.toNat > '9'.toNat)
    · simp only [if_pos hd]; rfl
    · simp only [if_neg hd]

theorem demangleNatural_subs (s : St) :
    Ret demangleNatural s (fun _ s1 => s1.Substitutions = s.Substitutions) := by
  refine ⟨fun n s1 h => ?_⟩
  rw [run_demangleNatural] at h
  split at h
  · cases h
  · split at h
    · cases h
    · cases h; rfl

theorem demangleIndex_subs (s : St) :
    Ret demangleIndex s (fun _ s1 => s1.Substitutions = s.Substitutions) := by
  unfold demangleIndex
  apply ret_ite_nextIf
  · exact ret_done rfl
  · refine ⟨fun i s1 h => ?_⟩
    obtain ⟨o, s2, h1, h2⟩ := bind_eq_ok h
    rw [run_attempt] at h1
    cases h3 : demangleNatural s with
    | ok n s3 =>
      rw [h3] at h1
      cases h1
      have e3 := (demangleNatural_subs s).out n s2 h3
      have := ret_ite_not_nextIf (A := fail) (B := Pure.pure ((n + 1) % indexMod))
        (Q := fun _ s1 => s1.Substitutions = s.Substitutions) '_' ret_failed (ret_done e3)
      exact this.out i s1 h2
    | null s3 => rw [h3] at h1; cases h1; cases h2
    | fault => rw [h3] at h1; cases h1
    | fuel => rw [h3] at h1; cases h1

theorem nextIf_ne {c x : Char} {t : List Char} {s : St} (hs : s.Mangled = c :: t)
    (h : c ≠ x) : nextIf x s = Res.ok false s := by
  rw [run_nextIf, hs, if_neg]
  simpa using h

theorem demangleIndex_nonEmpty {s s1 : St} {i : Nat} (h : demangleIndex s = Res.ok i s1) :
    s.Mangled ≠ [] := by
  intro he
  obtain ⟨m, u⟩ := s
  simp only at he
  subst he
  cases h

/-- C8. When the next character is none of the built-in code letters and `demangleIndex`
reads the index `i`, `demangleSubstitutionIndex` returns the entry at position `i` of the
`Substitutions` table when `i` is less than the size of the table, and null when `i` is
the size of the table or more; the table is the one of before the call. -/
theorem demangleSubstitutionIndex_lookup (E : Env) (s s1 : St) (i : Nat)
    (hc : ∀ c ∈ s.Mangled.head?, c ∉ builtinSubstitutionLetters)
    (hi : demangleIndex s = Res.ok i s1) :
    s1.Substitutions = s.Substitutions ∧
    demangleSubstitutionIndex E s =
      if h : i < s.Substitutions.length then Res.ok (s.Substitutions.get ⟨i, h⟩) s1
      else Res.null s1 := by
  have hsub : s1.Substitutions = s.Substitutions := (demangleIndex_subs s).out i s1 hi
  refine ⟨hsub, ?_⟩
  have hne := demangleIndex_nonEmpty hi
  obtain ⟨c, t, hs⟩ := List.exists_cons_of_ne_nil hne
  have hc2 : c ∉ builtinSubstitutionLetters := hc c (by simp [hs])
  simp only [builtinSubstitutionLetters, String.toList, List.mem_cons, List.mem_singleton,
    not_or, List.not_mem_nil, or_false] at hc2
  obtain ⟨h1, h2, h3, h4, h5, h6, h7, h8, h9, h10, h11, h12, h13, h14, h15, h16, h17, h18⟩ := hc2
  unfold demangleSubstitutionIndex
  simp only [run_bind, run_nonEmpty, hs, List.isEmpty_cons, Bool.not_false, Bool.not_true,
    Bool.false_eq_true, if_false]
  simp only [nextIf_ne hs h1, nextIf_ne hs h2, nextIf_ne hs h3, nextIf_ne hs h4,
    nextIf_ne hs h5, nextIf_ne hs h6, nextIf_ne hs h7, nextIf_ne hs h8, nextIf_ne hs h9,
    nextIf_ne hs h10, nextIf_ne hs h11, nextIf_ne hs h12, nextIf_ne hs h13,
    nextIf_ne hs h14, nextIf_ne hs h15, nextIf_ne hs h16, nextIf_ne hs h17,
    nextIf_ne hs h18, Bool.false_eq_true, if_false, run_bind, hi]
  simp only [getSubstitutions, hsub]
  by_cases h : i < s.Substitutions.length
  · rw [dif_pos h, if_neg (by omega)]
    simp only [List.get?_eq_getElem?, List.getElem?_eq_getElem h, List.get_eq_getElem]
    rfl
  · rw [dif_neg h, if_pos (by omega)]
    rfl

/-- The table `[Module, Class]` and the text `0_x`: the index read is `1`, which is less
than the size `2`, and the entry at position `1` is returned. -/
theorem demangleSubstitutionIndex_lookup_witness :
    (∀ c ∈ (St.mk "0_x".toList [createNode Kind.Module, createNode Kind.Class]).Mangled.head?,
        c ∉ builtinSubstitutionLetters) ∧
    demangleIndex (St.mk "0_x".toList [createNode Kind.Module, createNode Kind.Class]) =
      Res.ok 1 (St.mk "x".toList [createNode Kind.Module, createNode Kind.Class]) ∧
    demangleSubstitutionIndex swiftEnv
        (St.mk "0_x".toList [createNode Kind.Module, createNode Kind.Class]) =
      Res.ok (createNode Kind.Class)
        (St.mk "x".toList [createNode Kind.Module, createNode Kind.Class]) :=
  ⟨by decide, rfl,
    (demangleSubstitutionIndex_lookup swiftEnv
      (St.mk "0_x".toList [createNode Kind.Module, createNode Kind.Class])
      (St.mk "x".toList [createNode Kind.Module, createNode Kind.Class]) 1
      (by decide) rfl).2⟩

theorem isDigit_iff (c : Char) :
    isDigit c = true ↔ ¬ (c.toNat < '0'.toNat ∨ c.toNat > '9'.toNat) := by
  simp only [isDigit, Bool.and_eq_true, decide_eq_true_eq]
  omega

theorem demangleNaturalLoop_digits (digits rest : List Char)
    (hall : ∀ c ∈ digits, isDigit c = true) (hrest : ∀ c ∈ rest.head?, isDigit c = false) :
    ∀ num : Nat, demangleNaturalLoop (digits ++ rest) (num % indexMod) =
      ((digits.foldl (fun n c => 10 * n + (c.toNat - '0'.toNat)) num) % indexMod, rest) := by
  induction digits with
  | nil =>
    intro num
    cases rest with
    | nil => rfl
    | cons c t =>
      have hc : isDigit c = false := hrest c (by simp)
      have : c.toNat < '0'.toNat ∨ c.toNat > '9'.toNat := by
        by_contra hn
        rw [(isDigit_iff c).2 hn] at hc
        cases hc
      simp only [List.nil_append, demangleNaturalLoop, if_pos this, List.foldl_nil]
  | cons d ds ih =>
    intro num
    have hd : ¬ (d.toNat < '0'.toNat ∨ d.toNat > '9'.toNat) :=
      (isDigit_iff d).1 (hall d (by simp))
    simp only [List.cons_append, demangleNaturalLoop, if_neg hd, List.foldl_cons]
    have e : ((10 * (num % indexMod)) % indexMod + (d.toNat - '0'.toNat)) % indexMod =
        (10 * num + (d.toNat - '0'.toNat)) % indexMod := by
      simp only [indexMod]
      omega
    rw [e]
    exact ih (fun c hc => hall c (List.mem_cons_of_mem _ hc)) _

theorem demangleNatural_digits (digits rest : List Char) (subs : List Node)
    (hd : digits ≠ []) (hall : ∀ c ∈ digits, isDigit c = true)
    (hrest : ∀ c ∈ rest.head?, isDigit c = false) :
    demangleNatural ⟨digits ++ rest, subs⟩ =
      Res.ok (decimalValue digits % indexMod) ⟨rest, subs⟩ := by
  cases digits with
  | nil => exact absurd rfl hd
  | cons d ds =>
    have hd : ¬ (d.toNat < '0'.toNat ∨ d.toNat > '9'.toNat) :=
      (isDigit_iff d).1 (hall d (by simp))
    rw [run_demangleNatural]
    simp only [List.cons_append, if_neg hd]
    have hlt : d.toNat - '0'.toNat = (0 * 10 + (d.toNat - '0'.toNat)) % indexMod := by
      have : '9'.toNat = 57 := rfl
      have : '0'.toNat = 48 := rfl
      simp only [indexMod]
      omega
    rw [hlt, demangleNaturalLoop_digits ds rest
      (fun c hc => hall c (List.mem_cons_of_mem _ hc)) hrest]
    simp [decimalValue]

theorem demangleIdentifierPayload_digits (E : Env) (isPunycoded isOperator : Bool)
    (kind : Kind) (digits rest : List Char) (subs : List Node)
    (hd : digits ≠ []) (hall : ∀ c ∈ digits, isDigit c = true)
    (hrest : ∀ c ∈ rest.head?, isDigit c = false) :
    demangleIdentifierPayload E isPunycoded isOperator kind ⟨digits ++ rest, subs⟩ =
      if decimalValue digits % indexMod ≤ rest.length then
        if (decode E isPunycoded (rest.take (decimalValue digits % indexMod))).isEmpty then
          Res.null ⟨rest.drop (decimalValue digits % indexMod), subs⟩
        else if isOperator then
          match decodeOperator
              (decode E isPunycoded (rest.take (decimalValue digits % indexMod))) [] with
          | Option.none => Res.null ⟨rest.drop (decimalValue digits % indexMod), subs⟩
          | some opDecodeBuffer =>
              Res.ok (createNodeText kind opDecodeBuffer)
                ⟨rest.drop (decimalValue digits % indexMod), subs⟩
        else
          Res.ok (createNodeText kind
              (decode E isPunycoded (rest.take (decimalValue digits % indexMod))))
            ⟨rest.drop (decimalValue digits % indexMod), subs⟩
      else
        Res.null ⟨rest, subs⟩ := by
  unfold demangleIdentifierPayload
  rw [bind_ok (demangleNatural_digits digits rest subs hd hall hrest)]
  rw [run_bind, run_hasAtLeast]
  by_cases h : decimalValue digits % indexMod ≤ rest.length
  · simp only [h, decide_True, Bool.not_true, Bool.false_eq_true, if_false, if_true]
    rw [bind_ok (run_slice _ _), bind_ok (run_advanceOffset _ _), bind_ok (run_pure _ _)]
    by_cases he : (decode E isPunycoded (rest.take (decimalValue digits % indexMod))).isEmpty
    · simp only [he, if_true]
      rfl
    · simp only [he, Bool.false_eq_true, if_false]
      cases isOperator with
      | false => rfl
      | true =>
        simp only [if_true]
        cases decodeOperator
          (decode E isPunycoded (rest.take (decimalValue digits % indexMod))) [] <;> rfl
  · simp only [h, decide_False, Bool.not_false, if_true, if_false]
    rfl

theorem nextIf_eq {c : Char} {t : List Char} {s : St} (hs : s.Mangled = c :: t) :
    nextIf c s = Res.ok true { s with Mangled := t } := by
  rw [run_nextIf, hs]
  simp only [List.head?_cons, if_true, List.tail_cons]

theorem isDigit_ne_marker {d : Char} (h : isDigit d = true) : d ≠ 'X' ∧ d ≠ 'o' := by
  have h1 := (isDigit_iff d).1 h
  have e9 : '9'.toNat = 57 := rfl
  have e0 : '0'.toNat = 48 := rfl
  constructor
  · rintro rfl
    have : 'X'.toNat = 88 := rfl
    omega
  · rintro rfl
    have : 'o'.toNat = 111 := rfl
    omega

/-- The second part of `demangleIdentifier` when the first character is a digit. -/
theorem demangleIdentifier_digit (E : Env) (kind : Option Kind) (isPunycoded : Bool)
    (d : Char) (t : List Char) (subs : List Node) (hd : isDigit d = true) :
    (do
      let isOperator ← nextIf 'o'
      let kind ←
        if isOperator then
          if kind.isSome then
            fail
          else
            match operatorKind (← next) with
            | some k => pure (some k)
            | Option.none => fail
        else
          pure kind
      demangleIdentifierPayload E isPunycoded isOperator (kind.getD Kind.Identifier) : M Node)
      ⟨d :: t, subs⟩ =
    demangleIdentifierPayload E isPunycoded false (kind.getD Kind.Identifier) ⟨d :: t, subs⟩ := by
  rw [bind_ok (nextIf_ne (s := ⟨d :: t, subs⟩) rfl (isDigit_ne_marker hd).2)]
  rfl

/-- The second part of `demangleIdentifier` when the first character is `o`. -/
theorem demangleIdentifier_operator (E : Env) (kind : Option Kind) (isPunycoded : Bool)
    (mode : Char) (t : List Char) (subs : List Node) :
    (do
      let isOperator ← nextIf 'o'
      let kind ←
        if isOperator then
          if kind.isSome then
            fail
          else
            match operatorKind (← next) with
            | some k => pure (some k)
            | Option.none => fail
        else
          pure kind
      demangleIdentifierPayload E isPunycoded isOperator (kind.getD Kind.Identifier) : M Node)
      ⟨'o' :: mode :: t, subs⟩ =
    if kind.isSome then Res.null ⟨mode :: t, subs⟩
    else
      match operatorKind mode with
      | some k => demangleIdentifierPayload E isPunycoded true k ⟨t, subs⟩
      | Option.none => Res.null ⟨t, subs⟩ := by
  rw [bind_ok (nextIf_eq (s := ⟨'o' :: mode :: t, subs⟩) rfl)]
  cases kind with
  | some k => rfl
  | none =>
    simp only [Option.isSome_none, Bool.false_eq_true, if_false, if_true]
    rw [run_bind, run_next]
    simp only [List.headD_cons, List.tail_cons]
    cases operatorKind mode <;> rfl

theorem demangleIdentifier_text (E : Env) (kind : Option Kind) (punycoded : Bool)
    (operator : Option Char) (digits rest : List Char) (subs : List Node)
    (hd : digits ≠ []) (hall : ∀ c ∈ digits, isDigit c = true) :
    demangleIdentifier E kind ⟨identifierText punycoded operator digits rest, subs⟩ =
      match operator with
      | Option.none =>
          demangleIdentifierPayload E punycoded false (kind.getD Kind.Identifier)
            ⟨digits ++ rest, subs⟩
      | some mode =>
          if kind.isSome then Res.null ⟨mode :: (digits ++ rest), subs⟩
          else
            match operatorKind mode with
            | some k => demangleIdentifierPayload E punycoded true k ⟨digits ++ rest, subs⟩
            | Option.none => Res.null ⟨digits ++ rest, subs⟩ := by
  cases digits with
  | nil => exact absurd rfl hd
  | cons d ds =>
    have hdig : isDigit d = true := hall d (by simp)
    unfold demangleIdentifier
    cases punycoded with
    | false =>
      cases operator with
      | none =>
        rw [bind_ok (run_nonEmpty _)]
        simp only [identifierText, Bool.false_eq_true, if_false, List.nil_append,
          List.cons_append, List.isEmpty_cons, Bool.not_false, Bool.not_true]
        rw [bind_ok (nextIf_ne (s := ⟨d :: (ds ++ rest), subs⟩) rfl (isDigit_ne_marker hdig).1)]
        exact demangleIdentifier_digit E kind false d (ds ++ rest) subs hdig
      | some mode =>
        rw [bind_ok (run_nonEmpty _)]
        simp only [identifierText, Bool.false_eq_true, if_false, List.nil_append,
          List.cons_append, List.isEmpty_cons, Bool.not_false, Bool.not_true]
        rw [bind_ok (nextIf_ne (s := ⟨_ :: _, subs⟩) rfl (by decide))]
        exact demangleIdentifier_operator E kind false mode (d :: (ds ++ rest)) subs
    | true =>
      cases operator with
      | none =>
        rw [bind_ok (run_nonEmpty _)]
        simp only [identifierText, if_true, List.nil_append, List.append_nil,
          List.cons_append, List.isEmpty_cons, Bool.not_false, Bool.not_true,
          Bool.false_eq_true, if_false]
        rw [bind_ok (nextIf_eq (s := ⟨_ :: _, subs⟩) rfl)]
        exact demangleIdentifier_digit E kind true d (ds ++ rest) subs hdig
      | some mode =>
        rw [bind_ok (run_nonEmpty _)]
        simp only [identifierText, if_true, List.nil_append,
          List.cons_append, List.isEmpty_cons, Bool.not_false, Bool.not_true,
          Bool.false_eq_true, if_false]
        rw [bind_ok (nextIf_eq (s := ⟨_ :: _, subs⟩) rfl)]
        exact demangleIdentifier_operator E kind true mode (d :: (ds ++ rest)) subs

/-- C9, as the claim states it, fails: the length prefix of `18446744073709551619abc`
denotes 18446744073709551619, more than the 3 bytes that remain after it, and
`demangleIdentifier` returns the identifier `abc`. -/
theorem demangleIdentifier_length_wraps :
    (∀ c ∈ "18446744073709551619".toList, isDigit c = true) ∧
    (∀ c ∈ "abc".toList.head?, isDigit c = false) ∧
    "abc".toList.length < decimalValue "18446744073709551619".toList ∧
      demangleIdentifier swiftEnv Option.none
          ⟨identifierText false Option.none "18446744073709551619".toList "abc".toList, []⟩ =
        Res.ok (createNodeText Kind.Identifier "abc".toList) ⟨[], []⟩ :=
  ⟨by decide, by decide, by decide, rfl⟩

/-- C9, amended. For every identifier (punycoded or not, operator or not) whose decimal
length prefix, reduced modulo 2^64 as `demangleNatural` computes it, is greater than the
number of bytes that remain after the prefix, `demangleIdentifier` returns null. -/
theorem demangleIdentifier_null_of_long_length (E : Env) (kind : Option Kind)
    (punycoded : Bool) (operator : Option Char) (digits rest : List Char) (subs : List Node)
    (hd : digits ≠ []) (hall : ∀ c ∈ digits, isDigit c = true)
    (hrest : ∀ c ∈ rest.head?, isDigit c = false)
    (h : rest.length < decimalValue digits % indexMod) :
    ∃ s1, demangleIdentifier E kind
      ⟨identifierText punycoded operator digits rest, subs⟩ = Res.null s1 := by
  have hp : ∀ (isOperator : Bool) (k : Kind),
      demangleIdentifierPayload E punycoded isOperator k ⟨digits ++ rest, subs⟩ =
        Res.null ⟨rest, subs⟩ := by
    intro isOperator k
    rw [demangleIdentifierPayload_digits E punycoded isOperator k digits rest subs hd hall
      hrest, if_neg (by omega)]
  rw [demangleIdentifier_text E kind punycoded operator digits rest subs hd hall]
  cases operator with
  | none => exact ⟨_, hp false _⟩
  | some mode =>
    simp only
    split
    · exact ⟨_, rfl⟩
    · cases operatorKind mode with
      | none => exact ⟨_, rfl⟩
      | some k => exact ⟨_, hp true k⟩

/-- The length prefix of `5abc` is 5 and 3 bytes remain: `demangleIdentifier` returns
null. -/
theorem demangleIdentifier_null_of_long_length_witness :
    "abc".toList.length < decimalValue "5".toList % indexMod ∧
      ∃ s1, demangleIdentifier swiftEnv Option.none
        ⟨identifierText false Option.none "5".toList "abc".toList, []⟩ = Res.null s1 :=
  ⟨by decide,
    demangleIdentifier_null_of_long_length swiftEnv Option.none false Option.none
      "5".toList "abc".toList [] (by decide) (by decide) (by decide) (by decide)⟩

/-- C10. For a plain identifier (neither the marker `X` nor the marker `o`) whose length
prefix denotes `n` with `1 ≤ n` and `n` at most the number of bytes that remain after the
prefix, `demangleIdentifier` returns a node whose text is the `n` bytes after the prefix,
and the cursor is left right after these bytes.  The text is shorter than 2^64 bytes, as
every `StringRef` is. -/
theorem demangleIdentifier_plain (E : Env) (kind : Option Kind)
    (digits rest : List Char) (subs : List Node)
    (hd : digits ≠ []) (hall : ∀ c ∈ digits, isDigit c = true)
    (hrest : ∀ c ∈ rest.head?, isDigit c = false)
    (h1 : 1 ≤ decimalValue digits) (h2 : decimalValue digits ≤ rest.length)
    (hlen : (digits ++ rest).length < indexMod) :
    demangleIdentifier E kind ⟨identifierText false Option.none digits rest, subs⟩ =
      Res.ok (createNodeText (kind.getD Kind.Identifier) (rest.take (decimalValue digits)))
        ⟨rest.drop (decimalValue digits), subs⟩ := by
  have hlt : decimalValue digits % indexMod = decimalValue digits := by
    apply Nat.mod_eq_of_lt
    rw [List.length_append] at hlen
    omega
  rw [demangleIdentifier_text E kind false Option.none digits rest subs hd hall]
  simp only
  rw [demangleIdentifierPayload_digits E false false _ digits rest subs hd hall hrest, hlt,
    if_pos h2]
  have hne : (decode E false (rest.take (decimalValue digits))).isEmpty = false := by
    simp only [decode, Bool.not_false, if_true]
    cases rest with
    | nil => simp at h2; omega
    | cons c t =>
      cases hv : decimalValue digits with
      | zero => omega
      | succ k => rfl
  rw [hne]
  simp only [Bool.false_eq_true, if_false, decode, Bool.not_false, if_true]

/-- The identifier `3abcde`: the node has the text `abc` and the cursor is left at
`de`. -/
theorem demangleIdentifier_plain_witness :
    demangleIdentifier swiftEnv Option.none
        ⟨identifierText false Option.none "3".toList "abcde".toList, []⟩ =
      Res.ok (createNodeText Kind.Identifier "abc".toList) ⟨"de".toList, []⟩ :=
  demangleIdentifier_plain swiftEnv Option.none "3".toList "abcde".toList []
    (by decide) (by decide) (by decide) (by decide) (by decide) (by decide)

theorem Node.getKind_addChild (n c : Node) : (n.addChild c).getKind = n.getKind := by
  cases n; rfl

theorem Node.getChildren_addChild (n c : Node) :
    (n.addChild c).getChildren = n.getChildren ++ [c] := by
  cases n; rfl

/-- A production that appends to `parent` what `m` returns keeps the kind of `parent`. -/
theorem ret_child {m : M α} {g : α → Node} {parent : Node} {s : St}
    (h : parent.getKind ≠ Kind.Suffix) :
    Ret (do let _node ← m; pure (parent.addChild (g _node)) : M Node) s
      (fun a _ => a.getKind ≠ Kind.Suffix) := by
  apply ret_bind ret_any
  intro a s1 _
  apply ret_done
  rw [Node.getKind_addChild]
  exact h

theorem childType_kind (r : Rec) (parent : Node) (s : St)
    (h : parent.getKind ≠ Kind.Suffix) :
    Ret (childType r parent) s (fun a _ => a.getKind ≠ Kind.Suffix) :=
  ret_child (g := id) h

theorem childProtocolConformance_kind (E : Env) (r : Rec) (parent : Node) (s : St)
    (h : parent.getKind ≠ Kind.Suffix) :
    Ret (childProtocolConformance E r parent) s (fun a _ => a.getKind ≠ Kind.Suffix) :=
  ret_child (g := id) h

theorem childProtocolName_kind (E : Env) (r : Rec) (parent : Node) (s : St)
    (h : parent.getKind ≠ Kind.Suffix) :
    Ret (childProtocolName E r parent) s (fun a _ => a.getKind ≠ Kind.Suffix) :=
  ret_child (g := id) h

theorem childDeclName_kind (E : Env) (parent : Node) (s : St)
    (h : parent.getKind ≠ Kind.Suffix) :
    Ret (childDeclName E parent) s (fun a _ => a.getKind ≠ Kind.Suffix) :=
  ret_child (g := id) h

theorem childEntity_kind (E : Env) (r : Rec) (parent : Node) (s : St)
    (h : parent.getKind ≠ Kind.Suffix) :
    Ret (childEntity E r parent) s (fun a _ => a.getKind ≠ Kind.Suffix) :=
  ret_child (g := id) h

theorem childDirectness_kind (E : Env) (parent : Node) (s : St)
    (h : parent.getKind ≠ Kind.Suffix) :
    Ret (childDirectness E parent) s (fun a _ => a.getKind ≠ Kind.Suffix) :=
  ret_child (g := fun k => createNodeIndex Kind.Directness (k % unsignedMod)) h

theorem ret_bind_done {a : α} {f : α → M β} {s : St} {Q : β → St → Prop}
    (h : Ret (f a) s Q) : Ret (pure a >>= f) s Q := ⟨fun b s2 hb => h.out b s2 hb⟩

theorem demangleReabstractSignature_kind (E : Env) (r : Rec) (signature : Node) (s : St)
    (h : signature.getKind ≠ Kind.Suffix) :
    Ret (demangleReabstractSignature E r signature) s
      (fun a _ => a.getKind ≠ Kind.Suffix) := by
  have tail : ∀ (sig : Node) (s1 : St), sig.getKind ≠ Kind.Suffix →
      Ret (do
        let srcType ← demangleType r
        let signature := sig.addChild srcType
        let destType ← demangleType r
        let signature := signature.addChild destType
        pure signature : M Node) s1 (fun a _ => a.getKind ≠ Kind.Suffix) := by
    intro sig s1 hsig
    apply ret_bind ret_any
    intro a s2 _
    apply ret_bind ret_any
    intro b s3 _
    apply ret_done
    rw [Node.getKind_addChild, Node.getKind_addChild]
    exact hsig
  unfold demangleReabstractSignature
  apply ret_bind_nextIf
  · simp only [if_true]
    apply ret_bind ret_any
    intro g s1 _
    apply ret_bind_done
    exact tail _ _ (by rw [Node.getKind_addChild]; exact h)
  · simp only [Bool.false_eq_true, if_false]
    apply ret_bind_done
    exact tail _ _ h

theorem demangleGlobalMetadata_kind (E : Env) (r : Rec) (s : St) :
    Ret (demangleGlobalMetadata E r) s (fun a _ => a.getKind ≠ Kind.Suffix) := by
  unfold demangleGlobalMetadata
  repeat' first
    | exact childType_kind _ _ _ (by decide)
    | exact childProtocolName_kind _ _ _ _ (by decide)
    | with_reducible apply ret_ite_nextIf

theorem demangleGlobalWitness_kind (E : Env) (r : Rec) (s : St) :
    Ret (demangleGlobalWitness E r) s (fun a _ => a.getKind ≠ Kind.Suffix) := by
  unfold demangleGlobalWitness
  repeat' first
    | exact ret_failed
    | exact childType_kind _ _ _ (by decide)
    | exact childProtocolConformance_kind _ _ _ _ (by decide)
    | exact ret_bind (childDirectness_kind _ _ _ (by decide))
        (fun a s1 h => childEntity_kind _ _ _ _ h)
    | exact ret_bind (childType_kind _ _ _ (by decide))
        (fun a s1 h => childProtocolConformance_kind _ _ _ _ h)
    | exact ret_bind (childProtocolConformance_kind _ _ _ _ (by decide))
        (fun a s1 h => childDeclName_kind _ _ _ h)
    | exact ret_bind (childProtocolConformance_kind _ _ _ _ (by decide))
        (fun a s1 h => ret_bind (childDeclName_kind _ _ _ h)
          (fun a s1 h => childProtocolName_kind _ _ _ _ h))
    | with_reducible apply ret_ite_nextIf

theorem demangleGlobalThunk_kind (E : Env) (r : Rec) (s : St) :
    Ret (demangleGlobalThunk E r) s (fun a _ => a.getKind ≠ Kind.Suffix) := by
  unfold demangleGlobalThunk
  repeat' first
    | exact ret_failed
    | exact demangleReabstractSignature_kind _ _ _ _ (by decide)
    | exact ret_bind (childProtocolConformance_kind _ _ _ _ (by decide))
        (fun a s1 h => childEntity_kind _ _ _ _ h)
    | with_reducible apply ret_ite_nextIf

theorem demangleAccessorName_kind (E : Env) (entityKind : Kind) (s : St)
    (h : entityKind ≠ Kind.Suffix) :
    Ret (demangleAccessorName E entityKind) s (fun n _ => n.entityKind ≠ Kind.Suffix) := by
  unfold demangleAccessorName
  apply ret_bind ret_any
  intro a s1 _
  exact ret_done h

theorem demangleEntityName_kind (E : Env) (entityBasicKind : Kind) (s : St)
    (h : entityBasicKind ≠ Kind.Suffix) :
    Ret (demangleEntityName E entityBasicKind) s
      (fun n _ => n.entityKind ≠ Kind.Suffix) := by
  unfold demangleEntityName
  repeat' first
    | exact ret_failed
    | (apply ret_done; first | exact h | (intro hk; cases hk))
    | exact demangleAccessorName_kind _ _ _ (by decide)
    | with_reducible apply ret_ite_nextIf
    | with_reducible apply ret_ite
    | with_reducible apply ret_bind ret_any
    | intro _

theorem getKind_addChildIf (parent : Node) (child : Option Node) :
    (addChildIf parent child).getKind = parent.getKind := by
  cases child
  · rfl
  · exact Node.getKind_addChild _ _

theorem demangleEntityNode_kind (r : Rec) (context : Node) (n : EntityName) (s : St)
    (h : n.entityKind ≠ Kind.Suffix) :
    Ret (demangleEntityNode r context n) s (fun a _ => a.getKind ≠ Kind.Suffix) := by
  unfold demangleEntityNode
  apply ret_ite
  · intro _
    cases n.name with
    | none => exact ret_failed
    | some name =>
      simp only
      repeat' first
        | exact ret_failed
        | (apply ret_done; simp only [Node.getKind_addChild, getKind_addChildIf]; exact h)
        | with_reducible apply ret_bind_done
        | with_reducible apply ret_bind ret_any
        | with_reducible apply ret_ite
        | intro _
  · intro _
    simp only
    repeat' first
      | exact ret_failed
      | (apply ret_done; simp only [Node.getKind_addChild, getKind_addChildIf]; exact h)
      | with_reducible apply ret_bind_done
      | with_reducible apply ret_bind ret_any
      | with_reducible apply ret_ite
      | intro _

theorem demangleEntityOfKind_kind (E : Env) (r : Rec) (isStatic : Bool)
    (entityBasicKind : Kind) (s : St) (h : entityBasicKind ≠ Kind.Suffix) :
    Ret (demangleEntityOfKind E r isStatic entityBasicKind) s
      (fun a _ => a.getKind ≠ Kind.Suffix) := by
  unfold demangleEntityOfKind
  apply ret_bind ret_any
  intro context s1 _
  apply ret_bind (demangleEntityName_kind E entityBasicKind s1 h)
  intro n s2 hn
  apply ret_bind (demangleEntityNode_kind r context n s2 hn)
  intro entity s3 he
  apply ret_ite
  · intro _
    apply ret_done
    intro hk
    cases hk
  · intro _
    exact ret_done he

theorem demangleSubstitutionIndex_kind (E : Env) (s : St) (hs : s.Substitutions = []) :
    Ret (demangleSubstitutionIndex E) s (fun a _ => a.getKind ≠ Kind.Suffix) := by
  unfold demangleSubstitutionIndex
  apply ret_ite_not_nonEmpty
  repeat' first
    | (apply ret_done; intro hk; cases hk)
    | with_reducible apply ret_ite_nextIf
  refine ⟨fun a s2 h => ?_⟩
  obtain ⟨i, s1, hi, h2⟩ := bind_eq_ok h
  have hsub : s1.Substitutions = [] := ((demangleIndex_subs _).out i s1 hi).trans hs
  rw [bind_ok (run_getSubstitutions s1), hsub] at h2
  simp at h2

theorem demangleDeclarationName_kind (E : Env) (r : Rec) (kind : Kind) (s : St)
    (h : kind ≠ Kind.Suffix) :
    Ret (demangleDeclarationName E r kind) s (fun a _ => a.getKind ≠ Kind.Suffix) := by
  unfold demangleDeclarationName
  apply ret_bind ret_any
  intro context s1 _
  apply ret_bind ret_any
  intro name s2 _
  apply ret_bind ret_any
  intro u s3 _
  exact ret_done h

theorem demangleNominalType_kind (E : Env) (r : Rec) (s : St) (hs : s.Substitutions = []) :
    Ret (demangleNominalType E r) s (fun a _ => a.getKind ≠ Kind.Suffix) := by
  unfold demangleNominalType
  repeat' first
    | exact ret_failed
    | exact demangleSubstitutionIndex_kind _ _ hs
    | exact demangleDeclarationName_kind _ _ _ _ (by decide)
    | with_reducible apply ret_ite_nextIf

theorem demangleEntity_kind (E : Env) (r : Rec) (s : St) (hs : s.Substitutions = []) :
    Ret (demangleEntity E r) s (fun a _ => a.getKind ≠ Kind.Suffix) := by
  unfold demangleEntity
  apply ret_bind_nextIf <;>
  repeat' first
    | exact demangleNominalType_kind _ _ _ hs
    | exact demangleEntityOfKind_kind _ _ _ _ _ (by decide)
    | with_reducible apply ret_ite_nextIf

theorem demangleGlobal_kind (E : Env) (r : Rec) (s : St) (hs : s.Substitutions = []) :
    Ret (demangleGlobal E r) s (fun a _ => a.getKind ≠ Kind.Suffix) := by
  unfold demangleGlobal
  apply ret_ite_not_nonEmpty
  apply ret_ite_nextIf
  · exact demangleGlobalMetadata_kind _ _ _
  apply ret_ite_nextIfStr
  · apply ret_bind ret_any
    intro b s1 _
    simp only
    apply ret_ite_nextIfStr
    · apply ret_bind ret_any
      intro g s2 _
      apply ret_done
      rw [Node.getKind_addChild]
      cases b <;> (intro hk; cases hk)
    · apply ret_done
      cases b <;> (intro hk; cases hk)
  repeat' first
    | exact demangleGlobalWitness_kind _ _ _
    | exact demangleGlobalThunk_kind _ _ _
    | exact demangleEntity_kind _ _ _ hs
    | exact childType_kind _ _ _ (by decide)
    | exact ret_bind ret_any (fun a s1 _ => childType_kind _ _ _ (fun hk => by cases hk))
    | with_reducible apply ret_ite_nextIf

/-- A loop whose rounds keep `I` on the loop variables ends, when it ends, in `Q`. -/
theorem tie_loop_ret (E : Env) {σ : Type} (round : σ → M (Iter σ)) (I : σ → Prop)
    (Q : σ → St → Prop)
    (hround : ∀ acc s, I acc → Ret (round acc) s
      (fun it s1 => (∀ a, it = Iter.again a → I a) ∧ (∀ a, it = Iter.done a → Q a s1))) :
    ∀ (n : Nat) (acc : σ) (s : St), I acc → Ret ((tie E n).loop round acc) s Q := by
  intro n
  induction n with
  | zero =>
    intro acc s _
    refine ⟨fun a s1 h => ?_⟩
    cases h
  | succ k ih =>
    intro acc s hacc
    rw [tie_loop]
    apply ret_bind (hround acc s hacc)
    intro it s1 hit
    cases it with
    | again a => exact ih a s1 (hit.1 a rfl)
    | done a => exact ret_done (hit.2 a rfl)

theorem demangleGenericSpecializationRound_kind (E : Env) (r : Rec) (specialization : Node)
    (s : St) (h : specialization.getKind ≠ Kind.Suffix) :
    Ret (demangleGenericSpecializationRound E r specialization) s
      (fun it _ => (∀ a, it = Iter.again a → a.getKind ≠ Kind.Suffix) ∧
        (∀ a, it = Iter.done a → a.getKind ≠ Kind.Suffix)) := by
  unfold demangleGenericSpecializationRound
  apply ret_ite_nextIf
  · apply ret_done
    constructor
    · intro a ha
      cases ha
    · intro a ha
      cases ha
      exact h
  · apply ret_bind ret_any
    intro p s1 _
    apply ret_bind ret_any
    intro q s2 _
    apply ret_done
    constructor
    · intro a ha
      cases ha
      rw [Node.getKind_addChild]
      exact h
    · intro a ha
      cases ha

theorem demangleGenericSpecialization_kind (E : Env) (n : Nat) (specialization : Node)
    (s : St) (h : specialization.getKind ≠ Kind.Suffix) :
    Ret (demangleGenericSpecialization E (tie E n) specialization) s
      (fun a _ => a.getKind ≠ Kind.Suffix) :=
  tie_loop_ret E _ (fun a => a.getKind ≠ Kind.Suffix) _
    (fun acc s1 hacc => demangleGenericSpecializationRound_kind E (tie E n) acc s1 hacc)
    n specialization s h

theorem demangleFunctionSignatureSpecializationRound_kind (E : Env) (r : Rec)
    (p : Node × Nat) (s : St) (h : p.1.getKind ≠ Kind.Suffix) :
    Ret (demangleFunctionSignatureSpecializationRound E r p) s
      (fun it _ => (∀ a, it = Iter.again a → a.1.getKind ≠ Kind.Suffix) ∧
        (∀ a, it = Iter.done a → a.1.getKind ≠ Kind.Suffix)) := by
  have again : ∀ (param : Node) (s1 : St),
      Ret (pure (Iter.again (p.1.addChild param, (p.2 + 1) % unsignedMod)) :
        M (Iter (Node × Nat))) s1
        (fun it _ => (∀ a, it = Iter.again a → a.1.getKind ≠ Kind.Suffix) ∧
          (∀ a, it = Iter.done a → a.1.getKind ≠ Kind.Suffix)) := by
    intro param s1
    apply ret_done
    constructor
    · intro a ha
      cases ha
      rw [Node.getKind_addChild]
      exact h
    · intro a ha
      cases ha
  unfold demangleFunctionSignatureSpecializationRound
  apply ret_ite_nextIf
  · apply ret_done
    constructor
    · intro a ha
      cases ha
    · intro a ha
      cases ha
      exact h
  · repeat' first
      | exact again _ _
      | with_reducible apply ret_ite_nextIfStr
      | with_reducible apply ret_bind_done
      | with_reducible apply ret_bind ret_any
      | intro _

theorem demangleFunctionSignatureSpecialization_kind (E : Env) (n : Nat)
    (specialization : Node) (s : St) (h : specialization.getKind ≠ Kind.Suffix) :
    Ret (demangleFunctionSignatureSpecialization E (tie E n) specialization) s
      (fun a _ => a.getKind ≠ Kind.Suffix) := by
  unfold demangleFunctionSignatureSpecialization
  apply ret_bind (tie_loop_ret E _ (fun a => a.1.getKind ≠ Kind.Suffix)
    (fun a _ => a.1.getKind ≠ Kind.Suffix)
    (fun acc s1 hacc => demangleFunctionSignatureSpecializationRound_kind E (tie E n) acc s1 hacc)
    n (specialization, 0) s h)
  intro p s1 hp
  exact ret_done hp

theorem demangleSpecializedAttribute_kind (E : Env) (n : Nat) (s : St) :
    Ret (demangleSpecializedAttribute E (tie E n)) s
      (fun a _ => a.getKind ≠ Kind.Suffix) := by
  have spec : ∀ (q : Bool) (k : Kind) (pass : Node), k ≠ Kind.Suffix →
      ((if q = true then (createNode k).addChild (createNode Kind.IsSerialized)
        else createNode k).addChild pass).getKind ≠ Kind.Suffix := by
    intro q k pass hk
    rw [Node.getKind_addChild]
    cases q
    · exact hk
    · exact hk
  unfold demangleSpecializedAttribute
  apply ret_bind ret_any
  intro isGeneric s1 _
  simp only []
  repeat' first
    | exact ret_failed
    | exact demangleGenericSpecialization_kind _ _ _ _ (spec _ _ _ (by split <;> decide))
    | exact demangleFunctionSignatureSpecialization_kind _ _ _ _ (spec _ _ _ (by decide))
    | with_reducible apply ret_ite_nextIfStr
    | with_reducible apply ret_bind_done
    | with_reducible apply ret_bind ret_any
    | with_reducible apply ret_ite
    | intro _

theorem globalWithoutSuffix_addChild {topLevel child : Node}
    (h : GlobalWithoutSuffix topLevel) (hc : child.getKind ≠ Kind.Suffix) :
    GlobalWithoutSuffix (topLevel.addChild child) := by
  refine ⟨by rw [Node.getKind_addChild]; exact h.1, fun c hmem => ?_⟩
  rw [Node.getChildren_addChild, List.mem_append, List.mem_singleton] at hmem
  rcases hmem with hmem | rfl
  · exact h.2 c hmem
  · exact hc

theorem globalWithoutSuffix_createNode : GlobalWithoutSuffix (createNode Kind.Global) :=
  ⟨rfl, fun c hc => by cases hc⟩

theorem demangleTopLevelSpecializationRound_ret (E : Env) (n : Nat) (topLevel : Node)
    (s : St) (h : GlobalWithoutSuffix topLevel) :
    Ret (demangleTopLevelSpecializationRound E (tie E n) topLevel) s
      (fun it s1 => (∀ a, it = Iter.again a → GlobalWithoutSuffix a) ∧
        (∀ a, it = Iter.done a → GlobalWithoutSuffix a ∧ s1.Substitutions = [])) := by
  unfold demangleTopLevelSpecializationRound
  apply ret_bind (demangleSpecializedAttribute_kind E n s)
  intro node s1 hnode
  apply ret_bind (P := fun _ s2 => s2.Substitutions = [])
  · refine ⟨fun u s2 hu => ?_⟩
    cases hu
    rfl
  · intro u s2 hs2
    apply ret_ite_nextIfStr
    · apply ret_done
      constructor
      · intro a ha
        cases ha
        exact globalWithoutSuffix_addChild h hnode
      · intro a ha
        cases ha
    · apply ret_done
      constructor
      · intro a ha
        cases ha
      · intro a ha
        cases ha
        exact ⟨globalWithoutSuffix_addChild h hnode, hs2⟩

theorem demangleTopLevelPrefix_ret (E : Env) (n : Nat) (s : St) (hs : s.Substitutions = []) :
    Ret (demangleTopLevelPrefix E (tie E n)) s
      (fun a s1 => GlobalWithoutSuffix a ∧ s1.Substitutions = []) := by
  unfold demangleTopLevelPrefix
  apply ret_ite_not_nextIfStr
  · exact ret_failed
  simp only []
  apply ret_ite_nextIfStr
  · apply ret_bind (tie_loop_ret E _ GlobalWithoutSuffix
      (fun a s1 => GlobalWithoutSuffix a ∧ s1.Substitutions = [])
      (fun acc s1 hacc => demangleTopLevelSpecializationRound_ret E n acc s1 hacc) n _ _
      globalWithoutSuffix_createNode)
    intro topLevel s1 h1
    apply ret_ite_not_nextIfStr
    · exact ret_failed
    · exact ret_done h1
  repeat' first
    | exact ret_done ⟨globalWithoutSuffix_addChild globalWithoutSuffix_createNode (by decide), hs⟩
    | exact ret_done ⟨globalWithoutSuffix_createNode, hs⟩
    | with_reducible apply ret_ite_nextIfStr

theorem run_demangleTopLevelSuffix (topLevel : Node) (s : St) :
    demangleTopLevelSuffix topLevel s =
      if s.Mangled = [] then Res.ok topLevel s
      else Res.ok (topLevel.addChild (createNodeText Kind.Suffix s.Mangled))
        { s with Mangled := [] } := by
  obtain ⟨m, u⟩ := s
  cases m <;> rfl

/-- C2. When `demangleTopLevel` succeeds the root is a `Global` node; with `s2` the state
that the `Global` production leaves: if text is left in `s2`, the last child of the root
is a `Suffix` node with exactly that text, and if none is left, no child of the root is a
`Suffix` node.  And when the prefix and the `Global` production succeed,
`demangleTopLevel` succeeds, whatever text is left. -/
theorem demangleTopLevel_suffix (E : Env) (mangled : List Char) :
    (∀ root s, demangleTopLevel E mangled = Res.ok root s →
      root.getKind = Kind.Global ∧
      ∃ topLevel s1 global s2,
        demangleTopLevelPrefix E (tie E (mangled.length + 1)) (initial mangled) =
          Res.ok topLevel s1 ∧
        (tie E (mangled.length + 1)).demangleGlobal s1 = Res.ok global s2 ∧
        root.getChildren = topLevel.getChildren ++ [global] ++
          (if s2.Mangled = [] then [] else [createNodeText Kind.Suffix s2.Mangled]) ∧
        (s2.Mangled ≠ [] →
          root.getChildren.getLast? = some (createNodeText Kind.Suffix s2.Mangled)) ∧
        (s2.Mangled = [] → ∀ c ∈ root.getChildren, c.getKind ≠ Kind.Suffix)) ∧
    (∀ topLevel s1 global s2,
      demangleTopLevelPrefix E (tie E (mangled.length + 1)) (initial mangled) =
        Res.ok topLevel s1 →
      (tie E (mangled.length + 1)).demangleGlobal s1 = Res.ok global s2 →
      ∃ root s, demangleTopLevel E mangled = Res.ok root s) := by
  constructor
  · intro root s h
    unfold demangleTopLevel demangleTopLevelBody at h
    obtain ⟨topLevel, s1, hp, h⟩ := bind_eq_ok h
    obtain ⟨global, s2, hg, h⟩ := bind_eq_ok h
    simp only [] at h
    have hpre := (demangleTopLevelPrefix_ret E (mangled.length + 1) (initial mangled) rfl).out
      topLevel s1 hp
    have hglobal : global.getKind ≠ Kind.Suffix :=
      (demangleGlobal_kind E (tie E mangled.length) s1 hpre.2).out global s2 hg
    have hboth := globalWithoutSuffix_addChild hpre.1 hglobal
    rw [run_demangleTopLevelSuffix] at h
    by_cases he : s2.Mangled = []
    · rw [if_pos he] at h
      have hr : topLevel.addChild global = root := (Res.ok.inj h).1
      subst hr
      refine ⟨hboth.1, topLevel, s1, global, s2, hp, hg, ?_, fun hne => absurd he hne,
        fun _ => hboth.2⟩
      rw [if_pos he, Node.getChildren_addChild, List.append_nil]
    · rw [if_neg he] at h
      have hr : (topLevel.addChild global).addChild (createNodeText Kind.Suffix s2.Mangled) =
          root := (Res.ok.inj h).1
      subst hr
      refine ⟨?_, topLevel, s1, global, s2, hp, hg, ?_, fun _ => ?_, fun h0 => absurd h0 he⟩
      · rw [Node.getKind_addChild]
        exact hboth.1
      · rw [if_neg he, Node.getChildren_addChild, Node.getChildren_addChild]
      · rw [Node.getChildren_addChild, List.getLast?_append, List.getLast?_singleton]
        rfl
  · intro topLevel s1 global s2 hp hg
    unfold demangleTopLevel demangleTopLevelBody
    rw [bind_ok hp, bind_ok hg, run_demangleTopLevelSuffix]
    by_cases he : s2.Mangled = []
    · rw [if_pos he]
      exact ⟨_, _, rfl⟩
    · rw [if_neg he]
      exact ⟨_, _, rfl⟩

/-- The text `_TtBf32_xyz`: the root is a `Global` node whose last child is the node
`Suffix "xyz"`. -/
theorem demangleTopLevel_suffix_witness :
    ∃ root s, demangleTopLevel swiftEnv "_TtBf32_xyz".toList = Res.ok root s ∧
      root.getKind = Kind.Global ∧
      root.getChildren.getLast? = some (createNodeText Kind.Suffix "xyz".toList) :=
  ⟨_, _, rfl,
    ((demangleTopLevel_suffix swiftEnv "_TtBf32_xyz".toList).1 _ _ rfl).1, rfl⟩

theorem isDigit_head_dropWhile (l : List Char) :
    ∀ c ∈ (l.dropWhile isDigit).head?, isDigit c = false := by
  intro c hc
  induction l with
  | nil => simp at hc
  | cons x t ih =>
    rw [List.dropWhile_cons] at hc
    by_cases hx : isDigit x = true
    · rw [if_pos hx] at hc
      exact ih hc
    · rw [if_neg hx] at hc
      simp only [List.head?_cons, Option.mem_def, Option.some.injEq] at hc
      subst hc
      simpa using hx

theorem isDigit_of_mem_takeWhile (l : List Char) :
    ∀ c ∈ l.takeWhile isDigit, isDigit c = true := by
  intro c hc
  exact (List.mem_takeWhile_imp hc)

theorem takeWhile_isDigit_eq_nil (l : List Char) :
    l.takeWhile isDigit = [] ↔ l = [] ∨ ∃ c t, l = c :: t ∧ isDigit c = false := by
  cases l with
  | nil => simp
  | cons x t =>
    rw [List.takeWhile_cons]
    by_cases hx : isDigit x = true
    · simp [hx]
    · simp [hx]

theorem demangleNatural_span (s : St) :
    demangleNatural s =
      if s.Mangled.takeWhile isDigit = [] then
        Res.null { s with Mangled := s.Mangled.tail }
      else
        Res.ok (decimalValue (s.Mangled.takeWhile isDigit) % 2 ^ 64)
          { s with Mangled := s.Mangled.dropWhile isDigit } := by
  by_cases h : s.Mangled.takeWhile isDigit = []
  · rw [if_pos h, run_demangleNatural]
    rcases (takeWhile_isDigit_eq_nil _).1 h with h0 | ⟨c, t, hc, hd⟩
    · obtain ⟨m, u⟩ := s
      simp only at h0
      subst h0
      rfl
    · obtain ⟨m, u⟩ := s
      simp only at hc
      subst hc
      have : c.toNat < '0'.toNat ∨ c.toNat > '9'.toNat := by
        by_contra hn
        rw [(isDigit_iff c).2 hn] at hd
        cases hd
      simp only [if_pos this, List.tail_cons]
  · rw [if_neg h]
    obtain ⟨m, u⟩ := s
    have hm : m = m.takeWhile isDigit ++ m.dropWhile isDigit :=
      (List.takeWhile_append_dropWhile isDigit m).symm
    have := demangleNatural_digits (m.takeWhile isDigit) (m.dropWhile isDigit) u h
      (isDigit_of_mem_takeWhile m) (isDigit_head_dropWhile m)
    rw [← hm] at this
    exact this

/-- C16. `demangleNatural` fails exactly when the text is empty or its first character is
no decimal digit; otherwise it consumes the maximal leading run of decimal digits, leaves
the cursor on the first character that is no digit (or at the end), and returns the
decimal value of the run modulo 2^64. -/
theorem demangleNatural_value (s : St) :
    ((∃ s1, demangleNatural s = Res.null s1) ↔
      (s.Mangled = [] ∨ ∃ c t, s.Mangled = c :: t ∧ isDigit c = false)) ∧
    demangleNatural s =
      if s.Mangled.takeWhile isDigit = [] then
        Res.null { s with Mangled := s.Mangled.tail }
      else
        Res.ok (decimalValue (s.Mangled.takeWhile isDigit) % 2 ^ 64)
          { s with Mangled := s.Mangled.dropWhile isDigit } := by
  have heq := demangleNatural_span s
  refine ⟨?_, heq⟩
  rw [heq, ← takeWhile_isDigit_eq_nil]
  by_cases h : s.Mangled.takeWhile isDigit = []
  · simp [h]
  · simp [h]

theorem run_demangleIndex (s : St) :
    demangleIndex s =
      if s.Mangled.head? = some '_' then Res.ok 0 { s with Mangled := s.Mangled.tail }
      else
        match demangleNatural s with
        | .ok n s1 =>
            if s1.Mangled.head? = some '_' then
              Res.ok ((n + 1) % indexMod) { s1 with Mangled := s1.Mangled.tail }
            else Res.null s1
        | .null s1 => Res.null s1
        | .fault => Res.fault
        | .fuel => Res.fuel := by
  unfold demangleIndex
  rw [run_bind, run_nextIf]
  by_cases h : s.Mangled.head? = some '_'
  · simp only [if_pos h]
    rfl
  · simp only [if_neg h, Bool.false_eq_true, if_false]
    rw [run_bind, run_attempt]
    cases demangleNatural s with
    | ok n s1 =>
      simp only
      rw [run_bind, run_nextIf]
      by_cases h1 : s1.Mangled.head? = some '_'
      · simp only [if_pos h1]
        rfl
      · simp only [if_neg h1]
        rfl
    | null s1 => rfl
    | fault => rfl
    | fuel => rfl

/-- C15, as the claim states it, fails: on `18446744073709551615_` the natural number
read is 2^64 - 1 and `demangleIndex` returns 0, which is not that number plus one. -/
theorem demangleIndex_wraps :
    demangleIndex ⟨"18446744073709551615_".toList, []⟩ = Res.ok 0 ⟨[], []⟩ ∧
      decimalValue "18446744073709551615".toList + 1 ≠ 0 :=
  ⟨rfl, by decide⟩

/-- C15, amended. `demangleIndex` returns 0 on a leading `_` and consumes exactly it; on
a run of digits followed by `_` it consumes both and returns `n + 1` modulo 2^64, where
`n` is the number that `demangleNatural` reads (the decimal value modulo 2^64); in every
other case (empty text, a first character that is neither `_` nor a digit, digits not
followed by `_`) it fails. -/
theorem demangleIndex_value (s : St) :
    demangleIndex s =
      if s.Mangled.head? = some '_' then Res.ok 0 { s with Mangled := s.Mangled.tail }
      else if s.Mangled.takeWhile isDigit = [] then
        Res.null { s with Mangled := s.Mangled.tail }
      else if (s.Mangled.dropWhile isDigit).head? = some '_' then
        Res.ok ((decimalValue (s.Mangled.takeWhile isDigit) % 2 ^ 64 + 1) % 2 ^ 64)
          { s with Mangled := (s.Mangled.dropWhile isDigit).tail }
      else
        Res.null { s with Mangled := s.Mangled.dropWhile isDigit } := by
  rw [run_demangleIndex]
  by_cases h : s.Mangled.head? = some '_'
  · rw [if_pos h, if_pos h]
  · rw [if_neg h, if_neg h]
    have hn := demangleNatural_span s
    rw [hn]
    by_cases h0 : s.Mangled.takeWhile isDigit = []
    · rw [if_pos h0, if_pos h0]
    · rw [if_neg h0, if_neg h0]
      rfl

theorem operatorKind_of_mem {mode : Char} {k : Kind} (h : (mode, k) ∈ operatorModes) :
    operatorKind mode = some k := by
  simp only [operatorModes, List.mem_cons, Prod.mk.injEq, List.mem_singleton,
    List.not_mem_nil, or_false] at h
  rcases h with ⟨rfl, rfl⟩ | ⟨rfl, rfl⟩ | ⟨rfl, rfl⟩ <;> rfl

theorem decodeOperator_eq (payload : List Char) :
    ∀ buffer : List Char, decodeOperator payload buffer =
      (operatorText payload).map (fun text => buffer ++ text) := by
  induction payload with
  | nil => intro buffer; simp [decodeOperator, operatorText]
  | cons c t ih =>
    intro buffer
    unfold decodeOperator operatorText operatorImage
    by_cases h1 : 128 ≤ c.toNat
    · simp only [if_pos h1]
      rw [ih]
      cases operatorText t <;> simp
    · simp only [if_neg h1]
      by_cases h2 : c.toNat < 'a'.toNat ∨ c.toNat > 'z'.toNat
      · have h3 : ¬ ('a'.toNat ≤ c.toNat ∧ c.toNat ≤ 'z'.toNat ∧
            operatorTable.getD (c.toNat - 'a'.toNat) ' ' ≠ ' ') := by
          intro h
          omega
        simp only [if_pos h2, if_neg h3, Option.map_none']
      · simp only [if_neg h2]
        by_cases h4 : op_char_table.getD (c.toNat - 'a'.toNat) ' ' = ' '
        · have h3 : ¬ ('a'.toNat ≤ c.toNat ∧ c.toNat ≤ 'z'.toNat ∧
              operatorTable.getD (c.toNat - 'a'.toNat) ' ' ≠ ' ') := by
            intro h
            exact h.2.2 h4
          simp only [h4, if_true, if_neg h3, Option.map_none']
        · have h3 : 'a'.toNat ≤ c.toNat ∧ c.toNat ≤ 'z'.toNat ∧
              operatorTable.getD (c.toNat - 'a'.toNat) ' ' ≠ ' ' := by
            refine ⟨by omega, by omega, h4⟩
          simp only [h4, if_false, if_pos h3]
          rw [ih]
          cases operatorText t <;> simp [operatorTable, op_char_table]

theorem operatorText_eq_none (payload : List Char) :
    operatorText payload = Option.none ↔ ∃ c ∈ payload, operatorImage c = Option.none := by
  induction payload with
  | nil => simp [operatorText]
  | cons c t ih =>
    unfold operatorText
    cases hc : operatorImage c with
    | none => simp [hc]
    | some o =>
      cases ht : operatorText t with
      | none =>
        simp only [List.mem_cons, exists_eq_or_imp, hc, true_iff]
        exact Or.inr (ih.1 ht)
      | some text =>
        simp only [List.mem_cons, exists_eq_or_imp, hc]
        constructor
        · intro h
          cases h
        · intro h
          rcases h with h | h
          · cases h
          · have := ih.2 h
            rw [ht] at this
            cases this

theorem operatorImage_eq_none (c : Char) :
    operatorImage c = Option.none ↔
      c.toNat < 128 ∧ ¬ ('a'.toNat ≤ c.toNat ∧ c.toNat ≤ 'z'.toNat ∧
        operatorTable.getD (c.toNat - 'a'.toNat) ' ' ≠ ' ') := by
  unfold operatorImage
  by_cases h1 : 128 ≤ c.toNat
  · simp only [if_pos h1]
    constructor
    · intro h; cases h
    · intro h; omega
  · simp only [if_neg h1]
    split
    · rename_i h
      constructor
      · intro h0; cases h0
      · intro h0; exact absurd h h0.2
    · rename_i h
      constructor
      · intro _; exact ⟨by omega, h⟩
      · intro _; rfl

/-- An operator identifier with a payload of at least one byte: the node has the text
that `decodeOperator` makes of the payload. -/
theorem demangleIdentifier_operator_run (E : Env) (mode : Char) (k : Kind)
    (digits rest : List Char) (subs : List Node) (hk : operatorKind mode = some k)
    (hd : digits ≠ []) (hall : ∀ c ∈ digits, isDigit c = true)
    (hrest : ∀ c ∈ rest.head?, isDigit c = false)
    (h1 : 1 ≤ decimalValue digits % indexMod)
    (h2 : decimalValue digits % indexMod ≤ rest.length) :
    demangleIdentifier E Option.none
        ⟨identifierText false (some mode) digits rest, subs⟩ =
      match decodeOperator (rest.take (decimalValue digits % indexMod)) [] with
      | Option.none => Res.null ⟨rest.drop (decimalValue digits % indexMod), subs⟩
      | some text =>
          Res.ok (createNodeText k text) ⟨rest.drop (decimalValue digits % indexMod), subs⟩ := by
  rw [demangleIdentifier_text E Option.none false (some mode) digits rest subs hd hall]
  simp only [Option.isSome_none, Bool.false_eq_true, if_false, hk]
  rw [demangleIdentifierPayload_digits E false true k digits rest subs hd hall hrest,
    if_pos h2]
  have hne : (decode E false (rest.take (decimalValue digits % indexMod))).isEmpty = false := by
    simp only [decode, Bool.not_false, if_true]
    cases rest with
    | nil => simp at h2; omega
    | cons c t =>
      cases hv : decimalValue digits % indexMod with
      | zero => omega
      | succ j => rfl
  rw [hne]
  simp only [Bool.false_eq_true, if_false, if_true, decode, Bool.not_false] <;>
    (cases decodeOperator (rest.take (decimalValue digits % indexMod)) [] <;> rfl)

/-- C11, as the claim states it, fails: the operator identifier `oi0` has an empty payload,
so no byte of it is without an image, and `demangleIdentifier` returns null; and in a call
that asks for a kind an operator identifier is refused whatever its payload is. -/
theorem demangleIdentifier_operator_refused :
    (operatorText [] = some [] ∧
      demangleIdentifier swiftEnv Option.none ⟨"oi0".toList, []⟩ = Res.null ⟨[], []⟩) ∧
    (operatorText "d".toList = some "/".toList ∧
      demangleIdentifier swiftEnv (some Kind.Module) ⟨"oi1d".toList, []⟩ =
        Res.null ⟨"i1d".toList, []⟩) :=
  ⟨⟨rfl, rfl⟩, ⟨by decide, rfl⟩⟩

/-- C11, amended. For an operator identifier (`o`, one of the modes `p`, `P`, `i`, the
length prefix, the payload) read in a call that asks for no kind, with a payload of at
least one byte that the text holds: the text of the node is the image of the payload, byte
by byte in order, a lowercase letter giving its entry of the table and a byte with the
high bit set giving itself; the decoding fails exactly when some byte of the payload is an
ASCII byte that is not a lowercase letter with an entry that is not blank; the kind is
`PrefixOperator`, `PostfixOperator` or `InfixOperator` for `p`, `P`, `i`.  The text is
shorter than 2^64 bytes, as every `StringRef` is. -/
theorem demangleIdentifier_operator_text (E : Env) (mode : Char) (k : Kind)
    (digits rest : List Char) (subs : List Node) (hm : (mode, k) ∈ operatorModes)
    (hd : digits ≠ []) (hall : ∀ c ∈ digits, isDigit c = true)
    (hrest : ∀ c ∈ rest.head?, isDigit c = false)
    (h1 : 1 ≤ decimalValue digits) (h2 : decimalValue digits ≤ rest.length)
    (hlen : (digits ++ rest).length < 2 ^ 64) :
    demangleIdentifier E Option.none
        ⟨identifierText false (some mode) digits rest, subs⟩ =
      (match operatorText (rest.take (decimalValue digits)) with
        | some text => Res.ok (createNodeText k text) ⟨rest.drop (decimalValue digits), subs⟩
        | Option.none => Res.null ⟨rest.drop (decimalValue digits), subs⟩) ∧
    (operatorText (rest.take (decimalValue digits)) = Option.none ↔
      ∃ c ∈ rest.take (decimalValue digits), c.toNat < 128 ∧
        ¬ ('a'.toNat ≤ c.toNat ∧ c.toNat ≤ 'z'.toNat ∧
          operatorTable.getD (c.toNat - 'a'.toNat) ' ' ≠ ' ')) := by
  have hlt : decimalValue digits % indexMod = decimalValue digits := by
    apply Nat.mod_eq_of_lt
    rw [List.length_append] at hlen
    simp only [indexMod]
    omega
  constructor
  · have := demangleIdentifier_operator_run E mode k digits rest subs
      (operatorKind_of_mem hm) hd hall hrest (by omega) (by omega)
    rw [hlt] at this
    rw [this, decodeOperator_eq]
    cases operatorText (rest.take (decimalValue digits)) with
    | none => rfl
    | some text => simp
  · rw [operatorText_eq_none]
    constructor
    · rintro ⟨c, hc, h⟩
      exact ⟨c, hc, (operatorImage_eq_none c).1 h⟩
    · rintro ⟨c, hc, h⟩
      exact ⟨c, hc, (operatorImage_eq_none c).2 h⟩

/-- The infix operator `oi2dp` has the text `/+`. -/
theorem demangleIdentifier_operator_text_witness :
    demangleIdentifier swiftEnv Option.none
        ⟨identifierText false (some 'i') "2".toList "dp".toList, []⟩ =
      Res.ok (createNodeText Kind.InfixOperator "/+".toList) ⟨[], []⟩ :=
  (demangleIdentifier_operator_text swiftEnv 'i' Kind.InfixOperator "2".toList "dp".toList []
    (by decide) (by decide) (by decide) (by decide) (by decide) (by decide)
    (by decide)).1

theorem mem_lowercase_letters (c : Char)
    (hc : 'a'.toNat ≤ c.toNat ∧ c.toNat ≤ 'z'.toNat) :
    c ∈ "abcdefghijklmnopqrstuvwxyz".toList := by
  obtain ⟨h1, h2⟩ := hc
  have e : Char.ofNat c.toNat = c := Char.ofNat_toNat c
  have ha : 'a'.toNat = 97 := rfl
  have hz : 'z'.toNat = 122 := rfl
  rw [ha] at h1
  rw [hz] at h2
  generalize c.toNat = n at e h1 h2
  subst e
  interval_cases n <;> decide

theorem decodeOperator_letter :
    ∀ c ∈ "abcdefghijklmnopqrstuvwxyz".toList,
      (decodeOperator [c] [] = Option.none ↔ c ∈ "bfhijkuvwy".toList) ∧
      (c ∉ "bfhijkuvwy".toList →
        ∃ o ∈ "&@/=><*!|+?%-~^.".toList, decodeOperator [c] [] = some [o]) := by
  decide

/-- C12, as the claim states it, fails: the letter `i` is none of b, f, h, k, u, v, w, y,
and the operator identifier `oi1i` with the payload `i` fails to decode. -/
theorem operator_letter_i_unmapped :
    'i' ∉ "bfhkuvwy".toList ∧
      demangleIdentifier swiftEnv Option.none ⟨"oi1i".toList, []⟩ = Res.null ⟨[], []⟩ :=
  ⟨by decide, rfl⟩

/-- C12, amended. In the operator table the lowercase letters with no mapping are exactly
b, f, h, i, j, k, u, v, w, y: an operator identifier with a one-letter payload `c` in a..z
fails to decode if and only if `c` is one of these ten letters, and every other lowercase
letter decodes to a punctuation symbol. -/
theorem operator_unmapped_letters (E : Env) (mode : Char) (k : Kind)
    (hm : (mode, k) ∈ operatorModes) (c : Char)
    (hc : 'a'.toNat ≤ c.toNat ∧ c.toNat ≤ 'z'.toNat) (rest : List Char) (subs : List Node) :
    ((∃ s1, demangleIdentifier E Option.none ⟨'o' :: mode :: '1' :: c :: rest, subs⟩ =
        Res.null s1) ↔ c ∈ "bfhijkuvwy".toList) ∧
    (c ∉ "bfhijkuvwy".toList →
      ∃ o ∈ "&@/=><*!|+?%-~^.".toList,
        demangleIdentifier E Option.none ⟨'o' :: mode :: '1' :: c :: rest, subs⟩ =
          Res.ok (createNodeText k [o]) ⟨rest, subs⟩) := by
  have hmem := mem_lowercase_letters c hc
  have hnd : ∀ x ∈ (c :: rest).head?, isDigit x = false := by
    intro x hx
    simp only [List.head?_cons, Option.mem_def, Option.some.injEq] at hx
    subst hx
    have h9 : '9'.toNat = 57 := rfl
    have ha : 'a'.toNat = 97 := rfl
    cases hdig : isDigit c with
    | false => rfl
    | true =>
      have := (isDigit_iff c).1 hdig
      omega
  have e1 : decimalValue ['1'] % indexMod = 1 := by decide
  have run := demangleIdentifier_operator_run E mode k ['1'] (c :: rest) subs
    (operatorKind_of_mem hm) (by decide) (by decide) hnd (by rw [e1])
    (by rw [e1]; simp)
  rw [e1] at run
  have run2 : demangleIdentifier E Option.none ⟨'o' :: mode :: '1' :: c :: rest, subs⟩ =
      match decodeOperator [c] [] with
      | Option.none => Res.null ⟨rest, subs⟩
      | some text => Res.ok (createNodeText k text) ⟨rest, subs⟩ := run
  obtain ⟨hiff, hsome⟩ := decodeOperator_letter c hmem
  constructor
  · rw [← hiff, run2]
    cases hdec : decodeOperator [c] [] with
    | none => simp
    | some text => simp
  · intro hnot
    obtain ⟨o, ho, hdec⟩ := hsome hnot
    refine ⟨o, ho, ?_⟩
    rw [run2, hdec]

/-- The payload `d` of `op1d` decodes to the punctuation symbol `/`. -/
theorem operator_unmapped_letters_witness :
    ∃ o ∈ "&@/=><*!|+?%-~^.".toList,
      demangleIdentifier swiftEnv Option.none ⟨'o' :: 'p' :: '1' :: 'd' :: "xy".toList, []⟩ =
        Res.ok (createNodeText Kind.PrefixOperator [o]) ⟨"xy".toList, []⟩ :=
  (operator_unmapped_letters swiftEnv 'p' Kind.PrefixOperator (by decide) 'd' (by decide)
    "xy".toList []).2 (by decide)

theorem demangleType_kind (r : Rec) (s : St) :
    Ret (demangleType r) s (fun a _ => a.getKind = Kind.Type_) := by
  unfold demangleType
  apply ret_bind ret_any
  intro a s1 _
  exact ret_done (Node.getKind_addChild _ _)

theorem demangleIdentifierPayload_kind (E : Env) (isPunycoded isOperator : Bool)
    (kind : Kind) (s : St) :
    Ret (demangleIdentifierPayload E isPunycoded isOperator kind) s
      (fun a _ => a.getKind = kind) := by
  unfold demangleIdentifierPayload
  apply ret_bind ret_any
  intro length s1 _
  apply ret_bind ret_any
  intro b s2 _
  apply ret_ite
  · intro _
    exact ret_failed
  · intro _
    apply ret_bind ret_any
    intro identifier s3 _
    apply ret_bind ret_any
    intro u s4 _
    apply ret_bind ret_any
    intro identifier2 s5 _
    apply ret_ite
    · intro _
      exact ret_failed
    · intro _
      apply ret_ite
      · intro _
        cases decodeOperator identifier2 [] with
        | none => exact ret_failed
        | some b => exact ret_done rfl
      · intro _
        exact ret_done rfl

theorem demangleIdentifier_kind (E : Env) (kind : Kind) (s : St) :
    Ret (demangleIdentifier E (some kind)) s (fun a _ => a.getKind = kind) := by
  unfold demangleIdentifier
  apply ret_ite_not_nonEmpty
  apply ret_bind ret_any
  intro isPunycoded s1 _
  apply ret_bind ret_any
  intro isOperator s2 _
  cases isOperator with
  | true =>
    simp only [if_true, Option.isSome_some]
    refine ⟨fun a s3 h => ?_⟩
    obtain ⟨x, s4, h1, _⟩ := bind_eq_ok h
    cases h1
  | false =>
    simp only [Bool.false_eq_true, if_false]
    apply ret_bind_done
    exact demangleIdentifierPayload_kind E isPunycoded false kind s2

theorem tupleLoopInv_addChild {p : Node × Option Node} {elt : Node}
    (h : TupleLoopInv p) (he : IsTupleElement elt) :
    TupleLoopInv (p.1.addChild elt, some elt) := by
  refine ⟨?_, ?_, ?_⟩
  · rw [Node.getKind_addChild]
    exact h.1
  · intro e hmem
    rw [Node.getChildren_addChild, List.mem_append, List.mem_singleton] at hmem
    rcases hmem with hmem | rfl
    · exact h.2.1 e hmem
    · exact he
  · rw [Node.getChildren_addChild, List.getLast?_append, List.getLast?_singleton]
    rfl

theorem demangleTupleRound_inv (E : Env) (r : Rec) (p : Node × Option Node) (s : St)
    (h : TupleLoopInv p) :
    Ret (demangleTupleRound E r p) s
      (fun it _ => (∀ a, it = Iter.again a → TupleLoopInv a) ∧
        (∀ a, it = Iter.done a → TupleLoopInv a)) := by
  have tail : ∀ (elt : Node) (s1 : St),
      (elt = createNode Kind.TupleElement ∨ ∃ label : Node,
        label.getKind = Kind.TupleElementName ∧
          elt = (createNode Kind.TupleElement).addChild label) →
      Ret (do
        let type ← demangleType r
        let elt := elt.addChild type
        pure (Iter.again (p.1.addChild elt, some elt)) : M (Iter (Node × Option Node))) s1
        (fun it _ => (∀ a, it = Iter.again a → TupleLoopInv a) ∧
          (∀ a, it = Iter.done a → TupleLoopInv a)) := by
    intro elt s1 helt
    apply ret_bind (demangleType_kind r s1)
    intro type s2 htype
    apply ret_done
    constructor
    · intro a ha
      cases ha
      apply tupleLoopInv_addChild h
      refine ⟨type, htype, ?_⟩
      rcases helt with rfl | ⟨label, hl, rfl⟩
      · exact Or.inl rfl
      · exact Or.inr ⟨label, hl, rfl⟩
    · intro a ha
      cases ha
  unfold demangleTupleRound
  apply ret_ite_nextIf
  · apply ret_done
    constructor
    · intro a ha
      cases ha
    · intro a ha
      cases ha
      exact h
  apply ret_ite_not_nonEmpty
  simp only []
  apply ret_bind ret_any
  intro c s1 _
  apply ret_ite
  · intro _
    apply ret_bind (demangleIdentifier_kind E Kind.TupleElementName s1)
    intro label s2 hl
    apply ret_bind_done
    exact tail _ _ (Or.inr ⟨label, hl, rfl⟩)
  · intro _
    apply ret_bind_done
    exact tail _ _ (Or.inl rfl)

theorem reverse_addChild_reverse (k : Kind) (pl : Payload) (cs : List Node) (marker : Node) :
    (((Node.mk k pl cs).reverseChildren.addChild marker).reverseChildren) =
      Node.mk k pl (marker :: cs) := by
  simp [Node.reverseChildren, Node.addChild]

/-- C13, as the claim states it, fails: in the variadic tuple of `_TttSi_` the last child
of the only element is its type, and the `VariadicMarker` node is its first child. -/
theorem demangleTuple_marker_first :
    demangleTopLevel swiftEnv "_TttSi_".toList =
      Res.ok (Node.mk Kind.Global Payload.none
        [Node.mk Kind.TypeMangling Payload.none
          [Node.mk Kind.Type_ Payload.none
            [Node.mk Kind.Tuple Payload.none
              [Node.mk Kind.TupleElement Payload.none
                [createNode Kind.VariadicMarker,
                  Node.mk Kind.Type_ Payload.none
                    [createSwiftType swiftEnv Kind.Structure "Int".toList]]]]]]) ⟨[], []⟩ :=
  rfl

/-- C13, amended. In every variadic tuple with at least one element that `demangleTuple`
returns, the `VariadicMarker` node is a child of the last parsed `TupleElement` only, and
it is the first child of that element, before the label, if there is one, and before the
type; every earlier element has exactly the children label, if there is one, and type. -/
theorem demangleTuple_variadic (E : Env) (n : Nat) (s s1 : St) (tuple : Node)
    (h : demangleTuple E (tie E n) true s = Res.ok tuple s1) :
    tuple.getKind = Kind.Tuple ∧
    (tuple.getChildren = [] ∨
      ∃ (init : List Node) (last : Node),
        (∀ e ∈ init, IsTupleElement e) ∧ IsTupleElement last ∧
        tuple.getChildren = init ++
          [Node.mk Kind.TupleElement Payload.none
            (createNode Kind.VariadicMarker :: last.getChildren)]) := by
  unfold demangleTuple at h
  obtain ⟨p, s2, hloop, hrest⟩ := bind_eq_ok h
  have hinv : TupleLoopInv p :=
    (tie_loop_ret E (demangleTupleRound E (tie E n)) TupleLoopInv (fun a _ => TupleLoopInv a)
      (fun acc s3 hacc => demangleTupleRound_inv E (tie E n) acc s3 hacc) n
      (createNode Kind.Tuple, Option.none) s ⟨rfl, fun e he => (by cases he), rfl⟩).out p s2 hloop
  obtain ⟨t, elt⟩ := p
  obtain ⟨hk, hall, hlast⟩ := hinv
  simp only at hk hall hlast
  cases elt with
  | none =>
    have ht : t = tuple := (Res.ok.inj hrest).1
    subst ht
    refine ⟨hk, Or.inl ?_⟩
    cases hc : t.getChildren with
    | nil => rfl
    | cons x xs =>
      rw [hc] at hlast
      have : (x :: xs).getLast? ≠ Option.none := by simp
      exact absurd hlast.symm this
  | some elt =>
    simp only [if_true] at hrest
    have ht : replaceLastChild t
        ((elt.reverseChildren.addChild (createNode Kind.VariadicMarker)).reverseChildren) =
          tuple := (Res.ok.inj hrest).1
    subst ht
    obtain ⟨k, pl, cs⟩ := t
    simp only [Node.getKind, Node.getChildren] at hk hall hlast
    have hcs : cs = cs.dropLast ++ [elt] := by
      have := List.dropLast_append_getLast? elt hlast.symm
      exact this.symm
    have helt : IsTupleElement elt := hall elt (by rw [hcs]; simp)
    refine ⟨hk, Or.inr ⟨cs.dropLast, elt, ?_, helt, ?_⟩⟩
    · intro e he
      exact hall e (List.mem_of_mem_dropLast he)
    · obtain ⟨type, htype, hshape⟩ := helt
      rcases hshape with rfl | ⟨label, hl, rfl⟩
      · simp [replaceLastChild, Node.getChildren, Node.reverseChildren, Node.addChild]
      · simp [replaceLastChild, Node.getChildren, Node.reverseChildren, Node.addChild]

/-- The variadic tuple `Si_`: its only element has the children `VariadicMarker` and
the type. -/
theorem demangleTuple_variadic_witness :
    demangleTuple swiftEnv (tie swiftEnv 4) true ⟨"Si_".toList, []⟩ =
        Res.ok (Node.mk Kind.Tuple Payload.none
          [Node.mk Kind.TupleElement Payload.none
            [createNode Kind.VariadicMarker,
              Node.mk Kind.Type_ Payload.none
                [createSwiftType swiftEnv Kind.Structure "Int".toList]]]) ⟨[], []⟩ ∧
      (Node.mk Kind.Tuple Payload.none
          [Node.mk Kind.TupleElement Payload.none
            [createNode Kind.VariadicMarker,
              Node.mk Kind.Type_ Payload.none
                [createSwiftType swiftEnv Kind.Structure "Int".toList]]]).getKind =
        Kind.Tuple :=
  ⟨rfl, (demangleTuple_variadic swiftEnv 4 ⟨"Si_".toList, []⟩ ⟨[], []⟩ _ rfl).1⟩

theorem demangleFuncSigSpecializationClosurePropRound_null (r : Rec) (parent : Node)
    (s s1 : St) (hp : s.Mangled.headD '.' ≠ '_') (ht : demangleType r s = Res.null s1) :
    demangleFuncSigSpecializationClosurePropRound r parent s =
      Res.ok (Iter.done parent) s1 := by
  unfold demangleFuncSigSpecializationClosurePropRound
  rw [bind_ok (run_peek s)]
  simp only [ne_eq, hp, not_false_eq_true, if_true]
  rw [run_bind, run_attempt, ht]
  rfl

theorem demangleFuncSigSpecializationClosureProp_null (E : Env) (n : Nat) (parent : Node)
    (s s0 s1 : St) (name : Node) (hn : demangleIdentifier E Option.none s = Res.ok name s0)
    (hp : s0.Mangled.headD '.' ≠ '_')
    (ht : demangleType (tie E (n + 1)) s0 = Res.null s1) :
    demangleFuncSigSpecializationClosureProp E (tie E (n + 1)) parent s =
      if s1.Mangled.head? = some '_' then
        Res.ok ((parent.addChild (FUNCSIGSPEC_CREATE_PARAM_KIND E.ClosureProp)).addChild
            (FUNCSIGSPEC_CREATE_PARAM_PAYLOAD name.getText))
          { s1 with Mangled := s1.Mangled.tail }
      else Res.null s1 := by
  unfold demangleFuncSigSpecializationClosureProp
  rw [bind_ok hn]
  have hloop : (tie E (n + 1)).loop
      (demangleFuncSigSpecializationClosurePropRound (tie E (n + 1)))
      ((parent.addChild (FUNCSIGSPEC_CREATE_PARAM_KIND E.ClosureProp)).addChild
        (FUNCSIGSPEC_CREATE_PARAM_PAYLOAD name.getText)) s0 =
      Res.ok ((parent.addChild (FUNCSIGSPEC_CREATE_PARAM_KIND E.ClosureProp)).addChild
        (FUNCSIGSPEC_CREATE_PARAM_PAYLOAD name.getText)) s1 := by
    rw [tie_loop, bind_ok (demangleFuncSigSpecializationClosurePropRound_null _ _ s0 s1 hp ht)]
    rfl
  rw [bind_ok hloop, run_bind, run_nextIf]
  by_cases h : s1.Mangled.head? = some '_'
  · simp only [if_pos h]
    rfl
  · simp only [if_neg h]
    rfl

/-- C14, as the claim states it, fails: in `_TTSf0cl1aBx___TtBf32_` the type `Bx` of the
closure-propagation payload fails to decode, and `demangleTopLevel` succeeds. -/
theorem demangleTopLevel_closureProp_type_dropped :
    demangleType (tie swiftEnv 23) ⟨"Bx___TtBf32_".toList, []⟩ =
      Res.null ⟨"___TtBf32_".toList, []⟩ ∧
    demangleTopLevel swiftEnv "_TTSf0cl1aBx___TtBf32_".toList =
      Res.ok (Node.mk Kind.Global Payload.none
        [Node.mk Kind.FunctionSignatureSpecialization Payload.none
          [createNodeIndex Kind.SpecializationPassID 0,
            Node.mk Kind.FunctionSignatureSpecializationParam (Payload.index 0)
              [FUNCSIGSPEC_CREATE_PARAM_KIND swiftEnv.ClosureProp,
                FUNCSIGSPEC_CREATE_PARAM_PAYLOAD "a".toList]],
          Node.mk Kind.TypeMangling Payload.none
            [Node.mk Kind.Type_ Payload.none
              [createNodeText Kind.BuiltinTypeName "Builtin.FPIEEE32".toList]]])
        ⟨[], []⟩ :=
  ⟨rfl, rfl⟩

/-- C14, amended. A production fails when a sub-production that it runs in sequence fails
(every `DEMANGLE_CHILD_OR_RETURN` and every `if (!x) return nullptr` is such a step), with
the same cursor.  In the closure-propagation payload a type that fails to decode does not
make the production fail: it ends the loop over the types, and the payload is accepted
exactly when the cursor is then on `_`. -/
theorem failFast_except_closureProp (E : Env) :
    (∀ (α β : Type) (m : M α) (f : α → M β) (s s1 : St),
      m s = Res.null s1 → (m >>= f) s = Res.null s1) ∧
    (∀ (r : Rec) (parent : Node) (s s1 : St),
      (demangleType r s = Res.null s1 → childType r parent s = Res.null s1) ∧
      (demangleProtocolConformance E r s = Res.null s1 →
        childProtocolConformance E r parent s = Res.null s1) ∧
      (demangleProtocolName E r s = Res.null s1 →
        childProtocolName E r parent s = Res.null s1) ∧
      (demangleDeclName E s = Res.null s1 → childDeclName E parent s = Res.null s1) ∧
      (demangleEntity E r s = Res.null s1 → childEntity E r parent s = Res.null s1) ∧
      (demangleDirectness E s = Res.null s1 → childDirectness E parent s = Res.null s1)) ∧
    (∀ (r : Rec) (parent : Node) (s s1 : St), s.Mangled.headD '.' ≠ '_' →
      demangleType r s = Res.null s1 →
      demangleFuncSigSpecializationClosurePropRound r parent s =
        Res.ok (Iter.done parent) s1) ∧
    (∀ (n : Nat) (parent name : Node) (s s0 s1 : St),
      demangleIdentifier E Option.none s = Res.ok name s0 →
      s0.Mangled.headD '.' ≠ '_' →
      demangleType (tie E (n + 1)) s0 = Res.null s1 →
      demangleFuncSigSpecializationClosureProp E (tie E (n + 1)) parent s =
        if s1.Mangled.head? = some '_' then
          Res.ok ((parent.addChild (FUNCSIGSPEC_CREATE_PARAM_KIND E.ClosureProp)).addChild
              (FUNCSIGSPEC_CREATE_PARAM_PAYLOAD name.getText))
            { s1 with Mangled := s1.Mangled.tail }
        else Res.null s1) := by
  refine ⟨fun α β m f s s1 h => bind_null h, fun r parent s s1 => ⟨?_, ?_, ?_, ?_, ?_, ?_⟩,
    fun r parent s s1 hp ht =>
      demangleFuncSigSpecializationClosurePropRound_null r parent s s1 hp ht,
    fun n parent name s s0 s1 hn hp ht =>
      demangleFuncSigSpecializationClosureProp_null E n parent s s0 s1 name hn hp ht⟩
  · intro h
    exact bind_null h
  · intro h
    exact bind_null h
  · intro h
    exact bind_null h
  · intro h
    exact bind_null h
  · intro h
    exact bind_null h
  · intro h
    exact bind_null h

/-- The payload `1aBx_`: the type `Bx` fails to decode with the cursor on `_`, and the
production returns the parameter with the kind and the name of the closure. -/
theorem failFast_except_closureProp_witness :
    demangleFuncSigSpecializationClosureProp swiftEnv (tie swiftEnv 3)
        (createNode Kind.FunctionSignatureSpecializationParam) ⟨"1aBx_".toList, []⟩ =
      Res.ok (((createNode Kind.FunctionSignatureSpecializationParam).addChild
          (FUNCSIGSPEC_CREATE_PARAM_KIND swiftEnv.ClosureProp)).addChild
          (FUNCSIGSPEC_CREATE_PARAM_PAYLOAD "a".toList)) ⟨[], []⟩ :=
  (failFast_except_closureProp swiftEnv).2.2.2 2
    (createNode Kind.FunctionSignatureSpecializationParam)
    (createNodeText Kind.Identifier "a".toList)
    ⟨"1aBx_".toList, []⟩ ⟨"Bx_".toList, []⟩ ⟨"_".toList, []⟩ rfl (by decide) rfl

theorem demangleTopLevelSpecializationRound_clears (E : Env) (r : Rec) (topLevel : Node)
    (s : St) :
    Ret (demangleTopLevelSpecializationRound E r topLevel) s
      (fun _ s1 => s1.Substitutions = []) := by
  unfold demangleTopLevelSpecializationRound
  apply ret_bind ret_any
  intro node s1 _
  apply ret_bind (P := fun _ s2 => s2.Substitutions = [])
  · refine ⟨fun u s2 hu => ?_⟩
    cases hu
    rfl
  · intro u s2 hs2
    apply ret_ite_nextIfStr
    · exact ret_done hs2
    · exact ret_done hs2

theorem loopStarts_empty_table (E : Env) (r : Rec) :
    ∀ (n : Nat) (acc : Node) (s0 : St), s0.Substitutions = [] →
      ∀ s ∈ loopStarts (demangleTopLevelSpecializationRound E r) n acc s0,
        s.Substitutions = [] := by
  intro n
  induction n with
  | zero =>
    intro acc s0 _ s hs
    cases hs
  | succ k ih =>
    intro acc s0 h0 s hs
    rw [loopStarts, List.mem_cons] at hs
    rcases hs with rfl | hs
    · exact h0
    · cases hround : demangleTopLevelSpecializationRound E r acc s0 with
      | ok it s1 =>
        rw [hround] at hs
        cases it with
        | again acc1 =>
          exact ih acc1 s1
            ((demangleTopLevelSpecializationRound_clears E r acc s0).out _ s1 hround) s hs
        | done acc1 => cases hs
      | null s1 => rw [hround] at hs; cases hs
      | fault => rw [hround] at hs; cases hs
      | fuel => rw [hround] at hs; cases hs

theorem nextIfStr_true {str : List Char} {s : St} (h : str <+: s.Mangled) :
    nextIfStr str s = Res.ok true { s with Mangled := s.Mangled.drop str.length } := by
  rw [run_nextIfStr, if_pos]
  simpa using h

theorem demangleTopLevelPrefix_chain (E : Env) (r : Rec) (rest : List Char) :
    demangleTopLevelPrefix E r (initial ("_TTS".toList ++ rest)) =
      (do
        let topLevel ← r.loop (demangleTopLevelSpecializationRound E r)
          (createNode Kind.Global)
        if !(← nextIfStr "_T".toList) then
          fail
        else
          pure topLevel : M Node) ⟨rest, []⟩ := by
  unfold demangleTopLevelPrefix
  rw [bind_ok (nextIfStr_true (s := initial ("_TTS".toList ++ rest)) (by
    simp [initial, String.toList])), ]
  simp only [Bool.not_true, Bool.false_eq_true, if_false]
  rw [bind_ok (nextIfStr_true (by simp [initial, String.toList]))]
  rfl

/-- C17. In a chain of specialization blocks (text `_TTS...`) the prefix of
`demangleTopLevel` is the loop of the rounds run from the text after `_TTS` with an empty
table; every round of this loop, whose first step is the specialization block, starts
with an empty `Substitutions` table; and the `Global` production, which runs from the
state that the prefix leaves, starts with an empty table as well, for every text. -/
theorem specialization_blocks_start_empty (E : Env) (rest : List Char) :
    demangleTopLevelPrefix E (tie E (("_TTS".toList ++ rest).length + 1))
        (initial ("_TTS".toList ++ rest)) =
      (do
        let topLevel ← (tie E (("_TTS".toList ++ rest).length + 1)).loop
          (demangleTopLevelSpecializationRound E
            (tie E (("_TTS".toList ++ rest).length + 1)))
          (createNode Kind.Global)
        if !(← nextIfStr "_T".toList) then
          fail
        else
          pure topLevel : M Node) ⟨rest, []⟩ ∧
    (∀ s ∈ loopStarts
        (demangleTopLevelSpecializationRound E (tie E (("_TTS".toList ++ rest).length + 1)))
        (("_TTS".toList ++ rest).length + 1) (createNode Kind.Global) ⟨rest, []⟩,
      s.Substitutions = []) ∧
    (∀ (mangled : List Char) (topLevel : Node) (s1 : St),
      demangleTopLevelPrefix E (tie E (mangled.length + 1)) (initial mangled) =
        Res.ok topLevel s1 → s1.Substitutions = []) := by
  refine ⟨demangleTopLevelPrefix_chain E _ rest, ?_, ?_⟩
  · exact loopStarts_empty_table E _ _ _ _ rfl
  · intro mangled topLevel s1 h
    exact ((demangleTopLevelPrefix_ret E (mangled.length + 1) (initial mangled) rfl).out
      topLevel s1 h).2

/-- The chain `_TTSg0V3foo3Bar___TTSg1Si___TtBf32_`: the first block leaves two entries
in the table, and the second block starts, at `g1Si___TtBf32_`, with an empty table. -/
theorem specialization_blocks_start_empty_witness :
    (∃ node s1, demangleSpecializedAttribute swiftEnv (tie swiftEnv 36)
        ⟨"g0V3foo3Bar___TTSg1Si___TtBf32_".toList, []⟩ = Res.ok node s1 ∧
      s1.Substitutions.length = 2) ∧
    (⟨"g1Si___TtBf32_".toList, []⟩ : St) ∈ loopStarts
      (demangleTopLevelSpecializationRound swiftEnv (tie swiftEnv 36)) 36
      (createNode Kind.Global) ⟨"g0V3foo3Bar___TTSg1Si___TtBf32_".toList, []⟩ ∧
    (⟨"g1Si___TtBf32_".toList, []⟩ : St).Substitutions = [] :=
  ⟨⟨_, _, rfl, rfl⟩, List.Mem.tail _ (List.Mem.head _),
    (specialization_blocks_start_empty swiftEnv "g0V3foo3Bar___TTSg1Si___TtBf32_".toList).2.1
      _ (List.Mem.tail _ (List.Mem.head _))⟩

theorem loopStarts_block_null (E : Env) (r : Rec) (s1 : St) :
    ∀ (n : Nat) (acc : Node) (s0 : St),
      ∀ s ∈ loopStarts (demangleTopLevelSpecializationRound E r) n acc s0,
        demangleSpecializedAttribute E r s = Res.null s1 →
        (tie E n).loop (demangleTopLevelSpecializationRound E r) acc s0 = Res.null s1 := by
  intro n
  induction n with
  | zero =>
    intro acc s0 s hs
    cases hs
  | succ k ih =>
    intro acc s0 s hs hnull
    rw [loopStarts, List.mem_cons] at hs
    rw [tie_loop]
    rcases hs with rfl | hs
    · have : demangleTopLevelSpecializationRound E r acc s = Res.null s1 := by
        unfold demangleTopLevelSpecializationRound
        exact bind_null hnull
      exact bind_null this
    · cases hround : demangleTopLevelSpecializationRound E r acc s0 with
      | ok it s2 =>
        rw [hround] at hs
        cases it with
        | again acc1 =>
          rw [bind_ok hround]
          exact ih acc1 s2 s hs hnull
        | done acc1 => cases hs
      | null s2 => rw [hround] at hs; cases hs
      | fault => rw [hround] at hs; cases hs
      | fuel => rw [hround] at hs; cases hs

/-- C19. For a text that begins with `_TTS`: if the chain of specialization blocks is read
and the text left after its last block does not begin with `_T`, `demangleTopLevel`
returns null; and if one of the blocks, run from the state in which its round starts,
returns null, `demangleTopLevel` returns null. -/
theorem specialization_chain_failure (E : Env) (rest : List Char) :
    (∀ (topLevel : Node) (s1 : St),
      (tie E (("_TTS".toList ++ rest).length + 1)).loop
        (demangleTopLevelSpecializationRound E (tie E (("_TTS".toList ++ rest).length + 1)))
        (createNode Kind.Global) ⟨rest, []⟩ = Res.ok topLevel s1 →
      ¬ "_T".toList <+: s1.Mangled →
      demangleTopLevel E ("_TTS".toList ++ rest) = Res.null s1) ∧
    (∀ s ∈ loopStarts
        (demangleTopLevelSpecializationRound E (tie E (("_TTS".toList ++ rest).length + 1)))
        (("_TTS".toList ++ rest).length + 1) (createNode Kind.Global) ⟨rest, []⟩,
      ∀ s1, demangleSpecializedAttribute E (tie E (("_TTS".toList ++ rest).length + 1)) s =
          Res.null s1 →
        demangleTopLevel E ("_TTS".toList ++ rest) = Res.null s1) := by
  constructor
  · intro topLevel s1 hloop hno
    unfold demangleTopLevel demangleTopLevelBody
    apply bind_null
    rw [demangleTopLevelPrefix_chain, bind_ok hloop, bind_ok (nextIfStr_false hno)]
    rfl
  · intro s hs s1 hnull
    unfold demangleTopLevel demangleTopLevelBody
    apply bind_null
    rw [demangleTopLevelPrefix_chain]
    exact bind_null (loopStarts_block_null E _ s1 _ _ _ s hs hnull)

/-- The text `_TTSg0__XtBf32_`: after the only block the text left is `_XtBf32_`, which
does not begin with `_T`, and `demangleTopLevel` returns null. -/
theorem specialization_chain_failure_witness :
    ¬ "_T".toList <+: "_XtBf32_".toList ∧
      demangleTopLevel swiftEnv ("_TTS".toList ++ "g0__XtBf32_".toList) =
        Res.null ⟨"_XtBf32_".toList, []⟩ :=
  ⟨by decide,
    (specialization_chain_failure swiftEnv "g0__XtBf32_".toList).1
      (Node.mk Kind.Global Payload.none
        [Node.mk Kind.GenericSpecialization Payload.none
          [createNodeIndex Kind.SpecializationPassID 0]])
      ⟨"_XtBf32_".toList, []⟩ rfl (by decide)⟩

theorem ret_child_plainKind {m : M α} {g : α → Node} {parent : Node} {s : St}
    (h : parent.getKind ∉ annotationKinds) :
    Ret (do let _node ← m; pure (parent.addChild (g _node)) : M Node) s
      (fun a _ => a.getKind ∉ annotationKinds) := by
  apply ret_bind ret_any
  intro a s1 _
  apply ret_done
  rw [Node.getKind_addChild]
  exact h

theorem childType_plainKind (r : Rec) (parent : Node) (s : St)
    (h : parent.getKind ∉ annotationKinds) :
    Ret (childType r parent) s (fun a _ => a.getKind ∉ annotationKinds) :=
  ret_child_plainKind (g := id) h

theorem childProtocolConformance_plainKind (E : Env) (r : Rec) (parent : Node) (s : St)
    (h : parent.getKind ∉ annotationKinds) :
    Ret (childProtocolConformance E r parent) s (fun a _ => a.getKind ∉ annotationKinds) :=
  ret_child_plainKind (g := id) h

theorem childProtocolName_plainKind (E : Env) (r : Rec) (parent : Node) (s : St)
    (h : parent.getKind ∉ annotationKinds) :
    Ret (childProtocolName E r parent) s (fun a _ => a.getKind ∉ annotationKinds) :=
  ret_child_plainKind (g := id) h

theorem childDeclName_plainKind (E : Env) (parent : Node) (s : St)
    (h : parent.getKind ∉ annotationKinds) :
    Ret (childDeclName E parent) s (fun a _ => a.getKind ∉ annotationKinds) :=
  ret_child_plainKind (g := id) h

theorem childEntity_plainKind (E : Env) (r : Rec) (parent : Node) (s : St)
    (h : parent.getKind ∉ annotationKinds) :
    Ret (childEntity E r parent) s (fun a _ => a.getKind ∉ annotationKinds) :=
  ret_child_plainKind (g := id) h

theorem childDirectness_plainKind (E : Env) (parent : Node) (s : St)
    (h : parent.getKind ∉ annotationKinds) :
    Ret (childDirectness E parent) s (fun a _ => a.getKind ∉ annotationKinds) :=
  ret_child_plainKind (g := fun k => createNodeIndex Kind.Directness (k % unsignedMod)) h

theorem demangleReabstractSignature_plainKind (E : Env) (r : Rec) (signature : Node) (s : St)
    (h : signature.getKind ∉ annotationKinds) :
    Ret (demangleReabstractSignature E r signature) s
      (fun a _ => a.getKind ∉ annotationKinds) := by
  have tail : ∀ (sig : Node) (s1 : St), sig.getKind ∉ annotationKinds →
      Ret (do
        let srcType ← demangleType r
        let signature := sig.addChild srcType
        let destType ← demangleType r
        let signature := signature.addChild destType
        pure signature : M Node) s1 (fun a _ => a.getKind ∉ annotationKinds) := by
    intro sig s1 hsig
    apply ret_bind ret_any
    intro a s2 _
    apply ret_bind ret_any
    intro b s3 _
    apply ret_done
    rw [Node.getKind_addChild, Node.getKind_addChild]
    exact hsig
  unfold demangleReabstractSignature
  apply ret_bind_nextIf
  · simp only [if_true]
    apply ret_bind ret_any
    intro g s1 _
    apply ret_bind_done
    exact tail _ _ (by rw [Node.getKind_addChild]; exact h)
  · simp only [Bool.false_eq_true, if_false]
    apply ret_bind_done
    exact tail _ _ h

theorem demangleGlobalMetadata_plainKind (E : Env) (r : Rec) (s : St) :
    Ret (demangleGlobalMetadata E r) s (fun a _ => a.getKind ∉ annotationKinds) := by
  unfold demangleGlobalMetadata
  repeat' first
    | exact childType_plainKind _ _ _ (by decide)
    | exact childProtocolName_plainKind _ _ _ _ (by decide)
    | with_reducible apply ret_ite_nextIf

theorem demangleGlobalWitness_plainKind (E : Env) (r : Rec) (s : St) :
    Ret (demangleGlobalWitness E r) s (fun a _ => a.getKind ∉ annotationKinds) := by
  unfold demangleGlobalWitness
  repeat' first
    | exact ret_failed
    | exact childType_plainKind _ _ _ (by decide)
    | exact childProtocolConformance_plainKind _ _ _ _ (by decide)
    | exact ret_bind (childDirectness_plainKind _ _ _ (by decide))
        (fun a s1 h => childEntity_plainKind _ _ _ _ h)
    | exact ret_bind (childType_plainKind _ _ _ (by decide))
        (fun a s1 h => childProtocolConformance_plainKind _ _ _ _ h)
    | exact ret_bind (childProtocolConformance_plainKind _ _ _ _ (by decide))
        (fun a s1 h => childDeclName_plainKind _ _ _ h)
    | exact ret_bind (childProtocolConformance_plainKind _ _ _ _ (by decide))
        (fun a s1 h => ret_bind (childDeclName_plainKind _ _ _ h)
          (fun a s1 h => childProtocolName_plainKind _ _ _ _ h))
    | with_reducible apply ret_ite_nextIf

theorem demangleGlobalThunk_plainKind (E : Env) (r : Rec) (s : St) :
    Ret (demangleGlobalThunk E r) s (fun a _ => a.getKind ∉ annotationKinds) := by
  unfold demangleGlobalThunk
  repeat' first
    | exact ret_failed
    | exact demangleReabstractSignature_plainKind _ _ _ _ (by decide)
    | exact ret_bind (childProtocolConformance_plainKind _ _ _ _ (by decide))
        (fun a s1 h => childEntity_plainKind _ _ _ _ h)
    | with_reducible apply ret_ite_nextIf

theorem demangleAccessorName_plainKind (E : Env) (entityKind : Kind) (s : St)
    (h : entityKind ∉ annotationKinds) :
    Ret (demangleAccessorName E entityKind) s (fun n _ => n.entityKind ∉ annotationKinds) := by
  unfold demangleAccessorName
  apply ret_bind ret_any
  intro a s1 _
  exact ret_done h

theorem demangleEntityName_plainKind (E : Env) (entityBasicKind : Kind) (s : St)
    (h : entityBasicKind ∉ annotationKinds) :
    Ret (demangleEntityName E entityBasicKind) s
      (fun n _ => n.entityKind ∉ annotationKinds) := by
  unfold demangleEntityName
  repeat' first
    | exact ret_failed
    | (apply ret_done; first | exact h | (simp [annotationKinds, createNode, createNodeText, createNodeIndex, createSwiftType, Node.getKind, Node.addChild]))
    | exact demangleAccessorName_plainKind _ _ _ (by decide)
    | with_reducible apply ret_ite_nextIf
    | with_reducible apply ret_ite
    | with_reducible apply ret_bind ret_any
    | intro _

theorem demangleEntityNode_plainKind (r : Rec) (context : Node) (n : EntityName) (s : St)
    (h : n.entityKind ∉ annotationKinds) :
    Ret (demangleEntityNode r context n) s (fun a _ => a.getKind ∉ annotationKinds) := by
  unfold demangleEntityNode
  apply ret_ite
  · intro _
    cases n.name with
    | none => exact ret_failed
    | some name =>
      simp only
      repeat' first
        | exact ret_failed
        | (apply ret_done; simp only [Node.getKind_addChild, getKind_addChildIf]; exact h)
        | with_reducible apply ret_bind_done
        | with_reducible apply ret_bind ret_any
        | with_reducible apply ret_ite
        | intro _
  · intro _
    simp only
    repeat' first
      | exact ret_failed
      | (apply ret_done; simp only [Node.getKind_addChild, getKind_addChildIf]; exact h)
      | with_reducible apply ret_bind_done
      | with_reducible apply ret_bind ret_any
      | with_reducible apply ret_ite
      | intro _

theorem demangleEntityOfKind_plainKind (E : Env) (r : Rec) (isStatic : Bool)
    (entityBasicKind : Kind) (s : St) (h : entityBasicKind ∉ annotationKinds) :
    Ret (demangleEntityOfKind E r isStatic entityBasicKind) s
      (fun a _ => a.getKind ∉ annotationKinds) := by
  unfold demangleEntityOfKind
  apply ret_bind ret_any
  intro context s1 _
  apply ret_bind (demangleEntityName_plainKind E entityBasicKind s1 h)
  intro n s2 hn
  apply ret_bind (demangleEntityNode_plainKind r context n s2 hn)
  intro entity s3 he
  apply ret_ite
  · intro _
    apply ret_done
    simp [annotationKinds, createNode, createNodeText, createNodeIndex, createSwiftType, Node.getKind, Node.addChild]
  · intro _
    exact ret_done he

theorem demangleSubstitutionIndex_plainKind (E : Env) (s : St) (hs : s.Substitutions = []) :
    Ret (demangleSubstitutionIndex E) s (fun a _ => a.getKind ∉ annotationKinds) := by
  unfold demangleSubstitutionIndex
  apply ret_ite_not_nonEmpty
  repeat' first
    | (apply ret_done; simp [annotationKinds, createNode, createNodeText, createNodeIndex, createSwiftType, Node.getKind, Node.addChild])
    | with_reducible apply ret_ite_nextIf
  refine ⟨fun a s2 h => ?_⟩
  obtain ⟨i, s1, hi, h2⟩ := bind_eq_ok h
  have hsub : s1.Substitutions = [] := ((demangleIndex_subs _).out i s1 hi).trans hs
  rw [bind_ok (run_getSubstitutions s1), hsub] at h2
  simp at h2

theorem demangleDeclarationName_plainKind (E : Env) (r : Rec) (kind : Kind) (s : St)
    (h : kind ∉ annotationKinds) :
    Ret (demangleDeclarationName E r kind) s (fun a _ => a.getKind ∉ annotationKinds) := by
  unfold demangleDeclarationName
  apply ret_bind ret_any
  intro context s1 _
  apply ret_bind ret_any
  intro name s2 _
  apply ret_bind ret_any
  intro u s3 _
  exact ret_done h

theorem demangleNominalType_plainKind (E : Env) (r : Rec) (s : St) (hs : s.Substitutions = []) :
    Ret (demangleNominalType E r) s (fun a _ => a.getKind ∉ annotationKinds) := by
  unfold demangleNominalType
  repeat' first
    | exact ret_failed
    | exact demangleSubstitutionIndex_plainKind _ _ hs
    | exact demangleDeclarationName_plainKind _ _ _ _ (by decide)
    | with_reducible apply ret_ite_nextIf

theorem demangleEntity_plainKind (E : Env) (r : Rec) (s : St) (hs : s.Substitutions = []) :
    Ret (demangleEntity E r) s (fun a _ => a.getKind ∉ annotationKinds) := by
  unfold demangleEntity
  apply ret_bind_nextIf <;>
  repeat' first
    | exact demangleNominalType_plainKind _ _ _ hs
    | exact demangleEntityOfKind_plainKind _ _ _ _ _ (by decide)
    | with_reducible apply ret_ite_nextIf

theorem demangleGlobal_plainKind (E : Env) (r : Rec) (s : St) (hs : s.Substitutions = []) :
    Ret (demangleGlobal E r) s (fun a _ => a.getKind ∉ annotationKinds) := by
  unfold demangleGlobal
  apply ret_ite_not_nonEmpty
  apply ret_ite_nextIf
  · exact demangleGlobalMetadata_plainKind _ _ _
  apply ret_ite_nextIfStr
  · apply ret_bind ret_any
    intro b s1 _
    simp only
    apply ret_ite_nextIfStr
    · apply ret_bind ret_any
      intro g s2 _
      apply ret_done
      rw [Node.getKind_addChild]
      cases b <;> (simp [annotationKinds, createNode, createNodeText, createNodeIndex, createSwiftType, Node.getKind, Node.addChild])
    · apply ret_done
      cases b <;> (simp [annotationKinds, createNode, createNodeText, createNodeIndex, createSwiftType, Node.getKind, Node.addChild])
  repeat' first
    | exact demangleGlobalWitness_plainKind _ _ _
    | exact demangleGlobalThunk_plainKind _ _ _
    | exact demangleEntity_plainKind _ _ _ hs
    | exact childType_plainKind _ _ _ (by decide)
    | exact ret_bind ret_any (fun a s1 _ => childType_plainKind _ _ _ (by simp [annotationKinds, createNode, createNodeText, createNodeIndex, createSwiftType, Node.getKind, Node.addChild]))
    | with_reducible apply ret_ite_nextIf

theorem demangleTopLevelPrefix_attribute (E : Env) (r : Rec) (marker : List Char) (k : Kind)
    (hm : (marker, k) ∈ attributeMarkers) (rest : List Char) :
    demangleTopLevelPrefix E r (initial ("_T".toList ++ marker ++ rest)) =
      Res.ok (Node.mk Kind.Global Payload.none [createNode k]) ⟨rest, []⟩ := by
  simp only [attributeMarkers, List.mem_cons, Prod.mk.injEq, List.mem_singleton,
    List.not_mem_nil, or_false] at hm
  rcases hm with ⟨rfl, rfl⟩ | ⟨rfl, rfl⟩ | ⟨rfl, rfl⟩ | ⟨rfl, rfl⟩ | ⟨rfl, rfl⟩ <;>
    simp [demangleTopLevelPrefix, run_nextIfStr, initial, List.isPrefixOf, createNode,
      Node.addChild]

/-- C18. When the text continues after `_T` with one of the markers `To`, `TO`, `TD`,
`Td`, `TV`, the prefix of `demangleTopLevel` consumes exactly that marker and gives the
`Global` node with one child, the childless annotation node of the marker; on success the
children of the root are this node, then the node of the `Global` production, which is
no annotation node, then the `Suffix` node if text is left: one annotation child. -/
theorem demangleTopLevel_attribute (E : Env) (marker : List Char) (k : Kind)
    (hm : (marker, k) ∈ attributeMarkers) (rest : List Char) :
    demangleTopLevelPrefix E (tie E (("_T".toList ++ marker ++ rest).length + 1))
        (initial ("_T".toList ++ marker ++ rest)) =
      Res.ok (Node.mk Kind.Global Payload.none [Node.mk k Payload.none []]) ⟨rest, []⟩ ∧
    k ∈ annotationKinds ∧
    (∀ (root : Node) (s : St),
      demangleTopLevel E ("_T".toList ++ marker ++ rest) = Res.ok root s →
      ∃ (global : Node) (s2 : St),
        (tie E (("_T".toList ++ marker ++ rest).length + 1)).demangleGlobal ⟨rest, []⟩ =
          Res.ok global s2 ∧
        global.getKind ∉ annotationKinds ∧
        root.getKind = Kind.Global ∧
        root.getChildren = [Node.mk k Payload.none [], global] ++
          (if s2.Mangled = [] then [] else [createNodeText Kind.Suffix s2.Mangled])) := by
  have hpre := demangleTopLevelPrefix_attribute E
    (tie E (("_T".toList ++ marker ++ rest).length + 1)) marker k hm rest
  refine ⟨hpre, ?_, ?_⟩
  · simp only [attributeMarkers, List.mem_cons, Prod.mk.injEq, List.mem_singleton,
      List.not_mem_nil, or_false] at hm
    rcases hm with ⟨_, rfl⟩ | ⟨_, rfl⟩ | ⟨_, rfl⟩ | ⟨_, rfl⟩ | ⟨_, rfl⟩ <;> decide
  · intro root s h
    unfold demangleTopLevel demangleTopLevelBody at h
    rw [bind_ok hpre] at h
    obtain ⟨global, s2, hg, h⟩ := bind_eq_ok h
    have hglobal : global.getKind ∉ annotationKinds :=
      (demangleGlobal_plainKind E (tie E ("_T".toList ++ marker ++ rest).length)
        ⟨rest, []⟩ rfl).out global s2 hg
    refine ⟨global, s2, hg, hglobal, ?_⟩
    simp only [] at h
    rw [run_demangleTopLevelSuffix] at h
    by_cases he : s2.Mangled = []
    · rw [if_pos he] at h
      have hr := (Res.ok.inj h).1
      subst hr
      rw [if_pos he]
      exact ⟨rfl, rfl⟩
    · rw [if_neg he] at h
      have hr := (Res.ok.inj h).1
      subst hr
      rw [if_neg he]
      exact ⟨rfl, rfl⟩

/-- The text `_TToFC3foo3bar3bazfT_T_`: the prefix consumes `_TTo` and gives the `Global`
node with the child `ObjCAttribute`. -/
theorem demangleTopLevel_attribute_witness :
    demangleTopLevelPrefix swiftEnv
        (tie swiftEnv (("_T".toList ++ "To".toList ++ "FC3foo3bar3bazfT_T_".toList).length + 1))
        (initial ("_T".toList ++ "To".toList ++ "FC3foo3bar3bazfT_T_".toList)) =
      Res.ok (Node.mk Kind.Global Payload.none [Node.mk Kind.ObjCAttribute Payload.none []])
        ⟨"FC3foo3bar3bazfT_T_".toList, []⟩ :=
  (demangleTopLevel_attribute swiftEnv "To".toList Kind.ObjCAttribute (by decide)
    "FC3foo3bar3bazfT_T_".toList).1

theorem ret_bind_nextIfStr_of {f : Bool → M β} {s : St} {Q : β → St → Prop} (str : List Char)
    (hA : str <+: s.Mangled → Ret (f true) { s with Mangled := s.Mangled.drop str.length } Q)
    (hB : ¬ str <+: s.Mangled → Ret (f false) s Q) : Ret (nextIfStr str >>= f) s Q := by
  refine ⟨fun b s2 hb => ?_⟩
  rw [run_bind, run_nextIfStr] at hb
  by_cases h : str.isPrefixOf s.Mangled
  · rw [if_pos h] at hb
    exact (hA (by simpa using h)).out b s2 hb
  · rw [if_neg h] at hb
    exact (hB (by simpa using h)).out b s2 hb

theorem demanglePassID_ret (s : St) :
    Ret demanglePassID s (fun a s1 =>
      a = createNodeIndex Kind.SpecializationPassID (passIDIndex (s.Mangled.headD '.')) ∧
        s1.Mangled = s.Mangled.tail) := by
  refine ⟨fun a s1 h => ?_⟩
  unfold demanglePassID at h
  rw [bind_ok (run_next s)] at h
  cases h
  exact ⟨rfl, rfl⟩

theorem passIDIndex_le_nine (c : Char) (hc : c.toNat < 256) :
    passIDIndex c ≤ 9 ↔ isDigit c = true := by
  rw [isDigit_iff]
  have h0 : '0'.toNat = 48 := rfl
  have h9 : '9'.toNat = 57 := rfl
  rw [h0, h9]
  unfold passIDIndex toUnsigned charToInt unsignedMod
  by_cases h : c.toNat < 128
  · rw [if_pos h]
    omega
  · rw [if_neg h]
    omega

theorem demangleGenericSpecializationRound_children (E : Env) (r : Rec) (base : List Node)
    (specialization : Node) (s : St) (h : ∃ ps, specialization.getChildren = base ++ ps) :
    Ret (demangleGenericSpecializationRound E r specialization) s
      (fun it _ => (∀ a, it = Iter.again a → ∃ ps, a.getChildren = base ++ ps) ∧
        (∀ a, it = Iter.done a → ∃ ps, a.getChildren = base ++ ps)) := by
  unfold demangleGenericSpecializationRound
  apply ret_ite_nextIf
  · apply ret_done
    constructor
    · intro a ha
      cases ha
    · intro a ha
      cases ha
      exact h
  · apply ret_bind ret_any
    intro p s1 _
    apply ret_bind ret_any
    intro q s2 _
    apply ret_done
    constructor
    · intro a ha
      cases ha
      obtain ⟨ps, hps⟩ := h
      exact ⟨ps ++ [q], by rw [Node.getChildren_addChild, hps, List.append_assoc]⟩
    · intro a ha
      cases ha

theorem demangleGenericSpecialization_children (E : Env) (n : Nat) (specialization : Node)
    (s : St) :
    Ret (demangleGenericSpecialization E (tie E n) specialization) s
      (fun a _ => ∃ ps, a.getChildren = specialization.getChildren ++ ps) :=
  tie_loop_ret E _ (fun a => ∃ ps, a.getChildren = specialization.getChildren ++ ps) _
    (fun acc s1 hacc =>
      demangleGenericSpecializationRound_children E (tie E n) _ acc s1 hacc)
    n specialization s ⟨[], (List.append_nil _).symm⟩

theorem demangleFunctionSignatureSpecializationRound_children (E : Env) (r : Rec)
    (base : List Node) (p : Node × Nat) (s : St) (h : ∃ ps, p.1.getChildren = base ++ ps) :
    Ret (demangleFunctionSignatureSpecializationRound E r p) s
      (fun it _ => (∀ a, it = Iter.again a → ∃ ps, a.1.getChildren = base ++ ps) ∧
        (∀ a, it = Iter.done a → ∃ ps, a.1.getChildren = base ++ ps)) := by
  have again : ∀ (param : Node) (s1 : St),
      Ret (pure (Iter.again (p.1.addChild param, (p.2 + 1) % unsignedMod)) :
        M (Iter (Node × Nat))) s1
        (fun it _ => (∀ a, it = Iter.again a → ∃ ps, a.1.getChildren = base ++ ps) ∧
          (∀ a, it = Iter.done a → ∃ ps, a.1.getChildren = base ++ ps)) := by
    intro param s1
    apply ret_done
    constructor
    · intro a ha
      cases ha
      obtain ⟨ps, hps⟩ := h
      exact ⟨ps ++ [param], by rw [Node.getChildren_addChild, hps, List.append_assoc]⟩
    · intro a ha
      cases ha
  unfold demangleFunctionSignatureSpecializationRound
  apply ret_ite_nextIf
  · apply ret_done
    constructor
    · intro a ha
      cases ha
    · intro a ha
      cases ha
      exact h
  · repeat' first
      | exact again _ _
      | with_reducible apply ret_ite_nextIfStr
      | with_reducible apply ret_bind_done
      | with_reducible apply ret_bind ret_any
      | intro _

theorem demangleFunctionSignatureSpecialization_children (E : Env) (n : Nat)
    (specialization : Node) (s : St) :
    Ret (demangleFunctionSignatureSpecialization E (tie E n) specialization) s
      (fun a _ => ∃ ps, a.getChildren = specialization.getChildren ++ ps) := by
  unfold demangleFunctionSignatureSpecialization
  apply ret_bind (tie_loop_ret E _
    (fun a => ∃ ps, a.1.getChildren = specialization.getChildren ++ ps)
    (fun a _ => ∃ ps, a.1.getChildren = specialization.getChildren ++ ps)
    (fun acc s1 hacc =>
      demangleFunctionSignatureSpecializationRound_children E (tie E n) _ acc s1 hacc)
    n (specialization, 0) s ⟨[], (List.append_nil _).symm⟩)
  intro p s1 hp
  exact ret_done hp

theorem starts_with_char {c : Char} {l : List Char} (h : [c] <+: l) : ∃ t, l = c :: t := by
  obtain ⟨t, ht⟩ := h
  exact ⟨t, ht.symm⟩

theorem not_starts_with_char {c : Char} {l : List Char} (h : ¬ [c] <+: l) : l.head? ≠ some c := by
  intro hh
  apply h
  cases l with
  | nil => cases hh
  | cons x t =>
    simp only [List.head?_cons, Option.some.injEq] at hh
    subst hh
    exact ⟨t, rfl⟩

/-- The part of `demangleSpecializedAttribute` after the marker `g`, `r` or `f`: the
marker `q`, the pass id, and the parameters read by `rest`. -/
theorem specialization_tail (kind : Kind) (m : Char) (t : List Char)
    (subs : List Node) (rest : Node → M Node)
    (hrest : ∀ spec s, Ret (rest spec) s
      (fun a _ => ∃ ps, a.getChildren = spec.getChildren ++ ps))
    (hm : [m] ∈ specializationMarkers ∧ [m, 'q'] ∈ specializationMarkers) :
    Ret (do
      let spec := createNode kind
      let spec :=
        if (← nextIfStr "q".toList) then spec.addChild (createNode Kind.IsSerialized)
        else spec
      let spec := spec.addChild (← demanglePassID)
      rest spec : M Node) ⟨t, subs⟩ (fun a _ => PassIDShape (m :: t) a) := by
  apply ret_bind_nextIfStr_of
  · intro hq
    obtain ⟨t2, rfl⟩ := starts_with_char hq
    apply ret_bind (demanglePassID_ret _)
    intro pass s1 hpass
    apply ret_mono (hrest _ _)
    intro a s2 ⟨ps, hps⟩
    refine ⟨[m, 'q'], t2, ps, hm.2, rfl, fun h => absurd (by simp) h, ?_⟩
    rw [hps, hpass.1]
    simp [Node.getChildren_addChild, createNode, Node.getChildren, Node.addChild]
  · intro hq
    apply ret_bind (demanglePassID_ret _)
    intro pass s1 hpass
    apply ret_mono (hrest _ _)
    intro a s2 ⟨ps, hps⟩
    refine ⟨[m], t, ps, hm.1, rfl, fun _ => not_starts_with_char hq, ?_⟩
    rw [hps, hpass.1]
    have hmq : 'q' ∉ [m] := by
      intro h
      simp only [List.mem_singleton] at h
      subst h
      revert hm
      decide
    have hmq2 : ¬ 'q' = m := fun h => hmq (by rw [h]; simp)
    simp [Node.getChildren_addChild, createNode, Node.getChildren, Node.addChild, hmq2]

theorem demangleSpecializedAttribute_shape (E : Env) (n : Nat) (s : St) :
    Ret (demangleSpecializedAttribute E (tie E n)) s (fun a _ => PassIDShape s.Mangled a) := by
  obtain ⟨l, subs⟩ := s
  unfold demangleSpecializedAttribute
  apply ret_bind_nextIfStr_of
  · intro hg
    obtain ⟨t, rfl⟩ := starts_with_char hg
    simp only [if_true]
    apply ret_bind_done
    simp only [Bool.or_false, if_true, Bool.false_eq_true, if_false]
    exact specialization_tail Kind.GenericSpecialization 'g' t subs
      (demangleGenericSpecialization E (tie E n))
      (fun spec s => demangleGenericSpecialization_children E n spec s) (by decide)
  · intro hg
    simp only [Bool.false_eq_true, if_false]
    apply ret_bind_nextIfStr_of
    · intro hr
      obtain ⟨t, rfl⟩ := starts_with_char hr
      simp only [Bool.or_true, if_true]
      exact specialization_tail Kind.GenericSpecializationNotReAbstracted 'r' t subs
        (demangleGenericSpecialization E (tie E n))
        (fun spec s => demangleGenericSpecialization_children E n spec s) (by decide)
    · intro hr
      simp only [Bool.or_false, Bool.false_eq_true, if_false]
      apply ret_bind_nextIfStr_of
      · intro hf
        obtain ⟨t, rfl⟩ := starts_with_char hf
        simp only [if_true]
        exact specialization_tail Kind.FunctionSignatureSpecialization 'f' t subs
          (demangleFunctionSignatureSpecialization E (tie E n))
          (fun spec s => demangleFunctionSignatureSpecialization_children E n spec s)
          (by decide)
      · intro hf
        exact ret_failed

/-- C20, as the claim states it, fails: the specialization attribute of `_TTSgX__TtBf32_`
is decoded and its `SpecializationPassID` child has the index 40, the character `X`
minus 48. -/
theorem specialization_passID_not_digit :
    demangleTopLevel swiftEnv "_TTSgX__TtBf32_".toList =
      Res.ok (Node.mk Kind.Global Payload.none
        [Node.mk Kind.GenericSpecialization Payload.none
          [createNodeIndex Kind.SpecializationPassID 40],
          Node.mk Kind.TypeMangling Payload.none
            [Node.mk Kind.Type_ Payload.none
              [createNodeText Kind.BuiltinTypeName "Builtin.FPIEEE32".toList]]])
        ⟨[], []⟩ :=
  rfl

/-- C20, amended. In every successfully decoded specialization attribute (generic,
not-re-abstracted generic, or function-signature) the `SpecializationPassID` child,
which follows the `IsSerialized` child if there is one and comes before the parameters,
carries the character that `Mangled.next()` returns after the marker, minus 48, as an
`unsigned`; for a byte this index is between 0 and 9 exactly when the character is a
decimal digit. -/
theorem demangleSpecializedAttribute_passID (E : Env) (n : Nat) (s s1 : St) (a : Node)
    (h : demangleSpecializedAttribute E (tie E n) s = Res.ok a s1) :
    ∃ (marker text : List Char) (params : List Node),
      marker ∈ specializationMarkers ∧ s.Mangled = marker ++ text ∧
      ('q' ∉ marker → text.head? ≠ some 'q') ∧
      a.getChildren =
        (if 'q' ∈ marker then [createNode Kind.IsSerialized] else []) ++
          [createNodeIndex Kind.SpecializationPassID (passIDIndex (text.headD '.'))] ++
          params ∧
      ((text.headD '.').toNat < 256 →
        (passIDIndex (text.headD '.') ≤ 9 ↔ isDigit (text.headD '.') = true)) := by
  obtain ⟨marker, text, params, h1, h2, h3, h4⟩ :=
    (demangleSpecializedAttribute_shape E n s).out a s1 h
  exact ⟨marker, text, params, h1, h2, h3, h4, passIDIndex_le_nine _⟩

/-- The attribute `gq5_`: the children are `IsSerialized` and the pass id 5. -/
theorem demangleSpecializedAttribute_passID_witness :
    demangleSpecializedAttribute swiftEnv (tie swiftEnv 5) ⟨"gq5_".toList, []⟩ =
        Res.ok (Node.mk Kind.GenericSpecialization Payload.none
          [createNode Kind.IsSerialized, createNodeIndex Kind.SpecializationPassID 5])
          ⟨[], []⟩ ∧
      ∃ (marker text : List Char) (params : List Node),
        marker ∈ specializationMarkers ∧ "gq5_".toList = marker ++ text ∧
        ('q' ∉ marker → text.head? ≠ some 'q') ∧
        (Node.mk Kind.GenericSpecialization Payload.none
          [createNode Kind.IsSerialized,
            createNodeIndex Kind.SpecializationPassID 5]).getChildren =
          (if 'q' ∈ marker then [createNode Kind.IsSerialized] else []) ++
            [createNodeIndex Kind.SpecializationPassID (passIDIndex (text.headD '.'))] ++
            params ∧
        ((text.headD '.').toNat < 256 →
          (passIDIndex (text.headD '.') ≤ 9 ↔ isDigit (text.headD '.') = true)) :=
  ⟨rfl, demangleSpecializedAttribute_passID swiftEnv 5 ⟨"gq5_".toList, []⟩ ⟨[], []⟩ _ rfl⟩

theorem demangleSubstitutionIndex_letter (E : Env) (c : Char) (node : Node)
    (h : (c, node) ∈ builtinSubstitutions E) (t : List Char) (subs : List Node) :
    demangleSubstitutionIndex E ⟨c :: t, subs⟩ = Res.ok node ⟨t, subs⟩ := by
  have key : ∀ p ∈ builtinSubstitutions E,
      demangleSubstitutionIndex E ⟨p.1 :: t, subs⟩ = Res.ok p.2 ⟨t, subs⟩ := by
    simp [builtinSubstitutions, demangleSubstitutionIndex, run_nonEmpty, run_nextIf,
      createSwiftType, createNode, createNodeText, Node.addChild, stdlibType]
  exact key (c, node) h

theorem demangleSubstitutionIndex_other (E : Env) (c : Char) (t : List Char)
    (subs : List Node) (hc : c ∉ builtinSubstitutionLetters) :
    demangleSubstitutionIndex E ⟨c :: t, subs⟩ =
      match demangleIndex ⟨c :: t, subs⟩ with
      | .ok i s1 =>
          if h : i < subs.length then Res.ok (subs.get ⟨i, h⟩) s1 else Res.null s1
      | .null s1 => Res.null s1
      | .fault => Res.fault
      | .fuel => Res.fuel := by
  have hs : (⟨c :: t, subs⟩ : St).Mangled = c :: t := rfl
  simp only [builtinSubstitutionLetters, String.toList, List.mem_cons, List.mem_singleton,
    not_or, List.not_mem_nil, or_false] at hc
  obtain ⟨h1, h2, h3, h4, h5, h6, h7, h8, h9, h10, h11, h12, h13, h14, h15, h16, h17, h18⟩ := hc
  unfold demangleSubstitutionIndex
  simp only [run_bind, run_nonEmpty, List.isEmpty_cons, Bool.not_false, Bool.not_true,
    Bool.false_eq_true, if_false]
  simp only [nextIf_ne hs h1, nextIf_ne hs h2, nextIf_ne hs h3, nextIf_ne hs h4,
    nextIf_ne hs h5, nextIf_ne hs h6, nextIf_ne hs h7, nextIf_ne hs h8, nextIf_ne hs h9,
    nextIf_ne hs h10, nextIf_ne hs h11, nextIf_ne hs h12, nextIf_ne hs h13,
    nextIf_ne hs h14, nextIf_ne hs h15, nextIf_ne hs h16, nextIf_ne hs h17,
    nextIf_ne hs h18, Bool.false_eq_true, if_false, run_bind]
  cases hi : demangleIndex ⟨c :: t, subs⟩ with
  | ok i s1 =>
    have hsub : s1.Substitutions = subs := (demangleIndex_subs _).out i s1 hi
    simp only [getSubstitutions, hsub]
    by_cases h : i < subs.length
    · rw [dif_pos h, if_neg (by omega)]
      simp only [List.get?_eq_getElem?, List.getElem?_eq_getElem h, List.get_eq_getElem]
      rfl
    · rw [dif_neg h, if_pos (by omega)]
      rfl
  | null s1 => rfl
  | fault => rfl
  | fuel => rfl

/-- C28. Each of the eighteen built-in code letters is decoded by
`demangleSubstitutionIndex` to the node that `builtinSubstitutions` gives for it, with
exactly that letter consumed and the `Substitutions` table neither read nor changed; the
letters of the table are `oCabcdfiVvPpqQRrSu`.  With any other next character the result
is that of `demangleIndex`, used as a position in the `Substitutions` table. -/
theorem demangleSubstitutionIndex_builtin (E : Env) (t : List Char) (subs : List Node) :
    (builtinSubstitutions E).length = 18 ∧
    (builtinSubstitutions E).map Prod.fst = builtinSubstitutionLetters ∧
    (∀ c node, (c, node) ∈ builtinSubstitutions E →
      demangleSubstitutionIndex E ⟨c :: t, subs⟩ = Res.ok node ⟨t, subs⟩) ∧
    (∀ c, c ∉ builtinSubstitutionLetters →
      demangleSubstitutionIndex E ⟨c :: t, subs⟩ =
        match demangleIndex ⟨c :: t, subs⟩ with
        | .ok i s1 =>
            if h : i < subs.length then Res.ok (subs.get ⟨i, h⟩) s1 else Res.null s1
        | .null s1 => Res.null s1
        | .fault => Res.fault
        | .fuel => Res.fuel) :=
  ⟨rfl, rfl, fun c node h => demangleSubstitutionIndex_letter E c node h t subs,
    fun c hc => demangleSubstitutionIndex_other E c t subs hc⟩

/-- C28 at the letter `q` in front of `_`, in the environment of the Swift runtime. -/
theorem demangleSubstitutionIndex_builtin_witness :
    demangleSubstitutionIndex swiftEnv ⟨"q_".toList, []⟩ =
      Res.ok (Node.mk Kind.Enum Payload.none
        [Node.mk Kind.Module (Payload.text "Swift".toList) [],
          Node.mk Kind.Identifier (Payload.text "Optional".toList) []]) ⟨"_".toList, []⟩ :=
  (demangleSubstitutionIndex_builtin swiftEnv "_".toList []).2.2.1 'q' _
    (by simp [builtinSubstitutions, stdlibType, swiftEnv])

theorem demangleEntityOfKind_static (E : Env) (r : Rec) (k : Kind) (s : St) :
    demangleEntityOfKind E r true k s =
      match demangleEntityOfKind E r false k s with
      | .ok entity s1 => Res.ok (Node.mk Kind.Static Payload.none [entity]) s1
      | .null s1 => Res.null s1
      | .fault => Res.fault
      | .fuel => Res.fuel := by
  simp only [demangleEntityOfKind, run_bind, if_true, Bool.false_eq_true, if_false]
  cases r.demangleContext s with
  | ok context s1 =>
    simp only []
    cases demangleEntityName E k s1 with
    | ok n s2 =>
      simp only []
      cases demangleEntityNode r context n s2 <;> rfl
    | null s2 => rfl
    | fault => rfl
    | fuel => rfl
  | null s1 => rfl
  | fault => rfl
  | fuel => rfl

theorem demangleEntity_kind_run (E : Env) (r : Rec) (c : Char) (k : Kind)
    (h : (c, k) ∈ entityKindMarkers) (isStatic : Bool) (t : List Char) (subs : List Node) :
    demangleEntity E r ⟨(if isStatic then ['Z'] else []) ++ c :: t, subs⟩ =
      demangleEntityOfKind E r isStatic k ⟨t, subs⟩ := by
  simp only [entityKindMarkers, List.mem_cons, Prod.mk.injEq, List.mem_singleton,
    List.not_mem_nil, or_false] at h
  rcases h with ⟨rfl, rfl⟩ | ⟨rfl, rfl⟩ | ⟨rfl, rfl⟩ | ⟨rfl, rfl⟩ <;> cases isStatic <;>
  simp [demangleEntity, run_bind, run_nextIf]

/-- C21. After the static flag `Z` and one of the entity kinds `F`, `v`, `I`, `i`,
`demangleEntity` returns `Static[entity]` for the entity that it decodes without the
flag.  After the static flag and any other character, it returns what
`demangleNominalType` returns at that character: the flag is consumed and no `Static`
node is made. -/
theorem demangleEntity_static (E : Env) (r : Rec) (c : Char) (t : List Char)
    (subs : List Node) :
    (∀ k, (c, k) ∈ entityKindMarkers →
      demangleEntity E r ⟨'Z' :: c :: t, subs⟩ =
        match demangleEntity E r ⟨c :: t, subs⟩ with
        | .ok entity s1 => Res.ok (Node.mk Kind.Static Payload.none [entity]) s1
        | .null s1 => Res.null s1
        | .fault => Res.fault
        | .fuel => Res.fuel) ∧
    (c ∉ entityKindMarkers.map Prod.fst →
      demangleEntity E r ⟨'Z' :: c :: t, subs⟩ = demangleNominalType E r ⟨c :: t, subs⟩) := by
  refine ⟨fun k hk => ?_, fun hc => ?_⟩
  · rw [show ('Z' :: c :: t) = (if true then ['Z'] else []) ++ c :: t from rfl,
      demangleEntity_kind_run E r c k hk true,
      show (c :: t) = (if false then ['Z'] else []) ++ c :: t from rfl,
      demangleEntity_kind_run E r c k hk false, demangleEntityOfKind_static]
  · simp only [entityKindMarkers, List.map_cons, List.map_nil, List.mem_cons,
      List.mem_singleton, not_or, List.not_mem_nil, or_false] at hc
    obtain ⟨h1, h2, h3, h4⟩ := hc
    have hs : (⟨c :: t, subs⟩ : St).Mangled = c :: t := rfl
    have hz : nextIf 'Z' ⟨'Z' :: c :: t, subs⟩ = Res.ok true ⟨c :: t, subs⟩ := rfl
    simp only [demangleEntity, run_bind, hz, nextIf_ne hs h1, nextIf_ne hs h2,
      nextIf_ne hs h3, nextIf_ne hs h4, Bool.false_eq_true, if_false]

/-- C21 at the text `ZV3foo3Bar`: the static flag in front of a structure is consumed,
and the structure is returned without a `Static` node; so `demangleTopLevel` returns
`Global[Structure[...]]` on `_TZV3foo3Bar`. -/
theorem demangleEntity_static_witness :
    demangleEntity swiftEnv (tie swiftEnv 2) ⟨"ZV3foo3Bar".toList, []⟩ =
      Res.ok (Node.mk Kind.Structure Payload.none
        [Node.mk Kind.Module (Payload.text "foo".toList) [],
          Node.mk Kind.Identifier (Payload.text "Bar".toList) []])
        ⟨[], [Node.mk Kind.Module (Payload.text "foo".toList) [],
          Node.mk Kind.Structure Payload.none
            [Node.mk Kind.Module (Payload.text "foo".toList) [],
              Node.mk Kind.Identifier (Payload.text "Bar".toList) []]]⟩ ∧
    demangleTopLevel swiftEnv "_TZV3foo3Bar".toList =
      Res.ok (Node.mk Kind.Global Payload.none [Node.mk Kind.Structure Payload.none
        [Node.mk Kind.Module (Payload.text "foo".toList) [],
          Node.mk Kind.Identifier (Payload.text "Bar".toList) []]])
        ⟨[], [Node.mk Kind.Module (Payload.text "foo".toList) [],
          Node.mk Kind.Structure Payload.none
            [Node.mk Kind.Module (Payload.text "foo".toList) [],
              Node.mk Kind.Identifier (Payload.text "Bar".toList) []]]⟩ :=
  ⟨((demangleEntity_static swiftEnv (tie swiftEnv 2) 'V' "3foo3Bar".toList []).2
    (by decide)).trans rfl, rfl⟩

theorem run_demangleFunctionType (r : Rec) (kind : Kind) (throws : Bool) (t : List Char)
    (subs : List Node) (hz : throws = false → t.head? ≠ some 'z') :
    demangleFunctionType r kind ⟨(if throws then ['z'] else []) ++ t, subs⟩ =
      match demangleType r ⟨t, subs⟩ with
      | .ok input s1 =>
          match demangleType r s1 with
          | .ok output s2 => Res.ok (functionTypeNode kind throws input output) s2
          | .null s2 => Res.null s2
          | .fault => Res.fault
          | .fuel => Res.fuel
      | .null s1 => Res.null s1
      | .fault => Res.fault
      | .fuel => Res.fuel := by
  have key : ∀ (s : St) (b : Bool), (do
      let in_args ← demangleType r
      let out_args ← demangleType r
      let block : Node := createNode kind
      let block : Node :=
        if b = true then block.addChild (createNode Kind.ThrowsAnnotation) else block
      let in_node : Node := createNode Kind.ArgumentTuple
      let in_node : Node := in_node.addChild in_args
      let block : Node := block.addChild in_node
      let block : Node := block.addChild (postProcessReturnTypeNode out_args)
      pure block : M Node) s =
      match demangleType r s with
      | .ok input s1 =>
          match demangleType r s1 with
          | .ok output s2 => Res.ok (functionTypeNode kind b input output) s2
          | .null s2 => Res.null s2
          | .fault => Res.fault
          | .fuel => Res.fuel
      | .null s1 => Res.null s1
      | .fault => Res.fault
      | .fuel => Res.fuel := by
    intro s b
    simp only [run_bind]
    cases demangleType r s with
    | ok input s1 =>
      simp only []
      cases demangleType r s1 with
      | ok output s2 => cases b <;> rfl
      | null s2 => rfl
      | fault => rfl
      | fuel => rfl
    | null s1 => rfl
    | fault => rfl
    | fuel => rfl
  rw [← key]
  unfold demangleFunctionType
  cases throws with
  | true => rfl
  | false =>
    have hz1 := hz rfl
    cases t with
    | nil => rfl
    | cons c t1 =>
      have hc : c ≠ 'z' := fun h => hz1 (by rw [h]; rfl)
      have hn : nextIf 'z' ⟨c :: t1, subs⟩ = Res.ok false ⟨c :: t1, subs⟩ := nextIf_ne rfl hc
      simp only [run_bind, run_nonEmpty, Bool.false_eq_true, if_false, List.nil_append,
        List.isEmpty_cons, Bool.not_false, if_true, hn]

theorem demangleTypeImpl_sigil (E : Env) (r : Rec) (sigil : List Char) (kind : Kind)
    (h : (sigil, kind) ∈ functionTypeSigils) (t : List Char) (subs : List Node) :
    demangleTypeImpl E r ⟨sigil ++ t, subs⟩ = demangleFunctionType r kind ⟨t, subs⟩ := by
  simp only [functionTypeSigils, List.mem_cons, Prod.mk.injEq, List.mem_singleton,
    List.not_mem_nil, or_false] at h
  rcases h with ⟨rfl, rfl⟩ | ⟨rfl, rfl⟩ | ⟨rfl, rfl⟩ | ⟨rfl, rfl⟩ | ⟨rfl, rfl⟩ | ⟨rfl, rfl⟩ <;>
  simp [demangleTypeImpl, demangleTypeImplX, run_bind, run_nonEmpty, run_next, run_nextIf]

/-- C24. After one of the sigils `F`, `f`, `b`, `c`, `K`, `Xf` and the optional flag `z`,
when `demangleType` decodes the input type and then the output type, `demangleTypeImpl`
returns the node of the kind of the sigil whose children are the `ThrowsAnnotation`
exactly when the flag was there, then `ArgumentTuple[input]`, then `ReturnType[output]`;
and it returns a node exactly when both types are decoded. -/
theorem demangleTypeImpl_functionType (E : Env) (r : Rec) (sigil : List Char) (kind : Kind)
    (throws : Bool) (t : List Char) (subs : List Node)
    (h : (sigil, kind) ∈ functionTypeSigils)
    (hz : throws = false → t.head? ≠ some 'z') :
    (∀ input s1 output s2, demangleType r ⟨t, subs⟩ = Res.ok input s1 →
      demangleType r s1 = Res.ok output s2 →
      demangleTypeImpl E r ⟨sigil ++ ((if throws then ['z'] else []) ++ t), subs⟩ =
        Res.ok (functionTypeNode kind throws input output) s2) ∧
    ((∃ a s3, demangleTypeImpl E r ⟨sigil ++ ((if throws then ['z'] else []) ++ t), subs⟩ =
        Res.ok a s3) ↔
      ∃ input s1 output s2, demangleType r ⟨t, subs⟩ = Res.ok input s1 ∧
        demangleType r s1 = Res.ok output s2) := by
  rw [demangleTypeImpl_sigil E r sigil kind h, run_demangleFunctionType r kind throws t subs hz]
  refine ⟨fun input s1 output s2 h1 h2 => by rw [h1]; simp only []; rw [h2], ?_, ?_⟩
  · rintro ⟨a, s3, ha⟩
    cases h1 : demangleType r ⟨t, subs⟩ with
    | ok input s1 =>
      rw [h1] at ha
      simp only [] at ha
      cases h2 : demangleType r s1 with
      | ok output s2 => exact ⟨input, s1, output, s2, rfl, h2⟩
      | null s2 => rw [h2] at ha; cases ha
      | fault => rw [h2] at ha; cases ha
      | fuel => rw [h2] at ha; cases ha
    | null s1 => rw [h1] at ha; cases ha
    | fault => rw [h1] at ha; cases ha
    | fuel => rw [h1] at ha; cases ha
  · rintro ⟨input, s1, output, s2, h1, h2⟩
    rw [h1]
    simp only []
    rw [h2]
    exact ⟨_, _, rfl⟩

/-- C24 at the text `XfzSiSi`: a thin function type that throws, from `Int` to `Int`. -/
theorem demangleTypeImpl_functionType_witness :
    demangleTypeImpl swiftEnv (tie swiftEnv 2) ⟨"XfzSiSi".toList, []⟩ =
      Res.ok (functionTypeNode Kind.ThinFunctionType true
        (Node.mk Kind.Type_ Payload.none [stdlibType swiftEnv Kind.Structure "Int"])
        (Node.mk Kind.Type_ Payload.none [stdlibType swiftEnv Kind.Structure "Int"]))
        ⟨[], []⟩ :=
  (demangleTypeImpl_functionType swiftEnv (tie swiftEnv 2) "Xf".toList Kind.ThinFunctionType
    true "SiSi".toList [] (by simp [functionTypeSigils]) (fun h => by cases h)).1
    _ ⟨"Si".toList, []⟩ _ ⟨[], []⟩ rfl rfl

theorem demangleEntityName_accessor (E : Env) (entityBasicKind : Kind) (tag : List Char)
    (k : Kind) (h : (tag, k) ∈ accessorTags) (t : List Char) (subs : List Node) :
    demangleEntityName E entityBasicKind ⟨tag ++ t, subs⟩ =
      demangleAccessorName E k ⟨t, subs⟩ := by
  have key : ∀ p ∈ accessorTags, demangleEntityName E entityBasicKind ⟨p.1 ++ t, subs⟩ =
      demangleAccessorName E p.2 ⟨t, subs⟩ := by
    simp [accessorTags, demangleEntityName, run_bind, run_nextIf]
  exact key (tag, k) h

theorem rewriteSubscriptName_run (name : Node) (s : St) :
    rewriteSubscriptName name s =
      if isSubscriptIdentifier name then Res.ok (true, Option.none) s
      else
        match privateSubscriptDiscriminator name with
        | some discriminator =>
            Res.ok (true, some (Node.mk Kind.PrivateDeclName Payload.none [discriminator])) s
        | Option.none => Res.ok (false, some name) s := by
  obtain ⟨kind, payload, children⟩ := name
  unfold rewriteSubscriptName isSubscriptIdentifier privateSubscriptDiscriminator
  simp only [Node.getKind, Node.getNumChildren, Node.getChildren]
  by_cases h1 : kind = Kind.Identifier
  · subst h1
    by_cases h2 : (Node.mk Kind.Identifier payload children).getText = "subscript".toList
    · simp only [h2, if_true, decide_True, Bool.and_self]
      rfl
    · simp only [h2, if_true, if_false, decide_True, decide_False, Bool.and_false,
        Bool.false_eq_true]
      rfl
  · rw [if_neg h1]
    have h1d : decide (kind = Kind.Identifier) = false := decide_eq_false h1
    simp only [h1d, Bool.false_and, Bool.false_eq_true, if_false]
    by_cases h3 : kind = Kind.PrivateDeclName
    · subst h3
      simp only [if_true]
      match children with
      | [] => rfl
      | [_] => rfl
      | discriminator :: second :: rest =>
        have hlen : (discriminator :: second :: rest).length > 1 := by simp
        have hc1 : ∀ s0 : St, getChild (Node.mk Kind.PrivateDeclName payload
            (discriminator :: second :: rest)) 1 s0 = Res.ok second s0 := fun _ => rfl
        simp only [hlen, if_true, run_bind, hc1]
        by_cases h4 : second.getText = "subscript".toList
        · simp only [h4, if_true]
          rfl
        · simp only [h4, if_false]
          rfl
    · simp only [if_neg h3]
      rfl

theorem demangleEntityNode_accessor (r : Rec) (k : Kind) (context name type : Node)
    (s2 s3 : St) (htype : demangleType r s2 = Res.ok type s3) :
    demangleEntityNode r context ⟨k, true, true, some name⟩ s2 =
      Res.ok (accessorNode k context name type) s3 := by
  unfold demangleEntityNode accessorNode
  simp only [if_true, run_bind, rewriteSubscriptName_run]
  by_cases h1 : isSubscriptIdentifier name = true
  · simp only [h1, if_true, htype]
    rfl
  · simp only [h1, if_false, Bool.false_eq_true]
    cases h2 : privateSubscriptDiscriminator name with
    | none =>
      simp only [h2, htype]
      rfl
    | some discriminator =>
      simp only [h2, htype]
      rfl

/-- C22. For an entity of one of the kinds `F`, `v`, `I`, `i` whose entity-name tag is
one of the sixteen accessor tags, when the context, the name and the type are decoded,
`demangleEntity` returns the accessor node around `Variable[context, name, type]`; around
`Subscript[context, type]` when the name is the `Identifier` with the text `subscript`;
and around `Subscript[context, type, PrivateDeclName[discriminator]]` when the name is a
`PrivateDeclName` whose second child has the text `subscript`.  With the static flag the
accessor node is the child of a `Static` node. -/
theorem demangleEntity_accessor (E : Env) (r : Rec) (isStatic : Bool) (c : Char)
    (entityBasicKind : Kind) (tag : List Char) (k : Kind) (t t1 : List Char)
    (subs : List Node) (context name type : Node) (s1 s2 s3 : St)
    (hc : (c, entityBasicKind) ∈ entityKindMarkers) (ht : (tag, k) ∈ accessorTags)
    (hcontext : r.demangleContext ⟨t, subs⟩ = Res.ok context s1)
    (htag : s1.Mangled = tag ++ t1)
    (hname : demangleDeclName E ⟨t1, s1.Substitutions⟩ = Res.ok name s2)
    (htype : demangleType r s2 = Res.ok type s3) :
    demangleEntity E r ⟨(if isStatic then ['Z'] else []) ++ c :: t, subs⟩ =
      Res.ok (if isStatic then
          Node.mk Kind.Static Payload.none [accessorNode k context name type]
        else accessorNode k context name type) s3 := by
  have hplain : demangleEntityOfKind E r false entityBasicKind ⟨t, subs⟩ =
      Res.ok (accessorNode k context name type) s3 := by
    obtain ⟨m1, u1⟩ := s1
    simp only at htag hname
    subst htag
    unfold demangleEntityOfKind
    rw [bind_ok hcontext, run_bind, demangleEntityName_accessor E entityBasicKind tag k ht]
    unfold demangleAccessorName
    rw [bind_ok hname]
    simp only [run_bind, run_pure, demangleEntityNode_accessor r k context name type s2 s3 htype]
    rfl
  rw [demangleEntity_kind_run E r c entityBasicKind hc]
  cases isStatic with
  | false => simpa using hplain
  | true => rw [demangleEntityOfKind_static, hplain]; rfl

/-- C22 at the getters of `baz`, of `subscript` and of a private `subscript` (the last
one static) in the structure `foo.Bar`. -/
theorem demangleEntity_accessor_witness :
    (demangleEntity swiftEnv (tie swiftEnv 3) ⟨"FV3foo3Barg3bazSi".toList, []⟩ =
      Res.ok (Node.mk Kind.Getter Payload.none [Node.mk Kind.Variable Payload.none
        [Node.mk Kind.Structure Payload.none
            [Node.mk Kind.Module (Payload.text "foo".toList) [],
              Node.mk Kind.Identifier (Payload.text "Bar".toList) []],
          Node.mk Kind.Identifier (Payload.text "baz".toList) [],
          Node.mk Kind.Type_ Payload.none [stdlibType swiftEnv Kind.Structure "Int"]]])
        ⟨[], [Node.mk Kind.Module (Payload.text "foo".toList) [],
          Node.mk Kind.Structure Payload.none
            [Node.mk Kind.Module (Payload.text "foo".toList) [],
              Node.mk Kind.Identifier (Payload.text "Bar".toList) []]]⟩) ∧
    (demangleEntity swiftEnv (tie swiftEnv 3) ⟨"FV3foo3Barg9subscriptSi".toList, []⟩ =
      Res.ok (Node.mk Kind.Getter Payload.none [Node.mk Kind.Subscript Payload.none
        [Node.mk Kind.Structure Payload.none
            [Node.mk Kind.Module (Payload.text "foo".toList) [],
              Node.mk Kind.Identifier (Payload.text "Bar".toList) []],
          Node.mk Kind.Type_ Payload.none [stdlibType swiftEnv Kind.Structure "Int"]]])
        ⟨[], [Node.mk Kind.Module (Payload.text "foo".toList) [],
          Node.mk Kind.Structure Payload.none
            [Node.mk Kind.Module (Payload.text "foo".toList) [],
              Node.mk Kind.Identifier (Payload.text "Bar".toList) []]]⟩) ∧
    (demangleEntity swiftEnv (tie swiftEnv 3) ⟨"ZFV3foo3BargP3abc9subscriptSi".toList, []⟩ =
      Res.ok (Node.mk Kind.Static Payload.none [Node.mk Kind.Getter Payload.none
        [Node.mk Kind.Subscript Payload.none
          [Node.mk Kind.Structure Payload.none
              [Node.mk Kind.Module (Payload.text "foo".toList) [],
                Node.mk Kind.Identifier (Payload.text "Bar".toList) []],
            Node.mk Kind.Type_ Payload.none [stdlibType swiftEnv Kind.Structure "Int"],
            Node.mk Kind.PrivateDeclName Payload.none
              [Node.mk Kind.Identifier (Payload.text "abc".toList) []]]]])
        ⟨[], [Node.mk Kind.Module (Payload.text "foo".toList) [],
          Node.mk Kind.Structure Payload.none
            [Node.mk Kind.Module (Payload.text "foo".toList) [],
              Node.mk Kind.Identifier (Payload.text "Bar".toList) []]]⟩) :=
  ⟨demangleEntity_accessor swiftEnv (tie swiftEnv 3) false 'F' Kind.Function "g".toList
      Kind.Getter "V3foo3Barg3bazSi".toList "3bazSi".toList [] _ _ _
      ⟨"g3bazSi".toList, _⟩ ⟨"Si".toList, _⟩ _ (by simp [entityKindMarkers])
      (by simp [accessorTags]) rfl rfl rfl rfl,
    demangleEntity_accessor swiftEnv (tie swiftEnv 3) false 'F' Kind.Function "g".toList
      Kind.Getter "V3foo3Barg9subscriptSi".toList "9subscriptSi".toList [] _ _ _
      ⟨"g9subscriptSi".toList, _⟩ ⟨"Si".toList, _⟩ _ (by simp [entityKindMarkers])
      (by simp [accessorTags]) rfl rfl rfl rfl,
    demangleEntity_accessor swiftEnv (tie swiftEnv 3) true 'F' Kind.Function "g".toList
      Kind.Getter "V3foo3BargP3abc9subscriptSi".toList "P3abc9subscriptSi".toList [] _ _ _
      ⟨"gP3abc9subscriptSi".toList, _⟩ ⟨"Si".toList, _⟩ _ (by simp [entityKindMarkers])
      (by simp [accessorTags]) rfl rfl rfl rfl⟩

theorem nextIf_split (c : Char) (t : List Char) (subs : List Node) :
    ∃ b t1, nextIf c ⟨t, subs⟩ = Res.ok b ⟨t1, subs⟩ ∧ t = (if b then [c] else []) ++ t1 ∧
      (b = false → t1.head? ≠ some c) := by
  rw [run_nextIf]
  by_cases h : t.head? = some c
  · refine ⟨true, t.tail, by simp [h], ?_, fun hb => by cases hb⟩
    cases t with
    | nil => cases h
    | cons x t1 =>
      simp only [List.head?_cons, Option.some.injEq] at h
      subst h
      rfl
  · exact ⟨false, t, by simp [h], rfl, fun _ => h⟩

theorem lor_eq_zero {x y : Nat} (h : x ||| y = 0) : x = 0 ∧ y = 0 := by
  have hb : ∀ i, x.testBit i = false ∧ y.testBit i = false := by
    intro i
    have hi : (x ||| y).testBit i = false := by rw [h]; exact Nat.zero_testBit i
    rw [Nat.testBit_or] at hi
    exact Bool.or_eq_false_iff.mp hi
  exact ⟨Nat.eq_of_testBit_eq (fun i => by rw [(hb i).1, Nat.zero_testBit]),
    Nat.eq_of_testBit_eq (fun i => by rw [(hb i).2, Nat.zero_testBit])⟩

theorem optionValue_ne_zero (E : Env) (d g o s : Bool)
    (hflags : E.Dead % unsignedMod ≠ 0 ∧ E.OwnedToGuaranteed % unsignedMod ≠ 0 ∧
      E.GuaranteedToOwned % unsignedMod ≠ 0 ∧ E.SROA % unsignedMod ≠ 0)
    (hsel : (d || g || o || s) = true) : optionValue E d g o s ≠ 0 := by
  obtain ⟨h1, h2, h3, h4⟩ := hflags
  unfold optionValue
  intro h0
  obtain ⟨h01, e4⟩ := lor_eq_zero h0
  obtain ⟨h02, e3⟩ := lor_eq_zero h01
  obtain ⟨e1, e2⟩ := lor_eq_zero h02
  cases d <;> cases g <;> cases o <;> cases s <;> simp_all

theorem demangleFunctionSignatureSpecializationOptions_run (E : Env) (param : Node)
    (d g o s : Bool) (rest : List Char) (subs : List Node)
    (hv : optionValue E d g o s ≠ 0) :
    demangleFunctionSignatureSpecializationOptions E param
        ⟨optionLetters d g o s ++ '_' :: rest, subs⟩ =
      Res.ok (param.addChild (createNodeIndex Kind.FunctionSignatureSpecializationParamKind
        (optionValue E d g o s))) ⟨rest, subs⟩ := by
  unfold optionValue at hv
  cases d <;> cases g <;> cases o <;> cases s <;>
  simp [demangleFunctionSignatureSpecializationOptions, run_bind, run_nextIf, optionLetters,
    optionValue] at hv ⊢ <;> simp [hv]

theorem demangleFunctionSignatureSpecializationOptions_shape (E : Env) (param : Node)
    (t : List Char) (subs : List Node) (a : Node) (s1 : St)
    (h : demangleFunctionSignatureSpecializationOptions E param ⟨t, subs⟩ = Res.ok a s1) :
    ∃ d g o s rest, (d || g || o || s) = true ∧ t = optionLetters d g o s ++ '_' :: rest := by
  obtain ⟨d, t1, hd, ht1, -⟩ := nextIf_split 'd' t subs
  obtain ⟨g, t2, hg, ht2, -⟩ := nextIf_split 'g' t1 subs
  obtain ⟨o, t3, ho, ht3, -⟩ := nextIf_split 'o' t2 subs
  obtain ⟨s, t4, hs, ht4, -⟩ := nextIf_split 's' t3 subs
  obtain ⟨u, t5, hu, ht5, -⟩ := nextIf_split '_' t4 subs
  unfold demangleFunctionSignatureSpecializationOptions at h
  simp only [run_bind, hd, hg, ho, hs, hu] at h
  cases u with
  | false => cases h
  | true =>
    refine ⟨d, g, o, s, t5, ?_, ?_⟩
    · cases d <;> cases g <;> cases o <;> cases s <;> first | rfl | (exfalso; cases h)
    · rw [ht1, ht2, ht3, ht4, ht5]
      simp [optionLetters]

theorem demangleFunctionSignatureSpecializationRound_options (E : Env) (r : Rec)
    (p : Node × Nat) (t : List Char) (subs : List Node)
    (h0 : t.head? ≠ some '_') (h1 : ¬ "n_".toList <+: t) (h2 : ¬ "cp".toList <+: t)
    (h3 : ¬ "cl".toList <+: t) (h4 : ¬ "i_".toList <+: t) (h5 : ¬ "k_".toList <+: t) :
    demangleFunctionSignatureSpecializationRound E r p ⟨t, subs⟩ =
      match demangleFunctionSignatureSpecializationOptions E
          (createNodeIndex Kind.FunctionSignatureSpecializationParam p.2) ⟨t, subs⟩ with
      | .ok param s1 => Res.ok (Iter.again (p.1.addChild param, (p.2 + 1) % unsignedMod)) s1
      | .null s1 => Res.null s1
      | .fault => Res.fault
      | .fuel => Res.fuel := by
  have e0 : nextIf '_' ⟨t, subs⟩ = Res.ok false ⟨t, subs⟩ := by
    rw [run_nextIf, if_neg h0]
  have hs : (⟨t, subs⟩ : St).Mangled = t := rfl
  unfold demangleFunctionSignatureSpecializationRound
  simp only [run_bind, e0, Bool.false_eq_true, if_false,
    nextIfStr_false (hs.symm ▸ h1), nextIfStr_false (hs.symm ▸ h2),
    nextIfStr_false (hs.symm ▸ h3), nextIfStr_false (hs.symm ▸ h4),
    nextIfStr_false (hs.symm ▸ h5)]
  cases demangleFunctionSignatureSpecializationOptions E
    (createNodeIndex Kind.FunctionSignatureSpecializationParam p.2) ⟨t, subs⟩ <;> rfl

/-- C27. When the flags `Dead`, `OwnedToGuaranteed`, `GuaranteedToOwned` and `SROA` are not
zero as `unsigned` values: a parameter that starts with none of `_`, `n_`, `cp`, `cl`,
`i_`, `k_` is decoded as an option set; an option set is accepted exactly when the text is
a selection of the letters `d`, `g`, `o`, `s`, in that order and not empty, followed by
`_`; and the parameter then gets one `FunctionSignatureSpecializationParamKind` child with
the bitwise OR of the flags of the letters that are present. -/
theorem demangleFunctionSignatureSpecialization_options (E : Env) (r : Rec) (param : Node)
    (t : List Char) (subs : List Node)
    (hflags : E.Dead % unsignedMod ≠ 0 ∧ E.OwnedToGuaranteed % unsignedMod ≠ 0 ∧
      E.GuaranteedToOwned % unsignedMod ≠ 0 ∧ E.SROA % unsignedMod ≠ 0) :
    (∀ p : Node × Nat, t.head? ≠ some '_' → ¬ "n_".toList <+: t → ¬ "cp".toList <+: t →
      ¬ "cl".toList <+: t → ¬ "i_".toList <+: t → ¬ "k_".toList <+: t →
      demangleFunctionSignatureSpecializationRound E r p ⟨t, subs⟩ =
        match demangleFunctionSignatureSpecializationOptions E
            (createNodeIndex Kind.FunctionSignatureSpecializationParam p.2) ⟨t, subs⟩ with
        | .ok param s1 =>
            Res.ok (Iter.again (p.1.addChild param, (p.2 + 1) % unsignedMod)) s1
        | .null s1 => Res.null s1
        | .fault => Res.fault
        | .fuel => Res.fuel) ∧
    ((∃ a s1, demangleFunctionSignatureSpecializationOptions E param ⟨t, subs⟩ =
        Res.ok a s1) ↔
      ∃ d g o s rest, (d || g || o || s) = true ∧
        t = optionLetters d g o s ++ '_' :: rest) ∧
    (∀ d g o s rest, (d || g || o || s) = true → t = optionLetters d g o s ++ '_' :: rest →
      demangleFunctionSignatureSpecializationOptions E param ⟨t, subs⟩ =
        Res.ok (Node.mk param.getKind param.getPayload (param.getChildren ++
          [Node.mk Kind.FunctionSignatureSpecializationParamKind
            (Payload.index (optionValue E d g o s)) []])) ⟨rest, subs⟩) := by
  have run : ∀ d g o s rest, (d || g || o || s) = true →
      t = optionLetters d g o s ++ '_' :: rest →
      demangleFunctionSignatureSpecializationOptions E param ⟨t, subs⟩ =
        Res.ok (Node.mk param.getKind param.getPayload (param.getChildren ++
          [Node.mk Kind.FunctionSignatureSpecializationParamKind
            (Payload.index (optionValue E d g o s)) []])) ⟨rest, subs⟩ := by
    intro d g o s rest hsel ht
    rw [ht, demangleFunctionSignatureSpecializationOptions_run E param d g o s rest subs
      (optionValue_ne_zero E d g o s hflags hsel)]
    obtain ⟨k, pl, cs⟩ := param
    rfl
  refine ⟨fun p h0 h1 h2 h3 h4 h5 =>
    demangleFunctionSignatureSpecializationRound_options E r p t subs h0 h1 h2 h3 h4 h5,
    ⟨?_, ?_⟩, run⟩
  · rintro ⟨a, s1, h⟩
    exact demangleFunctionSignatureSpecializationOptions_shape E param t subs a s1 h
  · rintro ⟨d, g, o, s, rest, hsel, ht⟩
    exact ⟨_, _, run d g o s rest hsel ht⟩

/-- C27 at the text `dg_x` in the environment of the Swift runtime: the flags are 64
and 128, and the child carries 192. -/
theorem demangleFunctionSignatureSpecialization_options_witness :
    demangleFunctionSignatureSpecializationOptions swiftEnv
        (createNodeIndex Kind.FunctionSignatureSpecializationParam 0) ⟨"dg_x".toList, []⟩ =
      Res.ok (Node.mk Kind.FunctionSignatureSpecializationParam (Payload.index 0)
        [Node.mk Kind.FunctionSignatureSpecializationParamKind (Payload.index 192) []])
        ⟨"x".toList, []⟩ :=
  (demangleFunctionSignatureSpecialization_options swiftEnv (tie swiftEnv 0)
    (createNodeIndex Kind.FunctionSignatureSpecializationParam 0) "dg_x".toList []
    (by decide)).2.2 true true false false "x".toList rfl rfl

theorem demangleImplResultsRound_result (E : Env) (n : Nat) (parent : Node)
    (isError : Bool) (t : List Char) (subs : List Node) :
    demangleImplResultsRound (tie E (n + 1)) parent ⟨implResultText isError ++ t, subs⟩ =
      Res.ok (Iter.again (parent.addChild (implResultNode E isError))) ⟨t, subs⟩ := by
  cases isError <;> rfl

theorem demangleImplResultsRound_end (r : Rec) (parent : Node) (t : List Char)
    (subs : List Node) :
    demangleImplResultsRound r parent ⟨'_' :: t, subs⟩ = Res.ok (Iter.done parent) ⟨t, subs⟩ :=
  rfl

theorem demangleImplResults_loop (E : Env) (n : Nat) (rest : List Char) (subs : List Node) :
    ∀ (results : List Bool) (m : Nat) (parent : Node), results.length < m →
      (tie E m).loop (demangleImplResultsRound (tie E (n + 1))) parent
          ⟨results.flatMap implResultText ++ '_' :: rest, subs⟩ =
        Res.ok (Node.mk parent.getKind parent.getPayload
          (parent.getChildren ++ results.map (implResultNode E))) ⟨rest, subs⟩ := by
  intro results
  induction results with
  | nil =>
    intro m parent hm
    obtain ⟨j, rfl⟩ : ∃ j, m = j + 1 := ⟨m - 1, by simp at hm; omega⟩
    obtain ⟨k, pl, cs⟩ := parent
    rw [tie_loop]
    simp only [List.flatMap_nil, List.nil_append, run_bind, demangleImplResultsRound_end,
      List.map_nil, List.append_nil, Node.getKind, Node.getPayload, Node.getChildren]
    rfl
  | cons z results ih =>
    intro m parent hm
    obtain ⟨j, rfl⟩ : ∃ j, m = j + 1 := ⟨m - 1, by simp at hm; omega⟩
    have hj : results.length < j := by simpa using hm
    rw [tie_loop]
    simp only [List.flatMap_cons, List.append_assoc, run_bind,
      demangleImplResultsRound_result]
    rw [ih j _ hj]
    obtain ⟨k, pl, cs⟩ := parent
    simp [Node.addChild, Node.getKind, Node.getPayload, Node.getChildren]

/-- C26, as the claim states it, fails: the text `_TtXFo__zdSizdSi_` is decoded, and the
`ImplFunctionType` in its tree has two `ImplErrorResult` children. -/
theorem demangleImplFunctionType_two_error_results :
    demangleTopLevel swiftEnv "_TtXFo__zdSizdSi_".toList =
      Res.ok (Node.mk Kind.Global Payload.none [Node.mk Kind.TypeMangling Payload.none
        [Node.mk Kind.Type_ Payload.none [Node.mk Kind.ImplFunctionType Payload.none
          [Node.mk Kind.ImplConvention (Payload.text "@callee_owned".toList) [],
            Node.mk Kind.ImplErrorResult Payload.none
              [Node.mk Kind.ImplConvention (Payload.text "@unowned".toList) [],
                Node.mk Kind.Type_ Payload.none [stdlibType swiftEnv Kind.Structure "Int"]],
            Node.mk Kind.ImplErrorResult Payload.none
              [Node.mk Kind.ImplConvention (Payload.text "@unowned".toList) [],
                Node.mk Kind.Type_ Payload.none
                  [stdlibType swiftEnv Kind.Structure "Int"]]]]]]) ⟨[], []⟩ :=
  rfl

/-- For every list `results` of results with the convention `d` and the type `Si`, each one
with or without the sigil `z`, `demangleImplFunctionType` decodes the text with the callee
convention `o`, no parameter and these results to the node with one `ImplResult` or
`ImplErrorResult` child for each result, in their order, and as many `ImplErrorResult`
children as there are sigils `z`. -/
theorem demangleImplFunctionType_result_texts (E : Env) (n : Nat) (results : List Bool)
    (rest : List Char) (subs : List Node) (hn : results.length ≤ n) :
    demangleImplFunctionType E (tie E (n + 1))
        ⟨"o__".toList ++ (results.flatMap implResultText ++ '_' :: rest), subs⟩ =
      Res.ok (Node.mk Kind.ImplFunctionType Payload.none
        (Node.mk Kind.ImplConvention (Payload.text "@callee_owned".toList) [] ::
          results.map (implResultNode E))) ⟨rest, subs⟩ ∧
    ((results.map (implResultNode E)).filter
      (fun c => decide (c.getKind = Kind.ImplErrorResult))).length = results.count true := by
  constructor
  · have h1 : ∀ (t : List Char),
        demangleImplFunctionType E (tie E (n + 1)) ⟨"o__".toList ++ t, subs⟩ =
          demangleImplResults (tie E (n + 1)) (Node.mk Kind.ImplFunctionType Payload.none
            [Node.mk Kind.ImplConvention (Payload.text "@callee_owned".toList) []])
            ⟨t, subs⟩ := by
      intro t
      have hp : ∀ parent : Node, demangleImplParameters (tie E (n + 1)) parent
          ⟨'_' :: t, subs⟩ = Res.ok parent ⟨t, subs⟩ := fun _ => rfl
      have hc : demangleImplCalleeConvention (createNode Kind.ImplFunctionType)
          ⟨"o__".toList ++ t, subs⟩ =
          Res.ok (Node.mk Kind.ImplFunctionType Payload.none
            [Node.mk Kind.ImplConvention (Payload.text "@callee_owned".toList) []])
            ⟨'_' :: '_' :: t, subs⟩ := rfl
      have h1 : ∀ c : Char, c ≠ '_' → nextIf c ⟨'_' :: '_' :: t, subs⟩ =
          Res.ok false ⟨'_' :: '_' :: t, subs⟩ := fun c hc => nextIf_ne rfl (Ne.symm hc)
      have h2 : nextIf '_' ⟨'_' :: '_' :: t, subs⟩ = Res.ok true ⟨'_' :: t, subs⟩ := rfl
      unfold demangleImplFunctionType
      simp only [run_bind, hc, h1 'C' (by decide), h1 'G' (by decide), h1 'g' (by decide),
        h2, Bool.false_eq_true, if_false, run_pure, Bool.not_true, hp]
      cases demangleImplResults (tie E (n + 1)) (Node.mk Kind.ImplFunctionType Payload.none
          [Node.mk Kind.ImplConvention (Payload.text "@callee_owned".toList) []])
        ⟨t, subs⟩ <;> rfl
    rw [h1]
    unfold demangleImplResults
    rw [demangleImplResults_loop E n rest subs results (n + 1) _ (by omega)]
    rfl
  · induction results with
    | nil => rfl
    | cons z results ih =>
      have ih1 := ih (by simp at hn; omega)
      cases z with
      | true =>
        simp only [List.map_cons, List.count_cons_self]
        rw [List.filter_cons_of_pos (by rfl), List.length_cons, ih1]
      | false =>
        simp only [List.map_cons]
        rw [List.filter_cons_of_neg (by simp [implResultNode, Node.getKind]), ih1]
        simp

theorem isDigit_ne {d c : Char} (hd : isDigit d = true) (hc : isDigit c = false) : d ≠ c := by
  intro h
  rw [h, hc] at hd
  cases hd

theorem demangleIndex_text (digits t : List Char) (subs : List Node)
    (hall : ∀ c ∈ digits, isDigit c = true) :
    demangleIndex ⟨digits ++ '_' :: t, subs⟩ = Res.ok (indexValue digits) ⟨t, subs⟩ := by
  rw [run_demangleIndex]
  cases digits with
  | nil => rfl
  | cons d ds =>
    have hd : d ≠ '_' := isDigit_ne (hall d (by simp)) (by decide)
    have hh : (⟨(d :: ds) ++ '_' :: t, subs⟩ : St).Mangled.head? ≠ some '_' := by
      simpa using hd
    rw [if_neg hh, demangleNatural_digits (d :: ds) ('_' :: t) subs (by simp) hall
      (by intro c hc; simp at hc; subst hc; decide)]
    simp [indexValue]

theorem demangleGenericSignatureCountRound_count (p : Node × Nat)
    (x : Option (List Char)) (t : List Char) (subs : List Node)
    (hall : ∀ digits, x = some digits → ∀ c ∈ digits, isDigit c = true) :
    demangleGenericSignatureCountRound p ⟨countText x ++ t, subs⟩ =
      Res.ok (Iter.again (addCount p.1 (countValue x), countValue x)) ⟨t, subs⟩ := by
  cases x with
  | none => rfl
  | some digits =>
    have hall1 := hall digits rfl
    obtain ⟨c, u, hcu, hR, hr, hz⟩ : ∃ c u, digits ++ '_' :: t = c :: u ∧ c ≠ 'R' ∧ c ≠ 'r' ∧
        c ≠ 'z' := by
      cases digits with
      | nil => exact ⟨'_', t, rfl, by decide, by decide, by decide⟩
      | cons d ds =>
        have hd := hall1 d (by simp)
        exact ⟨d, ds ++ '_' :: t, rfl, isDigit_ne hd (by decide), isDigit_ne hd (by decide),
          isDigit_ne hd (by decide)⟩
    have hi := demangleIndex_text digits t subs hall1
    simp only [countText, List.append_assoc, List.singleton_append, List.cons_append,
      List.nil_append]
    rw [hcu] at hi ⊢
    have hn : nextIf 'z' ⟨c :: u, subs⟩ = Res.ok false ⟨c :: u, subs⟩ := nextIf_ne rfl hz
    unfold demangleGenericSignatureCountRound
    simp only [run_bind, run_peek, List.headD_cons, ne_eq, hR, hr, not_false_eq_true,
      and_self, if_true, hn, Bool.false_eq_true, if_false, hi]
    rfl

theorem demangleGenericSignatureCountRound_end (p : Node × Nat) (t : List Char)
    (subs : List Node) (h : t.head? = some 'r' ∨ t.head? = some 'R') :
    demangleGenericSignatureCountRound p ⟨t, subs⟩ = Res.ok (Iter.done p) ⟨t, subs⟩ := by
  cases t with
  | nil => simp at h
  | cons c u =>
    simp only [List.head?_cons, Option.some.injEq] at h
    unfold demangleGenericSignatureCountRound
    rcases h with rfl | rfl <;> rfl

theorem demangleGenericSignature_countLoop (E : Env) (rest : List Char) (subs : List Node)
    (hrest : rest.head? = some 'r' ∨ rest.head? = some 'R') :
    ∀ (counts : List (Option (List Char))) (m : Nat) (sig : Node) (count : Nat),
      counts.length < m →
      (∀ digits, some digits ∈ counts → ∀ c ∈ digits, isDigit c = true) →
      (tie E m).loop demangleGenericSignatureCountRound (sig, count)
          ⟨counts.flatMap countText ++ rest, subs⟩ =
        Res.ok (Node.mk sig.getKind sig.getPayload (sig.getChildren ++
            counts.map (fun x => Node.mk Kind.DependentGenericParamCount
              (Payload.index (countValue x)) [])),
          (counts.map countValue).getLastD count) ⟨rest, subs⟩ := by
  intro counts
  induction counts with
  | nil =>
    intro m sig count hm _
    obtain ⟨j, rfl⟩ : ∃ j, m = j + 1 := ⟨m - 1, by simp at hm; omega⟩
    obtain ⟨k, pl, cs⟩ := sig
    rw [tie_loop]
    simp only [List.flatMap_nil, List.nil_append, run_bind,
      demangleGenericSignatureCountRound_end _ rest subs hrest,
      List.map_nil, List.append_nil, Node.getKind, Node.getPayload, Node.getChildren]
    rfl
  | cons x counts ih =>
    intro m sig count hm hall
    obtain ⟨j, rfl⟩ : ∃ j, m = j + 1 := ⟨m - 1, by simp at hm; omega⟩
    have hj : counts.length < j := by simpa using hm
    rw [tie_loop]
    simp only [List.flatMap_cons, List.append_assoc, run_bind]
    rw [demangleGenericSignatureCountRound_count _ x _ subs
      (fun digits hx c hc => hall digits (by rw [hx]; simp) c hc)]
    simp only []
    rw [ih j _ _ hj (fun digits hx c hc => hall digits (List.mem_cons_of_mem _ hx) c hc)]
    obtain ⟨k, pl, cs⟩ := sig
    simp only [addCount, createNodeIndex, Node.addChild, Node.getKind, Node.getPayload,
      Node.getChildren, List.map_cons, List.getLastD_cons, List.append_assoc,
      List.singleton_append]

theorem demangleGenericRequirement_kind (E : Env) (r : Rec) (s : St) :
    Ret (demangleGenericRequirement E r) s
      (fun a _ => a.getKind ≠ Kind.DependentGenericParamCount) := by
  unfold demangleGenericRequirement
  refine ret_bind ret_any (fun constrainedType s1 _ => ?_)
  apply ret_ite_nextIf
  · refine ret_bind ret_any (fun second s2 _ => ret_done ?_)
    simp [createNode, Node.addChild, Node.getKind]
  apply ret_ite_nextIf
  · refine ret_bind ret_any (fun x s2 _ => ?_)
    obtain ⟨name, size, alignment⟩ := x
    simp only []
    have hk : ∀ n : Node, n.getKind = Kind.DependentGenericLayoutRequirement →
        n.getKind ≠ Kind.DependentGenericParamCount := fun n h => by rw [h]; decide
    refine ret_ite (fun _ => ret_ite (fun _ => ret_done ?_) (fun _ => ret_done ?_))
      (fun _ => ret_done ?_) <;>
    simp [createNode, Node.addChild, Node.getKind]
  apply ret_ite_not_nonEmpty
  refine ret_bind ret_any (fun next s2 _ => ?_)
  simp only []
  have tail : ∀ (c : Node) (s : St), Ret (pure (((createNode
      Kind.DependentGenericConformanceRequirement).addChild constrainedType).addChild c) :
        M Node) s (fun a _ => a.getKind ≠ Kind.DependentGenericParamCount) :=
    fun c s => ret_done (by simp [createNode, Node.addChild, Node.getKind])
  repeat' first
    | exact tail _ _
    | exact ret_failed
    | with_reducible apply ret_ite
    | with_reducible apply ret_bind ret_any
    | intro _

theorem demangleGenericSignature_run (E : Env) (m : Nat) (isPseudogeneric : Bool)
    (counts : List (Option (List Char))) (rest : List Char) (subs : List Node)
    (hfuel : counts.length < m)
    (hall : ∀ digits, some digits ∈ counts → ∀ c ∈ digits, isDigit c = true)
    (hrest : rest.head? = some 'r' ∨ rest.head? = some 'R')
    (hlast : (counts.map countValue).getLast? ≠ some (indexMod - 1)) :
    demangleGenericSignature E (tie E m) isPseudogeneric
        ⟨counts.flatMap countText ++ rest, subs⟩ =
      (do
        if (← nextIf 'r') then
          pure (Node.mk (signatureKind isPseudogeneric) Payload.none (countChildren counts))
        else if !(← nextIf 'R') then
          fail
        else
          (tie E m).loop (demangleGenericSignatureRequirementRound E (tie E m))
            (Node.mk (signatureKind isPseudogeneric) Payload.none (countChildren counts)) :
        M Node) ⟨rest, subs⟩ := by
  unfold demangleGenericSignature
  rw [bind_ok (demangleGenericSignature_countLoop E rest subs hrest counts m _ _ hfuel hall)]
  have hsig : (if (counts.map countValue).getLastD (indexMod - 1) = indexMod - 1 then
      addCount (Node.mk (createNode (if isPseudogeneric = true then
          Kind.DependentPseudogenericSignature else Kind.DependentGenericSignature)).getKind
        (createNode (if isPseudogeneric = true then
          Kind.DependentPseudogenericSignature else Kind.DependentGenericSignature)).getPayload
        ((createNode (if isPseudogeneric = true then
          Kind.DependentPseudogenericSignature else Kind.DependentGenericSignature)).getChildren
          ++ counts.map (fun x => Node.mk Kind.DependentGenericParamCount
            (Payload.index (countValue x)) []))) 1
      else Node.mk (createNode (if isPseudogeneric = true then
          Kind.DependentPseudogenericSignature else Kind.DependentGenericSignature)).getKind
        (createNode (if isPseudogeneric = true then
          Kind.DependentPseudogenericSignature else Kind.DependentGenericSignature)).getPayload
        ((createNode (if isPseudogeneric = true then
          Kind.DependentPseudogenericSignature else Kind.DependentGenericSignature)).getChildren
          ++ counts.map (fun x => Node.mk Kind.DependentGenericParamCount
            (Payload.index (countValue x)) []))) =
      Node.mk (signatureKind isPseudogeneric) Payload.none (countChildren counts) := by
    cases counts with
    | nil => rfl
    | cons x xs =>
      have hne : (List.map countValue (x :: xs)).getLastD (indexMod - 1) ≠ indexMod - 1 := by
        rw [List.getLastD_eq_getLast?]
        intro h
        apply hlast
        cases hl : (List.map countValue (x :: xs)).getLast? with
        | none => simp at hl
        | some v => rw [hl] at h; simp only [Option.getD_some] at h; rw [h]
      rw [if_neg hne]
      rfl
  simp only [hsig]

/-- C25, as the claim states it, fails: on `18446744073709551614_r` the index is
2^64 - 1 and the count child has the value 0, not the index plus one; and on
`18446744073709551613_r`, where one count is mangled, there are two count children. -/
theorem demangleGenericSignature_count_wraps :
    (demangleIndex ⟨"18446744073709551614_r".toList, []⟩ =
        Res.ok 18446744073709551615 ⟨"r".toList, []⟩ ∧
      demangleGenericSignature swiftEnv (tie swiftEnv 2) false
          ⟨"18446744073709551614_r".toList, []⟩ =
        Res.ok (Node.mk Kind.DependentGenericSignature Payload.none
          [Node.mk Kind.DependentGenericParamCount (Payload.index 0) []]) ⟨[], []⟩) ∧
    demangleGenericSignature swiftEnv (tie swiftEnv 2) false
        ⟨"18446744073709551613_r".toList, []⟩ =
      Res.ok (Node.mk Kind.DependentGenericSignature Payload.none
        [Node.mk Kind.DependentGenericParamCount (Payload.index 18446744073709551615) [],
          Node.mk Kind.DependentGenericParamCount (Payload.index 1) []]) ⟨[], []⟩ :=
  ⟨⟨rfl, rfl⟩, rfl⟩

/-- C25, amended. For the mangled counts `counts`, each one the letter `z` or an index,
followed by `r` or `R`, when the value of the last count is not 2^64 - 1 and the recursion
is unfolded more often than there are counts: a result of `demangleGenericSignature` has
first the `DependentGenericParamCount` children of `countChildren` (one child with the
value 1 when there is no count; otherwise one child for each count, in their order, with
the value 0 for `z` and the index plus one modulo 2^64 for an index) and after them
children that are not `DependentGenericParamCount` nodes; and in front of `r` the result
is the node with exactly these count children. -/
theorem demangleGenericSignature_counts (E : Env) (m : Nat) (isPseudogeneric : Bool)
    (counts : List (Option (List Char))) (rest : List Char) (subs : List Node)
    (hfuel : counts.length < m)
    (hall : ∀ digits, some digits ∈ counts → ∀ c ∈ digits, isDigit c = true)
    (hrest : rest.head? = some 'r' ∨ rest.head? = some 'R')
    (hlast : (counts.map countValue).getLast? ≠ some (indexMod - 1)) :
    (∀ rest1, rest = 'r' :: rest1 →
      demangleGenericSignature E (tie E m) isPseudogeneric
          ⟨counts.flatMap countText ++ rest, subs⟩ =
        Res.ok (Node.mk (signatureKind isPseudogeneric) Payload.none (countChildren counts))
          ⟨rest1, subs⟩) ∧
    (∀ a s1, demangleGenericSignature E (tie E m) isPseudogeneric
        ⟨counts.flatMap countText ++ rest, subs⟩ = Res.ok a s1 →
      ∃ requirements, a = Node.mk (signatureKind isPseudogeneric) Payload.none
          (countChildren counts ++ requirements) ∧
        ∀ q ∈ requirements, q.getKind ≠ Kind.DependentGenericParamCount) := by
  rw [demangleGenericSignature_run E m isPseudogeneric counts rest subs hfuel hall hrest hlast]
  constructor
  · rintro rest1 rfl
    rfl
  · intro a s1 h
    have hI : ∃ requirements, Node.mk (signatureKind isPseudogeneric) Payload.none
          (countChildren counts) =
        Node.mk (signatureKind isPseudogeneric) Payload.none
          (countChildren counts ++ requirements) ∧
        ∀ q ∈ requirements, q.getKind ≠ Kind.DependentGenericParamCount :=
      ⟨[], by simp, by simp⟩
    refine Ret.out (Q := fun a _ => ∃ requirements, a = Node.mk (signatureKind isPseudogeneric)
      Payload.none (countChildren counts ++ requirements) ∧
        ∀ q ∈ requirements, q.getKind ≠ Kind.DependentGenericParamCount) ?_ a s1 h
    apply ret_ite_nextIf
    · exact ret_done hI
    apply ret_ite_not_nextIf
    · exact ret_failed
    refine tie_loop_ret E _ (fun sig => ∃ requirements, sig = Node.mk
      (signatureKind isPseudogeneric) Payload.none (countChildren counts ++ requirements) ∧
        ∀ q ∈ requirements, q.getKind ≠ Kind.DependentGenericParamCount) _ ?_ m _ _ hI
    intro acc s hacc
    unfold demangleGenericSignatureRequirementRound
    apply ret_ite_nextIf
    · exact ret_done ⟨fun a0 h0 => (by cases h0), fun a0 h0 => (by cases h0; exact hacc)⟩
    · refine ret_bind (demangleGenericRequirement_kind E (tie E m) _)
        (fun reqt s2 hk => ret_done ⟨fun a0 h0 => ?_, fun a0 h0 => (by cases h0)⟩)
      cases h0
      obtain ⟨requirements, rfl, hq⟩ := hacc
      refine ⟨requirements ++ [reqt], by simp [Node.addChild], ?_⟩
      intro q hq1
      rcases List.mem_append.mp hq1 with h1 | h1
      · exact hq q h1
      · simp only [List.mem_singleton] at h1
        rw [h1]
        exact hk

/-- C25, amended, at the counts `z`, `_` and `0_` in front of `r`: the count children
have the values 0, 1 and 2. -/
theorem demangleGenericSignature_counts_witness :
    demangleGenericSignature swiftEnv (tie swiftEnv 4) false ⟨"z_0_rx".toList, []⟩ =
      Res.ok (Node.mk Kind.DependentGenericSignature Payload.none
        [Node.mk Kind.DependentGenericParamCount (Payload.index 0) [],
          Node.mk Kind.DependentGenericParamCount (Payload.index 1) [],
          Node.mk Kind.DependentGenericParamCount (Payload.index 2) []])
        ⟨"x".toList, []⟩ :=
  (demangleGenericSignature_counts swiftEnv 4 false [Option.none, some [], some "0".toList]
    "rx".toList [] (by decide)
    (fun digits h c hc => by
      simp only [List.mem_cons, Option.some.injEq, List.mem_singleton, List.not_mem_nil,
        or_false, false_or] at h
      rcases h with h | rfl | rfl
      · cases h
      · cases hc
      · simp only [String.toList, List.mem_singleton] at hc
        subst hc
        decide)
    (by decide) (by decide)).1 "x".toList rfl

theorem nominalChain_free {nominal : Node} {depth : Nat} (h : NominalChain nominal depth) :
    BoundGenericFree nominal := by
  induction h with
  | root kind module name hkind hmodule hfree hname =>
    refine BoundGenericFree.mk _ _ _ ?_ ?_
    · rcases hkind with rfl | rfl | rfl <;> decide
    · intro c hc
      simp only [List.mem_cons, List.mem_singleton, List.not_mem_nil, or_false] at hc
      rcases hc with rfl | rfl
      · exact hfree
      · exact hname
  | nest kind parent name depth hkind hparent hname ih =>
    refine BoundGenericFree.mk _ _ _ ?_ ?_
    · rcases hkind with rfl | rfl | rfl <;> decide
    · intro c hc
      simp only [List.mem_cons, List.mem_singleton, List.not_mem_nil, or_false] at hc
      rcases hc with rfl | rfl
      · exact ih
      · exact hname

theorem nominalChain_kind {nominal : Node} {depth : Nat} (h : NominalChain nominal depth) :
    nominal.getKind = Kind.Class ∨ nominal.getKind = Kind.Structure ∨
      nominal.getKind = Kind.Enum := by
  cases h with
  | root kind module name hkind hmodule hfree hname => exact hkind
  | nest kind parent name depth hkind hparent hname => exact hkind

theorem demangleBoundGenericArgsList_empty (E : Env) (n : Nat) (nominalType : Node)
    (t : List Char) (subs : List Node) :
    demangleBoundGenericArgsList (tie E (n + 1)) nominalType ⟨'_' :: t, subs⟩ =
      Res.ok nominalType ⟨t, subs⟩ := rfl

theorem demangleBoundGenericArgs_chain (E : Env) (n : Nat) {nominal : Node} {depth : Nat}
    (h : NominalChain nominal depth) :
    ∀ (rest : List Char) (subs : List Node),
      demangleBoundGenericArgs (tie E (n + 1)) nominal
          ⟨List.replicate depth '_' ++ rest, subs⟩ = Res.ok nominal ⟨rest, subs⟩ := by
  induction h with
  | root kind module name hkind hmodule hfree hname =>
    intro rest subs
    rw [demangleBoundGenericArgs.eq_2, if_neg (fun hc => hc.1 hmodule)]
    exact demangleBoundGenericArgsList_empty E n _ rest subs
  | nest kind parent name depth hkind hparent hname ih =>
    intro rest subs
    have hk : parent.getKind ≠ Kind.Module ∧ parent.getKind ≠ Kind.Function ∧
        parent.getKind ≠ Kind.Extension := by
      rcases nominalChain_kind hparent with h | h | h <;> rw [h] <;> decide
    have hr : List.replicate (depth + 1) '_' ++ rest =
        List.replicate depth '_' ++ '_' :: rest := by
      rw [List.replicate_succ', List.append_assoc]
      rfl
    rw [demangleBoundGenericArgs.eq_2, if_pos hk, hr, bind_ok (ih ('_' :: rest) subs)]
    exact demangleBoundGenericArgsList_empty E n _ rest subs

/-- C23. When `demangleNominalType` decodes a nominal type that is a chain of `depth`
declarations of the kinds `Class`, `Structure` and `Enum` nested in one another and rooted
at a module, and every generic-argument list is empty (the text goes on with `depth`
terminators `_`), `demangleBoundGenericType` returns that nominal type, with the
terminators consumed; it has no `BoundGenericClass`, `BoundGenericStructure` or
`BoundGenericEnum` node. -/
theorem demangleBoundGenericType_empty_lists (E : Env) (n : Nat) (s s1 : St)
    (nominal : Node) (depth : Nat) (rest : List Char)
    (hnominal : demangleNominalType E (tie E (n + 1)) s = Res.ok nominal s1)
    (hchain : NominalChain nominal depth)
    (hlists : s1.Mangled = List.replicate depth '_' ++ rest) :
    demangleBoundGenericType E (tie E (n + 1)) s = Res.ok nominal ⟨rest, s1.Substitutions⟩ ∧
      BoundGenericFree nominal := by
  refine ⟨?_, nominalChain_free hchain⟩
  obtain ⟨m1, u1⟩ := s1
  simp only at hlists
  subst hlists
  unfold demangleBoundGenericType
  rw [bind_ok hnominal]
  exact demangleBoundGenericArgs_chain E n hchain rest u1

/-- C23 at the text `CVV3foo3Bar3Baz3Qux___x`: the class `Qux` in the structure `Baz` in
the structure `Bar` of the module `foo`, with three empty generic-argument lists. -/
theorem demangleBoundGenericType_empty_lists_witness :
    demangleBoundGenericType swiftEnv (tie swiftEnv 4)
        ⟨"CVV3foo3Bar3Baz3Qux___x".toList, []⟩ =
      Res.ok (Node.mk Kind.Class Payload.none
        [Node.mk Kind.Structure Payload.none
          [Node.mk Kind.Structure Payload.none
            [Node.mk Kind.Module (Payload.text "foo".toList) [],
              Node.mk Kind.Identifier (Payload.text "Bar".toList) []],
            Node.mk Kind.Identifier (Payload.text "Baz".toList) []],
          Node.mk Kind.Identifier (Payload.text "Qux".toList) []])
        ⟨"x".toList,
          [Node.mk Kind.Module (Payload.text "foo".toList) [],
            Node.mk Kind.Structure Payload.none
              [Node.mk Kind.Module (Payload.text "foo".toList) [],
                Node.mk Kind.Identifier (Payload.text "Bar".toList) []],
            Node.mk Kind.Structure Payload.none
              [Node.mk Kind.Structure Payload.none
                [Node.mk Kind.Module (Payload.text "foo".toList) [],
                  Node.mk Kind.Identifier (Payload.text "Bar".toList) []],
                Node.mk Kind.Identifier (Payload.text "Baz".toList) []],
            Node.mk Kind.Class Payload.none
              [Node.mk Kind.Structure Payload.none
                [Node.mk Kind.Structure Payload.none
                  [Node.mk Kind.Module (Payload.text "foo".toList) [],
                    Node.mk Kind.Identifier (Payload.text "Bar".toList) []],
                  Node.mk Kind.Identifier (Payload.text "Baz".toList) []],
                Node.mk Kind.Identifier (Payload.text "Qux".toList) []]]⟩ :=
  have leaf : ∀ (kind : Kind) (payload : Payload),
      kind ≠ Kind.BoundGenericClass ∧ kind ≠ Kind.BoundGenericStructure ∧
        kind ≠ Kind.BoundGenericEnum → BoundGenericFree (Node.mk kind payload []) :=
    fun kind payload hk => BoundGenericFree.mk kind payload [] hk
      (fun c hc => absurd hc (List.not_mem_nil c))
  (demangleBoundGenericType_empty_lists swiftEnv 3 ⟨"CVV3foo3Bar3Baz3Qux___x".toList, []⟩
    ⟨"___x".toList, _⟩ _ 3 "x".toList rfl
    (NominalChain.nest Kind.Class _ _ 2 (Or.inl rfl)
      (NominalChain.nest Kind.Structure _ _ 1 (Or.inr (Or.inl rfl))
        (NominalChain.root Kind.Structure _ _ (Or.inr (Or.inl rfl)) rfl
          (leaf _ _ (by decide)) (leaf _ _ (by decide)))
        (leaf _ _ (by decide)))
      (leaf _ _ (by decide)))
    rfl).1

theorem keeps_pure (a : α) : Keeps (pure a : M α) := fun _ _ hs => ret_done hs

theorem keeps_fail : Keeps (fail : M α) := fun _ _ _ => ret_failed

theorem keeps_bind {m : M α} {f : α → M β} (h1 : Keeps m) (h2 : ∀ a, Keeps (f a)) :
    Keeps (m >>= f) :=
  fun s subs hs => ret_bind (h1 s subs hs) (fun a s1 h => h2 a s1 subs h)

theorem keeps_ite {c : Prop} [Decidable c] {A B : M α} (hA : Keeps A) (hB : Keeps B) :
    Keeps (if c then A else B) := by
  by_cases h : c
  · rw [if_pos h]; exact hA
  · rw [if_neg h]; exact hB

theorem keeps_of_run {m : M α} (h : ∀ s, ∃ a t, m s = Res.ok a { s with Mangled := t }) :
    Keeps m := by
  intro s subs hs
  refine ⟨fun a s1 ha => ?_⟩
  obtain ⟨b, t, hb⟩ := h s
  rw [hb] at ha
  cases ha
  exact hs

theorem keeps_nextIf (c : Char) : Keeps (nextIf c) :=
  keeps_of_run (fun s => by
    rw [run_nextIf]
    by_cases h : s.Mangled.head? = some c
    · exact ⟨true, s.Mangled.tail, by rw [if_pos h]⟩
    · exact ⟨false, s.Mangled, by rw [if_neg h]⟩)

theorem keeps_nextIfStr (str : List Char) : Keeps (nextIfStr str) :=
  keeps_of_run (fun s => by
    rw [run_nextIfStr]
    by_cases h : str.isPrefixOf s.Mangled = true
    · exact ⟨true, s.Mangled.drop str.length, by rw [if_pos h]⟩
    · exact ⟨false, s.Mangled, by rw [if_neg h]⟩)

theorem keeps_next : Keeps next :=
  keeps_of_run (fun s => ⟨_, _, run_next s⟩)

theorem keeps_peek : Keeps peek :=
  keeps_of_run (fun s => ⟨_, s.Mangled, run_peek s⟩)

theorem keeps_nonEmpty : Keeps nonEmpty :=
  keeps_of_run (fun s => ⟨_, s.Mangled, run_nonEmpty s⟩)

theorem keeps_isEmpty : Keeps isEmpty :=
  keeps_of_run (fun s => ⟨_, s.Mangled, run_isEmpty s⟩)

theorem keeps_hasAtLeast (len : Nat) : Keeps (hasAtLeast len) :=
  keeps_of_run (fun s => ⟨_, s.Mangled, rfl⟩)

theorem keeps_slice (len : Nat) : Keeps (slice len) :=
  keeps_of_run (fun s => ⟨_, s.Mangled, rfl⟩)

theorem keeps_advanceOffset (len : Nat) : Keeps (advanceOffset len) :=
  keeps_of_run (fun s => ⟨_, _, run_advanceOffset len s⟩)

theorem keeps_getSubstitutions : Keeps getSubstitutions :=
  keeps_of_run (fun s => ⟨_, s.Mangled, rfl⟩)

theorem keeps_demangleNatural : Keeps demangleNatural :=
  fun s _ hs => ret_mono (demangleNatural_subs s) (fun _ _ h => h.trans hs)

theorem keeps_demangleIndex : Keeps demangleIndex :=
  fun s _ hs => ret_mono (demangleIndex_subs s) (fun _ _ h => h.trans hs)

theorem keeps_demangleIdentifierPayload (E : Env) (isPunycoded isOperator : Bool)
    (kind : Kind) : Keeps (demangleIdentifierPayload E isPunycoded isOperator kind) := by
  unfold demangleIdentifierPayload
  repeat' first
    | exact keeps_pure _
    | exact keeps_fail
    | exact keeps_demangleNatural
    | exact keeps_hasAtLeast _
    | exact keeps_slice _
    | exact keeps_advanceOffset _
    | with_reducible apply keeps_bind
    | with_reducible apply keeps_ite
    | with_reducible intro _
    | split

theorem keeps_demangleIdentifier (E : Env) (kind : Option Kind) :
    Keeps (demangleIdentifier E kind) := by
  unfold demangleIdentifier
  repeat' first
    | exact keeps_pure _
    | exact keeps_fail
    | exact keeps_nonEmpty
    | exact keeps_next
    | exact keeps_nextIf _
    | exact keeps_demangleIdentifierPayload _ _ _ _
    | with_reducible apply keeps_bind
    | with_reducible apply keeps_ite
    | with_reducible intro _
    | split

theorem keeps_demangleIndexAsNode (kind : Kind) : Keeps (demangleIndexAsNode kind) := by
  unfold demangleIndexAsNode
  exact keeps_bind keeps_demangleIndex (fun _ => keeps_pure _)

theorem keeps_demangleDeclName (E : Env) : Keeps (demangleDeclName E) := by
  unfold demangleDeclName
  repeat' first
    | exact keeps_pure _
    | exact keeps_fail
    | exact keeps_nextIf _
    | exact keeps_demangleIdentifier _ _
    | exact keeps_demangleIndexAsNode _
    | with_reducible apply keeps_bind
    | with_reducible apply keeps_ite
    | with_reducible intro _

theorem keeps_demangleSubstitutionIndex (E : Env) : Keeps (demangleSubstitutionIndex E) := by
  unfold demangleSubstitutionIndex
  repeat' first
    | exact keeps_pure _
    | exact keeps_fail
    | exact keeps_nonEmpty
    | exact keeps_nextIf _
    | exact keeps_demangleIndex
    | exact keeps_getSubstitutions
    | with_reducible apply keeps_bind
    | with_reducible apply keeps_ite
    | with_reducible intro _
    | split

theorem ret_ite_nextIf_of {A B : M β} {s : St} {Q : β → St → Prop} (c : Char)
    (hA : s.Mangled.head? = some c → Ret A { s with Mangled := s.Mangled.tail } Q)
    (hB : s.Mangled.head? ≠ some c → Ret B s Q) :
    Ret (do if (← nextIf c) then A else B) s Q := by
  refine ⟨fun b s2 hb => ?_⟩
  rw [run_bind, run_nextIf] at hb
  by_cases h : s.Mangled.head? = some c
  · rw [if_pos h] at hb
    exact (hA h).out b s2 (by simpa using hb)
  · rw [if_neg h] at hb
    exact (hB h).out b s2 (by simpa using hb)

theorem ret_push {n : Node} {f : Unit → M β} {s : St} {Q : β → St → Prop}
    (h : Ret (f ()) { s with Substitutions := s.Substitutions ++ [n] } Q) :
    Ret (pushSubstitution n >>= f) s Q :=
  ⟨fun b s2 hb => h.out b s2 hb⟩

theorem demangleModule_push (E : Env) (s : St) :
    Ret (demangleModule E) s (fun module s1 =>
      (s.Mangled.head? = some 's' ∨ s.Mangled.head? = some 'S' →
        s1.Substitutions = s.Substitutions) ∧
      (s.Mangled.head? ≠ some 's' → s.Mangled.head? ≠ some 'S' →
        s1.Substitutions = s.Substitutions ++ [module])) := by
  unfold demangleModule
  apply ret_ite_nextIf_of 's'
  · intro h
    exact ret_done ⟨fun _ => rfl, fun h1 => absurd h h1⟩
  · intro h1
    apply ret_ite_nextIf_of 'S'
    · intro h2
      refine ret_bind (keeps_demangleSubstitutionIndex E _ _ rfl) (fun module s1 hk =>
        ret_ite (fun _ => ret_failed) (fun _ => ret_done ⟨fun _ => hk, fun _ h3 => absurd h2 h3⟩))
    · intro h2
      refine ret_bind (keeps_demangleIdentifier E _ s _ rfl) (fun module s1 hk => ?_)
      refine ret_push (ret_done ⟨fun h3 => ?_, fun _ _ => ?_⟩)
      · rcases h3 with h3 | h3
        · exact absurd h3 h1
        · exact absurd h3 h2
      · show s1.Substitutions ++ [module] = s.Substitutions ++ [module]
        rw [hk]

theorem demangleDeclarationName_push (E : Env) (r : Rec) (kind : Kind) (s : St) :
    Ret (demangleDeclarationName E r kind) s (fun decl s3 =>
      ∃ context s1 name, r.demangleContext s = Res.ok context s1 ∧
        decl = Node.mk kind Payload.none [context, name] ∧
        s3.Substitutions = s1.Substitutions ++ [decl]) := by
  refine ⟨fun decl s3 h => ?_⟩
  unfold demangleDeclarationName at h
  obtain ⟨context, s1, h1, h2⟩ := bind_eq_ok h
  obtain ⟨name, s2, h3, h4⟩ := bind_eq_ok h2
  have hk := (keeps_demangleDeclName E s1 _ rfl).out name s2 h3
  cases h4
  exact ⟨context, s1, name, h1, rfl, by
    show s2.Substitutions ++ _ = s1.Substitutions ++ _
    rw [hk]⟩

theorem demangleProtocolNameGivenContext_push (E : Env) (context : Node) (s : St) :
    Ret (demangleProtocolNameGivenContext E context) s (fun proto s1 =>
      proto.getKind = Kind.Protocol ∧ s1.Substitutions = s.Substitutions ++ [proto]) := by
  refine ⟨fun proto s2 h => ?_⟩
  unfold demangleProtocolNameGivenContext at h
  obtain ⟨name, s1, h1, h2⟩ := bind_eq_ok h
  have hk := (keeps_demangleDeclName E s _ rfl).out name s1 h1
  cases h2
  exact ⟨rfl, by
    show s1.Substitutions ++ _ = s.Substitutions ++ _
    rw [hk]⟩

theorem makeAssociatedType_push (E : Env) (root : Node) (s : St) :
    Ret (makeAssociatedType E root) s (fun assocType s1 =>
      assocType.getKind = Kind.AssociatedTypeRef ∧
        s1.Substitutions = s.Substitutions ++ [assocType]) := by
  refine ⟨fun assocType s2 h => ?_⟩
  unfold makeAssociatedType at h
  obtain ⟨name, s1, h1, h2⟩ := bind_eq_ok h
  have hk := (keeps_demangleIdentifier E _ s _ rfl).out name s1 h1
  cases h2
  exact ⟨rfl, by
    show s1.Substitutions ++ _ = s.Substitutions ++ _
    rw [hk]⟩

theorem ret_bind_nextIf_of {f : Bool → M β} {s : St} {Q : β → St → Prop} (c : Char)
    (hA : s.Mangled.head? = some c → Ret (f true) { s with Mangled := s.Mangled.tail } Q)
    (hB : s.Mangled.head? ≠ some c → Ret (f false) s Q) : Ret (nextIf c >>= f) s Q := by
  refine ⟨fun b s2 hb => ?_⟩
  rw [run_bind, run_nextIf] at hb
  by_cases h : s.Mangled.head? = some c
  · rw [if_pos h] at hb
    exact (hA h).out b s2 hb
  · rw [if_neg h] at hb
    exact (hB h).out b s2 hb

theorem demangleDependentMemberTypeName_push (E : Env) (r : Rec) (base : Node) (s : St) :
    Ret (demangleDependentMemberTypeName E r base) s (fun depTy s1 =>
      ∃ assocTy, depTy = Node.mk Kind.DependentMemberType Payload.none [base, assocTy] ∧
        assocTy.getKind = Kind.DependentAssociatedTypeRef ∧
        (s.Mangled.head? = some 'S' → s1.Substitutions = s.Substitutions) ∧
        (s.Mangled.head? ≠ some 'S' → ∃ front, s1.Substitutions = front ++ [assocTy])) := by
  unfold demangleDependentMemberTypeName
  refine ret_bind_nextIf_of 'S' (fun h => ?_) (fun h => ?_)
  · simp only [if_true]
    refine ret_bind (keeps_demangleSubstitutionIndex E _ _ rfl) (fun assocTy s1 hk => ?_)
    refine ret_ite (fun _ => ret_bind (P := fun _ _ => False) ret_failed
      (fun _ _ hf => False.elim hf)) (fun hkind => ret_bind_done (ret_done ?_))
    exact ⟨assocTy, rfl, not_not.mp hkind, fun _ => hk, fun h1 => absurd h h1⟩
  · simp only [Bool.false_eq_true, if_false]
    have tail : ∀ (protocol : Option Node) (s1 : St), Ret (do
        let assocTy ← demangleIdentifier E (some Kind.DependentAssociatedTypeRef)
        let assocTy : Node := addChildIf assocTy protocol
        pushSubstitution assocTy
        let y ← pure assocTy
        (fun assocTy =>
          let depTy := createNode Kind.DependentMemberType;
          let depTy := depTy.addChild base;
          let depTy := depTy.addChild assocTy;
          pure depTy) y : M Node) s1 (fun depTy s2 =>
        ∃ assocTy, depTy = Node.mk Kind.DependentMemberType Payload.none [base, assocTy] ∧
          assocTy.getKind = Kind.DependentAssociatedTypeRef ∧
          (s.Mangled.head? = some 'S' → s2.Substitutions = s.Substitutions) ∧
          (s.Mangled.head? ≠ some 'S' → ∃ front, s2.Substitutions = front ++ [assocTy])) := by
      intro protocol s1
      refine ret_bind (demangleIdentifier_kind E _ _) (fun assocTy s2 hk => ?_)
      refine ret_push (ret_bind_done (ret_done ?_))
      exact ⟨addChildIf assocTy protocol, rfl, (getKind_addChildIf _ _).trans hk,
        fun h1 => absurd h1 h, fun _ => ⟨s2.Substitutions, rfl⟩⟩
    refine ret_bind_nextIf 'P' ?_ ?_
    · simp only [if_true]
      exact ret_bind ret_any (fun protocol s1 _ => ret_bind_done (tail _ _))
    · simp only [Bool.false_eq_true, if_false]
      exact ret_bind_done (tail _ _)

theorem production_safe (hR : StepRel R) (E : Env) {r : Rec} {n : Nat} (hr : Good F R r n)
    {p : M α} (hp : Production E r p) (s : St) (hs : s.len < n) :
    Safe F R p s (fun _ _ => True) := by
  cases hp with
  | demangleNatural => exact Safe.mono (demangleNatural_safe hR s) (fun _ _ _ _ => trivial)
  | demangleDirectness => exact Safe.mono (demangleDirectness_safe hR E s) (fun _ _ _ _ => trivial)
  | demangleBuiltinSize => exact Safe.mono (demangleBuiltinSize_safe hR s) (fun _ _ _ _ => trivial)
  | demangleValueWitnessKind => exact Safe.mono (demangleValueWitnessKind_safe hR s) (fun _ _ _ _ => trivial)
  | demangleIdentifier kind => exact Safe.mono (demangleIdentifier_safe hR E kind s) (fun _ _ _ _ => trivial)
  | demangleIndex => exact Safe.mono (demangleIndex_safe hR s) (fun _ _ _ _ => trivial)
  | demangleIndexAsNode kind => exact Safe.mono (demangleIndexAsNode_safe hR kind s) (fun _ _ _ _ => trivial)
  | demangleSubstitutionIndex => exact Safe.mono (demangleSubstitutionIndex_safe hR E s) (fun _ _ _ _ => trivial)
  | demangleDeclName => exact Safe.mono (demangleDeclName_safe hR E s) (fun _ _ _ _ => trivial)
  | demangleModule => exact Safe.mono (demangleModule_safe hR E s) (fun _ _ _ _ => trivial)
  | demangleProtocolNameGivenContext context => exact Safe.mono (demangleProtocolNameGivenContext_safe hR E context s) (fun _ _ _ _ => trivial)
  | demangleGenericParamIndex => exact Safe.mono (demangleGenericParamIndex_safe hR E s) (fun _ _ _ _ => trivial)
  | demangleMetatypeRepresentation => exact Safe.mono (demangleMetatypeRepresentation_safe hR s) (fun _ _ _ _ => trivial)
  | demangleImplConvention ctxt => exact Safe.mono (demangleImplConvention_safe hR ctxt s) (fun _ _ _ _ => trivial)
  | demangleImplCalleeConvention type => exact Safe.mono (demangleImplCalleeConvention_safe hR type s) (fun _ _ _ _ => trivial)
  | demangleFuncSigSpecializationConstantProp parent => exact Safe.mono (demangleFuncSigSpecializationConstantProp_safe hR E parent s) (fun _ _ _ _ => trivial)
  | makeAssociatedType root => exact Safe.mono (makeAssociatedType_safe hR E root s) (fun _ _ _ _ => trivial)
  | demangleType => exact Safe.mono (demangleType_safe hR hr s hs) (fun _ _ _ _ => trivial)
  | demangleDeclarationName kind => exact Safe.mono (demangleDeclarationName_safe hR hr E kind s hs) (fun _ _ _ _ => trivial)
  | demangleProtocolNameImpl => exact Safe.mono (demangleProtocolNameImpl_safe hR hr E s hs) (fun _ _ _ _ => trivial)
  | demangleProtocolName => exact Safe.mono (demangleProtocolName_safe hR hr E s hs) (fun _ _ _ _ => trivial)
  | demangleNominalType => exact Safe.mono (demangleNominalType_safe hR hr E s (Nat.le_of_lt hs)) (fun _ _ _ _ => trivial)
  | demangleBoundGenericArgs nominalType => exact Safe.mono (demangleBoundGenericArgs_safe hR hr nominalType s hs) (fun _ _ _ _ => trivial)
  | demangleBoundGenericType => exact Safe.mono (demangleBoundGenericType_safe hR hr E s (Nat.le_of_lt hs)) (fun _ _ _ _ => trivial)
  | demangleProtocolList => exact Safe.mono (demangleProtocolList_safe hR hr E s hs) (fun _ _ _ _ => trivial)
  | demangleProtocolConformance => exact Safe.mono (demangleProtocolConformance_safe hR hr E s hs) (fun _ _ _ _ => trivial)
  | demangleEntity => exact Safe.mono (demangleEntity_safe hR hr E s (Nat.le_of_lt hs)) (fun _ _ _ _ => trivial)
  | demangleDependentMemberTypeName base => exact Safe.mono (demangleDependentMemberTypeName_safe hR hr E base s (Nat.le_of_lt hs)) (fun _ _ _ _ => trivial)
  | demangleAssociatedTypeSimple => exact Safe.mono (demangleAssociatedTypeSimple_safe hR hr E s (Nat.le_of_lt hs)) (fun _ _ _ _ => trivial)
  | demangleAssociatedTypeCompound => exact Safe.mono (demangleAssociatedTypeCompound_safe hR hr E s (Nat.le_of_lt hs)) (fun _ _ _ _ => trivial)
  | demangleDependentType => exact Safe.mono (demangleDependentType_safe hR hr E s hs) (fun _ _ _ _ => trivial)
  | demangleConstrainedTypeImpl => exact Safe.mono (demangleConstrainedTypeImpl_safe hR hr E s (Nat.le_of_lt hs)) (fun _ _ _ _ => trivial)
  | demangleConstrainedType => exact Safe.mono (demangleConstrainedType_safe hR hr E s (Nat.le_of_lt hs)) (fun _ _ _ _ => trivial)
  | demangleGenericRequirement => exact Safe.mono (demangleGenericRequirement_safe hR hr E s (Nat.le_of_lt hs)) (fun _ _ _ _ => trivial)
  | demangleGenericSignature isPseudogeneric => exact Safe.mono (demangleGenericSignature_safe hR hr E isPseudogeneric s hs) (fun _ _ _ _ => trivial)
  | demangleContext => exact Safe.mono (demangleContext_safe hR hr E s (Nat.le_of_lt hs)) (fun _ _ _ _ => trivial)
  | demangleArchetypeType => exact Safe.mono (demangleArchetypeType_safe hR hr E s (Nat.le_of_lt hs)) (fun _ _ _ _ => trivial)
  | demangleTuple isV => exact Safe.mono (demangleTuple_safe hR hr E isV s hs) (fun _ _ _ _ => trivial)
  | demangleFunctionType kind => exact Safe.mono (demangleFunctionType_safe hR hr kind s hs) (fun _ _ _ _ => trivial)
  | demangleImplParameterOrResult kind => exact Safe.mono (demangleImplParameterOrResult_safe hR hr kind s hs) (fun _ _ _ _ => trivial)
  | demangleImplParameters parent => exact Safe.mono (demangleImplParameters_safe hR hr parent s hs) (fun _ _ _ _ => trivial)
  | demangleImplResults parent => exact Safe.mono (demangleImplResults_safe hR hr parent s hs) (fun _ _ _ _ => trivial)
  | demangleImplFunctionType => exact Safe.mono (demangleImplFunctionType_safe hR hr E s hs) (fun _ _ _ _ => trivial)
  | demangleTypeImpl => exact Safe.mono (demangleTypeImpl_safe hR hr E s (Nat.le_of_lt hs)) (fun _ _ _ _ => trivial)
  | demangleReabstractSignature signature => exact Safe.mono (demangleReabstractSignature_safe hR hr E signature s hs) (fun _ _ _ _ => trivial)
  | demangleGlobal => exact Safe.mono (demangleGlobal_safe hR hr E s (Nat.le_of_lt hs)) (fun _ _ _ _ => trivial)
  | demangleGenericSpecialization specialization => exact Safe.mono (demangleGenericSpecialization_safe hR hr E specialization s hs) (fun _ _ _ _ => trivial)
  | demangleFuncSigSpecializationClosureProp parent => exact Safe.mono (demangleFuncSigSpecializationClosureProp_safe hR hr E parent s (Nat.le_of_lt hs)) (fun _ _ _ _ => trivial)
  | demangleFunctionSignatureSpecialization specialization => exact Safe.mono (demangleFunctionSignatureSpecialization_safe hR hr E specialization s hs) (fun _ _ _ _ => trivial)
  | demangleSpecializedAttribute => exact Safe.mono (demangleSpecializedAttribute_safe hR hr E s (Nat.le_of_lt hs)) (fun _ _ _ _ => trivial)

theorem stepRel_prefix : StepRel (fun s s1 => s.Substitutions <+: s1.Substitutions) where
  refl := fun _ => List.prefix_refl _
  trans := fun h1 h2 => List.IsPrefix.trans h1 h2
  cursor := fun _ _ _ => List.prefix_refl _
  push := fun s n => List.prefix_append s.Substitutions [n]

theorem stepRel_suffix : StepRel (fun s s1 => s1.Mangled <:+ s.Mangled) where
  refl := fun _ => List.suffix_refl _
  trans := fun h1 h2 => List.IsSuffix.trans h2 h1
  cursor := fun _ _ h => h
  push := fun _ _ => List.suffix_refl _

theorem safe_after {m : M α} {s : St} {Q : α → St → Prop} (h : Safe False R m s Q) :
    m s ≠ Res.fuel ∧ ∀ s1 ∈ (m s).after, R s s1 := by
  unfold Safe at h
  cases hm : m s with
  | ok a s1 =>
    rw [hm] at h
    exact ⟨fun e => (by cases e), fun s2 h2 => (by cases h2; exact h.1)⟩
  | null s1 =>
    rw [hm] at h
    exact ⟨fun e => (by cases e), fun s2 h2 => (by cases h2; exact h.1)⟩
  | fault => exact ⟨fun e => (by cases e), fun s2 h2 => (by cases h2)⟩
  | fuel => rw [hm] at h; exact h.elim

theorem cursorOperation_suffix {op : M α} (h : CursorOperation op) (s : St) :
    ∃ a s1, op s = Res.ok a s1 ∧ s1.Mangled <:+ s.Mangled ∧
      s1.Substitutions = s.Substitutions := by
  cases h with
  | hasAtLeast len => exact ⟨_, _, rfl, List.suffix_refl _, rfl⟩
  | isEmpty => exact ⟨_, _, rfl, List.suffix_refl _, rfl⟩
  | nonEmpty => exact ⟨_, _, rfl, List.suffix_refl _, rfl⟩
  | peek => exact ⟨_, _, run_peek s, List.suffix_refl _, rfl⟩
  | next => exact ⟨_, _, run_next s, List.tail_suffix _, rfl⟩
  | nextIf c =>
    rw [run_nextIf]
    by_cases hc : s.Mangled.head? = some c
    · rw [if_pos hc]
      exact ⟨_, _, rfl, List.tail_suffix _, rfl⟩
    · rw [if_neg hc]
      exact ⟨_, _, rfl, List.suffix_refl _, rfl⟩
  | nextIfStr str =>
    rw [run_nextIfStr]
    by_cases hc : str.isPrefixOf s.Mangled = true
    · rw [if_pos hc]
      exact ⟨_, _, rfl, List.drop_suffix _ _, rfl⟩
    · rw [if_neg hc]
      exact ⟨_, _, rfl, List.suffix_refl _, rfl⟩
  | slice len => exact ⟨_, _, rfl, List.suffix_refl _, rfl⟩
  | advanceOffset len => exact ⟨_, _, rfl, List.drop_suffix _ _, rfl⟩
  | getString => exact ⟨_, _, rfl, List.nil_suffix, rfl⟩
  | readUntil c result =>
    exact ⟨_, _, rfl, readUntilText_suffix c s.Mangled result, rfl⟩

/-- C29. With the recursion unfolded more often than the text is long, a run of a
production other than the top-level driver does not reach the end of the unfolding, and
when it ends with a node or with a failure, the `Substitutions` table before the run is a
prefix of the table after it.  The entries are appended at five places: `demangleModule`
appends the module that it reads from an identifier (and nothing for `s` or a
substitution); `demangleDeclarationName` appends the declaration to the table that the
context left; `demangleProtocolNameGivenContext` appends the protocol;
`demangleDependentMemberTypeName` appends the `DependentAssociatedTypeRef` that it builds
(and nothing for a substitution); and `makeAssociatedType` appends the
`AssociatedTypeRef`. -/
theorem substitutions_append_only (E : Env) (n : Nat) (r : Rec) :
    (∀ {α : Type} (p : M α), Production E (tie E n) p → ∀ s : St, s.len < n →
      p s ≠ Res.fuel ∧ ∀ s1 ∈ (p s).after, s.Substitutions <+: s1.Substitutions) ∧
    (∀ s module s1, demangleModule E s = Res.ok module s1 →
      (s.Mangled.head? = some 's' ∨ s.Mangled.head? = some 'S' →
        s1.Substitutions = s.Substitutions) ∧
      (s.Mangled.head? ≠ some 's' → s.Mangled.head? ≠ some 'S' →
        s1.Substitutions = s.Substitutions ++ [module])) ∧
    (∀ kind s decl s3, demangleDeclarationName E r kind s = Res.ok decl s3 →
      ∃ context s1 name, r.demangleContext s = Res.ok context s1 ∧
        decl = Node.mk kind Payload.none [context, name] ∧
        s3.Substitutions = s1.Substitutions ++ [decl]) ∧
    (∀ context s proto s1, demangleProtocolNameGivenContext E context s = Res.ok proto s1 →
      proto.getKind = Kind.Protocol ∧ s1.Substitutions = s.Substitutions ++ [proto]) ∧
    (∀ base s depTy s1, demangleDependentMemberTypeName E r base s = Res.ok depTy s1 →
      ∃ assocTy, depTy = Node.mk Kind.DependentMemberType Payload.none [base, assocTy] ∧
        assocTy.getKind = Kind.DependentAssociatedTypeRef ∧
        (s.Mangled.head? = some 'S' → s1.Substitutions = s.Substitutions) ∧
        (s.Mangled.head? ≠ some 'S' → ∃ front, s1.Substitutions = front ++ [assocTy])) ∧
    (∀ root s assocType s1, makeAssociatedType E root s = Res.ok assocType s1 →
      assocType.getKind = Kind.AssociatedTypeRef ∧
        s1.Substitutions = s.Substitutions ++ [assocType]) :=
  ⟨fun _ hp s hs => safe_after (production_safe stepRel_prefix E (tie_good stepRel_prefix E n)
      hp s hs),
    fun s module s1 h => (demangleModule_push E s).out module s1 h,
    fun kind s decl s3 h => (demangleDeclarationName_push E r kind s).out decl s3 h,
    fun context s proto s1 h => (demangleProtocolNameGivenContext_push E context s).out proto s1 h,
    fun base s depTy s1 h => (demangleDependentMemberTypeName_push E r base s).out depTy s1 h,
    fun root s assocType s1 h => (makeAssociatedType_push E root s).out assocType s1 h⟩

/-- C29 at the structure `V3foo3Bar` read by `demangleNominalType` with one entry in the
table: the entry stays in front of the two new ones. -/
theorem substitutions_append_only_witness :
    demangleNominalType swiftEnv (tie swiftEnv 10)
        ⟨"V3foo3Bar".toList, [createNode Kind.Tuple]⟩ ≠ Res.fuel ∧
      ∀ s1 ∈ (demangleNominalType swiftEnv (tie swiftEnv 10)
          ⟨"V3foo3Bar".toList, [createNode Kind.Tuple]⟩).after,
        [createNode Kind.Tuple] <+: s1.Substitutions :=
  (substitutions_append_only swiftEnv 10 (tie swiftEnv 10)).1 _
    Production.demangleNominalType ⟨"V3foo3Bar".toList, [createNode Kind.Tuple]⟩
    (by decide)

/-- C30. A cursor operation returns with a remaining text that is a suffix of the one
before it.  With the recursion unfolded more often than the text is long, a run of a
production or of the top-level driver does not reach the end of the unfolding, and when it
ends with a node or with a failure, the remaining text after the run is a suffix of the
remaining text before it. -/
theorem cursor_never_moves_back (E : Env) (n : Nat) :
    (∀ {α : Type} (op : M α), CursorOperation op → ∀ s : St,
      ∃ a s1, op s = Res.ok a s1 ∧ s1.Mangled <:+ s.Mangled) ∧
    (∀ {α : Type} (p : M α), Production E (tie E n) p → ∀ s : St, s.len < n →
      p s ≠ Res.fuel ∧ ∀ s1 ∈ (p s).after, s1.Mangled <:+ s.Mangled) ∧
    (∀ s : St, s.len < n →
      demangleTopLevelBody E (tie E n) s ≠ Res.fuel ∧
        ∀ s1 ∈ (demangleTopLevelBody E (tie E n) s).after, s1.Mangled <:+ s.Mangled) :=
  ⟨fun _ hop s =>
      let ⟨a, s1, h1, h2, _⟩ := cursorOperation_suffix hop s
      ⟨a, s1, h1, h2⟩,
    fun _ hp s hs => safe_after (production_safe stepRel_suffix E (tie_good stepRel_suffix E n)
      hp s hs),
    fun s hs => safe_after (demangleTopLevelBody_safe stepRel_suffix
      (fun _ => List.suffix_refl _) (tie_good stepRel_suffix E n) E s (Nat.le_of_lt hs))⟩

/-- C30 at the type `GSqSi_x` read by `demangleType`: the run ends, and the text that
remains is a suffix of `GSqSi_x`. -/
theorem cursor_never_moves_back_witness :
    demangleType (tie swiftEnv 8) ⟨"GSqSi_x".toList, []⟩ ≠ Res.fuel ∧
      ∀ s1 ∈ (demangleType (tie swiftEnv 8) ⟨"GSqSi_x".toList, []⟩).after,
        s1.Mangled <:+ "GSqSi_x".toList :=
  (cursor_never_moves_back swiftEnv 8).2.1 _ Production.demangleType
    ⟨"GSqSi_x".toList, []⟩ (by decide)

theorem demangleNatural_null_iff (s s1 : St) (h : demangleNatural s = Res.null s1) :
    s.Mangled.takeWhile isDigit = [] ∧ s1 = { s with Mangled := s.Mangled.tail } := by
  rw [demangleNatural_span] at h
  by_cases h0 : s.Mangled.takeWhile isDigit = []
  · rw [if_pos h0] at h
    exact ⟨h0, (Res.null.inj h).symm⟩
  · rw [if_neg h0] at h
    cases h

/-- C40. On empty input `demangleNatural` fails and the state is as before.  On input
whose first character is not a digit it fails with exactly that character consumed; and
whenever it fails on input that is not empty, this is the case. -/
theorem demangleNatural_failure_consumes (s : St) :
    (s.Mangled = [] → demangleNatural s = Res.null s) ∧
    (∀ c t, s.Mangled = c :: t → isDigit c = false →
      demangleNatural s = Res.null { s with Mangled := t }) ∧
    (∀ s1, demangleNatural s = Res.null s1 → s.Mangled ≠ [] →
      ∃ c t, s.Mangled = c :: t ∧ isDigit c = false ∧ s1 = { s with Mangled := t }) := by
  refine ⟨fun h => ?_, fun c t h hc => ?_, fun s1 h hne => ?_⟩
  · obtain ⟨m, u⟩ := s
    simp only at h
    subst h
    rfl
  · rw [demangleNatural_span, h, if_pos (by simp [List.takeWhile, hc])]
    rfl
  · obtain ⟨h0, h1⟩ := demangleNatural_null_iff s s1 h
    rcases (takeWhile_isDigit_eq_nil _).1 h0 with he | ⟨c, t, hc, hd⟩
    · exact absurd he hne
    · refine ⟨c, t, hc, hd, ?_⟩
      rw [h1, hc]
      rfl

/-- C40 at the text `x12`: the failure consumes the `x`. -/
theorem demangleNatural_failure_consumes_witness :
    demangleNatural ⟨"x12".toList, []⟩ = Res.null ⟨"12".toList, []⟩ :=
  (demangleNatural_failure_consumes ⟨"x12".toList, []⟩).2.1 'x' "12".toList rfl (by decide)

/-- C31. `nextIf c` returns true and removes the first character when the remaining text
begins with `c`, and returns false with the state unchanged otherwise; `nextIfStr str`
returns true and removes `str` when the remaining text begins with `str`, and returns
false with the state unchanged otherwise. -/
theorem nextIf_exact_match (s : St) (c : Char) (str : List Char) :
    (∀ t, s.Mangled = c :: t → nextIf c s = Res.ok true { s with Mangled := t }) ∧
    (¬ [c] <+: s.Mangled → nextIf c s = Res.ok false s) ∧
    (∀ rest, s.Mangled = str ++ rest →
      nextIfStr str s = Res.ok true { s with Mangled := rest }) ∧
    (¬ str <+: s.Mangled → nextIfStr str s = Res.ok false s) := by
  refine ⟨fun t h => nextIf_eq h, fun h => ?_, fun rest h => ?_, fun h => nextIfStr_false h⟩
  · rw [run_nextIf, if_neg]
    intro hc
    apply h
    cases hm : s.Mangled with
    | nil => rw [hm] at hc; cases hc
    | cons x t =>
      rw [hm] at hc
      simp only [List.head?_cons, Option.some.injEq] at hc
      subst hc
      exact ⟨t, rfl⟩
  · rw [nextIfStr_true ⟨rest, h.symm⟩, h, List.drop_left]

/-- C31 at the text `_Ttx`: `_T` is removed, and `_X` is not. -/
theorem nextIf_exact_match_witness :
    nextIfStr "_T".toList ⟨"_Ttx".toList, []⟩ = Res.ok true ⟨"tx".toList, []⟩ ∧
      nextIfStr "_X".toList ⟨"_Ttx".toList, []⟩ = Res.ok false ⟨"_Ttx".toList, []⟩ :=
  ⟨(nextIf_exact_match ⟨"_Ttx".toList, []⟩ '_' "_T".toList).2.2.1 "tx".toList rfl,
    (nextIf_exact_match ⟨"_Ttx".toList, []⟩ '_' "_X".toList).2.2.2 (by decide)⟩

theorem readUntilText_eq (c : Char) (t : List Char) :
    ∀ result, readUntilText c t result =
      (result ++ t.takeWhile (fun x => decide (x ≠ c)), decide (c ∈ t),
        t.dropWhile (fun x => decide (x ≠ c))) := by
  induction t with
  | nil => intro result; simp [readUntilText]
  | cons x t ih =>
    intro result
    by_cases hx : x = c
    · subst hx
      simp [readUntilText]
    · have hcx : ¬ c = x := fun h => hx h.symm
      simp [readUntilText, hx, hcx, ih]

/-- C32. `readUntil c result` returns `result` followed by the characters of the remaining
text in front of the first `c` (all of them when there is no `c`) and whether `c` occurs
in the remaining text, and leaves the text from that first `c` on (the empty text when
there is none); on empty input it returns false. -/
theorem readUntil_first_occurrence (c : Char) (result : List Char) (s : St) :
    readUntil c result s =
      Res.ok (decide (c ∈ s.Mangled), result ++ s.Mangled.takeWhile (fun x => decide (x ≠ c)))
        { s with Mangled := s.Mangled.dropWhile (fun x => decide (x ≠ c)) } ∧
    (c ∈ s.Mangled → (s.Mangled.dropWhile (fun x => decide (x ≠ c))).head? = some c) ∧
    (c ∉ s.Mangled → s.Mangled.takeWhile (fun x => decide (x ≠ c)) = s.Mangled ∧
      s.Mangled.dropWhile (fun x => decide (x ≠ c)) = []) ∧
    (s.Mangled = [] → readUntil c result s = Res.ok (false, result) s) := by
  have hrun : readUntil c result s =
      Res.ok (decide (c ∈ s.Mangled), result ++ s.Mangled.takeWhile (fun x => decide (x ≠ c)))
        { s with Mangled := s.Mangled.dropWhile (fun x => decide (x ≠ c)) } := by
    unfold readUntil
    rw [readUntilText_eq]
  refine ⟨hrun, fun h => ?_, fun h => ?_, fun h => ?_⟩
  · have key : ∀ l : List Char, c ∈ l →
        (l.dropWhile (fun x => decide (x ≠ c))).head? = some c := by
      intro l
      induction l with
      | nil => intro hl; cases hl
      | cons x t ih =>
        intro hl
        by_cases hx : x = c
        · subst hx
          simp
        · have hc : c ∈ t := by
            rcases List.mem_cons.mp hl with h1 | h1
            · exact absurd h1.symm hx
            · exact h1
          simpa [List.dropWhile, hx] using ih hc
    exact key _ h
  · have hall : ∀ x ∈ s.Mangled, decide (x ≠ c) = true := by
      intro x hx
      simp only [ne_eq, decide_not, Bool.not_eq_true', decide_eq_false_iff_not]
      intro hxc
      exact h (hxc ▸ hx)
    exact ⟨List.takeWhile_eq_self_iff.mpr hall, List.dropWhile_eq_nil_iff.mpr hall⟩
  · rw [hrun]
    obtain ⟨m, u⟩ := s
    simp only at h
    subst h
    simp

/-- C32 at the text `cd_ef_` read until `_` after `ab`: the result is `abcd`, the answer
is true, and the text left is `_ef_`. -/
theorem readUntil_first_occurrence_witness :
    readUntil '_' "ab".toList ⟨"cd_ef_".toList, []⟩ =
      Res.ok (true, "abcd".toList) ⟨"_ef_".toList, []⟩ :=
  (readUntil_first_occurrence '_' "ab".toList ⟨"cd_ef_".toList, []⟩).1.trans rfl

/-- The `ValueWitness` production: `demangleValueWitnessKind` never returns a kind. -/
theorem demangleValueWitnessKind_null (s : St) :
    ∃ s1, demangleValueWitnessKind s = Res.null s1 := by
  unfold demangleValueWitnessKind
  rw [run_bind, run_nonEmpty]
  cases h1 : s.Mangled.isEmpty with
  | true => exact ⟨_, rfl⟩
  | false =>
    simp only [Bool.not_false, Bool.not_true, Bool.false_eq_true, if_false, run_bind, run_next,
      run_nonEmpty]
    cases h2 : s.Mangled.tail.isEmpty with
    | true => exact ⟨_, rfl⟩
    | false =>
      simp only [Bool.not_false, Bool.not_true, Bool.false_eq_true, if_false, run_bind,
        run_next, run_fail]
      exact ⟨_, rfl⟩

theorem demangleGlobal_valueWitness_null (E : Env) (r : Rec) (t : List Char)
    (subs : List Node) : ∃ s1, demangleGlobal E r ⟨'w' :: t, subs⟩ = Res.null s1 := by
  obtain ⟨s1, h1⟩ := demangleValueWitnessKind_null ⟨t, subs⟩
  refine ⟨s1, ?_⟩
  have hs : (⟨'w' :: t, subs⟩ : St).Mangled = 'w' :: t := rfl
  have hw : nextIf 'w' ⟨'w' :: t, subs⟩ = Res.ok true ⟨t, subs⟩ := rfl
  have hPA : nextIfStr "PA".toList ⟨'w' :: t, subs⟩ = Res.ok false ⟨'w' :: t, subs⟩ := rfl
  unfold demangleGlobal
  simp only [run_bind, run_nonEmpty, List.isEmpty_cons, Bool.not_false, Bool.not_true,
    Bool.false_eq_true, if_false, nextIf_ne hs (show 'w' ≠ 'M' by decide), hPA,
    nextIf_ne hs (show 'w' ≠ 't' by decide), hw, if_true, h1]

/-- C36. `demangleValueWitnessKind` returns no kind on any text, `demangleGlobal` fails
on every text that starts with `w`, and so `demangleTopLevel` fails on `_Tw` followed
by anything: no `ValueWitness` node is made. -/
theorem demangleTopLevel_valueWitness_null (E : Env) (r : Rec) (rest : List Char)
    (subs : List Node) :
    (∀ s, ∃ s1, demangleValueWitnessKind s = Res.null s1) ∧
    (∃ s1, demangleGlobal E r ⟨'w' :: rest, subs⟩ = Res.null s1) ∧
    (∃ s1, demangleTopLevel E ("_Tw".toList ++ rest) = Res.null s1) := by
  refine ⟨demangleValueWitnessKind_null, demangleGlobal_valueWitness_null E r rest subs, ?_⟩
  obtain ⟨s1, h1⟩ := demangleGlobal_valueWitness_null E (tie E ("_Tw".toList ++ rest).length)
    rest []
  refine ⟨s1, ?_⟩
  have hp : demangleTopLevelPrefix E (tie E (("_Tw".toList ++ rest).length + 1))
      (initial ("_Tw".toList ++ rest)) =
      Res.ok (createNode Kind.Global) ⟨'w' :: rest, []⟩ := by
    simp [demangleTopLevelPrefix, run_nextIfStr, initial, List.isPrefixOf, createNode]
  unfold demangleTopLevel demangleTopLevelBody
  rw [bind_ok hp, run_bind]
  have hg : (tie E (("_Tw".toList ++ rest).length + 1)).demangleGlobal =
      demangleGlobal E (tie E ("_Tw".toList ++ rest).length) := rfl
  rw [hg, h1]

theorem demangleTypeImpl_owned (E : Env) (r : Rec) (c : Char)
    (hc : c = 'o' ∨ c = 'u' ∨ c = 'w') (t : List Char) (subs : List Node) :
    demangleTypeImpl E r ⟨'X' :: c :: t, subs⟩ = demangleTypeInto r Kind.Owned ⟨t, subs⟩ := by
  rcases hc with rfl | rfl | rfl <;>
  simp [demangleTypeImpl, demangleTypeImplX, run_bind, run_nonEmpty, run_next, run_nextIf]

theorem demangleGlobal_type (E : Env) (k : Nat) (a : List Char) :
    demangleGlobal E (tie E (k + 1)) ⟨'t' :: a, []⟩ =
      match demangleTypeImpl E (tie E k) ⟨a, []⟩ with
      | .ok type s1 =>
          Res.ok (Node.mk Kind.TypeMangling Payload.none
            [Node.mk Kind.Type_ Payload.none [type]]) s1
      | .null s1 => Res.null s1
      | .fault => Res.fault
      | .fuel => Res.fuel := by
  have hs : (⟨'t' :: a, []⟩ : St).Mangled = 't' :: a := rfl
  have ht : nextIf 't' ⟨'t' :: a, []⟩ = Res.ok true ⟨a, []⟩ := rfl
  have hPA : nextIfStr "PA".toList ⟨'t' :: a, []⟩ = Res.ok false ⟨'t' :: a, []⟩ := rfl
  have hi : (tie E (k + 1)).demangleTypeImpl = demangleTypeImpl E (tie E k) := rfl
  unfold demangleGlobal
  simp only [run_bind, run_nonEmpty, List.isEmpty_cons, Bool.not_false, Bool.not_true,
    Bool.false_eq_true, if_false, nextIf_ne hs (show 't' ≠ 'M' by decide), hPA, ht, if_true,
    childType, demangleType, hi]
  cases demangleTypeImpl E (tie E k) ⟨a, []⟩ <;> rfl

theorem demangleTopLevel_type (E : Env) (a : List Char) :
    demangleTopLevel E ("_Tt".toList ++ a) =
      match demangleTypeImpl E (tie E (a.length + 2)) ⟨a, []⟩ with
      | .ok type s1 =>
          demangleTopLevelSuffix (Node.mk Kind.Global Payload.none
            [Node.mk Kind.TypeMangling Payload.none
              [Node.mk Kind.Type_ Payload.none [type]]]) s1
      | .null s1 => Res.null s1
      | .fault => Res.fault
      | .fuel => Res.fuel := by
  have hlen : ("_Tt".toList ++ a).length + 1 = (a.length + 2 + 1) + 1 := by
    simp only [String.toList, List.length_append, List.length_cons, List.length_nil]
    omega
  have hp : ∀ r, demangleTopLevelPrefix E r (initial ("_Tt".toList ++ a)) =
      Res.ok (createNode Kind.Global) ⟨'t' :: a, []⟩ := by
    intro r
    simp [demangleTopLevelPrefix, run_nextIfStr, initial, List.isPrefixOf, createNode]
  have hg : (tie E (a.length + 2 + 1 + 1)).demangleGlobal =
      demangleGlobal E (tie E (a.length + 2 + 1)) := rfl
  unfold demangleTopLevel demangleTopLevelBody
  rw [hlen, bind_ok (hp _), run_bind, hg, demangleGlobal_type]
  cases demangleTypeImpl E (tie E (a.length + 2)) ⟨a, []⟩ <;> rfl

/-- C37. The sigils `Xo`, `Xu` and `Xw` are decoded alike: `demangleTypeImpl` reads the
type that follows and returns `Owned[type]` for each of them, so the three results are
equal on every suffix, and so are the trees that `demangleTopLevel` returns for `_TtXo`,
`_TtXu` and `_TtXw` followed by the same suffix. -/
theorem demangleTypeImpl_reference_storage (E : Env) (r : Rec) (s : List Char)
    (subs : List Node) :
    (demangleTypeImpl E r ⟨"Xo".toList ++ s, subs⟩ =
        match demangleType r ⟨s, subs⟩ with
        | .ok type s1 => Res.ok (Node.mk Kind.Owned Payload.none [type]) s1
        | .null s1 => Res.null s1
        | .fault => Res.fault
        | .fuel => Res.fuel) ∧
    demangleTypeImpl E r ⟨"Xu".toList ++ s, subs⟩ =
      demangleTypeImpl E r ⟨"Xo".toList ++ s, subs⟩ ∧
    demangleTypeImpl E r ⟨"Xw".toList ++ s, subs⟩ =
      demangleTypeImpl E r ⟨"Xo".toList ++ s, subs⟩ ∧
    demangleTopLevel E ("_TtXu".toList ++ s) = demangleTopLevel E ("_TtXo".toList ++ s) ∧
    demangleTopLevel E ("_TtXw".toList ++ s) = demangleTopLevel E ("_TtXo".toList ++ s) := by
  have ho := demangleTypeImpl_owned E r 'o' (Or.inl rfl) s subs
  have hu := demangleTypeImpl_owned E r 'u' (Or.inr (Or.inl rfl)) s subs
  have hw := demangleTypeImpl_owned E r 'w' (Or.inr (Or.inr rfl)) s subs
  have top : ∀ c : Char, c = 'o' ∨ c = 'u' ∨ c = 'w' →
      demangleTopLevel E ("_Tt".toList ++ 'X' :: c :: s) =
        match demangleTypeInto (tie E (s.length + 2 + 2)) Kind.Owned ⟨s, []⟩ with
        | .ok type s1 =>
            demangleTopLevelSuffix (Node.mk Kind.Global Payload.none
              [Node.mk Kind.TypeMangling Payload.none
                [Node.mk Kind.Type_ Payload.none [type]]]) s1
        | .null s1 => Res.null s1
        | .fault => Res.fault
        | .fuel => Res.fuel := by
    intro c hc
    rw [demangleTopLevel_type, ← demangleTypeImpl_owned E _ c hc s []]
    rfl
  refine ⟨?_, hu.trans ho.symm, hw.trans ho.symm, ?_, ?_⟩
  · rw [show "Xo".toList ++ s = 'X' :: 'o' :: s from rfl, ho]
    unfold demangleTypeInto
    rw [run_bind]
    cases demangleType r ⟨s, subs⟩ <;> rfl
  · exact (top 'u' (Or.inr (Or.inl rfl))).trans (top 'o' (Or.inl rfl)).symm
  · exact (top 'w' (Or.inr (Or.inr rfl))).trans (top 'o' (Or.inl rfl)).symm

theorem mod_indexMod_unsignedMod (n : Nat) : n % indexMod % unsignedMod = n % unsignedMod :=
  Nat.mod_mod_of_dvd n (by decide : unsignedMod ∣ indexMod)

/-- C39, as the claim states it, fails: on `4294967294_` the index read is 2^32 - 1, and
the node has the index 0 and not 2^32. -/
theorem demangleGenericParamIndex_truncates :
    demangleIndex ⟨"4294967294_".toList, []⟩ = Res.ok 4294967295 ⟨[], []⟩ ∧
    demangleGenericParamIndex swiftEnv ⟨"4294967294_".toList, []⟩ =
      Res.ok (Node.mk Kind.DependentGenericParamType (Payload.text [])
        [Node.mk Kind.Index (Payload.index 0) [], Node.mk Kind.Index (Payload.index 0) []])
        ⟨[], []⟩ :=
  ⟨rfl, rfl⟩

/-- C39, amended. `demangleGenericParamIndex` returns the node of depth 0 and index 0 for
`x`; for an index `i` without a letter in front the node of depth 0 and index `i + 1`
modulo 2^32; and for `d` followed by an index `d` and an index `i` the node of depth
`d + 1` modulo 2^32 and index `i` modulo 2^32.  The node is a `DependentGenericParamType`
with the children `Index depth` and `Index index`, and the production fails exactly when
one of these calls of `demangleIndex` fails. -/
theorem demangleGenericParamIndex_value (E : Env) (s : St) :
    (∀ t, s.Mangled = 'x' :: t →
      demangleGenericParamIndex E s = Res.ok (genericParamNode E 0 0) { s with Mangled := t }) ∧
    (s.Mangled.head? ≠ some 'd' → s.Mangled.head? ≠ some 'x' →
      demangleGenericParamIndex E s =
        match demangleIndex s with
        | .ok i s1 => Res.ok (genericParamNode E 0 ((i + 1) % unsignedMod)) s1
        | .null s1 => Res.null s1
        | .fault => Res.fault
        | .fuel => Res.fuel) ∧
    (∀ t, s.Mangled = 'd' :: t →
      demangleGenericParamIndex E s =
        match demangleIndex { s with Mangled := t } with
        | .ok d s1 =>
            match demangleIndex s1 with
            | .ok i s2 =>
                Res.ok (genericParamNode E ((d + 1) % unsignedMod) (i % unsignedMod)) s2
            | .null s2 => Res.null s2
            | .fault => Res.fault
            | .fuel => Res.fuel
        | .null s1 => Res.null s1
        | .fault => Res.fault
        | .fuel => Res.fuel) := by
  refine ⟨fun t h => ?_, fun hd hx => ?_, fun t h => ?_⟩
  · have h1 : nextIf 'd' s = Res.ok false s := nextIf_ne h (by decide)
    unfold demangleGenericParamIndex
    simp only [run_bind, h1, nextIf_eq h, Bool.false_eq_true, if_false, if_true]
    rfl
  · have h1 : nextIf 'd' s = Res.ok false s := by rw [run_nextIf, if_neg hd]
    have h2 : nextIf 'x' s = Res.ok false s := by rw [run_nextIf, if_neg hx]
    unfold demangleGenericParamIndex
    simp only [run_bind, h1, h2, Bool.false_eq_true, if_false]
    cases demangleIndex s with
    | ok i s1 =>
      simp only [mod_indexMod_unsignedMod]
      rfl
    | null s1 => rfl
    | fault => rfl
    | fuel => rfl
  · unfold demangleGenericParamIndex
    simp only [run_bind, nextIf_eq h, if_true]
    cases demangleIndex { s with Mangled := t } with
    | ok d s1 =>
      simp only []
      cases demangleIndex s1 with
      | ok i s2 =>
        simp only [mod_indexMod_unsignedMod]
        rfl
      | null s2 => rfl
      | fault => rfl
      | fuel => rfl
    | null s1 => rfl
    | fault => rfl
    | fuel => rfl

/-- C39, amended, at the text `d_0_x`: depth 1 and index 1. -/
theorem demangleGenericParamIndex_value_witness :
    demangleGenericParamIndex swiftEnv ⟨"d_0_x".toList, []⟩ =
      Res.ok (genericParamNode swiftEnv 1 1) ⟨"x".toList, []⟩ :=
  ((demangleGenericParamIndex_value swiftEnv ⟨"d_0_x".toList, []⟩).2.2 "_0_x".toList
    rfl).trans rfl

theorem demangleImplConvention_sigil (ctxt : ImplConventionContext) (c : Char)
    (t : List Char) (subs : List Node) :
    demangleImplConvention ctxt ⟨c :: t, subs⟩ =
      Res.ok ((implConventionFor ctxt c).getD []) ⟨afterImplConvention c t, subs⟩ := by
  by_cases hc : c ∈ implConventionSigils
  · simp only [implConventionSigils, String.toList, List.mem_cons, List.mem_singleton,
      List.not_mem_nil, or_false] at hc
    rcases hc with rfl | rfl | rfl | rfl | rfl | rfl | rfl | rfl <;> cases ctxt <;> rfl
  · have hc1 := hc
    simp only [implConventionSigils, String.toList, List.mem_cons, List.mem_singleton,
      List.not_mem_nil, or_false, not_or] at hc1
    obtain ⟨h1, h2, h3, h4, h5, h6, h7, h8⟩ := hc1
    have hs : (⟨c :: t, subs⟩ : St).Mangled = c :: t := rfl
    have hfor : implConventionFor ctxt c = Option.none := by
      simp [implConventionFor, implConventions, Ne.symm h1, Ne.symm h2, Ne.symm h3,
        Ne.symm h4, Ne.symm h5, Ne.symm h6, Ne.symm h7, Ne.symm h8]
    unfold demangleImplConvention
    simp only [run_bind, nextIf_ne hs h1, nextIf_ne hs h2, nextIf_ne hs h3, nextIf_ne hs h4,
      nextIf_ne hs h5, nextIf_ne hs h6, nextIf_ne hs h7, nextIf_ne hs h8, Bool.false_eq_true,
      if_false, hfor, afterImplConvention, if_neg hc]
    rfl

theorem implConventionFor_ne_nil (ctxt : ImplConventionContext) (c : Char) (attr : List Char)
    (h : implConventionFor ctxt c = some attr) : attr ≠ [] := by
  unfold implConventionFor at h
  cases hf : implConventions.find? (fun e => decide (e.1 = ctxt) && decide (e.2.1 = c)) with
  | none => rw [hf] at h; cases h
  | some e =>
    rw [hf] at h
    have hm : e ∈ implConventions := List.mem_of_find?_eq_some hf
    have hall : ∀ x ∈ implConventions, x.2.2.toList ≠ [] := by decide
    cases h
    exact hall e hm

theorem demangleImplParameterOrResult_tail (r : Rec) (kind : Kind)
    (ctxt : ImplConventionContext)
    (hk : (kind = Kind.ImplParameter ∧ ctxt = ImplConventionContext.Parameter) ∨
      ((kind = Kind.ImplResult ∨ kind = Kind.ImplErrorResult) ∧
        ctxt = ImplConventionContext.Result))
    (c : Char) (t : List Char) (subs : List Node) :
    (do
      let ConvCtx ←
        if kind = Kind.ImplParameter then
          pure ImplConventionContext.Parameter
        else if kind = Kind.ImplResult ∨ kind = Kind.ImplErrorResult then
          pure ImplConventionContext.Result
        else
          fail
      let convention ← demangleImplConvention ConvCtx
      if convention.isEmpty then
        fail
      else
        let type ← demangleType r
        let node := createNode kind
        let node := node.addChild (createNodeText Kind.ImplConvention convention)
        let node := node.addChild type
        pure node : M Node) ⟨c :: t, subs⟩ =
      match implConventionFor ctxt c with
      | some attr =>
          match demangleType r ⟨afterImplConvention c t, subs⟩ with
          | .ok type s1 => Res.ok (implParameterNode kind attr type) s1
          | .null s1 => Res.null s1
          | .fault => Res.fault
          | .fuel => Res.fuel
      | Option.none => Res.null ⟨afterImplConvention c t, subs⟩ := by
  have inner : (do
      let convention ← demangleImplConvention ctxt
      if convention.isEmpty then
        fail
      else
        let type ← demangleType r
        let node := createNode kind
        let node := node.addChild (createNodeText Kind.ImplConvention convention)
        let node := node.addChild type
        pure node : M Node) ⟨c :: t, subs⟩ =
      match implConventionFor ctxt c with
      | some attr =>
          match demangleType r ⟨afterImplConvention c t, subs⟩ with
          | .ok type s1 => Res.ok (implParameterNode kind attr type) s1
          | .null s1 => Res.null s1
          | .fault => Res.fault
          | .fuel => Res.fuel
      | Option.none => Res.null ⟨afterImplConvention c t, subs⟩ := by
    simp only [run_bind, run_pure, demangleImplConvention_sigil]
    cases hf : implConventionFor ctxt c with
    | none => rfl
    | some attr =>
      have hne := implConventionFor_ne_nil ctxt c attr hf
      have he : attr.isEmpty = false := by
        cases attr with
        | nil => exact absurd rfl hne
        | cons x xs => rfl
      simp only [Option.getD_some, he, Bool.false_eq_true, if_false, run_bind]
      cases demangleType r ⟨afterImplConvention c t, subs⟩ <;> rfl
  rw [← inner]
  rcases hk with ⟨rfl, rfl⟩ | ⟨rfl | rfl, rfl⟩ <;> rfl

theorem demangleImplParameterOrResult_plain (r : Rec) (kind : Kind)
    (ctxt : ImplConventionContext)
    (hk : (kind = Kind.ImplParameter ∧ ctxt = ImplConventionContext.Parameter) ∨
      (kind = Kind.ImplResult ∧ ctxt = ImplConventionContext.Result))
    (c : Char) (hz : c ≠ 'z') (t : List Char) (subs : List Node) :
    demangleImplParameterOrResult r kind ⟨c :: t, subs⟩ =
      match implConventionFor ctxt c with
      | some attr =>
          match demangleType r ⟨afterImplConvention c t, subs⟩ with
          | .ok type s1 => Res.ok (implParameterNode kind attr type) s1
          | .null s1 => Res.null s1
          | .fault => Res.fault
          | .fuel => Res.fuel
      | Option.none => Res.null ⟨afterImplConvention c t, subs⟩ := by
  have hn : nextIf 'z' ⟨c :: t, subs⟩ = Res.ok false ⟨c :: t, subs⟩ := nextIf_ne rfl hz
  rw [← demangleImplParameterOrResult_tail r kind ctxt
    (hk.imp id (fun h => ⟨Or.inl h.1, h.2⟩)) c t subs]
  unfold demangleImplParameterOrResult
  simp only [run_bind, hn, Bool.false_eq_true, if_false, run_pure]

theorem demangleImplParameterOrResult_error (r : Rec) (c : Char) (t : List Char)
    (subs : List Node) :
    demangleImplParameterOrResult r Kind.ImplParameter ⟨'z' :: c :: t, subs⟩ =
      Res.null ⟨c :: t, subs⟩ ∧
    demangleImplParameterOrResult r Kind.ImplResult ⟨'z' :: c :: t, subs⟩ =
      match implConventionFor ImplConventionContext.Result c with
      | some attr =>
          match demangleType r ⟨afterImplConvention c t, subs⟩ with
          | .ok type s1 => Res.ok (implParameterNode Kind.ImplErrorResult attr type) s1
          | .null s1 => Res.null s1
          | .fault => Res.fault
          | .fuel => Res.fuel
      | Option.none => Res.null ⟨afterImplConvention c t, subs⟩ := by
  have hn : nextIf 'z' ⟨'z' :: c :: t, subs⟩ = Res.ok true ⟨c :: t, subs⟩ := rfl
  constructor
  · rfl
  · rw [← demangleImplParameterOrResult_tail r Kind.ImplErrorResult
      ImplConventionContext.Result (Or.inr ⟨Or.inr rfl, rfl⟩) c t subs]
    unfold demangleImplParameterOrResult
    simp only [run_bind, hn, if_true, run_pure]
    rfl

theorem demangleImplCalleeConvention_run (type : Node) (c : Char) (t : List Char)
    (subs : List Node) :
    demangleImplCalleeConvention type ⟨c :: t, subs⟩ =
      if c = 't' then
        Res.ok (type.addChild (createNodeText Kind.ImplConvention "@convention(thin)".toList))
          ⟨t, subs⟩
      else
        match implConventionFor ImplConventionContext.Callee c with
        | some attr =>
            Res.ok (type.addChild (createNodeText Kind.ImplConvention attr))
              ⟨afterImplConvention c t, subs⟩
        | Option.none => Res.null ⟨afterImplConvention c t, subs⟩ := by
  by_cases hc : c = 't'
  · subst hc
    rfl
  · have hn : nextIf 't' ⟨c :: t, subs⟩ = Res.ok false ⟨c :: t, subs⟩ := nextIf_ne rfl hc
    rw [if_neg hc]
    unfold demangleImplCalleeConvention
    simp only [run_bind, hn, Bool.false_eq_true, if_false, demangleImplConvention_sigil]
    cases hf : implConventionFor ImplConventionContext.Callee c with
    | none => rfl
    | some attr =>
      have hne := implConventionFor_ne_nil _ c attr hf
      have he : attr.isEmpty = false := by
        cases attr with
        | nil => exact absurd rfl hne
        | cons x xs => rfl
      simp only [Option.getD_some, he, Bool.false_eq_true, if_false]
      rfl

theorem implConventionFor_of_mem (ctxt : ImplConventionContext) (c : Char) (attr : String)
    (h : (ctxt, c, attr) ∈ implConventions) :
    implConventionFor ctxt c = some attr.toList ∧ c ∈ implConventionSigils ∧ c ≠ 'z' ∧
      c ≠ 't' := by
  have key : ∀ e ∈ implConventions, implConventionFor e.1 e.2.1 = some e.2.2.toList ∧
      e.2.1 ∈ implConventionSigils ∧ e.2.1 ≠ 'z' ∧ e.2.1 ≠ 't' := by decide
  exact key (ctxt, c, attr) h

theorem implConventionFor_of_not_mem (ctxt : ImplConventionContext) (c : Char)
    (h : ∀ attr, (ctxt, c, attr) ∉ implConventions) : implConventionFor ctxt c = Option.none := by
  unfold implConventionFor
  rw [Option.map_eq_none', List.find?_eq_none]
  intro e he hp
  simp only [Bool.and_eq_true, decide_eq_true_eq] at hp
  obtain ⟨e1, e2, e3⟩ := e
  simp only at hp
  obtain ⟨rfl, rfl⟩ := hp
  exact h e3 he

theorem loop_null (E : Env) (n : Nat) {σ : Type} (round : σ → M (Iter σ)) (acc : σ)
    (s s1 : St) (h : round acc s = Res.null s1) :
    (tie E (n + 1)).loop round acc s = Res.null s1 := by
  rw [tie_loop, run_bind, h]

/-- C33. `demangleImplConvention` consumes the sigil and returns the attribute for each of
the fourteen pairs of `implConventions` (none of them empty), and returns the empty
attribute for every other pairing of a context and a next character.  The callee
convention is `@convention(thin)` for `t` and the attribute of the pair otherwise; with no
pair `demangleImplCalleeConvention` fails, and `demangleImplFunctionType` with it.  A
parameter or result is `kind[ImplConvention attr, type]` for a pair of its context; with
no pair it fails, a parameter after the error sigil `z` fails, and the loops
`demangleImplParameters` and `demangleImplResults` fail when the parameter or result at
hand fails. -/
theorem demangleImplConvention_table (E : Env) (r : Rec) (n : Nat) (t : List Char)
    (subs : List Node) :
    implConventions.length = 14 ∧
    (∀ ctxt c attr, (ctxt, c, attr) ∈ implConventions →
      attr.toList ≠ [] ∧
        demangleImplConvention ctxt ⟨c :: t, subs⟩ = Res.ok attr.toList ⟨t, subs⟩) ∧
    (∀ ctxt c, (∀ attr, (ctxt, c, attr) ∉ implConventions) →
      ∃ t1, demangleImplConvention ctxt ⟨c :: t, subs⟩ = Res.ok [] ⟨t1, subs⟩) ∧
    (∀ type, demangleImplCalleeConvention type ⟨'t' :: t, subs⟩ =
      Res.ok (type.addChild (createNodeText Kind.ImplConvention "@convention(thin)".toList))
        ⟨t, subs⟩) ∧
    (∀ type c attr, (ImplConventionContext.Callee, c, attr) ∈ implConventions →
      demangleImplCalleeConvention type ⟨c :: t, subs⟩ =
        Res.ok (type.addChild (createNodeText Kind.ImplConvention attr.toList)) ⟨t, subs⟩) ∧
    (∀ c, c ≠ 't' → (∀ attr, (ImplConventionContext.Callee, c, attr) ∉ implConventions) →
      ∃ s1, (∀ type, demangleImplCalleeConvention type ⟨c :: t, subs⟩ = Res.null s1) ∧
        demangleImplFunctionType E r ⟨c :: t, subs⟩ = Res.null s1) ∧
    (∀ c attr type s1, (ImplConventionContext.Parameter, c, attr) ∈ implConventions →
      demangleType r ⟨t, subs⟩ = Res.ok type s1 →
      demangleImplParameterOrResult r Kind.ImplParameter ⟨c :: t, subs⟩ =
        Res.ok (implParameterNode Kind.ImplParameter attr.toList type) s1) ∧
    (∀ c attr type s1, (ImplConventionContext.Result, c, attr) ∈ implConventions →
      demangleType r ⟨t, subs⟩ = Res.ok type s1 →
      demangleImplParameterOrResult r Kind.ImplResult ⟨c :: t, subs⟩ =
          Res.ok (implParameterNode Kind.ImplResult attr.toList type) s1 ∧
        demangleImplParameterOrResult r Kind.ImplResult ⟨'z' :: c :: t, subs⟩ =
          Res.ok (implParameterNode Kind.ImplErrorResult attr.toList type) s1) ∧
    (∀ c, c ≠ 'z' → (∀ attr, (ImplConventionContext.Parameter, c, attr) ∉ implConventions) →
      ∃ s1, demangleImplParameterOrResult r Kind.ImplParameter ⟨c :: t, subs⟩ = Res.null s1) ∧
    (∀ c, c ≠ 'z' → (∀ attr, (ImplConventionContext.Result, c, attr) ∉ implConventions) →
      ∃ s1, demangleImplParameterOrResult r Kind.ImplResult ⟨c :: t, subs⟩ = Res.null s1) ∧
    demangleImplParameterOrResult r Kind.ImplParameter ⟨'z' :: t, subs⟩ = Res.null ⟨t, subs⟩ ∧
    (∀ parent c s1, c ≠ '_' →
      (demangleImplParameterOrResult (tie E (n + 1)) Kind.ImplParameter ⟨c :: t, subs⟩ =
          Res.null s1 →
        demangleImplParameters (tie E (n + 1)) parent ⟨c :: t, subs⟩ = Res.null s1) ∧
      (demangleImplParameterOrResult (tie E (n + 1)) Kind.ImplResult ⟨c :: t, subs⟩ =
          Res.null s1 →
        demangleImplResults (tie E (n + 1)) parent ⟨c :: t, subs⟩ = Res.null s1)) := by
  have after : ∀ c, c ∈ implConventionSigils → afterImplConvention c t = t :=
    fun c hc => if_pos hc
  refine ⟨rfl, ?_, ?_, fun _ => rfl, ?_, ?_, ?_, ?_, ?_, ?_, rfl, ?_⟩
  · intro ctxt c attr h
    obtain ⟨h1, h2, -, -⟩ := implConventionFor_of_mem ctxt c attr h
    refine ⟨implConventionFor_ne_nil ctxt c _ h1, ?_⟩
    rw [demangleImplConvention_sigil, h1, after c h2]
    rfl
  · intro ctxt c h
    rw [demangleImplConvention_sigil, implConventionFor_of_not_mem ctxt c h]
    exact ⟨_, rfl⟩
  · intro type c attr h
    obtain ⟨h1, h2, -, ht⟩ := implConventionFor_of_mem _ c attr h
    rw [demangleImplCalleeConvention_run, if_neg ht, h1, after c h2]
  · intro c ht h
    have hnone := implConventionFor_of_not_mem _ c h
    refine ⟨⟨afterImplConvention c t, subs⟩, fun type => ?_, ?_⟩
    · rw [demangleImplCalleeConvention_run, if_neg ht, hnone]
    · unfold demangleImplFunctionType
      rw [bind_null]
      rw [demangleImplCalleeConvention_run, if_neg ht, hnone]
  · intro c attr type s1 h htype
    obtain ⟨h1, h2, hz, -⟩ := implConventionFor_of_mem _ c attr h
    rw [demangleImplParameterOrResult_plain r _ _ (Or.inl ⟨rfl, rfl⟩) c hz, h1]
    simp only [after c h2, htype]
  · intro c attr type s1 h htype
    obtain ⟨h1, h2, hz, -⟩ := implConventionFor_of_mem _ c attr h
    constructor
    · rw [demangleImplParameterOrResult_plain r _ _ (Or.inr ⟨rfl, rfl⟩) c hz, h1]
      simp only [after c h2, htype]
    · rw [(demangleImplParameterOrResult_error r c t subs).2, h1]
      simp only [after c h2, htype]
  · intro c hz h
    rw [demangleImplParameterOrResult_plain r _ _ (Or.inl ⟨rfl, rfl⟩) c hz,
      implConventionFor_of_not_mem _ c h]
    exact ⟨_, rfl⟩
  · intro c hz h
    rw [demangleImplParameterOrResult_plain r _ _ (Or.inr ⟨rfl, rfl⟩) c hz,
      implConventionFor_of_not_mem _ c h]
    exact ⟨_, rfl⟩
  · intro parent c s1 hc
    have hn : nextIf '_' ⟨c :: t, subs⟩ = Res.ok false ⟨c :: t, subs⟩ := nextIf_ne rfl hc
    constructor
    · intro h
      unfold demangleImplParameters
      apply loop_null
      unfold demangleImplParametersRound
      simp only [run_bind, hn, Bool.false_eq_true, if_false, h]
    · intro h
      unfold demangleImplResults
      apply loop_null
      unfold demangleImplResultsRound
      simp only [run_bind, hn, Bool.false_eq_true, if_false, h]

/-- C33 at the parameter `iSi` and at the callee sigil `a`: the parameter is
`ImplParameter[ImplConvention @in, Type[Int]]`, and `a` is no callee convention. -/
theorem demangleImplConvention_table_witness :
    demangleImplParameterOrResult (tie swiftEnv 2) Kind.ImplParameter ⟨"iSi".toList, []⟩ =
      Res.ok (implParameterNode Kind.ImplParameter "@in".toList
        (Node.mk Kind.Type_ Payload.none [stdlibType swiftEnv Kind.Structure "Int"]))
        ⟨[], []⟩ ∧
    ∃ s1, demangleImplFunctionType swiftEnv (tie swiftEnv 2) ⟨"aSi".toList, []⟩ =
      Res.null s1 :=
  ⟨(demangleImplConvention_table swiftEnv (tie swiftEnv 2) 0 "Si".toList []).2.2.2.2.2.2.1
      'i' "@in" _ _ (by decide) rfl,
    let ⟨s1, h⟩ := (demangleImplConvention_table swiftEnv (tie swiftEnv 2) 0 "Si".toList
      []).2.2.2.2.2.1 'a' (by decide)
      (fun attr h => by simp [implConventions] at h)
    ⟨s1, h.2⟩⟩

theorem decodeOperator_length (payload : List Char) :
    ∀ buffer out, decodeOperator payload buffer = some out →
      out.length = buffer.length + payload.length := by
  induction payload with
  | nil =>
    intro buffer out h
    simp only [decodeOperator, Option.some.injEq] at h
    rw [← h]
    rfl
  | cons c t ih =>
    intro buffer out h
    unfold decodeOperator at h
    split at h
    · rw [ih _ _ h]
      simp only [List.length_append, List.length_cons, List.length_nil]
      omega
    · split at h
      · cases h
      · simp only [] at h
        split at h
        · cases h
        · rw [ih _ _ h]
          simp only [List.length_append, List.length_cons, List.length_nil]
          omega

theorem demangleIdentifierPayload_text (E : Env) (isPunycoded isOperator : Bool)
    (kind : Kind) (s : St) :
    Ret (demangleIdentifierPayload E isPunycoded isOperator kind) s
      (fun a _ => a.getText ≠ []) := by
  unfold demangleIdentifierPayload
  apply ret_bind ret_any
  intro length s1 _
  apply ret_bind ret_any
  intro b s2 _
  apply ret_ite
  · intro _
    exact ret_failed
  · intro _
    apply ret_bind ret_any
    intro identifier s3 _
    apply ret_bind ret_any
    intro u s4 _
    apply ret_bind ret_any
    intro identifier2 s5 _
    apply ret_ite
    · intro _
      exact ret_failed
    · intro hne
      have hne1 : identifier2 ≠ [] := by
        intro h
        apply hne
        rw [h]
        rfl
      apply ret_ite
      · intro _
        cases hd : decodeOperator identifier2 [] with
        | none => exact ret_failed
        | some out =>
          refine ret_done ?_
          have hl := decodeOperator_length identifier2 [] out hd
          intro h
          have h1 : out = [] := h
          rw [h1] at hl
          simp only [List.length_nil, Nat.zero_add] at hl
          exact hne1 (List.length_eq_zero.mp hl.symm)
      · intro _
        exact ret_done hne1

theorem demangleIdentifier_nonempty (E : Env) (kind : Option Kind) (s : St) :
    Ret (demangleIdentifier E kind) s (fun a _ => a.getText ≠ []) := by
  unfold demangleIdentifier
  apply ret_ite_not_nonEmpty
  apply ret_bind ret_any
  intro isPunycoded s1 _
  apply ret_bind ret_any
  intro isOperator s2 _
  simp only []
  repeat' first
    | exact demangleIdentifierPayload_text E isPunycoded isOperator _ _
    | exact ret_failed
    | with_reducible apply ret_ite
    | with_reducible apply ret_bind ret_any
    | with_reducible intro _
    | split

theorem demangleIdentifier_null_of_empty_payload (E : Env) (kind : Option Kind)
    (punycoded : Bool) (operator : Option Char) (digits rest : List Char)
    (subs : List Node) (hd : digits ≠ []) (hall : ∀ c ∈ digits, isDigit c = true)
    (hrest : ∀ c ∈ rest.head?, isDigit c = false)
    (hempty : decode E punycoded (rest.take (decimalValue digits % indexMod)) = []) :
    ∃ s1, demangleIdentifier E kind ⟨identifierText punycoded operator digits rest, subs⟩ =
      Res.null s1 := by
  have hp : ∀ (isOperator : Bool) (k : Kind),
      ∃ s1, demangleIdentifierPayload E punycoded isOperator k ⟨digits ++ rest, subs⟩ =
        Res.null s1 := by
    intro isOperator k
    rw [demangleIdentifierPayload_digits E punycoded isOperator k digits rest subs hd hall
      hrest, hempty]
    by_cases hl : decimalValue digits % indexMod ≤ rest.length
    · rw [if_pos hl]
      exact ⟨_, rfl⟩
    · rw [if_neg hl]
      exact ⟨_, rfl⟩
  rw [demangleIdentifier_text E kind punycoded operator digits rest subs hd hall]
  cases operator with
  | none => exact hp false _
  | some mode =>
    simp only []
    by_cases hk : kind.isSome = true
    · rw [if_pos hk]
      exact ⟨_, rfl⟩
    · rw [if_neg hk]
      cases operatorKind mode with
      | none => exact ⟨_, rfl⟩
      | some k => exact hp true k

/-- C38. Every node that `demangleIdentifier` returns has a text that is not empty.  On
the text of an identifier (markers, the digits of the length, the rest) it fails when the
length is 0 and there is no punycode marker, and it fails when there is a punycode marker
and the punycode decoder fails on the payload or decodes it to the empty text. -/
theorem demangleIdentifier_rejects_empty (E : Env) (kind : Option Kind)
    (operator : Option Char) (digits rest : List Char) (subs : List Node)
    (hd : digits ≠ []) (hall : ∀ c ∈ digits, isDigit c = true)
    (hrest : ∀ c ∈ rest.head?, isDigit c = false) :
    (∀ s a s1, demangleIdentifier E kind s = Res.ok a s1 → a.getText ≠ []) ∧
    (decimalValue digits % indexMod = 0 →
      ∃ s1, demangleIdentifier E kind ⟨identifierText false operator digits rest, subs⟩ =
        Res.null s1) ∧
    (E.decodePunycodeUTF8 (rest.take (decimalValue digits % indexMod)) = Option.none ∨
        E.decodePunycodeUTF8 (rest.take (decimalValue digits % indexMod)) = some [] →
      ∃ s1, demangleIdentifier E kind ⟨identifierText true operator digits rest, subs⟩ =
        Res.null s1) := by
  refine ⟨fun s a s1 h => (demangleIdentifier_nonempty E kind s).out a s1 h, fun h0 => ?_,
    fun hdec => ?_⟩
  · apply demangleIdentifier_null_of_empty_payload E kind false operator digits rest subs hd
      hall hrest
    rw [h0]
    rfl
  · apply demangleIdentifier_null_of_empty_payload E kind true operator digits rest subs hd
      hall hrest
    unfold decode
    rcases hdec with h | h <;> rw [h] <;> rfl

/-- C38 at the texts `0abc` (length 0) and `X3abc` (the decoder of the environment of the
Swift runtime rejects every payload): both are refused. -/
theorem demangleIdentifier_rejects_empty_witness :
    (∃ s1, demangleIdentifier swiftEnv Option.none
      ⟨identifierText false Option.none "0".toList "abc".toList, []⟩ = Res.null s1) ∧
    (∃ s1, demangleIdentifier swiftEnv Option.none
      ⟨identifierText true Option.none "3".toList "abc".toList, []⟩ = Res.null s1) :=
  ⟨(demangleIdentifier_rejects_empty swiftEnv Option.none Option.none "0".toList "abc".toList
      [] (by decide) (by decide) (by decide)).2.1 (by decide),
    (demangleIdentifier_rejects_empty swiftEnv Option.none Option.none "3".toList "abc".toList
      [] (by decide) (by decide) (by decide)).2.2 (Or.inl rfl)⟩

theorem demangleLayoutCode_plain (code : Char) (h : code ∈ "URNT".toList) (t : List Char)
    (subs : List Node) :
    demangleLayoutCode ⟨code :: t, subs⟩ = Res.ok ([code], SIZE_MAX, SIZE_MAX) ⟨t, subs⟩ := by
  simp only [String.toList, List.mem_cons, List.mem_singleton, List.not_mem_nil,
    or_false] at h
  rcases h with rfl | rfl | rfl | rfl <;> rfl

theorem demangleLayoutCode_sized (code : Char) (h : code ∈ "em".toList)
    (digits t : List Char) (subs : List Node)
    (hd : digits ≠ []) (hall : ∀ c ∈ digits, isDigit c = true)
    (hrest : ∀ c ∈ t.head?, isDigit c = false) :
    demangleLayoutCode ⟨code :: (digits ++ t), subs⟩ =
      Res.ok ([code], decimalValue digits % indexMod, SIZE_MAX) ⟨t, subs⟩ := by
  have hn := demangleNatural_digits digits t subs hd hall hrest
  simp only [String.toList, List.mem_cons, List.mem_singleton, List.not_mem_nil,
    or_false] at h
  rcases h with rfl | rfl <;>
  simp [demangleLayoutCode, run_bind, run_nextIf, hn]

theorem demangleLayoutCode_aligned (code : Char) (h : code ∈ "EM".toList)
    (digits1 digits2 t : List Char) (subs : List Node)
    (hd1 : digits1 ≠ []) (hall1 : ∀ c ∈ digits1, isDigit c = true)
    (hd2 : digits2 ≠ []) (hall2 : ∀ c ∈ digits2, isDigit c = true)
    (hrest : ∀ c ∈ t.head?, isDigit c = false) :
    demangleLayoutCode ⟨code :: (digits1 ++ '_' :: (digits2 ++ t)), subs⟩ =
      Res.ok ([code], decimalValue digits1 % indexMod, decimalValue digits2 % indexMod)
        ⟨t, subs⟩ := by
  have hn1 := demangleNatural_digits digits1 ('_' :: (digits2 ++ t)) subs hd1 hall1
    (by intro c hc; simp at hc; subst hc; decide)
  have hn2 := demangleNatural_digits digits2 t subs hd2 hall2 hrest
  simp only [String.toList, List.mem_cons, List.mem_singleton, List.not_mem_nil,
    or_false] at h
  rcases h with rfl | rfl <;>
  simp [demangleLayoutCode, run_bind, run_nextIf, hn1, hn2]

theorem demangleLayoutCode_other (s : St)
    (h : ∀ code ∈ s.Mangled.head?, code ∉ "URNTEeMm".toList) :
    demangleLayoutCode s = Res.null s := by
  have hne : ∀ x ∈ "URNTEeMm".toList, nextIf x s = Res.ok false s := by
    intro x hx
    rw [run_nextIf, if_neg]
    intro hh
    exact h x (by rw [hh]; rfl) hx
  unfold demangleLayoutCode
  simp only [run_bind, hne 'U' (by decide), hne 'R' (by decide), hne 'N' (by decide),
    hne 'T' (by decide), hne 'E' (by decide), hne 'e' (by decide), hne 'M' (by decide),
    hne 'm' (by decide), Bool.false_eq_true, if_false]
  rfl

theorem demangleGenericRequirement_layoutCode (E : Env) (r : Rec) (s : St)
    (constrainedType : Node) (rest : List Char) (subs : List Node)
    (hct : demangleConstrainedType E r s = Res.ok constrainedType ⟨'l' :: rest, subs⟩) :
    demangleGenericRequirement E r s =
      match demangleLayoutCode ⟨rest, subs⟩ with
      | .ok (name, size, alignment) s2 =>
          Res.ok (Node.mk Kind.DependentGenericLayoutRequirement Payload.none
            (constrainedType :: Node.mk Kind.Identifier (Payload.text name) [] ::
              layoutNumbers size alignment)) s2
      | .null s2 => Res.null s2
      | .fault => Res.fault
      | .fuel => Res.fuel := by
  have hz : nextIf 'z' ⟨'l' :: rest, subs⟩ = Res.ok false ⟨'l' :: rest, subs⟩ := rfl
  have hl : nextIf 'l' ⟨'l' :: rest, subs⟩ = Res.ok true ⟨rest, subs⟩ := rfl
  unfold demangleGenericRequirement
  rw [bind_ok hct]
  simp only [run_bind, hz, hl, Bool.false_eq_true, if_false, if_true]
  cases demangleLayoutCode ⟨rest, subs⟩ with
  | ok x s2 =>
    obtain ⟨name, size, alignment⟩ := x
    simp only [layoutNumbers]
    by_cases h1 : size = SIZE_MAX
    · simp only [h1, ne_eq, not_true_eq_false, if_false, if_true]
      rfl
    · by_cases h2 : alignment = SIZE_MAX
      · simp only [h1, h2, ne_eq, not_false_eq_true, not_true_eq_false, if_true, if_false]
        rfl
      · simp only [h1, h2, ne_eq, not_false_eq_true, if_true, if_false]
        rfl
  | null s2 => rfl
  | fault => rfl
  | fuel => rfl

/-- C34. After the constrained type and `l`: the codes `U`, `R`, `N`, `T` give
`DependentGenericLayoutRequirement[constrained type, Identifier code]`; the codes `e` and
`m` followed by a number give one more `Number` child, the size, unless the size is
2^64 - 1, when there is none; the codes `E` and `M` followed by a number, `_` and a number
give the children `Number size` and `Number alignment`, but only the size when the
alignment is 2^64 - 1, and neither when the size is 2^64 - 1; every other code, and the
end of the text, makes the requirement fail. -/
theorem demangleGenericRequirement_layout (E : Env) (r : Rec) (s : St)
    (constrainedType : Node) (rest : List Char) (subs : List Node)
    (hct : demangleConstrainedType E r s = Res.ok constrainedType ⟨'l' :: rest, subs⟩) :
    (∀ code t, rest = code :: t → code ∈ "URNT".toList →
      demangleGenericRequirement E r s =
        Res.ok (layoutRequirementNode constrainedType code []) ⟨t, subs⟩) ∧
    (∀ code digits t, rest = code :: (digits ++ t) → code ∈ "em".toList →
      digits ≠ [] → (∀ c ∈ digits, isDigit c = true) →
      (∀ c ∈ t.head?, isDigit c = false) →
      demangleGenericRequirement E r s =
        Res.ok (layoutRequirementNode constrainedType code
          (if decimalValue digits % indexMod = 2 ^ 64 - 1 then []
            else [Node.mk Kind.Number (Payload.index (decimalValue digits % indexMod)) []]))
          ⟨t, subs⟩) ∧
    (∀ code digits1 digits2 t, rest = code :: (digits1 ++ '_' :: (digits2 ++ t)) →
      code ∈ "EM".toList →
      digits1 ≠ [] → (∀ c ∈ digits1, isDigit c = true) →
      digits2 ≠ [] → (∀ c ∈ digits2, isDigit c = true) →
      (∀ c ∈ t.head?, isDigit c = false) →
      demangleGenericRequirement E r s =
        Res.ok (layoutRequirementNode constrainedType code
          (if decimalValue digits1 % indexMod = 2 ^ 64 - 1 then []
            else Node.mk Kind.Number (Payload.index (decimalValue digits1 % indexMod)) [] ::
              (if decimalValue digits2 % indexMod = 2 ^ 64 - 1 then []
                else [Node.mk Kind.Number
                  (Payload.index (decimalValue digits2 % indexMod)) []])))
          ⟨t, subs⟩) ∧
    ((∀ code ∈ rest.head?, code ∉ "URNTEeMm".toList) →
      demangleGenericRequirement E r s = Res.null ⟨rest, subs⟩) := by
  have hrun := demangleGenericRequirement_layoutCode E r s constrainedType rest subs hct
  refine ⟨?_, ?_, ?_, ?_⟩
  · rintro code t rfl hc
    rw [hrun, demangleLayoutCode_plain code hc]
    rfl
  · rintro code digits t rfl hc hd hall hrest
    rw [hrun, demangleLayoutCode_sized code hc digits t subs hd hall hrest]
    rfl
  · rintro code digits1 digits2 t rfl hc hd1 hall1 hd2 hall2 hrest
    rw [hrun, demangleLayoutCode_aligned code hc digits1 digits2 t subs hd1 hall1 hd2 hall2
      hrest]
    rfl
  · intro h
    rw [hrun, demangleLayoutCode_other ⟨rest, subs⟩ h]

/-- C34 at the requirement `xle18446744073709551615`: the size 2^64 - 1 is read after the
code `e`, and the requirement has no `Number` child; `demangleTopLevel` returns the tree
with this requirement on `_TtuRxle18446744073709551615rFxSi`. -/
theorem demangleGenericRequirement_layout_witness :
    demangleGenericRequirement swiftEnv (tie swiftEnv 3)
        ⟨"xle18446744073709551615r".toList, []⟩ =
      Res.ok (Node.mk Kind.DependentGenericLayoutRequirement Payload.none
        [Node.mk Kind.Type_ Payload.none [genericParamNode swiftEnv 0 0],
          Node.mk Kind.Identifier (Payload.text "e".toList) []]) ⟨"r".toList, []⟩ ∧
    demangleTopLevel swiftEnv "_TtuRxle18446744073709551615rFxSi".toList =
      Res.ok (Node.mk Kind.Global Payload.none [Node.mk Kind.TypeMangling Payload.none
        [Node.mk Kind.Type_ Payload.none [Node.mk Kind.DependentGenericType Payload.none
          [Node.mk Kind.DependentGenericSignature Payload.none
            [Node.mk Kind.DependentGenericParamCount (Payload.index 1) [],
              Node.mk Kind.DependentGenericLayoutRequirement Payload.none
                [Node.mk Kind.Type_ Payload.none [genericParamNode swiftEnv 0 0],
                  Node.mk Kind.Identifier (Payload.text "e".toList) []]],
            Node.mk Kind.Type_ Payload.none [functionTypeNode Kind.FunctionType false
              (Node.mk Kind.Type_ Payload.none [genericParamNode swiftEnv 0 0])
              (Node.mk Kind.Type_ Payload.none
                [stdlibType swiftEnv Kind.Structure "Int"])]]]]]) ⟨[], []⟩ :=
  ⟨((demangleGenericRequirement_layout swiftEnv (tie swiftEnv 3)
      ⟨"xle18446744073709551615r".toList, []⟩ _ "e18446744073709551615r".toList [] rfl).2.1
      'e' "18446744073709551615".toList "r".toList rfl (by decide) (by decide) (by decide)
      (by decide)).trans rfl, rfl⟩

theorem demangleBoundGenericArgsRound_more (r : Rec) (args : Node) (s s1 : St) (type : Node)
    (hstart : s.Mangled.head? ≠ some '_') (htype : demangleType r s = Res.ok type s1)
    (hleft : s1.Mangled ≠ []) :
    demangleBoundGenericArgsRound r args s = Res.ok (Iter.again (args.addChild type)) s1 := by
  have hn : nextIf '_' s = Res.ok false s := by rw [run_nextIf, if_neg hstart]
  have he : s1.Mangled.isEmpty = false := by
    cases hm : s1.Mangled with
    | nil => exact absurd hm hleft
    | cons x xs => rfl
  unfold demangleBoundGenericArgsRound
  simp only [run_bind, hn, Bool.false_eq_true, if_false, htype, run_isEmpty, he]
  rfl

theorem demangleBoundGenericArgsRound_end (r : Rec) (args : Node) (s : St) (rest : List Char)
    (h : s.Mangled = '_' :: rest) :
    demangleBoundGenericArgsRound r args s =
      Res.ok (Iter.done args) { s with Mangled := rest } := by
  unfold demangleBoundGenericArgsRound
  simp only [run_bind, nextIf_eq h, if_true]
  rfl

theorem demangleBoundGenericArgsRound_cut (r : Rec) (args : Node) (s s1 : St) (type : Node)
    (hstart : s.Mangled.head? ≠ some '_') (htype : demangleType r s = Res.ok type s1)
    (hleft : s1.Mangled = []) :
    demangleBoundGenericArgsRound r args s = Res.null s1 := by
  have hn : nextIf '_' s = Res.ok false s := by rw [run_nextIf, if_neg hstart]
  have he : s1.Mangled.isEmpty = true := by rw [hleft]; rfl
  unfold demangleBoundGenericArgsRound
  simp only [run_bind, hn, Bool.false_eq_true, if_false, htype, run_isEmpty, he, if_true]
  rfl

theorem arguments_loop (E : Env) (r : Rec) {s s2 : St} {types : List Node}
    (h : Arguments r s types s2) :
    ∀ (j : Nat) (args : Node),
      (tie E (types.length + j)).loop (demangleBoundGenericArgsRound r) args s =
        (tie E j).loop (demangleBoundGenericArgsRound r)
          (Node.mk args.getKind args.getPayload (args.getChildren ++ types)) s2 := by
  induction h with
  | done s =>
    intro j args
    obtain ⟨k, p, cs⟩ := args
    simp only [List.length_nil, Nat.zero_add, List.append_nil, Node.getKind, Node.getPayload,
      Node.getChildren]
  | more s s1 s2 type types hstart htype hleft hrest ih =>
    intro j args
    have hl : (type :: types).length + j = (types.length + j) + 1 := by
      simp only [List.length_cons]
      omega
    rw [hl, tie_loop, run_bind,
      demangleBoundGenericArgsRound_more r args s s1 type hstart htype hleft]
    simp only []
    rw [ih j]
    obtain ⟨k, p, cs⟩ := args
    simp only [Node.addChild, Node.getKind, Node.getPayload, Node.getChildren,
      List.append_assoc, List.singleton_append]

theorem boundGenericKind_of_mem {k K : Kind} (h : (k, K) ∈ boundGenericKinds) :
    boundGenericKind k = some K := by
  simp only [boundGenericKinds, List.mem_cons, Prod.mk.injEq, List.mem_singleton,
    List.not_mem_nil, or_false] at h
  rcases h with ⟨rfl, rfl⟩ | ⟨rfl, rfl⟩ | ⟨rfl, rfl⟩ <;> rfl

theorem boundGenericKind_of_not_mem {k : Kind} (h : ∀ K, (k, K) ∉ boundGenericKinds) :
    boundGenericKind k = Option.none := by
  unfold boundGenericKind
  split
  · exact absurd (by simp [boundGenericKinds]) (h Kind.BoundGenericClass)
  · exact absurd (by simp [boundGenericKinds]) (h Kind.BoundGenericStructure)
  · exact absurd (by simp [boundGenericKinds]) (h Kind.BoundGenericEnum)
  · rfl

theorem demangleBoundGenericArgs_module (r : Rec) (nominal : Node)
    (hmodule : ∃ module, nominal.getChildren.head? = some module ∧
      module.getKind = Kind.Module) :
    demangleBoundGenericArgs r nominal = demangleBoundGenericArgsList r nominal := by
  obtain ⟨module, hhead, hkind⟩ := hmodule
  obtain ⟨k, p, cs⟩ := nominal
  cases cs with
  | nil => cases hhead
  | cons c rest =>
    simp only [Node.getChildren, List.head?_cons, Option.some.injEq] at hhead
    subst hhead
    rw [demangleBoundGenericArgs.eq_2, if_neg (fun hc => hc.1 hkind)]
    rfl

theorem demangleBoundGenericArgsList_arguments (E : Env) (m : Nat) (nominal : Node)
    (s1 s2 : St) (types : List Node) (rest : List Char)
    (hargs : Arguments (tie E m) s1 types s2) (hfuel : types.length < m)
    (hne : types ≠ []) (hend : s2.Mangled = '_' :: rest) :
    demangleBoundGenericArgsList (tie E m) nominal s1 =
      match boundGenericKind nominal.getKind with
      | some K =>
          Res.ok (Node.mk K Payload.none
            [Node.mk Kind.Type_ Payload.none [nominal],
              Node.mk Kind.TypeList Payload.none types]) { s2 with Mangled := rest }
      | Option.none => Res.null { s2 with Mangled := rest } := by
  obtain ⟨j, rfl⟩ : ∃ j, m = types.length + (j + 1) := ⟨m - types.length - 1, by omega⟩
  have hloop : (tie E (types.length + (j + 1))).loop
      (demangleBoundGenericArgsRound (tie E (types.length + (j + 1))))
      (createNode Kind.TypeList) s1 =
      Res.ok (Node.mk Kind.TypeList Payload.none types) { s2 with Mangled := rest } := by
    rw [arguments_loop E _ hargs (j + 1), tie_loop, run_bind,
      demangleBoundGenericArgsRound_end _ _ s2 rest hend]
    rfl
  have hnum : (Node.mk Kind.TypeList Payload.none types).getNumChildren ≠ 0 := by
    simp only [Node.getNumChildren, Node.getChildren, ne_eq, List.length_eq_zero]
    exact hne
  unfold demangleBoundGenericArgsList
  rw [bind_ok hloop, if_neg hnum]
  cases boundGenericKind nominal.getKind <;> rfl

theorem demangleBoundGenericArgsList_cut (E : Env) (m : Nat) (nominal : Node)
    (s1 s2 s3 : St) (types : List Node) (type : Node)
    (hargs : Arguments (tie E m) s1 types s2) (hfuel : types.length < m)
    (hstart : s2.Mangled.head? ≠ some '_')
    (htype : demangleType (tie E m) s2 = Res.ok type s3) (hleft : s3.Mangled = []) :
    demangleBoundGenericArgsList (tie E m) nominal s1 = Res.null s3 := by
  obtain ⟨j, rfl⟩ : ∃ j, m = types.length + (j + 1) := ⟨m - types.length - 1, by omega⟩
  unfold demangleBoundGenericArgsList
  apply bind_null
  rw [arguments_loop E _ hargs (j + 1), tie_loop, run_bind,
    demangleBoundGenericArgsRound_cut _ _ s2 s3 type hstart htype hleft]

/-- C35. When `demangleNominalType` decodes a nominal type whose first child is a module,
and the argument types `types` (at least one) are decoded after it up to the
terminator `_`: for the kinds `Class`, `Structure` and `Enum` `demangleBoundGenericType`
returns the bound generic node of the kind with the children `Type[nominal]` and
`TypeList[types]`, the types in their order; for a nominal type of another kind it
fails.  It fails too when the text ends right after an argument type. -/
theorem demangleBoundGenericType_arguments (E : Env) (m : Nat) (s s1 s2 : St)
    (nominal : Node) (types : List Node)
    (hnominal : demangleNominalType E (tie E m) s = Res.ok nominal s1)
    (hmodule : ∃ module, nominal.getChildren.head? = some module ∧
      module.getKind = Kind.Module)
    (hargs : Arguments (tie E m) s1 types s2) (hfuel : types.length < m) :
    (∀ K rest, types ≠ [] → s2.Mangled = '_' :: rest →
      (nominal.getKind, K) ∈ boundGenericKinds →
      demangleBoundGenericType E (tie E m) s =
        Res.ok (Node.mk K Payload.none
          [Node.mk Kind.Type_ Payload.none [nominal],
            Node.mk Kind.TypeList Payload.none types]) { s2 with Mangled := rest }) ∧
    (∀ rest, types ≠ [] → s2.Mangled = '_' :: rest →
      (∀ K, (nominal.getKind, K) ∉ boundGenericKinds) →
      demangleBoundGenericType E (tie E m) s = Res.null { s2 with Mangled := rest }) ∧
    (∀ type s3, s2.Mangled.head? ≠ some '_' → demangleType (tie E m) s2 = Res.ok type s3 →
      s3.Mangled = [] → demangleBoundGenericType E (tie E m) s = Res.null s3) := by
  have hrun : demangleBoundGenericType E (tie E m) s =
      demangleBoundGenericArgsList (tie E m) nominal s1 := by
    unfold demangleBoundGenericType
    rw [bind_ok hnominal, demangleBoundGenericArgs_module _ nominal hmodule]
  refine ⟨fun K rest hne hend hK => ?_, fun rest hne hend hK => ?_,
    fun type s3 hstart htype hleft => ?_⟩
  · rw [hrun, demangleBoundGenericArgsList_arguments E m nominal s1 s2 types rest hargs hfuel
      hne hend, boundGenericKind_of_mem hK]
  · rw [hrun, demangleBoundGenericArgsList_arguments E m nominal s1 s2 types rest hargs hfuel
      hne hend, boundGenericKind_of_not_mem hK]
  · rw [hrun]
    exact demangleBoundGenericArgsList_cut E m nominal s1 s2 s3 types type hargs hfuel hstart
      htype hleft

/-- C35 at `Vs10DictionarySSSi_` (the text after the `G`): the structure `Dictionary` of
the module `Swift` with the two arguments `String` and `Int` gives the node
`BoundGenericStructure` with `Type[Dictionary]` and the list of the two types in the
order of the text; with the protocol `Sequence` for the nominal type and with the
terminator missing, `demangleTopLevel` fails. -/
theorem demangleBoundGenericType_arguments_witness :
    demangleBoundGenericType swiftEnv (tie swiftEnv 5)
        ⟨"Vs10DictionarySSSi_".toList, []⟩ =
      Res.ok (Node.mk Kind.BoundGenericStructure Payload.none
        [Node.mk Kind.Type_ Payload.none [stdlibType swiftEnv Kind.Structure "Dictionary"],
          Node.mk Kind.TypeList Payload.none
            [Node.mk Kind.Type_ Payload.none [stdlibType swiftEnv Kind.Structure "String"],
              Node.mk Kind.Type_ Payload.none [stdlibType swiftEnv Kind.Structure "Int"]]])
        ⟨[], [stdlibType swiftEnv Kind.Structure "Dictionary"]⟩ ∧
    (∃ s, demangleTopLevel swiftEnv "_TtGPs8SequenceSi_".toList = Res.null s) ∧
    (∃ s, demangleTopLevel swiftEnv "_TtGVs5ArraySi".toList = Res.null s) :=
  ⟨(demangleBoundGenericType_arguments swiftEnv 5 ⟨"Vs10DictionarySSSi_".toList, []⟩
      ⟨"SSSi_".toList, [stdlibType swiftEnv Kind.Structure "Dictionary"]⟩
      ⟨"_".toList, [stdlibType swiftEnv Kind.Structure "Dictionary"]⟩
      (stdlibType swiftEnv Kind.Structure "Dictionary")
      [Node.mk Kind.Type_ Payload.none [stdlibType swiftEnv Kind.Structure "String"],
        Node.mk Kind.Type_ Payload.none [stdlibType swiftEnv Kind.Structure "Int"]]
      rfl ⟨_, rfl, rfl⟩
      (Arguments.more _ ⟨"Si_".toList, [stdlibType swiftEnv Kind.Structure "Dictionary"]⟩ _ _ _
        (by decide) rfl (by decide)
        (Arguments.more _ ⟨"_".toList, [stdlibType swiftEnv Kind.Structure "Dictionary"]⟩ _ _ _
          (by decide) rfl (by decide) (Arguments.done _)))
      (by decide)).1 Kind.BoundGenericStructure [] (by simp) rfl (by decide),
    ⟨_, rfl⟩, ⟨_, rfl⟩⟩

theorem implConventionFor_some (ctxt : ImplConventionContext) (c : Char) (a : List Char)
    (h : implConventionFor ctxt c = some a) :
    ∃ attr : String, (ctxt, c, attr) ∈ implConventions ∧ attr.toList = a := by
  unfold implConventionFor at h
  cases hf : implConventions.find? (fun e => decide (e.1 = ctxt) && decide (e.2.1 = c)) with
  | none => rw [hf] at h; cases h
  | some e =>
    rw [hf] at h
    have hm : e ∈ implConventions := List.mem_of_find?_eq_some hf
    have hp := List.find?_some hf
    simp only [Bool.and_eq_true, decide_eq_true_eq] at hp
    obtain ⟨e1, e2, e3⟩ := e
    obtain ⟨rfl, rfl⟩ := hp
    cases h
    exact ⟨e3, hm, rfl⟩

theorem afterImplConvention_of_mem {ctxt : ImplConventionContext} {c : Char} {attr : String}
    (h : (ctxt, c, attr) ∈ implConventions) (t : List Char) : afterImplConvention c t = t := by
  unfold afterImplConvention
  rw [if_pos (implConventionFor_of_mem ctxt c attr h).2.1]

theorem demangleImplResultsRound_step (r : Rec) (parent : Node) (x : Char) (t : List Char)
    (subs : List Node) (hx : x ≠ '_') :
    demangleImplResultsRound r parent ⟨x :: t, subs⟩ =
      (do
        let res ← demangleImplParameterOrResult r Kind.ImplResult
        pure (Iter.again (parent.addChild res)) : M (Iter Node)) ⟨x :: t, subs⟩ := by
  have hn : nextIf '_' ⟨x :: t, subs⟩ = Res.ok false ⟨x :: t, subs⟩ := nextIf_ne rfl hx
  unfold demangleImplResultsRound
  simp only [run_bind, hn, Bool.false_eq_true, if_false]

/-- A result that is decoded: the text at the start and the node. -/
theorem demangleImplResult_ok (r : Rec) (s s1 : St) (res : Node)
    (h : demangleImplParameterOrResult r Kind.ImplResult s = Res.ok res s1) :
    ∃ z c attr t type, s.Mangled = (if z then ['z'] else []) ++ c :: t ∧
      (ImplConventionContext.Result, c, attr) ∈ implConventions ∧
      demangleType r ⟨t, s.Substitutions⟩ = Res.ok type s1 ∧ res = implResult z attr type := by
  obtain ⟨text, subs⟩ := s
  have key : ∀ (z : Bool) (c : Char) (t : List Char),
      (match implConventionFor ImplConventionContext.Result c with
        | some attr =>
            match demangleType r ⟨afterImplConvention c t, subs⟩ with
            | .ok type s1 => Res.ok (implParameterNode
                (if z then Kind.ImplErrorResult else Kind.ImplResult) attr type) s1
            | .null s1 => Res.null s1
            | .fault => Res.fault
            | .fuel => Res.fuel
        | Option.none => Res.null ⟨afterImplConvention c t, subs⟩) = Res.ok res s1 →
      ∃ attr type, (ImplConventionContext.Result, c, attr) ∈ implConventions ∧
        demangleType r ⟨t, subs⟩ = Res.ok type s1 ∧ res = implResult z attr type := by
    intro z c t hk
    cases hf : implConventionFor ImplConventionContext.Result c with
    | none => rw [hf] at hk; cases hk
    | some a =>
      rw [hf] at hk
      obtain ⟨attr, hmem, rfl⟩ := implConventionFor_some _ c a hf
      rw [afterImplConvention_of_mem hmem] at hk
      cases ht : demangleType r ⟨t, subs⟩ with
      | ok type s2 =>
        rw [ht] at hk
        simp only [Res.ok.injEq] at hk
        obtain ⟨rfl, rfl⟩ := hk
        exact ⟨attr, type, hmem, rfl, rfl⟩
      | null s2 => rw [ht] at hk; cases hk
      | fault => rw [ht] at hk; cases hk
      | fuel => rw [ht] at hk; cases hk
  cases text with
  | nil => cases h
  | cons x t =>
    by_cases hz : x = 'z'
    · subst hz
      cases t with
      | nil => cases h
      | cons c t =>
        rw [(demangleImplParameterOrResult_error r c t subs).2] at h
        obtain ⟨attr, type, hmem, ht, hres⟩ := key true c t h
        exact ⟨true, c, attr, t, type, rfl, hmem, ht, hres⟩
    · rw [demangleImplParameterOrResult_plain r Kind.ImplResult ImplConventionContext.Result
        (Or.inr ⟨rfl, rfl⟩) x hz t subs] at h
      obtain ⟨attr, type, hmem, ht, hres⟩ := key false x t h
      exact ⟨false, x, attr, t, type, rfl, hmem, ht, hres⟩

/-- Every successful run of the loop of `demangleImplResults` is a run over a list of
results, and appends their nodes to the parent. -/
theorem demangleImplResults_loop_ok (E : Env) (r : Rec) :
    ∀ (n : Nat) (parent : Node) (s s2 : St) (node : Node),
      (tie E n).loop (demangleImplResultsRound r) parent s = Res.ok node s2 →
      ∃ zs results, ImplResults r s zs results s2 ∧
        node = Node.mk parent.getKind parent.getPayload (parent.getChildren ++ results) := by
  intro n
  induction n with
  | zero =>
    intro parent s s2 node h
    cases h
  | succ n ih =>
    intro parent s s2 node h
    rw [tie_loop] at h
    obtain ⟨it, s1, hround, hnext⟩ := bind_eq_ok h
    obtain ⟨text, subs⟩ := s
    cases text with
    | nil => cases hround
    | cons x t =>
      by_cases hx : x = '_'
      · subst hx
        rw [demangleImplResultsRound_end] at hround
        simp only [Res.ok.injEq] at hround
        obtain ⟨rfl, rfl⟩ := hround
        cases hnext
        obtain ⟨k, p, cs⟩ := parent
        exact ⟨[], [], ImplResults.done ⟨'_' :: t, subs⟩ t rfl, by
          simp only [Node.getKind, Node.getPayload, Node.getChildren, List.append_nil]⟩
      · rw [demangleImplResultsRound_step r parent x t subs hx] at hround
        obtain ⟨res, s3, hres, hpure⟩ := bind_eq_ok hround
        cases hpure
        obtain ⟨z, c, attr, t1, type, htext, hmem, htype, rfl⟩ :=
          demangleImplResult_ok r _ _ _ hres
        obtain ⟨zs, results, hrun, rfl⟩ := ih _ _ _ _ hnext
        refine ⟨z :: zs, implResult z attr type :: results,
          ImplResults.more _ _ _ z c attr t1 type zs results htext hmem htype hrun, ?_⟩
        obtain ⟨k, p, cs⟩ := parent
        simp only [Node.addChild, Node.getKind, Node.getPayload, Node.getChildren,
          List.append_assoc, List.singleton_append]

theorem demangleImplResultsRound_more (r : Rec) (parent : Node) (s s1 : St) (z : Bool)
    (c : Char) (attr : String) (t : List Char) (type : Node)
    (htext : s.Mangled = (if z then ['z'] else []) ++ c :: t)
    (hconv : (ImplConventionContext.Result, c, attr) ∈ implConventions)
    (htype : demangleType r ⟨t, s.Substitutions⟩ = Res.ok type s1) :
    demangleImplResultsRound r parent s =
      Res.ok (Iter.again (parent.addChild (implResult z attr type))) s1 := by
  obtain ⟨text, subs⟩ := s
  obtain ⟨hfor, -, hz, -⟩ := implConventionFor_of_mem _ c attr hconv
  have hu : c ≠ '_' := by
    have key : ∀ e ∈ implConventions, e.2.1 ≠ '_' := by decide
    exact key _ hconv
  simp only at htext htype
  subst htext
  cases z with
  | true =>
    have hx : 'z' ≠ '_' := by decide
    simp only [if_true, List.singleton_append]
    rw [demangleImplResultsRound_step r parent 'z' (c :: t) subs hx, run_bind,
      (demangleImplParameterOrResult_error r c t subs).2, hfor]
    simp only [afterImplConvention_of_mem hconv, htype]
    rfl
  | false =>
    simp only [Bool.false_eq_true, if_false, List.nil_append]
    rw [demangleImplResultsRound_step r parent c t subs hu, run_bind,
      demangleImplParameterOrResult_plain r Kind.ImplResult ImplConventionContext.Result
        (Or.inr ⟨rfl, rfl⟩) c hz t subs, hfor]
    simp only [afterImplConvention_of_mem hconv, htype]
    rfl

/-- A run over a list of results is a successful run of the loop of `demangleImplResults`,
when the loop is unfolded more often than there are results. -/
theorem implResults_loop (E : Env) (r : Rec) {s s2 : St} {zs : List Bool}
    {results : List Node} (h : ImplResults r s zs results s2) :
    ∀ (j : Nat) (parent : Node),
      (tie E (zs.length + (j + 1))).loop (demangleImplResultsRound r) parent s =
        Res.ok (Node.mk parent.getKind parent.getPayload (parent.getChildren ++ results))
          s2 := by
  induction h with
  | done s rest hend =>
    intro j parent
    obtain ⟨text, subs⟩ := s
    simp only at hend
    subst hend
    obtain ⟨k, p, cs⟩ := parent
    simp only [List.length_nil, Nat.zero_add, List.append_nil, Node.getKind, Node.getPayload,
      Node.getChildren]
    rw [tie_loop, run_bind, demangleImplResultsRound_end]
    rfl
  | more s s1 s2 z c attr t type zs results htext hconv htype hrest ih =>
    intro j parent
    have hl : (z :: zs).length + (j + 1) = (zs.length + (j + 1)) + 1 := by
      simp only [List.length_cons]
      omega
    rw [hl, tie_loop, run_bind,
      demangleImplResultsRound_more r parent s s1 z c attr t type htext hconv htype]
    simp only []
    rw [ih j]
    obtain ⟨k, p, cs⟩ := parent
    simp only [Node.addChild, Node.getKind, Node.getPayload, Node.getChildren,
      List.append_assoc, List.singleton_append]

/-- The nodes of a run over a list of results: the flags are the kinds, in the order. -/
theorem implResults_kinds {r : Rec} {s s2 : St} {zs : List Bool} {results : List Node}
    (h : ImplResults r s zs results s2) :
    results.map (fun c => decide (c.getKind = Kind.ImplErrorResult)) = zs ∧
      (∀ c ∈ results, isImplResultKind c.getKind = true) ∧
      (results.filter (fun c => decide (c.getKind = Kind.ImplErrorResult))).length =
        zs.count true := by
  induction h with
  | done s rest hend =>
    exact ⟨rfl, fun c hc => (by cases hc), rfl⟩
  | more s s1 s2 z c attr t type zs results htext hconv htype hrest ih =>
    obtain ⟨ih1, ih2, ih3⟩ := ih
    have hk : (implResult z attr type).getKind =
        (if z then Kind.ImplErrorResult else Kind.ImplResult) := rfl
    refine ⟨?_, ?_, ?_⟩
    · rw [List.map_cons, ih1, hk]
      cases z <;> rfl
    · intro x hx
      rcases List.mem_cons.1 hx with rfl | hx
      · rw [hk]
        cases z <;> rfl
      · exact ih2 x hx
    · cases z with
      | true =>
        rw [List.filter_cons_of_pos (by rw [hk]; rfl), List.length_cons, ih3,
          List.count_cons_self]
      | false =>
        rw [List.filter_cons_of_neg (by rw [hk]; decide), ih3]
        simp

theorem ret_and {α : Type} {m : M α} {s : St} {P Q : α → St → Prop} (h1 : Ret m s P)
    (h2 : Ret m s Q) : Ret m s (fun a s1 => P a s1 ∧ Q a s1) :=
  ⟨fun a s1 h => ⟨h1.out a s1 h, h2.out a s1 h⟩⟩

theorem ret_of_safe {α : Type} {R : St → St → Prop} {m : M α} {s : St} {Q : α → St → Prop}
    (h : Safe True R m s Q) : Ret m s (fun _ s1 => R s s1) := by
  refine ⟨fun a s1 hm => ?_⟩
  unfold Safe at h
  rw [hm] at h
  exact h.1

theorem demangleGenericSignatureCountRound_noResult (p : Node × Nat) (s : St)
    (hp : isImplResultKind p.1.getKind = false) :
    Ret (demangleGenericSignatureCountRound p) s (fun it _ =>
      (∀ a, it = Iter.again a → isImplResultKind a.1.getKind = false) ∧
        (∀ a, it = Iter.done a → isImplResultKind a.1.getKind = false)) := by
  unfold demangleGenericSignatureCountRound
  repeat' first
    | exact ret_failed
    | with_reducible apply ret_ite_nextIf
    | with_reducible apply ret_ite
    | with_reducible apply ret_bind ret_any
    | with_reducible apply ret_done
    | with_reducible intro _
  all_goals
    constructor <;> intro a ha <;> cases ha <;>
      simpa only [addCount, Node.getKind_addChild] using hp

theorem demangleGenericSignatureRequirementRound_noResult (E : Env) (r : Rec) (sig : Node)
    (s : St) (hp : isImplResultKind sig.getKind = false) :
    Ret (demangleGenericSignatureRequirementRound E r sig) s (fun it _ =>
      (∀ a, it = Iter.again a → isImplResultKind a.getKind = false) ∧
        (∀ a, it = Iter.done a → isImplResultKind a.getKind = false)) := by
  unfold demangleGenericSignatureRequirementRound
  repeat' first
    | exact ret_failed
    | with_reducible apply ret_ite_nextIf
    | with_reducible apply ret_ite
    | with_reducible apply ret_bind ret_any
    | with_reducible apply ret_done
    | with_reducible intro _
  all_goals
    constructor <;> intro a ha <;> cases ha <;>
      simpa only [Node.getKind_addChild] using hp

/-- The node that `demangleGenericSignature` returns is no result. -/
theorem demangleGenericSignature_noResult (E : Env) (n : Nat) (isPseudogeneric : Bool)
    (s : St) :
    Ret (demangleGenericSignature E (tie E n) isPseudogeneric) s
      (fun a _ => isImplResultKind a.getKind = false) := by
  unfold demangleGenericSignature
  refine ret_bind (tie_loop_ret E demangleGenericSignatureCountRound
    (fun p => isImplResultKind p.1.getKind = false)
    (fun p _ => isImplResultKind p.1.getKind = false)
    (fun acc s0 hacc => demangleGenericSignatureCountRound_noResult acc s0 hacc) n _ s
    (by cases isPseudogeneric <;> rfl)) ?_
  rintro ⟨sig, count⟩ s1 hsig
  have hsig1 : isImplResultKind
      (if count = indexMod - 1 then addCount sig 1 else sig).getKind = false := by
    split
    · simpa only [addCount, Node.getKind_addChild] using hsig
    · exact hsig
  simp only []
  apply ret_ite_nextIf
  · exact ret_done hsig1
  · apply ret_ite_not_nextIf
    · exact ret_failed
    · exact tie_loop_ret E (demangleGenericSignatureRequirementRound E (tie E n))
        (fun p => isImplResultKind p.getKind = false)
        (fun p _ => isImplResultKind p.getKind = false)
        (fun acc s0 hacc => demangleGenericSignatureRequirementRound_noResult E _ acc s0 hacc)
        n _ _ hsig1

theorem noResults_addChild {node : Node} (h : NoResults node) (c : Node)
    (hc : isImplResultKind c.getKind = false) : NoResults (node.addChild c) := by
  obtain ⟨k, p, cs⟩ := node
  obtain ⟨h1, h2, h3⟩ := h
  refine ⟨h1, h2, fun x hx => ?_⟩
  simp only [Node.addChild, Node.getChildren, List.mem_append, List.mem_singleton] at hx h3
  rcases hx with hx | rfl
  · exact h3 x hx
  · exact hc

theorem demangleImplCalleeConvention_head (s : St) :
    Ret (demangleImplCalleeConvention (createNode Kind.ImplFunctionType)) s
      (fun a s1 => NoResults a ∧ s1.Mangled <:+ s.Mangled) := by
  have h0 : NoResults (createNode Kind.ImplFunctionType) :=
    ⟨rfl, rfl, fun c hc => (by cases hc)⟩
  obtain ⟨text, subs⟩ := s
  refine ⟨fun a s1 h => ?_⟩
  cases text with
  | nil => cases h
  | cons c t =>
    have hafter : afterImplConvention c t <:+ c :: t := by
      unfold afterImplConvention
      split
      · exact List.suffix_cons _ _
      · exact List.suffix_refl _
    rw [demangleImplCalleeConvention_run] at h
    split at h
    · cases h
      exact ⟨noResults_addChild h0 _ rfl, List.suffix_cons _ _⟩
    · cases hf : implConventionFor ImplConventionContext.Callee c with
      | none => rw [hf] at h; cases h
      | some attr =>
        rw [hf] at h
        cases h
        exact ⟨noResults_addChild h0 _ rfl, hafter⟩

theorem demangleImplParameter_noResult (r : Rec) (s : St) :
    Ret (demangleImplParameterOrResult r Kind.ImplParameter) s
      (fun a _ => isImplResultKind a.getKind = false) := by
  obtain ⟨text, subs⟩ := s
  refine ⟨fun a s1 h => ?_⟩
  cases text with
  | nil => cases h
  | cons x t =>
    by_cases hz : x = 'z'
    · subst hz
      cases t with
      | nil => cases h
      | cons c t =>
        rw [(demangleImplParameterOrResult_error r c t subs).1] at h
        cases h
    · rw [demangleImplParameterOrResult_plain r Kind.ImplParameter
        ImplConventionContext.Parameter (Or.inl ⟨rfl, rfl⟩) x hz t subs] at h
      cases hf : implConventionFor ImplConventionContext.Parameter x with
      | none => rw [hf] at h; cases h
      | some attr =>
        rw [hf] at h
        cases ht : demangleType r ⟨afterImplConvention x t, subs⟩ with
        | ok type s2 =>
          rw [ht] at h
          cases h
          rfl
        | null s2 => rw [ht] at h; cases h
        | fault => rw [ht] at h; cases h
        | fuel => rw [ht] at h; cases h

theorem demangleImplParameters_noResults (E : Env) (m : Nat) (parent : Node) (s : St)
    (hp : NoResults parent) :
    Ret (demangleImplParameters (tie E m) parent) s
      (fun a s1 => NoResults a ∧ s1.Mangled <:+ s.Mangled) := by
  refine ret_and ?_ (ret_of_safe (demangleImplParameters_safe stepRel_suffix
    (tie_good_any stepRel_suffix E m (s.len + 1)) parent s (Nat.lt_succ_self _)))
  unfold demangleImplParameters
  refine tie_loop_ret E _ NoResults (fun a _ => NoResults a) (fun acc s0 hacc => ?_) m parent s
    hp
  unfold demangleImplParametersRound
  apply ret_ite_nextIf
  · exact ret_done ⟨fun a ha => (by cases ha), fun a ha => (by cases ha; exact hacc)⟩
  · refine ret_bind (demangleImplParameter_noResult _ _) (fun input s1 hin => ret_done
      ⟨fun a ha => (by cases ha; exact noResults_addChild hacc input hin),
        fun a ha => (by cases ha)⟩)

/-- Every `ImplFunctionType` that is decoded: the children are the children `pre`, none of
them a result, and after them the nodes of a run over a list of results, which starts at a
later place of the text. -/
theorem demangleImplFunctionType_ret (E : Env) (m : Nat) (s : St) :
    Ret (demangleImplFunctionType E (tie E m)) s (fun node s2 =>
      ∃ pre s1 zs results,
        node = Node.mk Kind.ImplFunctionType Payload.none (pre ++ results) ∧
        (∀ c ∈ pre, isImplResultKind c.getKind = false) ∧
        s1.Mangled <:+ s.Mangled ∧
        ImplResults (tie E m) s1 zs results s2) := by
  have tail : ∀ (type : Node) (s0 : St), NoResults type → s0.Mangled <:+ s.Mangled →
      Ret (do
        let type ← demangleImplParameters (tie E m) type
        let type ← demangleImplResults (tie E m) type
        pure type : M Node) s0 (fun node s2 =>
      ∃ pre s1 zs results,
        node = Node.mk Kind.ImplFunctionType Payload.none (pre ++ results) ∧
        (∀ c ∈ pre, isImplResultKind c.getKind = false) ∧
        s1.Mangled <:+ s.Mangled ∧
        ImplResults (tie E m) s1 zs results s2) := by
    intro type s0 htype hs0
    refine ret_bind (demangleImplParameters_noResults E m type s0 htype) ?_
    rintro ⟨k, p, pre⟩ s1 ⟨⟨hk, hp, hpre⟩, hs1⟩
    refine ⟨fun node s2 h => ?_⟩
    obtain ⟨node1, s3, hloop, hpure⟩ := bind_eq_ok h
    cases hpure
    obtain ⟨zs, results, hrun, rfl⟩ := demangleImplResults_loop_ok E (tie E m) m _ _ _ _ hloop
    simp only [Node.getKind, Node.getPayload, Node.getChildren] at hk hp hpre ⊢
    subst hk
    subst hp
    exact ⟨pre, s1, zs, results, rfl, hpre, hs1.trans hs0, hrun⟩
  have gate : ∀ (type : Node) (s0 : St), NoResults type → s0.Mangled <:+ s.Mangled →
      Ret (do
        if !(← nextIf '_') then
          fail
        else
          let type ← demangleImplParameters (tie E m) type
          let type ← demangleImplResults (tie E m) type
          pure type : M Node) s0 (fun node s2 =>
      ∃ pre s1 zs results,
        node = Node.mk Kind.ImplFunctionType Payload.none (pre ++ results) ∧
        (∀ c ∈ pre, isImplResultKind c.getKind = false) ∧
        s1.Mangled <:+ s.Mangled ∧
        ImplResults (tie E m) s1 zs results s2) := by
    intro type s0 htype hs0
    exact ret_ite_not_nextIf '_' ret_failed (tail type _ htype ((List.tail_suffix _).trans hs0))
  have generics : ∀ (type : Node) (s0 : St), NoResults type → s0.Mangled <:+ s.Mangled →
      Ret (do
        let type ← do
          if (← nextIf 'G') then do
            let generics ← demangleGenericSignature E (tie E m) false
            pure (type.addChild generics)
          else if (← nextIf 'g') then do
            let generics ← demangleGenericSignature E (tie E m) true
            pure (type.addChild generics)
          else
            pure type
        if !(← nextIf '_') then
          fail
        else
          let type ← demangleImplParameters (tie E m) type
          let type ← demangleImplResults (tie E m) type
          pure type : M Node) s0 (fun node s2 =>
      ∃ pre s1 zs results,
        node = Node.mk Kind.ImplFunctionType Payload.none (pre ++ results) ∧
        (∀ c ∈ pre, isImplResultKind c.getKind = false) ∧
        s1.Mangled <:+ s.Mangled ∧
        ImplResults (tie E m) s1 zs results s2) := by
    intro type s0 htype hs0
    have signature : ∀ (isPseudogeneric : Bool) (s1 : St), s1.Mangled <:+ s.Mangled →
        Ret (demangleGenericSignature E (tie E m) isPseudogeneric) s1
          (fun a s2 => NoResults (type.addChild a) ∧ s2.Mangled <:+ s.Mangled) := by
      intro isPseudogeneric s1 hs1
      refine ret_mono (ret_and (demangleGenericSignature_noResult E m isPseudogeneric s1)
        (ret_of_safe (demangleGenericSignature_safe stepRel_suffix
          (tie_good_any stepRel_suffix E m (s1.len + 1)) E isPseudogeneric s1
          (Nat.lt_succ_self _)))) ?_
      intro generics s2 hg
      exact ⟨noResults_addChild htype generics hg.1, hg.2.trans hs1⟩
    simp only []
    apply ret_ite_nextIf
    · exact ret_bind (signature false _ ((List.tail_suffix _).trans hs0))
        (fun a s1 h => ret_bind_done (gate _ s1 h.1 h.2))
    · apply ret_ite_nextIf
      · exact ret_bind (signature true _ ((List.tail_suffix _).trans hs0))
          (fun a s1 h => ret_bind_done (gate _ s1 h.1 h.2))
      · exact ret_bind_done (gate _ _ htype hs0)
  unfold demangleImplFunctionType
  refine ret_bind (demangleImplCalleeConvention_head s) ?_
  rintro type s0 ⟨htype, hs0⟩
  have h1 := (List.tail_suffix s0.Mangled).trans hs0
  have h2 := (List.tail_suffix s0.Mangled.tail).trans h1
  simp only []
  repeat' first
    | exact ret_failed
    | exact generics _ _ htype hs0
    | exact generics _ _ (noResults_addChild htype _ rfl) h2
    | with_reducible apply ret_ite_nextIf
    | with_reducible apply ret_bind_done

theorem filter_results (pre results : List Node)
    (hpre : ∀ c ∈ pre, isImplResultKind c.getKind = false)
    (hres : ∀ c ∈ results, isImplResultKind c.getKind = true) :
    (pre ++ results).filter (fun c => isImplResultKind c.getKind) = results := by
  rw [List.filter_append, List.filter_eq_nil_iff.2 (fun c hc => by simp [hpre c hc]),
    List.filter_eq_self.2 hres, List.nil_append]

/-- C26, amended. In every `ImplFunctionType` that `demangleImplFunctionType` decodes, the
children are a list `pre` with no result in it (the callee convention, the attribute, the
generic signature and the parameters) followed by the results: the children of the kinds
`ImplResult` and `ImplErrorResult` are exactly the nodes of a run `ImplResults` over the
result list in the text, one node for each result, in the order of the text, and a node
is an `ImplErrorResult` exactly when its result is introduced by the sigil `z`.
Conversely every such run is decoded by `demangleImplResults` (unfolded more often than
there are results), and the number of `ImplErrorResult` children has no bound: for every
list of flags the text with the callee convention `o`, no parameter and one result `dSi`
for each flag, with the sigil `z` in front when the flag is set, is decoded to the node
with these results, as many `ImplErrorResult` children as there are flags set. -/
theorem demangleImplFunctionType_results (E : Env) (m : Nat) :
    (∀ s node s2, demangleImplFunctionType E (tie E m) s = Res.ok node s2 →
      ∃ pre s1 zs results,
        node = Node.mk Kind.ImplFunctionType Payload.none (pre ++ results) ∧
        (∀ c ∈ pre, isImplResultKind c.getKind = false) ∧
        node.getChildren.filter (fun c => isImplResultKind c.getKind) = results ∧
        s1.Mangled <:+ s.Mangled ∧
        ImplResults (tie E m) s1 zs results s2 ∧
        results.map (fun c => decide (c.getKind = Kind.ImplErrorResult)) = zs ∧
        (results.filter (fun c => decide (c.getKind = Kind.ImplErrorResult))).length =
          zs.count true) ∧
    (∀ parent s1 zs results s2, ImplResults (tie E m) s1 zs results s2 → zs.length < m →
      demangleImplResults (tie E m) parent s1 =
        Res.ok (Node.mk parent.getKind parent.getPayload (parent.getChildren ++ results))
          s2) ∧
    (∀ (zs : List Bool) (rest : List Char) (subs : List Node), zs.length < m →
      demangleImplFunctionType E (tie E m)
          ⟨"o__".toList ++ (zs.flatMap implResultText ++ '_' :: rest), subs⟩ =
        Res.ok (Node.mk Kind.ImplFunctionType Payload.none
          (Node.mk Kind.ImplConvention (Payload.text "@callee_owned".toList) [] ::
            zs.map (implResultNode E))) ⟨rest, subs⟩ ∧
      ((zs.map (implResultNode E)).filter
        (fun c => decide (c.getKind = Kind.ImplErrorResult))).length = zs.count true) := by
  refine ⟨fun s node s2 h => ?_, fun parent s1 zs results s2 hrun hfuel => ?_,
    fun zs rest subs hfuel => ?_⟩
  · obtain ⟨pre, s1, zs, results, rfl, hpre, hs1, hrun⟩ :=
      (demangleImplFunctionType_ret E m s).out node s2 h
    obtain ⟨hflags, hkinds, hcount⟩ := implResults_kinds hrun
    exact ⟨pre, s1, zs, results, rfl, hpre, filter_results pre results hpre hkinds, hs1, hrun,
      hflags, hcount⟩
  · obtain ⟨j, rfl⟩ : ∃ j, m = zs.length + (j + 1) := ⟨m - zs.length - 1, by omega⟩
    exact implResults_loop E _ hrun j parent
  · obtain ⟨n, rfl⟩ : ∃ n, m = n + 1 := ⟨m - 1, by omega⟩
    exact demangleImplFunctionType_result_texts E n zs rest subs (by omega)

/-- C26, amended, at the text `tCwGr_dSi_zoSidSi_x`, which is decoded to a node with the
results `ImplErrorResult` and `ImplResult` after four other children, and at the text
`o__zdSidSizdSi_` with three results of which the first and the last are error results. -/
theorem demangleImplFunctionType_results_witness :
    (∃ pre s1 zs results,
      Node.mk Kind.ImplFunctionType Payload.none
        [Node.mk Kind.ImplConvention (Payload.text "@convention(thin)".toList) [],
          Node.mk Kind.ImplFunctionAttribute
            (Payload.text "@convention(witness_method)".toList) [],
          Node.mk Kind.DependentGenericSignature Payload.none
            [Node.mk Kind.DependentGenericParamCount (Payload.index 1) []],
          implParameterNode Kind.ImplParameter "@unowned".toList
            (Node.mk Kind.Type_ Payload.none [stdlibType swiftEnv Kind.Structure "Int"]),
          implParameterNode Kind.ImplErrorResult "@owned".toList
            (Node.mk Kind.Type_ Payload.none [stdlibType swiftEnv Kind.Structure "Int"]),
          implParameterNode Kind.ImplResult "@unowned".toList
            (Node.mk Kind.Type_ Payload.none [stdlibType swiftEnv Kind.Structure "Int"])] =
        Node.mk Kind.ImplFunctionType Payload.none (pre ++ results) ∧
      (∀ c ∈ pre, isImplResultKind c.getKind = false) ∧
      [implParameterNode Kind.ImplErrorResult "@owned".toList
          (Node.mk Kind.Type_ Payload.none [stdlibType swiftEnv Kind.Structure "Int"]),
        implParameterNode Kind.ImplResult "@unowned".toList
          (Node.mk Kind.Type_ Payload.none [stdlibType swiftEnv Kind.Structure "Int"])] =
        results ∧
      s1.Mangled <:+ "tCwGr_dSi_zoSidSi_x".toList ∧
      ImplResults (tie swiftEnv 5) s1 zs results ⟨"x".toList, []⟩ ∧
      results.map (fun c => decide (c.getKind = Kind.ImplErrorResult)) = zs ∧
      (results.filter (fun c => decide (c.getKind = Kind.ImplErrorResult))).length =
        zs.count true) ∧
    demangleImplFunctionType swiftEnv (tie swiftEnv 4)
        ⟨"o__zdSidSizdSi_".toList, []⟩ =
      Res.ok (Node.mk Kind.ImplFunctionType Payload.none
        [Node.mk Kind.ImplConvention (Payload.text "@callee_owned".toList) [],
          implResultNode swiftEnv true, implResultNode swiftEnv false,
          implResultNode swiftEnv true]) ⟨[], []⟩ :=
  ⟨(demangleImplFunctionType_results swiftEnv 5).1 ⟨"tCwGr_dSi_zoSidSi_x".toList, []⟩ _ _ rfl,
    ((demangleImplFunctionType_results swiftEnv 4).2.2 [true, false, true] [] []
      (by decide)).1⟩

end OldDemangler
